import Mathlib

/-!
# ramssd: flash timing simulator (FlashSim core of the Open-Channel SSD emulator)

A shallow embedding of the C sources `ssd_event.c`, `ssd_channel.c`, `ssd_bus.c`,
`ssd_page.c`, `ssd_block.c`, `ssd_plane.c`, `ssd_die.c`, `ssd_package.c`, `ssd_ssd.c`
and `ssd_config.c`, and of the deferred completion queue, the backing store and the
timing part of `do_request` of the block driver `brd.c`, followed by theorems about it.

Conventions of the embedding.

* `int64` values are `Int`. The two sums of a caller-given time and a latency that are
  stored in the device, `unlock_time[0] = sched_time + duration` in `ssd_channel_lock` and
  `last_erase_time = start_time + time_taken` in `ssd_block_erase`, are written with the
  two's-complement wrap `wrap_int64` of the machine addition. The latency accumulated in
  an event is a sum of configured delays and bus waits and is kept exact: a latency that
  left the `int64` range would show as a negative `time_taken`, on which
  `ssd_event_get_time_taken` stops at its `assert`.
* `uint` / `ulong` values are `Nat`, and a `uint` store that can wrap (`++`, `--`) is
  written with an explicit `% UINT_MOD`.
* A C function that mutates the object it is handed returns the new object; a function
  whose C return type is `enum status` returns the status together with the objects it
  was handed by pointer.
* Every function returns in `Option`: `none` stands for a run that does not return
  (a failed `assert`, which is `BUG_ON` in the kernel build, or an array access outside
  the allocated table, which is undefined in C).
* The file-scope statics (`_read_delay`, `_write_delay`, `_erase_delay`, `_size`, ...)
  are set by the constructors from the configuration variables; they are modelled as
  functions of the configuration record.
* The deadline `ktime_add_ns(uptime, ns)` that the driver stores adds a latency to a
  reading of the kernel clock and is kept exact.
* Diagnostic output (`SSD_ERROR`, `SSD_DEBUG`, `ssd_event_print`) has no effect on the
  simulator state and is omitted.
* In the block driver, locks, the timer and the kernel's block layer are not modelled:
  clock readings, the outcome of allocations and the status of the payload loop are
  arguments, and a completion of a request is an entry of a returned list.
-/

namespace RamSsd

/-! ## Enumerations (ssd.h, ssdSim.h) -/

/-- Page states of `enum page_state`. -/
inductive page_state where
  | EMPTY
  | VALID
  | INVALID
  deriving DecidableEq, Repr

/-- Block states of `enum block_state`. -/
inductive block_state where
  | FREE
  | ACTIVE
  | INACTIVE
  deriving DecidableEq, Repr

/-- Request kinds of `enum event_type` (ssdSim.h). -/
inductive event_type where
  | SSD_READ
  | SSD_WRITE
  | SSD_ERASE
  | SSD_MERGE
  deriving DecidableEq, Repr

/-- General return status, `enum status {FAILURE, SUCCESS}`. -/
inductive status where
  | FAILURE
  | SUCCESS
  deriving DecidableEq, Repr

/-- Address validity depth, `enum address_valid`. -/
inductive address_valid where
  | NONE
  | PACKAGE
  | DIE
  | PLANE
  | BLOCK
  | PAGE
  deriving DecidableEq, Repr

/-- Integer value of an `enum address_valid` constant (C enums compare as integers). -/
def address_valid.toNat : address_valid → Nat
  | .NONE => 0
  | .PACKAGE => 1
  | .DIE => 2
  | .PLANE => 3
  | .BLOCK => 4
  | .PAGE => 5

/-- Modulus of the C type `uint` (32-bit unsigned). -/
def UINT_MOD : Nat := 2 ^ 32

/-- Largest value of the C type `int64`, `2^63 - 1`. -/
def INT64_MAX : Int := 9223372036854775807

/-- The `int64` that a 64-bit two's-complement addition leaves for the exact sum `x`: the
value congruent to `x` modulo `2^64` in `[-2^63, 2^63)`. -/
def wrap_int64 (x : Int) : Int :=
  (x + 9223372036854775808) % 18446744073709551616 - 9223372036854775808

/-! ## Configuration (ssd_config.c, settings.h) -/

/-- The global configuration variables of `ssd_config.c`, together with the
compile-time constant `BANK_GROUP_BIT` of `settings.h`. -/
structure Config where
  RAM_READ_DELAY : Int
  RAM_WRITE_DELAY : Int
  BUS_CTRL_DELAY : Int
  BUS_DATA_DELAY : Int
  BUS_MAX_CONNECT : Nat
  BUS_TABLE_SIZE : Nat
  SSD_SIZE : Nat
  PACKAGE_SIZE : Nat
  DIE_SIZE : Nat
  PLANE_SIZE : Nat
  PLANE_REG_READ_DELAY : Int
  PLANE_REG_WRITE_DELAY : Int
  SSD_BLOCK_SIZE : Nat
  BLOCK_ERASES : Nat
  BLOCK_ERASE_DELAY : Int
  PAGE_READ_DELAY : Int
  PAGE_WRITE_DELAY : Int
  BANK_GROUP_BIT : Nat
  deriving Repr

/-- The flag that marks a free scheduling-table entry, `int64 BUS_CHANNEL_FREE_FLAG =
(int64)-1` in `ssd_config.c`; the configuration file cannot change it. -/
def BUS_CHANNEL_FREE_FLAG : Int := -1

/-! ## Data model (ssd.h) -/

/-- Physical address, `struct Address`. -/
structure Address where
  package : Nat
  die : Nat
  plane : Nat
  block : Nat
  page : Nat
  valid : address_valid
  deriving DecidableEq, Repr

/-- I/O request, `struct Event` (the unused `next` pointer is left out). -/
structure Event where
  start_time : Int
  time_taken : Int
  bus_wait_time : Int
  type : event_type
  logical_address : Nat
  address : Address
  merge_address : Address
  size : Nat
  deriving DecidableEq, Repr

/-- Single bus channel, `struct Channel`. -/
structure Channel where
  table_size : Nat
  lock_time : List Int
  unlock_time : List Int
  table_entries : Nat
  selected_entry : Nat
  num_connected : Nat
  max_connections : Nat
  ctrl_delay : Int
  data_delay : Int
  deriving DecidableEq, Repr

/-- Multi-channel bus, `struct Bus`. -/
structure Bus where
  num_channels : Nat
  channels : List Channel
  deriving DecidableEq, Repr

/-- Flash page, `struct Page` (the parent back-pointer is left out). -/
structure Page where
  state : page_state
  deriving DecidableEq, Repr

/-- Flash block, `struct Block` (built without `HAS_WL`). -/
structure Block where
  data : List Page
  pages_valid : Nat
  pages_invalid : Nat
  state : block_state
  last_erase_time : Int
  deriving DecidableEq, Repr

/-- Flash plane, `struct Plane`. -/
structure Plane where
  data : List Block
  least_worn : Nat
  free_blocks : Nat
  erases_remaining : Nat
  last_erase_time : Int
  next_page : Address
  deriving DecidableEq, Repr

/-- Flash die, `struct Die` (the channel pointer is only used to count connections). -/
structure Die where
  size : Nat
  data : List Plane
  least_worn : Nat
  erases_remaining : Nat
  last_erase_time : Int
  deriving DecidableEq, Repr

/-- Flash package, `struct Package`. -/
structure Package where
  size : Nat
  data : List Die
  least_worn : Nat
  erases_remaining : Nat
  last_erase_time : Int
  deriving DecidableEq, Repr

/-- The simulated device, `struct Ssd`. -/
structure Ssd where
  size : Nat
  bus : Bus
  data : List Package
  erases_remaining : Nat
  least_worn : Nat
  last_erase_time : Int
  deriving DecidableEq, Repr

/-- The C `assert` (`BUG_ON` in the kernel build): the run stops when the condition fails. -/
def assert (c : Prop) [Decidable c] : Option Unit :=
  if c then some () else none

/-! ## Event (ssd_event.c) -/

/-- The address stored by `ssd_event_init` is left uninitialised in C; it is always
overwritten by `ssd_event_set_address` before it is read. -/
def Address.zero : Address :=
  { package := 0, die := 0, plane := 0, block := 0, page := 0, valid := .NONE }

/-- Model of `ssd_event_init`. -/
def ssd_event_init (type : event_type) (logical_address size : Nat) (start_time : Int) :
    Option Event := do
  assert (0 ≤ start_time)
  some { start_time := start_time, time_taken := 0, bus_wait_time := 0, type := type,
         logical_address := logical_address, address := Address.zero,
         merge_address := Address.zero, size := size }

/-- Model of `ssd_event_get_event_type`. -/
def ssd_event_get_event_type (e : Event) : event_type := e.type

/-- Model of `ssd_event_get_address`. -/
def ssd_event_get_address (e : Event) : Address := e.address

/-- Model of `ssd_event_get_merge_address`. -/
def ssd_event_get_merge_address (e : Event) : Address := e.merge_address

/-- Model of `ssd_event_get_start_time`. -/
def ssd_event_get_start_time (e : Event) : Option Int := do
  assert (0 ≤ e.start_time)
  some e.start_time

/-- Model of `ssd_event_get_time_taken`. -/
def ssd_event_get_time_taken (e : Event) : Option Int := do
  assert (0 ≤ e.time_taken)
  some e.time_taken

/-- Model of `ssd_event_set_address`. -/
def ssd_event_set_address (e : Event) (address : Address) : Event :=
  { e with address := address }

/-- Model of `ssd_event_incr_bus_wait_time`: only a positive increment is added. -/
def ssd_event_incr_bus_wait_time (e : Event) (time_incr : Int) : Event :=
  if 0 < time_incr then { e with bus_wait_time := e.bus_wait_time + time_incr } else e

/-- Model of `ssd_event_incr_time_taken`: only a positive increment is added. -/
def ssd_event_incr_time_taken (e : Event) (time_incr : Int) : Event :=
  if 0 < time_incr then { e with time_taken := e.time_taken + time_incr } else e

/-! ## Channel and bus (ssd_channel.c, ssd_bus.c) -/

/-- Model of `ssd_channel_init`: every table slot starts at the free flag, negative delays are
set to 0. -/
def ssd_channel_init (ctrl_delay data_delay : Int)
    (table_size max_connections : Nat) : Channel :=
  { table_size := table_size,
    lock_time := List.replicate table_size BUS_CHANNEL_FREE_FLAG,
    unlock_time := List.replicate table_size BUS_CHANNEL_FREE_FLAG,
    table_entries := 0,
    selected_entry := 0,
    num_connected := 0,
    max_connections := max_connections,
    ctrl_delay := if ctrl_delay < 0 then 0 else ctrl_delay,
    data_delay := if data_delay < 0 then 0 else data_delay }

/-- Model of `ssd_channel_connect`. -/
def ssd_channel_connect (c : Channel) : status × Channel :=
  if c.num_connected < c.max_connections then
    (.SUCCESS, { c with num_connected := (c.num_connected + 1) % UINT_MOD })
  else (.FAILURE, c)

/-- Model of `ssd_channel_lock`, the single-slot protocol that `ssd_bus_lock` calls. The
store `c->unlock_time[0] = sched_time + duration` is an `int64` addition and wraps. -/
def ssd_channel_lock (c : Channel) (start_time duration : Int)
    (event : Event) : Option (status × Channel × Event) := do
  assert (c.num_connected ≤ c.max_connections)
  assert (0 ≤ c.ctrl_delay)
  assert (0 ≤ c.data_delay)
  assert (0 ≤ start_time)
  assert (0 ≤ duration)
  let l0 ← c.lock_time[0]?
  let c1 : Channel :=
    if l0 = BUS_CHANNEL_FREE_FLAG then
      { c with lock_time := c.lock_time.set 0 start_time,
               unlock_time := c.unlock_time.set 0 start_time }
    else c
  let u0 ← c1.unlock_time[0]?
  let sched_time : Int := if u0 < start_time then start_time else u0
  let c2 : Channel :=
    { c1 with lock_time := c1.lock_time.set 0 sched_time,
              unlock_time := c1.unlock_time.set 0 (wrap_int64 (sched_time + duration)) }
  let event1 := ssd_event_incr_bus_wait_time event (sched_time - start_time)
  let event2 := ssd_event_incr_time_taken event1 (sched_time - start_time)
  some (.SUCCESS, c2, event2)

/-- Model of `ssd_bus_init`: `num_channels` channels built by `ssd_channel_init`. -/
def ssd_bus_init (num_channels : Nat) (ctrl_delay data_delay : Int)
    (table_size max_connections : Nat) : Option Bus := do
  assert (0 < table_size)
  let ctrl := if ctrl_delay < 0 then 0 else ctrl_delay
  let data := if data_delay < 0 then 0 else data_delay
  some { num_channels := num_channels,
         channels := List.replicate num_channels
           (ssd_channel_init ctrl data table_size max_connections) }

/-- Model of `ssd_bus_lock`. -/
def ssd_bus_lock (b : Bus) (channel : Nat) (start_time duration : Int)
    (event : Event) : Option (status × Bus × Event) := do
  assert (0 ≤ start_time ∧ 0 < duration)
  let c ← b.channels[channel]?
  let (st, c', event') ← ssd_channel_lock c start_time duration event
  some (st, { b with channels := b.channels.set channel c' }, event')

/-- The spec's `cur` for the single-slot protocol: `unlock_time[0]`, read as 0 while
slot 0 still carries the free flag (the slot was never set). -/
def channel_cur (c : Channel) : Int :=
  if c.lock_time[0]? = some BUS_CHANNEL_FREE_FLAG then 0 else (c.unlock_time[0]?).getD 0

/-- Harness for a sequence of `ssd_channel_lock` calls on one channel: each request is
`(start_time, duration, event)`; the result lists the granted interval
`(lock_time[0], unlock_time[0])` read back after each call. -/
def channel_lock_trace : Channel → List (Int × Int × Event) →
    Option (List (Int × Int))
  | _, [] => some []
  | c, (now, dur, ev) :: rest => do
    let (_, c', _) ← ssd_channel_lock c now dur ev
    let l ← c'.lock_time[0]?
    let u ← c'.unlock_time[0]?
    let tl ← channel_lock_trace c' rest
    some ((l, u) :: tl)

/-- The ends of the intervals that the rule of `ssd_channel_lock`, start
`s = max(cur, now)` and end `s + dur`, gives in exact arithmetic for a sequence of requests
on a channel whose unlock time is `cur`. -/
def channel_lock_ends : Int → List (Int × Int × Event) → List Int
  | _, [] => []
  | cur, (now, dur, _) :: rest =>
    (max cur now + dur) :: channel_lock_ends (max cur now + dur) rest

/-! ## Page (ssd_page.c) -/

/-- Static `_read_delay` of `ssd_page.c`: `PAGE_READ_DELAY`, set to 0 by `ssd_page_init`
when negative. -/
def Page._read_delay (cfg : Config) : Int :=
  if cfg.PAGE_READ_DELAY < 0 then 0 else cfg.PAGE_READ_DELAY

/-- Static `_write_delay` of `ssd_page.c`: `PAGE_WRITE_DELAY`, set to 0 by
`ssd_page_init` when negative. -/
def Page._write_delay (cfg : Config) : Int :=
  if cfg.PAGE_WRITE_DELAY < 0 then 0 else cfg.PAGE_WRITE_DELAY

/-- The constant `#define NOCHECK_PAGE_STATE 0`. -/
def NOCHECK_PAGE_STATE : Bool := false

/-- Model of `ssd_page_init`: a new page is EMPTY. -/
def ssd_page_init : Page := { state := .EMPTY }

/-- Model of `ssd_page_read`. -/
def ssd_page_read (cfg : Config) (p : Page) (event : Event) :
    Option (status × Page × Event) := do
  assert (0 ≤ Page._read_delay cfg)
  if NOCHECK_PAGE_STATE = true ∨ p.state = .VALID ∨ p.state = .EMPTY then
    some (.SUCCESS, p, ssd_event_incr_time_taken event (Page._read_delay cfg))
  else
    some (.FAILURE, p, event)

/-- Model of `ssd_page_write`. -/
def ssd_page_write (cfg : Config) (p : Page) (event : Event) :
    Option (status × Page × Event) := do
  assert (0 ≤ Page._write_delay cfg)
  if NOCHECK_PAGE_STATE = true ∨ p.state = .EMPTY then
    some (.SUCCESS, { p with state := .VALID },
      ssd_event_incr_time_taken event (Page._write_delay cfg))
  else
    some (.FAILURE, p, event)

/-- Model of `ssd_page_get_state`. -/
def ssd_page_get_state (p : Page) : page_state := p.state

/-- Model of `ssd_page_set_state`. -/
def ssd_page_set_state (p : Page) (state : page_state) : Page := { p with state := state }

/-! ## Block (ssd_block.c) -/

/-- Static `_size` of `ssd_block.c`: the `block_size` handed to `ssd_block_init`, which
`ssd_plane_init` always calls with `SSD_BLOCK_SIZE`. -/
def Block._size (cfg : Config) : Nat := cfg.SSD_BLOCK_SIZE

/-- Static `_erase_delay` of `ssd_block.c`: `BLOCK_ERASE_DELAY`, set to 0 by
`ssd_block_init` when negative. -/
def Block._erase_delay (cfg : Config) : Int :=
  if cfg.BLOCK_ERASE_DELAY < 0 then 0 else cfg.BLOCK_ERASE_DELAY

/-- Model of `ssd_block_init`. -/
def ssd_block_init (cfg : Config) : Block :=
  { data := List.replicate (Block._size cfg) ssd_page_init,
    pages_valid := 0, pages_invalid := 0, state := .FREE, last_erase_time := 0 }

/-- Model of `ssd_block_read`. -/
def ssd_block_read (cfg : Config) (b : Block) (event : Event) :
    Option (status × Block × Event) := do
  let page := (ssd_event_get_address event).page
  let p ← b.data[page]?
  let (ret, p', event') ← ssd_page_read cfg p event
  some (ret, { b with data := b.data.set page p' }, event')

/-- Model of `ssd_block_write`. -/
def ssd_block_write (cfg : Config) (b : Block) (event : Event) :
    Option (status × Block × Event) := do
  let page := (ssd_event_get_address event).page
  let p ← b.data[page]?
  let (ret, p', event') ← ssd_page_write cfg p event
  let b1 : Block := { b with data := b.data.set page p' }
  if ret = .SUCCESS then
    some (ret, { b1 with pages_valid := (b1.pages_valid + 1) % UINT_MOD, state := .ACTIVE },
      event')
  else
    some (ret, b1, event')

/-- The loop `for(i = 0; i < _size; i++) ssd_page_set_state(b->data[i], EMPTY)` of
`ssd_block_erase`; the first argument counts the iterations left, the second is `i`. -/
def ssd_block_erase_loop : Nat → Nat → List Page → Option (List Page)
  | 0, _, data => some data
  | n + 1, i, data => do
    let p ← data[i]?
    ssd_block_erase_loop n (i + 1) (data.set i (ssd_page_set_state p .EMPTY))

/-- Model of `ssd_block_erase` (the `erases_remaining` check is compiled out by `#if 0`).
The store `b->last_erase_time = start_time + time_taken` is an `int64` addition and
wraps. -/
def ssd_block_erase (cfg : Config) (b : Block) (event : Event) :
    Option (status × Block × Event) := do
  assert (0 ≤ Block._erase_delay cfg)
  let data ← ssd_block_erase_loop (Block._size cfg) 0 b.data
  let event1 := ssd_event_incr_time_taken event (Block._erase_delay cfg)
  let t0 ← ssd_event_get_start_time event1
  let t1 ← ssd_event_get_time_taken event1
  some (.SUCCESS,
    { b with data := data, last_erase_time := wrap_int64 (t0 + t1), pages_valid := 0,
             pages_invalid := 0, state := .FREE },
    event1)

/-- Model of `ssd_block_get_state`. -/
def ssd_block_get_state (b : Block) : block_state := b.state

/-- Model of `ssd_block_get_pages_valid`. -/
def ssd_block_get_pages_valid (b : Block) : Nat := b.pages_valid

/-- Model of `ssd_block_get_pages_invalid`. -/
def ssd_block_get_pages_invalid (b : Block) : Nat := b.pages_invalid

/-- Model of `ssd_block_get_state2`. -/
def ssd_block_get_state2 (cfg : Config) (b : Block) (page : Nat) : Option page_state := do
  assert (page < Block._size cfg)
  let p ← b.data[page]?
  some (ssd_page_get_state p)

/-- Model of `ssd_block_get_last_erase_time`. -/
def ssd_block_get_last_erase_time (b : Block) : Int := b.last_erase_time

/-- Model of `ssd_block_get_erases_remaining` (built without `HAS_WL`: the constant 1000). -/
def ssd_block_get_erases_remaining (_b : Block) : Nat := 1000

/-- Model of `ssd_block_get_size`. -/
def ssd_block_get_size (cfg : Config) (_b : Block) : Nat := Block._size cfg

/-- Model of `ssd_block_invalidate_page`. -/
def ssd_block_invalidate_page (cfg : Config) (b : Block) (page : Nat) : Option Block := do
  assert (page < Block._size cfg)
  let p ← b.data[page]?
  let b1 : Block :=
    { b with data := b.data.set page (ssd_page_set_state p .INVALID),
             pages_invalid := (b.pages_invalid + 1) % UINT_MOD }
  if Block._size cfg ≤ b1.pages_invalid then some { b1 with state := .INACTIVE }
  else if 0 < b1.pages_valid ∨ 0 < b1.pages_invalid then some { b1 with state := .ACTIVE }
  else some { b1 with state := .FREE }

/-- The loop of `ssd_block_get_next_page`; the first argument counts the iterations left,
the second is `i`. -/
def ssd_block_get_next_page_loop (b : Block) (address : Address) :
    Nat → Nat → Option (status × Address)
  | 0, _ => some (.FAILURE, address)
  | n + 1, i => do
    let p ← b.data[i]?
    if ssd_page_get_state p = .EMPTY then
      some (.SUCCESS, { address with page := i, valid := .PAGE })
    else
      ssd_block_get_next_page_loop b address n (i + 1)

/-- Model of `ssd_block_get_next_page`: the first EMPTY page of the block, if any. -/
def ssd_block_get_next_page (cfg : Config) (b : Block) (address : Address) :
    Option (status × Address) :=
  ssd_block_get_next_page_loop b address (Block._size cfg) 0

/-! ## Address (ssd_address.c) -/

/-- Model of `ssd_address_check_valid`: returns the address with its validity lowered to
the depth down to which the fields are inside the given sizes. -/
def ssd_address_check_valid (a : Address) (ssd_size package_size die_size plane_size
    block_size : Nat) : Address :=
  let tmp : address_valid :=
    if address_valid.PACKAGE.toNat ≤ a.valid.toNat ∧ a.package < ssd_size then
      if address_valid.DIE.toNat ≤ a.valid.toNat ∧ a.die < package_size then
        if address_valid.PLANE.toNat ≤ a.valid.toNat ∧ a.plane < die_size then
          if address_valid.BLOCK.toNat ≤ a.valid.toNat ∧ a.block < plane_size then
            if address_valid.PAGE.toNat ≤ a.valid.toNat ∧ a.page < block_size then .PAGE
            else .BLOCK
          else .PLANE
        else .DIE
      else .PACKAGE
    else .NONE
  { a with valid := tmp }

/-- Model of `ssd_address_compare`: the nested tests of the C function. -/
def ssd_address_compare (a address : Address) : address_valid :=
  if a.package = address.package ∧ address_valid.PACKAGE.toNat ≤ a.valid.toNat ∧
      address_valid.PACKAGE.toNat ≤ address.valid.toNat then
    if a.die = address.die ∧ address_valid.DIE.toNat ≤ a.valid.toNat ∧
        address_valid.DIE.toNat ≤ address.valid.toNat then
      if a.plane = address.plane ∧ address_valid.PLANE.toNat ≤ a.valid.toNat ∧
          address_valid.PLANE.toNat ≤ address.valid.toNat then
        if a.block = address.block ∧ address_valid.BLOCK.toNat ≤ a.valid.toNat ∧
            address_valid.BLOCK.toNat ≤ address.valid.toNat then
          if a.page = address.page ∧ address_valid.PAGE.toNat ≤ a.valid.toNat ∧
              address_valid.PAGE.toNat ≤ address.valid.toNat then .PAGE
          else .BLOCK
        else .PLANE
      else .DIE
    else .PACKAGE
  else .NONE

/-! ## Plane (ssd_plane.c) -/

/-- Static `_size` of `ssd_plane.c`: the `plane_size` handed to `ssd_plane_init`, which
`ssd_die_init` always calls with `PLANE_SIZE`. -/
def Plane._size (cfg : Config) : Nat := cfg.PLANE_SIZE

/-- Model of `ssd_plane_init`. -/
def ssd_plane_init (cfg : Config) : Plane :=
  { data := List.replicate (Plane._size cfg) (ssd_block_init cfg),
    least_worn := 0,
    erases_remaining := cfg.BLOCK_ERASES,
    last_erase_time := 0,
    free_blocks := Plane._size cfg,
    next_page := { Address.zero with block := 0, page := 0, valid := .PAGE } }

/-- The loop of the static `get_next_page` of `ssd_plane.c`; the first argument counts
the iterations left, the second is `i`. -/
def Plane.get_next_page_loop (cfg : Config) : Nat → Nat → Plane → Option (status × Plane)
  | 0, _, p => some (.FAILURE, p)
  | n + 1, i, p => do
    let b ← p.data[i]?
    if ssd_block_get_state b ≠ .INACTIVE then
      let p1 : Plane := { p with next_page := { p.next_page with valid := .BLOCK } }
      let (ret, a) ← ssd_block_get_next_page cfg b p1.next_page
      if ret = .SUCCESS then
        some (.SUCCESS, { p1 with next_page := { a with block := i } })
      else
        Plane.get_next_page_loop cfg n (i + 1) { p1 with next_page := a }
    else
      Plane.get_next_page_loop cfg n (i + 1) p

/-- The static `get_next_page` of `ssd_plane.c`. -/
def Plane.get_next_page (cfg : Config) (p : Plane) : Option (status × Plane) :=
  Plane.get_next_page_loop cfg (Plane._size cfg) 0
    { p with next_page := { p.next_page with valid := .PLANE } }

/-- The loop of the static `update_wear_stats` of `ssd_plane.c` (`i` runs from 1):
returns `max_index`; `max` is never updated by the C loop. -/
def Plane.update_wear_stats_loop (p : Plane) (max : Nat) : Nat → Nat → Nat → Option Nat
  | 0, _, max_index => some max_index
  | n + 1, i, max_index => do
    let b ← p.data[i]?
    Plane.update_wear_stats_loop p max n (i + 1)
      (if max < ssd_block_get_erases_remaining b then i else max_index)

/-- The static `update_wear_stats` of `ssd_plane.c`. -/
def Plane.update_wear_stats (cfg : Config) (p : Plane) : Option Plane := do
  let b0 ← p.data[0]?
  let max := ssd_block_get_erases_remaining b0
  let max_index ← Plane.update_wear_stats_loop p max (Plane._size cfg - 1) 1 0
  let bm ← p.data[max_index]?
  some { p with least_worn := max_index, erases_remaining := max,
                last_erase_time := ssd_block_get_last_erase_time bm }

/-- Model of `ssd_plane_read`. -/
def ssd_plane_read (cfg : Config) (p : Plane) (event : Event) :
    Option (status × Plane × Event) := do
  let a := ssd_event_get_address event
  assert (a.block < Plane._size cfg ∧ address_valid.PLANE.toNat < a.valid.toNat)
  let b ← p.data[a.block]?
  let (ret, b', event') ← ssd_block_read cfg b event
  some (ret, { p with data := p.data.set a.block b' }, event')

/-- Model of `ssd_plane_write`: the cursor is advanced and `free_blocks` is adjusted before the
block is written; the address check only prints a diagnostic. -/
def ssd_plane_write (cfg : Config) (p : Plane) (event : Event) :
    Option (status × Plane × Event) := do
  let a := ssd_event_get_address event
  let b ← p.data[a.block]?
  let prev := ssd_block_get_state b
  let p1 ← (if a.block = p.next_page.block then
      (Plane.get_next_page cfg p).map Prod.snd
    else some p)
  let b1 ← p1.data[a.block]?
  let p2 : Plane :=
    { p1 with free_blocks :=
        if prev = .FREE ∧ ssd_block_get_state b1 ≠ .FREE then
          (p1.free_blocks + UINT_MOD - 1) % UINT_MOD
        else p1.free_blocks }
  let b2 ← p2.data[a.block]?
  let (ret, b', event') ← ssd_block_write cfg b2 event
  some (ret, { p2 with data := p2.data.set a.block b' }, event')

/-- Model of `ssd_plane_erase`. -/
def ssd_plane_erase (cfg : Config) (p : Plane) (event : Event) :
    Option (status × Plane × Event) := do
  let a := ssd_event_get_address event
  assert (a.block < Plane._size cfg ∧ address_valid.PLANE.toNat < a.valid.toNat)
  let b ← p.data[a.block]?
  let (ret, b', event') ← ssd_block_erase cfg b event
  let p1 : Plane := { p with data := p.data.set a.block b' }
  if ret = .SUCCESS then
    let p2 ← Plane.update_wear_stats cfg p1
    let p3 : Plane := { p2 with free_blocks := (p2.free_blocks + 1) % UINT_MOD }
    let p4 ← (if p3.next_page.valid.toNat < address_valid.PAGE.toNat then
        (Plane.get_next_page cfg p3).map Prod.snd
      else some p3)
    some (ret, p4, event')
  else
    some (ret, p1, event')

/-- Static `_reg_read_delay` of `ssd_plane.c`: `ssd_plane_init` stores a non-negative
`PLANE_REG_READ_DELAY` and leaves the initial 0 in place for a negative one. -/
def Plane._reg_read_delay (cfg : Config) : Int :=
  if cfg.PLANE_REG_READ_DELAY < 0 then 0 else cfg.PLANE_REG_READ_DELAY

/-- Static `_reg_write_delay` of `ssd_plane.c`, clamped at 0 by `ssd_plane_init`. -/
def Plane._reg_write_delay (cfg : Config) : Int :=
  if cfg.PLANE_REG_WRITE_DELAY < 0 then 0 else cfg.PLANE_REG_WRITE_DELAY

/-- The two counting loops of `ssd_plane_merge`: the number of pages of `b` in state `st`,
with `n` iterations left at index `i` and the running count. -/
def ssd_plane_merge_count (cfg : Config) (b : Block) (st : page_state) :
    Nat → Nat → Nat → Option Nat
  | 0, _, count => some count
  | n + 1, i, count => do
    let s ← ssd_block_get_state2 cfg b i
    ssd_plane_merge_count cfg b st n (i + 1) (if s = st then (count + 1) % UINT_MOD else count)

/-- The local variables of `ssd_plane_merge` that its main loop changes, together with the
plane: `read.page`, `write.page`, `num_merged`, the error counter `i` and `total_delay`.
The two events keep the addresses they were given before the loop. -/
structure merge_state where
  p : Plane
  read_event : Event
  write_event : Event
  read_page : Nat
  write_page : Nat
  num_merged : Nat
  i : Nat
  total_delay : Int
deriving DecidableEq, Repr

/-- The inner loop of `ssd_plane_merge`, `for(; write.page < merge_block_size;
write.page++)`, with `n` iterations left: at the first EMPTY page of the target block it
calls `ssd_block_write` with `write_event` and leaves the loop by `break`. -/
def ssd_plane_merge_write (cfg : Config) (merge_block : Nat) :
    Nat → merge_state → Option merge_state
  | 0, m => some m
  | n + 1, m => do
    let b ← m.p.data[merge_block]?
    let s ← ssd_block_get_state2 cfg b m.write_page
    if s = .EMPTY then
      let (ret, b', write_event') ← ssd_block_write cfg b m.write_event
      let p' : Plane := { m.p with data := m.p.data.set merge_block b' }
      let i' := if ret = .FAILURE then (m.i + 1) % UINT_MOD else m.i
      some { m with p := p', write_event := write_event', i := i',
                    total_delay := m.total_delay + Plane._reg_read_delay cfg,
                    num_merged := (m.num_merged + 1) % UINT_MOD }
    else
      ssd_plane_merge_write cfg merge_block n { m with write_page := m.write_page + 1 }

/-- The main loop of `ssd_plane_merge`, `for(i = 0; num_merged < merge_count && read.page <
block_size; read.page++)`, with `n` values of `read.page` left. -/
def ssd_plane_merge_loop (cfg : Config) (read_block merge_block merge_count : Nat) :
    Nat → merge_state → Option merge_state
  | 0, m => some m
  | n + 1, m =>
    if m.num_merged < merge_count then do
      let b ← m.p.data[read_block]?
      let s ← ssd_block_get_state2 cfg b m.read_page
      let m1 ←
        if s = .VALID then do
          let (ret, b1, read_event') ← ssd_block_read cfg b m.read_event
          let i' := if ret = .FAILURE then (m.i + 1) % UINT_MOD else m.i
          let b2 ← ssd_block_invalidate_page cfg b1 m.read_page
          let p2 : Plane := { m.p with data := m.p.data.set read_block b2 }
          let m' : merge_state :=
            { m with p := p2, read_event := read_event', i := i',
                     total_delay := m.total_delay + Plane._reg_write_delay cfg }
          ssd_plane_merge_write cfg merge_block (Block._size cfg - m'.write_page) m'
        else some m
      ssd_plane_merge_loop cfg read_block merge_block merge_count n
        { m1 with read_page := m1.read_page + 1 }
    else some m

/-- The end of `ssd_plane_merge`, from `total_delay += ...` on: the accumulated delay is
added to the event, the cursor is recomputed when it is not at a page, and the result is
SUCCESS exactly when the error counter is 0. -/
def ssd_plane_merge_finish (cfg : Config) (event : Event) (m : merge_state) :
    Option (status × Plane × Event) := do
  let tr ← ssd_event_get_time_taken m.read_event
  let tw ← ssd_event_get_time_taken m.write_event
  let event1 := ssd_event_incr_time_taken event (m.total_delay + (tr + tw))
  let p1 ←
    if m.p.next_page.valid.toNat < address_valid.PAGE.toNat then
      (Plane.get_next_page cfg m.p).map Prod.snd
    else some m.p
  if m.i = 0 then some (.SUCCESS, p1, event1) else some (.FAILURE, p1, event1)

/-- The part of `ssd_plane_merge` behind the space check: the read and write events are
built for page 0 of the two blocks, then the main loop runs. -/
def ssd_plane_merge_move (cfg : Config) (p : Plane) (event : Event)
    (merge_count block_size : Nat) : Option (status × Plane × Event) := do
  let address := ssd_event_get_address event
  let merge_address := ssd_event_get_merge_address event
  let read : Address := { address with page := 0, valid := .PAGE }
  let write : Address := { merge_address with page := 0, valid := .PAGE }
  let t ← ssd_event_get_start_time event
  let read_event0 ← ssd_event_init .SSD_READ 0 1 t
  let write_event0 ← ssd_event_init .SSD_WRITE 0 1 t
  let read_event := ssd_event_set_address read_event0 read
  let write_event := ssd_event_set_address write_event0 write
  let m ← ssd_plane_merge_loop cfg read.block write.block merge_count block_size
    { p := p, read_event := read_event, write_event := write_event, read_page := 0,
      write_page := 0, num_merged := 0, i := 0, total_delay := 0 }
  ssd_plane_merge_finish cfg event m

/-- Model of `ssd_plane_merge`. -/
def ssd_plane_merge (cfg : Config) (p : Plane) (event : Event) :
    Option (status × Plane × Event) := do
  let address := ssd_event_get_address event
  let merge_address := ssd_event_get_merge_address event
  assert (0 ≤ Plane._reg_read_delay cfg ∧ 0 ≤ Plane._reg_write_delay cfg)
  assert (address.block < Plane._size cfg ∧ address_valid.PLANE.toNat < address.valid.toNat)
  assert (address_valid.BLOCK.toNat ≤ (ssd_address_compare address merge_address).toNat)
  assert (address.block < Plane._size cfg ∧ merge_address.block < Plane._size cfg)
  let b ← p.data[address.block]?
  let bm ← p.data[merge_address.block]?
  let block_size := ssd_block_get_size cfg b
  let merge_block_size := ssd_block_get_size cfg bm
  let merge_count ← ssd_plane_merge_count cfg b .VALID block_size 0 0
  let merge_avail ← ssd_plane_merge_count cfg bm .EMPTY merge_block_size 0 0
  if merge_count > merge_avail then some (.FAILURE, p, event)
  else ssd_plane_merge_move cfg p event merge_count block_size

/-- Model of `ssd_plane_get_last_erase_time`. -/
def ssd_plane_get_last_erase_time (cfg : Config) (p : Plane) (address : Address) :
    Option Int :=
  if address_valid.PLANE.toNat < address.valid.toNat ∧ address.block < Plane._size cfg then do
    let b ← p.data[address.block]?
    some (ssd_block_get_last_erase_time b)
  else some p.last_erase_time

/-- Model of `ssd_plane_get_erases_remaining`. -/
def ssd_plane_get_erases_remaining (cfg : Config) (p : Plane) (address : Address) :
    Option Nat :=
  if address_valid.PLANE.toNat < address.valid.toNat ∧ address.block < Plane._size cfg then do
    let b ← p.data[address.block]?
    some (ssd_block_get_erases_remaining b)
  else some p.erases_remaining

/-! ## Die (ssd_die.c) -/

/-- Model of `ssd_die_init` (the connection to the bus channel is counted in `ssd_sim_init`). -/
def ssd_die_init (cfg : Config) (die_size : Nat) : Die :=
  { size := die_size,
    data := List.replicate die_size (ssd_plane_init cfg),
    least_worn := 0,
    erases_remaining := cfg.BLOCK_ERASES,
    last_erase_time := 0 }

/-- The loop of the static `update_wear_stats` of `ssd_die.c` (`i` runs from 1). -/
def Die.update_wear_stats_loop (cfg : Config) (d : Die) (address : Address) (max : Nat) :
    Nat → Nat → Nat → Option Nat
  | 0, _, max_index => some max_index
  | n + 1, i, max_index => do
    let p ← d.data[i]?
    let r ← ssd_plane_get_erases_remaining cfg p address
    Die.update_wear_stats_loop cfg d address max n (i + 1) (if max < r then i else max_index)

/-- The static `update_wear_stats` of `ssd_die.c`. -/
def Die.update_wear_stats (cfg : Config) (d : Die) (address : Address) : Option Die := do
  let p0 ← d.data[0]?
  let max ← ssd_plane_get_erases_remaining cfg p0 address
  let max_index ← Die.update_wear_stats_loop cfg d address max (d.size - 1) 1 0
  let pm ← d.data[max_index]?
  let t ← ssd_plane_get_last_erase_time cfg pm address
  some { d with least_worn := max_index, erases_remaining := max, last_erase_time := t }

/-- Model of `ssd_die_read`. -/
def ssd_die_read (cfg : Config) (d : Die) (event : Event) :
    Option (status × Die × Event) := do
  let a := ssd_event_get_address event
  assert (a.plane < d.size ∧ address_valid.DIE.toNat < a.valid.toNat)
  let p ← d.data[a.plane]?
  let (ret, p', event') ← ssd_plane_read cfg p event
  some (ret, { d with data := d.data.set a.plane p' }, event')

/-- Model of `ssd_die_write`. -/
def ssd_die_write (cfg : Config) (d : Die) (event : Event) :
    Option (status × Die × Event) := do
  let a := ssd_event_get_address event
  assert (a.plane < d.size ∧ address_valid.DIE.toNat < a.valid.toNat)
  let p ← d.data[a.plane]?
  let (ret, p', event') ← ssd_plane_write cfg p event
  some (ret, { d with data := d.data.set a.plane p' }, event')

/-- Model of `ssd_die_erase`. -/
def ssd_die_erase (cfg : Config) (d : Die) (event : Event) :
    Option (status × Die × Event) := do
  let a := ssd_event_get_address event
  assert (a.plane < d.size ∧ address_valid.DIE.toNat < a.valid.toNat)
  let p ← d.data[a.plane]?
  let (ret, p', event') ← ssd_plane_erase cfg p event
  let d1 : Die := { d with data := d.data.set a.plane p' }
  if ret = .SUCCESS then
    let d2 ← Die.update_wear_stats cfg d1 (ssd_event_get_address event')
    some (ret, d2, event')
  else
    some (ret, d1, event')

/-- Model of `ssd_die__merge`, the stub for a merge across two planes. -/
def ssd_die__merge (d : Die) (event : Event) : Option status := do
  let a := ssd_event_get_address event
  let m := ssd_event_get_merge_address event
  assert (a.plane < d.size ∧ address_valid.DIE.toNat < a.valid.toNat ∧ m.plane < d.size ∧
    address_valid.DIE.toNat < m.valid.toNat)
  assert (a.plane ≠ m.plane)
  some .SUCCESS

/-- Model of `ssd_die_merge`. -/
def ssd_die_merge (cfg : Config) (d : Die) (event : Event) :
    Option (status × Die × Event) := do
  let a := ssd_event_get_address event
  let m := ssd_event_get_merge_address event
  assert (a.plane < d.size ∧ address_valid.DIE.toNat < a.valid.toNat ∧ m.plane < d.size ∧
    address_valid.DIE.toNat < m.valid.toNat)
  if a.plane ≠ m.plane then
    let ret ← ssd_die__merge d event
    some (ret, d, event)
  else
    let p ← d.data[a.plane]?
    let (ret, p', event') ← ssd_plane_merge cfg p event
    some (ret, { d with data := d.data.set a.plane p' }, event')

/-- Model of `ssd_die_get_last_erase_time`. -/
def ssd_die_get_last_erase_time (cfg : Config) (d : Die) (address : Address) : Option Int :=
  if address_valid.DIE.toNat < address.valid.toNat ∧ address.plane < d.size then do
    let p ← d.data[address.plane]?
    ssd_plane_get_last_erase_time cfg p address
  else some d.last_erase_time

/-- Model of `ssd_die_get_erases_remaining`. -/
def ssd_die_get_erases_remaining (cfg : Config) (d : Die) (address : Address) : Option Nat :=
  if address_valid.DIE.toNat < address.valid.toNat ∧ address.plane < d.size then do
    let p ← d.data[address.plane]?
    ssd_plane_get_erases_remaining cfg p address
  else some d.erases_remaining

/-! ## Package (ssd_package.c) -/

/-- Model of `ssd_package_init`. -/
def ssd_package_init (cfg : Config) (package_size : Nat) : Package :=
  { size := package_size,
    data := List.replicate package_size (ssd_die_init cfg cfg.DIE_SIZE),
    least_worn := 0,
    erases_remaining := cfg.BLOCK_ERASES,
    last_erase_time := 0 }

/-- The loop of the static `update_wear_stats` of `ssd_package.c` (`i` runs from 1). -/
def Package.update_wear_stats_loop (cfg : Config) (k : Package) (address : Address)
    (max : Nat) : Nat → Nat → Nat → Option Nat
  | 0, _, max_index => some max_index
  | n + 1, i, max_index => do
    let d ← k.data[i]?
    let r ← ssd_die_get_erases_remaining cfg d address
    Package.update_wear_stats_loop cfg k address max n (i + 1)
      (if max < r then i else max_index)

/-- The static `update_wear_stats` of `ssd_package.c`. -/
def Package.update_wear_stats (cfg : Config) (k : Package) (address : Address) :
    Option Package := do
  let d0 ← k.data[0]?
  let max ← ssd_die_get_erases_remaining cfg d0 address
  let max_index ← Package.update_wear_stats_loop cfg k address max (k.size - 1) 1 0
  let dm ← k.data[max_index]?
  let t ← ssd_die_get_last_erase_time cfg dm address
  some { k with least_worn := max_index, erases_remaining := max, last_erase_time := t }

/-- Model of `ssd_package_read`. -/
def ssd_package_read (cfg : Config) (k : Package) (event : Event) :
    Option (status × Package × Event) := do
  let a := ssd_event_get_address event
  assert (a.die < k.size ∧ address_valid.PACKAGE.toNat < a.valid.toNat)
  let d ← k.data[a.die]?
  let (ret, d', event') ← ssd_die_read cfg d event
  some (ret, { k with data := k.data.set a.die d' }, event')

/-- Model of `ssd_package_write`. -/
def ssd_package_write (cfg : Config) (k : Package) (event : Event) :
    Option (status × Package × Event) := do
  let a := ssd_event_get_address event
  assert (a.die < k.size ∧ address_valid.PACKAGE.toNat < a.valid.toNat)
  let d ← k.data[a.die]?
  let (ret, d', event') ← ssd_die_write cfg d event
  some (ret, { k with data := k.data.set a.die d' }, event')

/-- Model of `ssd_package_erase`. -/
def ssd_package_erase (cfg : Config) (k : Package) (event : Event) :
    Option (status × Package × Event) := do
  let a := ssd_event_get_address event
  assert (a.die < k.size ∧ address_valid.PACKAGE.toNat < a.valid.toNat)
  let d ← k.data[a.die]?
  let (ret, d', event') ← ssd_die_erase cfg d event
  let k1 : Package := { k with data := k.data.set a.die d' }
  if ret = .SUCCESS then
    let k2 ← Package.update_wear_stats cfg k1 (ssd_event_get_address event')
    some (ret, k2, event')
  else
    some (ret, k1, event')

/-- Model of `ssd_package_merge`. -/
def ssd_package_merge (cfg : Config) (k : Package) (event : Event) :
    Option (status × Package × Event) := do
  let a := ssd_event_get_address event
  assert (a.die < k.size ∧ address_valid.PACKAGE.toNat < a.valid.toNat)
  let d ← k.data[a.die]?
  let (ret, d', event') ← ssd_die_merge cfg d event
  some (ret, { k with data := k.data.set a.die d' }, event')

/-! ## Ssd (ssd_ssd.c) -/

/-- Model of `ssd_sim_init` / `ssd_sim_new`: the bus is built first, then every package
`i` is built on channel `i`, and each of its `PACKAGE_SIZE` dies calls
`ssd_channel_connect` on that channel. Memory is taken to be available: the arena of
`FLASHSIM_MEM_SIZE` bytes behind `ssd_malloc`, with its `assert(_pos < _mem_size)`, and a
failing `vmalloc` / `malloc` are not modelled, so the model also builds geometries for
which the code stops for lack of arena memory. -/
def ssd_sim_new (cfg : Config) (ssd_size : Nat) : Option Ssd := do
  let bus ← ssd_bus_init ssd_size cfg.BUS_CTRL_DELAY cfg.BUS_DATA_DELAY cfg.BUS_TABLE_SIZE
    cfg.BUS_MAX_CONNECT
  let connect : Channel → Channel := fun c => (ssd_channel_connect c).2
  some { size := ssd_size,
         bus := { bus with channels := bus.channels.map (connect^[cfg.PACKAGE_SIZE]) },
         data := List.replicate ssd_size (ssd_package_init cfg cfg.PACKAGE_SIZE),
         erases_remaining := cfg.BLOCK_ERASES,
         least_worn := 0,
         last_erase_time := 0 }

/-- The macro `BANK_GROUP_MASK`, `((1 << BANK_GROUP_BIT)-1)`. -/
def BANK_GROUP_MASK (cfg : Config) : Nat := (1 <<< cfg.BANK_GROUP_BIT) - 1

/-- Model of `get_channel`: `~BANK_GROUP_MASK` is converted to `uint` before the `&`, which makes
it `UINT_MOD - 1 - BANK_GROUP_MASK`. -/
def get_channel (cfg : Config) (address : Address) : Nat :=
  if cfg.BANK_GROUP_BIT = 0 then address.package
  else
    let channel := address.package &&& (UINT_MOD - 1 - BANK_GROUP_MASK cfg)
    channel ||| (address.page &&& BANK_GROUP_MASK cfg)

/-- The C operator `%` on unsigned operands; a zero divisor traps. -/
def umod (a b : Nat) : Option Nat := if b = 0 then none else some (a % b)

/-- The C operator `/` on unsigned operands; a zero divisor traps. -/
def udiv (a b : Nat) : Option Nat := if b = 0 then none else some (a / b)

/-- The stub address computation inside `ssd_event_arrive` (from
`address->page = logical_address % SSD_BLOCK_SIZE` to `address->valid = PAGE`). -/
def decode_address (cfg : Config) (logical_address : Nat) : Option Address := do
  let page ← umod logical_address cfg.SSD_BLOCK_SIZE
  let l1 ← udiv logical_address cfg.SSD_BLOCK_SIZE
  let block ← umod l1 cfg.PLANE_SIZE
  let l2 ← udiv l1 cfg.PLANE_SIZE
  let plane ← umod l2 cfg.DIE_SIZE
  let l3 ← udiv l2 cfg.DIE_SIZE
  let die ← umod l3 cfg.PACKAGE_SIZE
  let l4 ← udiv l3 cfg.PACKAGE_SIZE
  let package ← umod l4 cfg.SSD_SIZE
  let _ ← udiv l4 cfg.SSD_SIZE
  some { package := package, die := die, plane := plane, block := block, page := page,
         valid := .PAGE }

/-- The cast `(long long int) logical_address` of a 64-bit `ulong`. -/
def ulong_as_int64 (n : Nat) : Int :=
  if n % 2 ^ 64 < 2 ^ 63 then ((n % 2 ^ 64 : Nat) : Int) else ((n % 2 ^ 64 : Nat) : Int) - 2 ^ 64

/-- Model of `ssd_event_arrive`: returns the value handed back to the caller together with the
device state it leaves. An event of a kind other than read, write or erase only prints
a diagnostic and falls through to the final `return`. -/
def ssd_event_arrive (cfg : Config) (s : Ssd) (type : event_type) (logical_address size : Nat)
    (start_time : Int) : Option (Int × Ssd) := do
  assert (0 ≤ start_time)
  assert (ulong_as_int64 logical_address ≤
    ((cfg.SSD_SIZE * cfg.PACKAGE_SIZE * cfg.DIE_SIZE * cfg.PLANE_SIZE * cfg.SSD_BLOCK_SIZE : Nat)
      : Int))
  let event0 ← ssd_event_init type logical_address size start_time
  let address ← decode_address cfg logical_address
  let channel := get_channel cfg address
  let event1 := ssd_event_set_address event0 address
  if type = .SSD_READ then
    let event2 := ssd_event_incr_time_taken event1 (cfg.BUS_CTRL_DELAY + cfg.BUS_DATA_DELAY)
    let k ← s.data[address.package]?
    let (ret, k', event3) ← ssd_package_read cfg k event2
    let s1 : Ssd := { s with data := s.data.set address.package k' }
    if ret ≠ .SUCCESS then some (-1, s1)
    else
      let (_, bus', event4) ← ssd_bus_lock s1.bus channel start_time event3.time_taken event3
      let t ← ssd_event_get_time_taken event4
      some (t, { s1 with bus := bus' })
  else if type = .SSD_WRITE then
    let event2 := ssd_event_incr_time_taken event1 (cfg.BUS_CTRL_DELAY + cfg.BUS_DATA_DELAY)
    let k ← s.data[address.package]?
    let (ret, k', event3) ← ssd_package_write cfg k event2
    let s1 : Ssd := { s with data := s.data.set address.package k' }
    if ret ≠ .SUCCESS then some (-1, s1)
    else
      let (_, bus', event4) ← ssd_bus_lock s1.bus channel start_time event3.time_taken event3
      let t ← ssd_event_get_time_taken event4
      some (t, { s1 with bus := bus' })
  else if ssd_event_get_event_type event1 = .SSD_ERASE then
    let event2 := ssd_event_incr_time_taken event1 (cfg.BUS_CTRL_DELAY + cfg.BUS_DATA_DELAY)
    let k ← s.data[address.package]?
    let (ret, k', event3) ← ssd_package_erase cfg k event2
    let s1 : Ssd := { s with data := s.data.set address.package k' }
    if ret ≠ .SUCCESS then some (-1, s1)
    else
      let (lret, bus', event4) ← ssd_bus_lock s1.bus channel start_time event3.time_taken event3
      if lret ≠ .SUCCESS then some (-1, { s1 with bus := bus' })
      else
        let t ← ssd_event_get_time_taken event4
        some (t, { s1 with bus := bus' })
  else
    let t ← ssd_event_get_time_taken event1
    some (t, s)

/-! ## Deferred completion queue (brd.c) -/

/-- Model of `struct bio_queue`, one pending completion: the status `ret` to report, the
request handle `data`, and the absolute deadline `ktime` in nanoseconds
(`ktime_to_ns(q->ktime)`). The `next` pointer is the list structure: the chain hanging
off the sentinel `brd->queue` is the Lean list of its entries, head first. -/
structure bio_queue where
  ret : Int
  data : Nat
  ktime : Int
deriving DecidableEq, Repr

/-- First loop of `handle_queue`, run on the chain `brd->queue.next` with the local list
`q`: while the head entry `tmp` has a deadline `<= ktime` it is unlinked and pushed on the
front of `q` (`tmp->next = q; q = tmp`). Returns the chain left in the device and `q`. -/
def handle_queue_drain (ktime : Int) :
    List bio_queue → List bio_queue → List bio_queue × List bio_queue
  | [], q => ([], q)
  | tmp :: next, q =>
    if tmp.ktime > ktime then (tmp :: next, q)
    else handle_queue_drain ktime next (tmp :: q)

/-- Second loop of `handle_queue`: walks `q` from its head and ends each request with
`__blk_end_request_all(q->data, q->ret)` before freeing the entry. The result lists the
entries in the order of these calls. -/
def handle_queue_end : List bio_queue → List bio_queue
  | [] => []
  | q :: next => q :: handle_queue_end next

/-- Model of `handle_queue` at clock reading `ktime` (`get_cur_ktime`): returns the queue
left in the device and the entries whose requests were ended, in call order. -/
def handle_queue (queue : List bio_queue) (ktime : Int) : List bio_queue × List bio_queue :=
  let (queue1, q) := handle_queue_drain ktime queue []
  (queue1, handle_queue_end q)

/-- Loop of `add_to_queue`: the number of entries the cursor `p` steps over, starting at
the sentinel `&brd->queue`; it stops in front of the first entry whose deadline is
strictly greater than that of `q`, or at the end of the chain. -/
def add_to_queue_loop (q : bio_queue) : List bio_queue → Nat
  | [] => 0
  | next :: rest => if next.ktime > q.ktime then 0 else add_to_queue_loop q rest + 1

/-- Model of `add_to_queue`: links `q` after the cursor (`q->next = p->next; p->next = q`)
and returns `brd->queue.next == q`, which holds exactly when the cursor is still the
sentinel, together with the new chain. -/
def add_to_queue (queue : List bio_queue) (q : bio_queue) : Int × List bio_queue :=
  let p := add_to_queue_loop q queue
  (if p = 0 then 1 else 0, queue.take p ++ q :: queue.drop p)

/-- The conversion of an `int64_t` argument to the `ulong` parameter `ns`. -/
def int64_as_ulong (x : Int) : Nat := (x % 2 ^ 64).toNat

/-- Model of `add_io_timer`: `kmalloc_ok` tells whether `kmalloc` returns an entry. The
deadline is `ktime_add_ns(uptime, ns)`. The call of `reset_timer` only re-arms the
timer and is omitted. Returns the C return value and the new chain. -/
def add_io_timer (queue : List bio_queue) (data : Nat) (uptime : Int) (ns : Nat) (ret : Int)
    (kmalloc_ok : Bool) : Int × List bio_queue :=
  if kmalloc_ok then
    let q : bio_queue := { data := data, ret := ret, ktime := uptime + (ns : Int) }
    (0, (add_to_queue queue q).2)
  else (-1, queue)

/-! ## Device state (brd.c) -/

/-- The parts of `struct brd_device` that the model follows: the radix tree `brd_pages`
as a map from page index to the bytes of the page stored there, the simulator `ssd`, and
the chain of pending completions hanging off `queue`. -/
structure brd_device where
  brd_pages : Nat → Option (List Nat)
  ssd : Ssd
  queue : List bio_queue

/-- Model of `brd_del_one` up to its drain step: `ssd_sim_free` and `hrtimer_cancel` do
not touch the queue, then `handle_queue` runs at clock reading `now`. Returns the device
as `del_gendisk` and `brd_free` find it, and the entries whose requests were ended. -/
def brd_del_one (brd : brd_device) (now : Int) : brd_device × List bio_queue :=
  let (queue1, ended) := handle_queue brd.queue now
  ({ brd with queue := queue1 }, ended)

/-! ## Backing store (brd.c)

The kernel constant `PAGE_SHIFT` is a parameter of the model. A page is the list of its
`PAGE_SIZE` bytes. A `const void *src` is the list of the bytes from the pointer on; a
destination in the caller's memory is the buffer together with an offset. -/

/-- The macro `SECTOR_SHIFT`. -/
def SECTOR_SHIFT : Nat := 9

/-- The kernel macro `PAGE_SIZE`, `1 << PAGE_SHIFT`. -/
def PAGE_SIZE (PAGE_SHIFT : Nat) : Nat := 1 <<< PAGE_SHIFT

/-- The macro `PAGE_SECTORS_SHIFT`, `PAGE_SHIFT - SECTOR_SHIFT`. -/
def PAGE_SECTORS_SHIFT (PAGE_SHIFT : Nat) : Nat := PAGE_SHIFT - SECTOR_SHIFT

/-- The macro `PAGE_SECTORS`, `1 << PAGE_SECTORS_SHIFT`. -/
def PAGE_SECTORS (PAGE_SHIFT : Nat) : Nat := 1 <<< PAGE_SECTORS_SHIFT PAGE_SHIFT

/-- The kernel constant `READ`. -/
def READ : Int := 0

/-- The kernel constant `WRITE`. -/
def WRITE : Int := 1

/-- The errno `ENOMEM`. -/
def ENOMEM : Int := 12

/-- The call `memcpy(dst + doff, src, n)`: `none` when a range leaves its array. -/
def memcpy (dst : List Nat) (doff : Nat) (src : List Nat) (n : Nat) : Option (List Nat) :=
  if doff + n ≤ dst.length ∧ n ≤ src.length then
    some (dst.take doff ++ src.take n ++ dst.drop (doff + n))
  else none

/-- The call `memset(dst + doff, c, n)`: `none` when the range leaves the array. -/
def memset (dst : List Nat) (doff : Nat) (c n : Nat) : Option (List Nat) :=
  if doff + n ≤ dst.length then
    some (dst.take doff ++ List.replicate n c ++ dst.drop (doff + n))
  else none

/-- Model of `brd_lookup_page`: the page stored at index `sector >> PAGE_SECTORS_SHIFT`,
if any. -/
def brd_lookup_page (PAGE_SHIFT : Nat) (brd : brd_device) (sector : Nat) :
    Option (List Nat) :=
  let idx := sector >>> PAGE_SECTORS_SHIFT PAGE_SHIFT
  brd.brd_pages idx

/-- Model of `brd_insert_page`: returns the page found, or a zeroed page (`__GFP_ZERO`)
inserted at the index of the sector; `alloc_ok` tells whether `alloc_page` and
`radix_tree_preload` succeed, and without them the function returns `NULL`. -/
def brd_insert_page (PAGE_SHIFT : Nat) (brd : brd_device) (sector : Nat) (alloc_ok : Bool) :
    Option (List Nat) × brd_device :=
  match brd_lookup_page PAGE_SHIFT brd sector with
  | some page => (some page, brd)
  | none =>
    if alloc_ok then
      let page := List.replicate (PAGE_SIZE PAGE_SHIFT) 0
      let idx := sector >>> PAGE_SECTORS_SHIFT PAGE_SHIFT
      (some page, { brd with brd_pages := Function.update brd.brd_pages idx (some page) })
    else (none, brd)

/-- Model of `brd_zero_page`: `clear_highpage` on the page of the sector, if present. -/
def brd_zero_page (PAGE_SHIFT : Nat) (brd : brd_device) (sector : Nat) : brd_device :=
  match brd_lookup_page PAGE_SHIFT brd sector with
  | some _ =>
    let idx := sector >>> PAGE_SECTORS_SHIFT PAGE_SHIFT
    let page := List.replicate (PAGE_SIZE PAGE_SHIFT) 0
    { brd with brd_pages := Function.update brd.brd_pages idx (some page) }
  | none => brd

/-- Model of `copy_to_brd_setup`; `alloc_ok idx` tells whether the allocation of the page
with index `idx` succeeds. Returns 0 or `-ENOMEM`, and the device. -/
def copy_to_brd_setup (PAGE_SHIFT : Nat) (brd : brd_device) (sector n : Nat)
    (alloc_ok : Nat → Bool) : Int × brd_device :=
  let offset := (sector &&& (PAGE_SECTORS PAGE_SHIFT - 1)) <<< SECTOR_SHIFT
  let copy := min n (PAGE_SIZE PAGE_SHIFT - offset)
  match brd_insert_page PAGE_SHIFT brd sector
      (alloc_ok (sector >>> PAGE_SECTORS_SHIFT PAGE_SHIFT)) with
  | (none, brd1) => (-ENOMEM, brd1)
  | (some _, brd1) =>
    if copy < n then
      let sector1 := sector + (copy >>> SECTOR_SHIFT)
      match brd_insert_page PAGE_SHIFT brd1 sector1
          (alloc_ok (sector1 >>> PAGE_SECTORS_SHIFT PAGE_SHIFT)) with
      | (none, brd2) => (-ENOMEM, brd2)
      | (some _, brd2) => (0, brd2)
    else (0, brd1)

/-- Model of `copy_to_brd`: `none` stands for `BUG_ON(!page)` or a copy that leaves the
source. -/
def copy_to_brd (PAGE_SHIFT : Nat) (brd : brd_device) (src : List Nat) (sector n : Nat) :
    Option brd_device := do
  let offset := (sector &&& (PAGE_SECTORS PAGE_SHIFT - 1)) <<< SECTOR_SHIFT
  let copy := min n (PAGE_SIZE PAGE_SHIFT - offset)
  let page ← brd_lookup_page PAGE_SHIFT brd sector
  let page1 ← memcpy page offset src copy
  let idx := sector >>> PAGE_SECTORS_SHIFT PAGE_SHIFT
  let brd1 : brd_device := { brd with brd_pages := Function.update brd.brd_pages idx (some page1) }
  if copy < n then
    let src1 := src.drop copy
    let sector1 := sector + (copy >>> SECTOR_SHIFT)
    let copy1 := n - copy
    let page2 ← brd_lookup_page PAGE_SHIFT brd1 sector1
    let page3 ← memcpy page2 0 src1 copy1
    let idx1 := sector1 >>> PAGE_SECTORS_SHIFT PAGE_SHIFT
    some { brd1 with brd_pages := Function.update brd1.brd_pages idx1 (some page3) }
  else some brd1

/-- Model of `copy_from_brd` into the buffer `dst` at offset `doff`: a missing page reads
as zero bytes. Returns the buffer. -/
def copy_from_brd (PAGE_SHIFT : Nat) (dst : List Nat) (doff : Nat) (brd : brd_device)
    (sector n : Nat) : Option (List Nat) := do
  let offset := (sector &&& (PAGE_SECTORS PAGE_SHIFT - 1)) <<< SECTOR_SHIFT
  let copy := min n (PAGE_SIZE PAGE_SHIFT - offset)
  let dst1 ←
    match brd_lookup_page PAGE_SHIFT brd sector with
    | some page => memcpy dst doff (page.drop offset) copy
    | none => memset dst doff 0 copy
  if copy < n then
    let doff1 := doff + copy
    let sector1 := sector + (copy >>> SECTOR_SHIFT)
    let copy1 := n - copy
    match brd_lookup_page PAGE_SHIFT brd sector1 with
    | some page => memcpy dst1 doff1 page copy1
    | none => memset dst1 doff1 0 copy1
  else some dst1

/-- The first loop of `brd_do_bvec`, `copy_to_brd_setup` for each sector; it stops at the
first error. -/
def brd_do_bvec_setup (PAGE_SHIFT : Nat) (sector : Nat) (alloc_ok : Nat → Bool) :
    Nat → Nat → brd_device → Int × brd_device
  | 0, _, brd => (0, brd)
  | n + 1, i, brd =>
    match copy_to_brd_setup PAGE_SHIFT brd (sector + i) 512 alloc_ok with
    | (err, brd1) =>
      if err ≠ 0 then (err, brd1)
      else brd_do_bvec_setup PAGE_SHIFT sector alloc_ok n (i + 1) brd1

/-- The read loop of `brd_do_bvec`: `copy_from_brd(mem + off + (i << 9), brd, sector + i,
512)` for each sector. -/
def brd_do_bvec_read (PAGE_SHIFT : Nat) (brd : brd_device) (off sector : Nat) :
    Nat → Nat → List Nat → Option (List Nat)
  | 0, _, mem => some mem
  | n + 1, i, mem => do
    let mem1 ← copy_from_brd PAGE_SHIFT mem (off + (i <<< 9)) brd (sector + i) 512
    brd_do_bvec_read PAGE_SHIFT brd off sector n (i + 1) mem1

/-- The write loop of `brd_do_bvec`: `copy_to_brd(brd, mem + off + (i << 9), sector + i,
512)` for each sector. -/
def brd_do_bvec_write (PAGE_SHIFT : Nat) (mem : List Nat) (off sector : Nat) :
    Nat → Nat → brd_device → Option brd_device
  | 0, _, brd => some brd
  | n + 1, i, brd => do
    let brd1 ← copy_to_brd PAGE_SHIFT brd (mem.drop (off + (i <<< 9))) (sector + i) 512
    brd_do_bvec_write PAGE_SHIFT mem off sector n (i + 1) brd1

/-- Model of `brd_do_bvec` (the build without `NO_PERSIST`) on the memory `mem` of the
bvec page. Returns `err`, the device and the memory. -/
def brd_do_bvec (PAGE_SHIFT : Nat) (brd : brd_device) (mem : List Nat) (len off : Nat)
    (rw : Int) (sector : Nat) (alloc_ok : Nat → Bool) :
    Option (Int × brd_device × List Nat) :=
  let nsec := len >>> 9
  let (err, brd1) :=
    if rw ≠ READ then brd_do_bvec_setup PAGE_SHIFT sector alloc_ok nsec 0 brd else (0, brd)
  if err ≠ 0 then some (err, brd1, mem)
  else if rw = READ then do
    let mem1 ← brd_do_bvec_read PAGE_SHIFT brd1 off sector nsec 0 mem
    some (err, brd1, mem1)
  else do
    let brd2 ← brd_do_bvec_write PAGE_SHIFT mem off sector nsec 0 brd1
    some (err, brd2, mem)

/-! ## Request handling (brd.c `do_request`, settings.h) -/

/-- The compile-time constants of `settings.h` that `do_request` uses. -/
structure Settings where
  FLASHPGSZBIT : Nat
  FLASHPG_NUM_BLOCK_SHIFT : Nat
  ENABLE_UPS : Bool
deriving DecidableEq, Repr

/-- The macro `FLASHPG_SECTOR`, `1<<(FLASHPGSZBIT-9)`. -/
def Settings.FLASHPG_SECTOR (st : Settings) : Nat := 1 <<< (st.FLASHPGSZBIT - 9)

/-- The macro `FLASHPGS_PER_BLOCK`, `1<<FLASHPG_NUM_BLOCK_SHIFT`. -/
def Settings.FLASHPGS_PER_BLOCK (st : Settings) : Nat := 1 <<< st.FLASHPG_NUM_BLOCK_SHIFT

/-- The macro `SSD_PAGE_SECS`. -/
def Settings.SSD_PAGE_SECS (st : Settings) : Nat := st.FLASHPG_SECTOR

/-- The macro `SSD_PAGE_OOBSECS`, `SSD_PAGE_SECS+1`. -/
def Settings.SSD_PAGE_OOBSECS (st : Settings) : Nat := st.SSD_PAGE_SECS + 1

/-- Model of `page_reserved`; the argument `ppn` is a `u32`. -/
def page_reserved (st : Settings) (_capacity : Nat) (ppn : Nat) : Bool :=
  st.ENABLE_UPS && decide (ppn % UINT_MOD < 1 <<< st.FLASHPG_NUM_BLOCK_SHIFT)

/-- The `for (i = 0; i < num; ++i)` loop of `do_request`, with `n` iterations left at
index `i` and the running `timeval`: a negative engine result sets `timeval = -1` and
leaves the loop, a result above `timeval` replaces it. -/
def do_request_loop (cfg : Config) (type : event_type) (logical_address unit size : Nat)
    (start_time : Int) : Nat → Nat → Ssd → Int → Option (Int × Ssd)
  | 0, _, ssd, timeval => some (timeval, ssd)
  | n + 1, i, ssd, timeval => do
    let (_tmp, ssd1) ← ssd_event_arrive cfg ssd type
      ((logical_address + (i * unit) % UINT_MOD) % 2 ^ 64) size start_time
    if _tmp < 0 then some (-1, ssd1)
    else
      let timeval1 := if _tmp > timeval then _tmp else timeval
      do_request_loop cfg type logical_address unit size start_time n (i + 1) ssd1 timeval1

/-- The part of `do_request` that asks the engine (from `page_reserved` to the end of the
loop): the value of `timeval` it leaves and the simulator state. -/
def do_request_engine (cfg : Config) (st : Settings) (sdk_capacity : Nat) (ssd : Ssd)
    (type : event_type) (logical_address size : Nat) (start_time : Int) :
    Option (Int × Ssd) :=
  if page_reserved st sdk_capacity logical_address then some (100, ssd)
  else
    let num := size >>> (st.FLASHPGSZBIT - 9)
    let num1 := if type = .SSD_ERASE then num >>> st.FLASHPG_NUM_BLOCK_SHIFT else num
    let unit := if type = .SSD_ERASE then st.FLASHPGS_PER_BLOCK else 1
    do_request_loop cfg type logical_address unit size start_time num1 0 ssd 0

/-- The last step before `add_io_timer`: `if (timeval < 0) { timeval = 100; ret = -2; }`.
Returns the pair `(timeval, ret)`. -/
def do_request_floor (timeval ret : Int) : Int × Int :=
  if timeval < 0 then (100, -2) else (timeval, ret)

/-- What `do_request` reads from the fetched `struct request`: its handle, `blk_rq_pos`,
`blk_rq_sectors`, and the bits `REQ_DISCARD` and `0x1` (write) of `req->bio->bi_rw`. -/
structure request where
  data : Nat
  pos : Nat
  sectors : Nat
  discard : Bool
  write : Bool
deriving DecidableEq, Repr

/-- The kind `do_request` gives the engine: ERASE for a discard, else WRITE when bit
`0x1` of `bi_rw` is set, else READ. -/
def do_request_type (req : request) : event_type :=
  if req.discard then .SSD_ERASE else if req.write then .SSD_WRITE else .SSD_READ

/-- The value `logical_address = block/SSD_PAGE_OOBSECS` of `do_request`, with
`unsigned int block = blk_rq_pos(req)`. -/
def do_request_logical_address (st : Settings) (req : request) : Nat :=
  (req.pos % UINT_MOD) / st.SSD_PAGE_OOBSECS

/-- The value `size` of `do_request`, with `unsigned int nsect = blk_rq_sectors(req)`. -/
def do_request_size (st : Settings) (req : request) : Nat :=
  let nsect := req.sectors % UINT_MOD
  if nsect % st.SSD_PAGE_OOBSECS = 0 then
    ((nsect * st.SSD_PAGE_SECS) % UINT_MOD) / st.SSD_PAGE_OOBSECS
  else nsect

/-- The timing part of `do_request` for a request that reaches the engine: the engine
calls and the floor. Returns the arguments `(timeval, ret)` that `add_io_timer` receives
and the simulator state. `ret` is the result of the payload loop and `uptime` the clock
reading `get_cur_ktime`, whose nanosecond value is the `start_time` of the calls. -/
def do_request_timeval (cfg : Config) (st : Settings) (sdk_capacity : Nat) (ssd : Ssd)
    (req : request) (ret : Int) (uptime : Int) : Option (Int × Int × Ssd) := do
  let start_time := uptime
  let (timeval, ssd1) ← do_request_engine cfg st sdk_capacity ssd (do_request_type req)
    (do_request_logical_address st req) (do_request_size st req) start_time
  let (timeval1, ret1) := do_request_floor timeval ret
  some (timeval1, ret1, ssd1)

/-- The errno `EIO`. -/
def EIO : Int := 5

/-- One pass of the `repeat:` loop of `do_request` for a fetched request `req`. `ret` is
the result of the payload loop over the bios of the request, `now` the clock reading
inside `handle_queue` and `uptime` the later reading `get_cur_ktime`. Returns the device
and the completions `(request, status)` made during the pass, in call order:
`blk_end_request(req, -EIO)` for a request outside the capacity, the requests ended by
`handle_queue`, and `blk_end_request(req, ret)` for a one-sector request or a failed
payload; every other request is handed to `add_io_timer`. -/
def do_request_one (cfg : Config) (st : Settings) (sdk_capacity : Nat) (brd : brd_device)
    (req : request) (ret : Int) (now uptime : Int) (kmalloc_ok : Bool) :
    Option (brd_device × List (Nat × Int)) :=
  let block := req.pos % UINT_MOD
  let nsect := req.sectors % UINT_MOD
  if block ≥ sdk_capacity ∨ (block + nsect) % UINT_MOD > sdk_capacity then
    some (brd, [(req.data, - EIO)])
  else
    let (queue1, ended) := handle_queue brd.queue now
    let done := ended.map (fun e => (e.data, e.ret))
    if nsect = 1 ∨ ret < 0 then
      some ({ brd with queue := queue1 }, done ++ [(req.data, ret)])
    else do
      let (timeval, ret1, ssd1) ← do_request_timeval cfg st sdk_capacity brd.ssd req ret uptime
      let (_, queue2) :=
        add_io_timer queue1 req.data uptime (int64_as_ulong timeval) ret1 kmalloc_ok
      some ({ brd with ssd := ssd1, queue := queue2 }, done)

/-- The values that the engine calls of the loop of `do_request` return, in call order
(the loop stops behind a negative one): `n` iterations left at index `i`. -/
def do_request_loop_results (cfg : Config) (type : event_type)
    (logical_address unit size : Nat) (start_time : Int) :
    Nat → Nat → Ssd → Option (List Int)
  | 0, _, _ => some []
  | n + 1, i, ssd => do
    let (_tmp, ssd1) ← ssd_event_arrive cfg ssd type
      ((logical_address + (i * unit) % UINT_MOD) % 2 ^ 64) size start_time
    if _tmp < 0 then some [_tmp]
    else
      let rest ← do_request_loop_results cfg type logical_address unit size start_time n
        (i + 1) ssd1
      some (_tmp :: rest)

/-- The values that the engine calls made for a request return, in call order; there is
no call for a reserved page. -/
def do_request_results (cfg : Config) (st : Settings) (sdk_capacity : Nat) (ssd : Ssd)
    (req : request) (uptime : Int) : Option (List Int) :=
  if page_reserved st sdk_capacity (do_request_logical_address st req) then some []
  else
    let num := do_request_size st req >>> (st.FLASHPGSZBIT - 9)
    let num1 :=
      if do_request_type req = .SSD_ERASE then num >>> st.FLASHPG_NUM_BLOCK_SHIFT else num
    let unit := if do_request_type req = .SSD_ERASE then st.FLASHPGS_PER_BLOCK else 1
    do_request_loop_results cfg (do_request_type req) (do_request_logical_address st req)
      unit (do_request_size st req) uptime num1 0 ssd

/-- The constants of the `FOR_JASMINE` branch of `settings.h`; `ENABLE_UPS` is not
defined. -/
def Settings.jasmine : Settings :=
  { FLASHPGSZBIT := 12, FLASHPG_NUM_BLOCK_SHIFT := 6, ENABLE_UPS := false }

/-! ## Structural invariants and observers used by the theorems -/

/-- What `ssd_channel_init` and `ssd_channel_connect` establish and every later call
keeps: the conditions that `ssd_channel_lock` asserts, and a scheduling table with a
slot 0. -/
def Channel.wf (c : Channel) : Prop :=
  c.num_connected ≤ c.max_connections ∧ 0 ≤ c.ctrl_delay ∧ 0 ≤ c.data_delay ∧
  0 < c.lock_time.length ∧ 0 < c.unlock_time.length

/-- A block built by `ssd_block_init` holds `SSD_BLOCK_SIZE` pages. -/
def Block.wf (cfg : Config) (b : Block) : Prop :=
  b.data.length = cfg.SSD_BLOCK_SIZE

/-- A plane built by `ssd_plane_init` holds `PLANE_SIZE` well-formed blocks. -/
def Plane.wf (cfg : Config) (p : Plane) : Prop :=
  p.data.length = cfg.PLANE_SIZE ∧ ∀ b ∈ p.data, b.wf cfg

/-- A die built by `ssd_die_init` holds `DIE_SIZE` well-formed planes. -/
def Die.wf (cfg : Config) (d : Die) : Prop :=
  d.size = cfg.DIE_SIZE ∧ d.data.length = d.size ∧ ∀ p ∈ d.data, p.wf cfg

/-- A package built by `ssd_package_init` holds `PACKAGE_SIZE` well-formed dies. -/
def Package.wf (cfg : Config) (k : Package) : Prop :=
  k.size = cfg.PACKAGE_SIZE ∧ k.data.length = k.size ∧ ∀ d ∈ k.data, d.wf cfg

/-- A device built by `ssd_sim_new(SSD_SIZE)`: `SSD_SIZE` well-formed packages and a bus
of `SSD_SIZE` well-formed channels. -/
def Ssd.wf (cfg : Config) (s : Ssd) : Prop :=
  s.size = cfg.SSD_SIZE ∧ s.data.length = s.size ∧ (∀ k ∈ s.data, k.wf cfg) ∧
  s.bus.num_channels = s.size ∧ s.bus.channels.length = s.bus.num_channels ∧
  ∀ c ∈ s.bus.channels, c.wf

/-- State of page `page` of a block, if the block has such a page. -/
def Block.page_state_at (b : Block) (page : Nat) : Option page_state :=
  (b.data[page]?).map Page.state

/-- Block `block` of plane `plane` of die `die` of a package. -/
def Package.block_at (k : Package) (die plane block : Nat) : Option Block := do
  let d ← k.data[die]?
  let p ← d.data[plane]?
  p.data[block]?

/-- State of the page at `(die, plane, block, page)` of a package. -/
def Package.page_state_at (k : Package) (die plane block page : Nat) : Option page_state := do
  let b ← k.block_at die plane block
  b.page_state_at page

/-- State of the page that an address names in the device. -/
def Ssd.page_state_at (s : Ssd) (a : Address) : Option page_state := do
  let k ← s.data[a.package]?
  k.page_state_at a.die a.plane a.block a.page

/-- The hardware delay `D` of a request kind: `PAGE_READ_DELAY`, `PAGE_WRITE_DELAY` or
`BLOCK_ERASE_DELAY`. -/
def kind_delay (cfg : Config) : event_type → Int
  | .SSD_READ => cfg.PAGE_READ_DELAY
  | .SSD_WRITE => cfg.PAGE_WRITE_DELAY
  | .SSD_ERASE => cfg.BLOCK_ERASE_DELAY
  | .SSD_MERGE => 0

/-- The shipped values of `ssd_config.c` with the `FOR_JASMINE` constants of
`settings.h` (`SSD_SIZE_X = 128`, `FLASHPGS_PER_BLOCK = 64`, `BANK_GROUP_BIT = 2`), which
make `PLANE_SIZE = (4 * 128) * 16 / 64 = 128`. -/
def Config.shipped : Config :=
  { RAM_READ_DELAY := 10, RAM_WRITE_DELAY := 10, BUS_CTRL_DELAY := 5, BUS_DATA_DELAY := 10,
    BUS_MAX_CONNECT := 8, BUS_TABLE_SIZE := 64, SSD_SIZE := 16, PACKAGE_SIZE := 4,
    DIE_SIZE := 2, PLANE_SIZE := 128, PLANE_REG_READ_DELAY := 0, PLANE_REG_WRITE_DELAY := 0,
    SSD_BLOCK_SIZE := 64, BLOCK_ERASES := 1048675, BLOCK_ERASE_DELAY := 150000,
    PAGE_READ_DELAY := 5000, PAGE_WRITE_DELAY := 20000, BANK_GROUP_BIT := 2 }

/-- A small geometry with the shipped delays, used to run the model on concrete inputs:
4 packages of 1 die of 1 plane of 2 blocks of 4 pages, 2-slot channel tables. -/
def Config.small : Config :=
  { Config.shipped with SSD_SIZE := 4, PACKAGE_SIZE := 1, DIE_SIZE := 1, PLANE_SIZE := 2,
                        SSD_BLOCK_SIZE := 4, BUS_TABLE_SIZE := 2 }

/-- The fresh device of the small geometry, as `ssd_sim_new` builds it. -/
def Ssd.small : Ssd :=
  (ssd_sim_new Config.small Config.small.SSD_SIZE).getD
    { size := 0, bus := { num_channels := 0, channels := [] }, data := [],
      erases_remaining := 0, least_worn := 0, last_erase_time := 0 }

/-- Decidability of `Block.wf`, to check concrete devices. -/
instance Block.wf_decidable (cfg : Config) (b : Block) : Decidable (b.wf cfg) :=
  inferInstanceAs (Decidable (b.data.length = cfg.SSD_BLOCK_SIZE))

/-- Decidability of `Plane.wf`. -/
instance Plane.wf_decidable (cfg : Config) (p : Plane) : Decidable (p.wf cfg) :=
  inferInstanceAs (Decidable (p.data.length = cfg.PLANE_SIZE ∧ ∀ b ∈ p.data, b.wf cfg))

/-- Decidability of `Die.wf`. -/
instance Die.wf_decidable (cfg : Config) (d : Die) : Decidable (d.wf cfg) :=
  inferInstanceAs (Decidable (d.size = cfg.DIE_SIZE ∧ d.data.length = d.size ∧
    ∀ p ∈ d.data, p.wf cfg))

/-- Decidability of `Package.wf`. -/
instance Package.wf_decidable (cfg : Config) (k : Package) : Decidable (k.wf cfg) :=
  inferInstanceAs (Decidable (k.size = cfg.PACKAGE_SIZE ∧ k.data.length = k.size ∧
    ∀ d ∈ k.data, d.wf cfg))

/-- Decidability of `Channel.wf`. -/
instance Channel.wf_decidable (c : Channel) : Decidable c.wf :=
  inferInstanceAs (Decidable (c.num_connected ≤ c.max_connections ∧ 0 ≤ c.ctrl_delay ∧
    0 ≤ c.data_delay ∧ 0 < c.lock_time.length ∧ 0 < c.unlock_time.length))

/-- Decidability of `Ssd.wf`. -/
instance Ssd.wf_decidable (cfg : Config) (s : Ssd) : Decidable (s.wf cfg) :=
  inferInstanceAs (Decidable (s.size = cfg.SSD_SIZE ∧ s.data.length = s.size ∧
    (∀ k ∈ s.data, k.wf cfg) ∧ s.bus.num_channels = s.size ∧
    s.bus.channels.length = s.bus.num_channels ∧ ∀ c ∈ s.bus.channels, c.wf))

/-- The small device after `ssd_event_arrive(WRITE, 0, 1, 1)`: page 0 of block 0 of
package 0 is VALID and channel 0 is locked over `[1, 20016)`. -/
def Ssd.small_written : Ssd :=
  ((ssd_event_arrive Config.small Ssd.small .SSD_WRITE 0 1 1).map Prod.snd).getD Ssd.small

/-- The device `Ssd.small_written` after a further `ssd_event_arrive(WRITE, 4, 1, 1)`. -/
def Ssd.small_written_twice : Ssd :=
  ((ssd_event_arrive Config.small Ssd.small_written .SSD_WRITE 4 1 1).map Prod.snd).getD
    Ssd.small

/-- An event as `ssd_event_arrive` hands it to the topology: submitted at time `t` for
address `a`, with the bus delays `5 + 10` already accumulated. -/
def Event.sample (type : event_type) (a : Address) (t : Int) : Event :=
  { start_time := t, time_taken := 15, bus_wait_time := 0, type := type, logical_address := 0,
    address := a, merge_address := Address.zero, size := 1 }

/-- The address `(0, 0, 0, 0, 0)` with validity PAGE, which logical page 0 decodes to. -/
def Address.first : Address :=
  { package := 0, die := 0, plane := 0, block := 0, page := 0, valid := .PAGE }

/-- The address of page 3 of block 0 of package 5. -/
def Address.sample : Address :=
  { package := 5, die := 0, plane := 0, block := 0, page := 3, valid := .PAGE }

/-- A channel whose slot 0 holds the interval `[3, 20)`. -/
def Channel.busy : Channel :=
  { table_size := 2, lock_time := [3, -1], unlock_time := [20, -1], table_entries := 0,
    selected_entry := 0, num_connected := 1, max_connections := 8, ctrl_delay := 5,
    data_delay := 10 }

/-- Ascending-deadline order of a chain of pending completions. -/
def queue_sorted (queue : List bio_queue) : Prop :=
  queue.Pairwise (fun a b => a.ktime ≤ b.ktime)

/-- Decidability of `queue_sorted`. -/
instance queue_sorted_decidable (queue : List bio_queue) : Decidable (queue_sorted queue) :=
  inferInstanceAs (Decidable (queue.Pairwise (fun (a b : bio_queue) => a.ktime ≤ b.ktime)))

/-- Request A of the ordering scenario: deadline 100 us. -/
def bio_queue.A : bio_queue := { ret := 0, data := 1, ktime := 100000 }

/-- Request B of the ordering scenario: deadline 50 us. -/
def bio_queue.B : bio_queue := { ret := 0, data := 2, ktime := 50000 }

/-- A third request with the deadline of B, 50 us. -/
def bio_queue.C : bio_queue := { ret := 0, data := 3, ktime := 50000 }

/-- The default configuration as the spec states it (`SSD_SIZE = 16`, `PACKAGE_SIZE = 4`,
`DIE_SIZE = 2`, `PLANE_SIZE = 1`, `BLOCK_SIZE = 64`, delays 5000 / 20000 / 150000 / 5 /
10), with bank-group width `b`; the other values are the shipped ones. -/
def Config.spec_default (b : Nat) : Config :=
  { Config.shipped with PLANE_SIZE := 1, BANK_GROUP_BIT := b }

/-- The fresh device of the spec's default configuration, as `ssd_sim_new` builds it. -/
def Ssd.spec_fresh (b : Nat) : Ssd :=
  (ssd_sim_new (Config.spec_default b) (Config.spec_default b).SSD_SIZE).getD Ssd.small

/-- The device `Ssd.spec_fresh` after `ssd_event_arrive(WRITE, 0, 1, 1)`. -/
def Ssd.spec_written (b : Nat) : Ssd :=
  ((ssd_event_arrive (Config.spec_default b) (Ssd.spec_fresh b) .SSD_WRITE 0 1 1).map
    Prod.snd).getD Ssd.small

/-- The fresh device of the shipped configuration. -/
def Ssd.shipped_fresh : Ssd :=
  (ssd_sim_new Config.shipped Config.shipped.SSD_SIZE).getD Ssd.small

/-- The device `Ssd.shipped_fresh` after `ssd_event_arrive(WRITE, 64, 1, 1)`, a write to
page 0 of block 1. -/
def Ssd.shipped_written : Ssd :=
  ((ssd_event_arrive Config.shipped Ssd.shipped_fresh .SSD_WRITE 64 1 1).map
    Prod.snd).getD Ssd.small

/-- The device `Ssd.shipped_written` after `ssd_event_arrive(ERASE, 64, 1, 20016)`. -/
def Ssd.shipped_erased : Ssd :=
  ((ssd_event_arrive Config.shipped Ssd.shipped_written .SSD_ERASE 64 1 20016).map
    Prod.snd).getD Ssd.small

/-- The plane that an address names in the device. -/
def Ssd.plane_at (s : Ssd) (a : Address) : Option Plane := do
  let k ← s.data[a.package]?
  let d ← k.data[a.die]?
  d.data[a.plane]?

/-- The block that an address names in the device. -/
def Ssd.block_at (s : Ssd) (a : Address) : Option Block := do
  let p ← s.plane_at a
  p.data[a.block]?

/-- The address `(0, 0, 0, 0, 1)`, page 1 of the first block. -/
def Address.second : Address :=
  { package := 0, die := 0, plane := 0, block := 0, page := 1, valid := .PAGE }

/-- The address `(0, 0, 0, 1, 0)`, page 0 of block 1 of the first plane. -/
def Address.block1 : Address :=
  { package := 0, die := 0, plane := 0, block := 1, page := 0, valid := .PAGE }

/-- The bus wait that `ssd_bus_lock` charges `event` when it asks for channel `channel`
for `duration` at its submission time: the growth of `bus_wait_time` over the call. -/
def Ssd.bus_wait (s : Ssd) (channel : Nat) (event : Event) (duration : Int) : Option Int := do
  let (_, _, event1) ← ssd_bus_lock s.bus channel event.start_time duration event
  some (event1.bus_wait_time - event.bus_wait_time)

/-- A write request of 16 sectors at sector 0: two flash pages. -/
def request.two_pages : request :=
  { data := 7, pos := 0, sectors := 16, discard := false, write := true }

/-- A read request of 2 sectors at sector 0, less than one flash page. -/
def request.two_sectors : request :=
  { data := 8, pos := 0, sectors := 2, discard := false, write := false }

/-- A write request of 8 sectors at sector 0: one flash page. -/
def request.one_page : request :=
  { data := 9, pos := 0, sectors := 8, discard := false, write := true }

/-- A device with an empty backing store, the fresh simulator of the default
configuration and the pending completions B, A. -/
def brd_device.sample : brd_device :=
  { brd_pages := fun _ => none, ssd := Ssd.spec_fresh 0, queue := [bio_queue.B, bio_queue.A] }

/-- Every stored page holds `PAGE_SIZE` bytes, as every `struct page` does. -/
def brd_device.pages_wf (PAGE_SHIFT : Nat) (brd : brd_device) : Prop :=
  ∀ idx page, brd.brd_pages idx = some page → page.length = PAGE_SIZE PAGE_SHIFT

/-- The 512 bytes the store holds for sector `k`: the part of its page, or zero bytes
when the page is missing. -/
def brd_device.sector_bytes (PAGE_SHIFT : Nat) (brd : brd_device) (k : Nat) : List Nat :=
  match brd.brd_pages (k / 2 ^ (PAGE_SHIFT - 9)) with
  | some page => (page.drop (k % 2 ^ (PAGE_SHIFT - 9) * 512)).take 512
  | none => List.replicate 512 0

/-- Harness for a history of writes: each `(sector, buffer)` is one `brd_do_bvec` call
with `rw = WRITE` on the whole buffer, whatever error code it returns. -/
def brd_write_all (PAGE_SHIFT : Nat) (alloc_ok : Nat → Bool) :
    brd_device → List (Nat × List Nat) → Option brd_device
  | brd, [] => some brd
  | brd, (sector, B) :: rest =>
    match brd_do_bvec PAGE_SHIFT brd B B.length 0 WRITE sector alloc_ok with
    | some (_, brd1, _) => brd_write_all PAGE_SHIFT alloc_ok brd1 rest
    | none => none

/-- A device with an empty backing store, as `INIT_RADIX_TREE` leaves it. -/
def brd_device.empty : brd_device := { brd_device.sample with queue := [] }

/-- An allocator that never fails. -/
def alloc_always : Nat → Bool := fun _ => true

/-- One step of a device history: a call of `ssd_event_arrive`, or a merge handed to
package `package` through `ssd_package_merge` (the engine has no entry point of its own for
a merge). -/
inductive engine_op where
  | arrive (type : event_type) (logical_address size : Nat) (start_time : Int)
  | merge (package : Nat) (event : Event)
deriving DecidableEq, Repr

/-- The device after one step, whatever status the call returns. -/
def Ssd.step (cfg : Config) (s : Ssd) : engine_op → Option Ssd
  | .arrive type logical_address size start_time =>
    (ssd_event_arrive cfg s type logical_address size start_time).map Prod.snd
  | .merge package event => do
    let k ← s.data[package]?
    let (_, k', _) ← ssd_package_merge cfg k event
    some { s with data := s.data.set package k' }

/-- The device after a history of steps. -/
def Ssd.run (cfg : Config) : Ssd → List engine_op → Option Ssd
  | s, [] => some s
  | s, op :: rest => do
    let s1 ← Ssd.step cfg s op
    Ssd.run cfg s1 rest

/-- Whether a step is a call of `ssd_event_arrive`, not a merge. -/
def engine_op.is_arrive : engine_op → Bool
  | .arrive _ _ _ _ => true
  | .merge _ _ => false

/-- The writes of logical pages `0 .. n-1`, each submitted at time 0. -/
def write_pages (n : Nat) : List engine_op :=
  (List.range n).map (fun i => engine_op.arrive .SSD_WRITE i 1 0)

/-- Number of blocks of a plane whose state is FREE. -/
def Plane.count_free (p : Plane) : Nat :=
  p.data.countP (fun b => decide (b.state = .FREE))

/-- Number of pages of a block in state `st`. -/
def Block.count_state (b : Block) (st : page_state) : Nat :=
  b.data.countP (fun pg => decide (pg.state = st))

/-- Number of EMPTY pages of a plane. -/
def Plane.count_empty (p : Plane) : Nat :=
  (p.data.map (fun b => b.count_state .EMPTY)).sum

/-- The small configuration with a negative `BUS_CTRL_DELAY`, as `load_config` may read it
from `ssd.conf`. -/
def Config.negative_ctrl : Config := { Config.small with BUS_CTRL_DELAY := -5 }

/-- The small configuration with `BUS_CTRL_DELAY = 0`. -/
def Config.zero_ctrl : Config := { Config.small with BUS_CTRL_DELAY := 0 }

/-- A merge event submitted at time 1 that moves the block of `a` into the block of `m`. -/
def Event.merge_sample (a m : Address) : Event :=
  { start_time := 1, time_taken := 0, bus_wait_time := 0, type := .SSD_MERGE,
    logical_address := 0, address := a, merge_address := m, size := 1 }

/-- The first plane of the small device after the writes of logical pages 0, 1, 2 (block 0)
and 4, 5, 6 (block 1): each block holds three VALID pages and one EMPTY page. -/
def Plane.merge_sample : Plane :=
  ((Ssd.run Config.small Ssd.small
      ([0, 1, 2, 4, 5, 6].map (fun i => engine_op.arrive .SSD_WRITE i 1 0))).bind
    (fun s => s.plane_at Address.first)).getD (ssd_plane_init Config.small)

/-- The addresses `a` and `b` match up to depth `D`: their first `D` fields, in the order
package, die, plane, block, page, are equal and both validities are at least `D`. -/
def Address.match_upto (a b : Address) (D : address_valid) : Prop :=
  D.toNat ≤ a.valid.toNat ∧ D.toNat ≤ b.valid.toNat ∧
  (address_valid.PACKAGE.toNat ≤ D.toNat → a.package = b.package) ∧
  (address_valid.DIE.toNat ≤ D.toNat → a.die = b.die) ∧
  (address_valid.PLANE.toNat ≤ D.toNat → a.plane = b.plane) ∧
  (address_valid.BLOCK.toNat ≤ D.toNat → a.block = b.block) ∧
  (address_valid.PAGE.toNat ≤ D.toNat → a.page = b.page)

/-- The event as `ssd_event_arrive` hands it to the package: built by `ssd_event_init`,
given the decoded address `a`, with `BUS_CTRL_DELAY + BUS_DATA_DELAY` already added. -/
def Event.arrived (cfg : Config) (type : event_type) (logical_address size : Nat)
    (start_time : Int) (a : Address) : Event :=
  ssd_event_incr_time_taken
    { start_time := start_time, time_taken := 0, bus_wait_time := 0, type := type,
      logical_address := logical_address, address := a, merge_address := Address.zero,
      size := size }
    (cfg.BUS_CTRL_DELAY + cfg.BUS_DATA_DELAY)
/-- The device `Ssd.small_written` after `ssd_event_arrive(ERASE, 0, 1, 1)`, an erase that
has to wait for the bus. -/
def Ssd.small_erased : Ssd :=
  ((ssd_event_arrive Config.small Ssd.small_written .SSD_ERASE 0 1 1).map Prod.snd).getD
    Ssd.small
/-- The counters of a block agree with its pages: the block holds `SSD_BLOCK_SIZE` pages,
`pages_valid` counts the pages that are not EMPTY (an invalidated page stays counted),
`pages_invalid` counts the INVALID pages, and the state is the one these counters give. -/
def Block.counters_ok (cfg : Config) (b : Block) : Prop :=
  b.data.length = cfg.SSD_BLOCK_SIZE ∧
  b.pages_valid = b.data.countP (fun pg => decide (pg.state ≠ .EMPTY)) ∧
  b.pages_invalid = b.count_state .INVALID ∧
  b.state = (if cfg.SSD_BLOCK_SIZE ≤ b.pages_invalid then .INACTIVE
    else if b.pages_valid = 0 ∧ b.pages_invalid = 0 then .FREE else .ACTIVE)

/-- Every block of the device satisfies `P`. -/
def Ssd.all_blocks (P : Block → Prop) (s : Ssd) : Prop :=
  ∀ k ∈ s.data, ∀ d ∈ k.data, ∀ p ∈ d.data, ∀ b ∈ p.data, P b

/-- The property `P` of blocks survives every `ssd_block_write` and `ssd_block_erase`. -/
def Block.closed_under_arrive (cfg : Config) (P : Block → Prop) : Prop :=
  (∀ (b b' : Block) (ev ev' : Event) (r : status),
    P b → ssd_block_write cfg b ev = some (r, b', ev') → P b') ∧
  (∀ (b b' : Block) (ev ev' : Event) (r : status),
    P b → ssd_block_erase cfg b ev = some (r, b', ev') → P b')

/-- The property `P` of blocks survives every `ssd_block_write` and every
`ssd_block_invalidate_page` of a page that `ssd_block_get_state2` reports VALID, the two
changes a merge makes. -/
def Block.closed_under_merge (cfg : Config) (P : Block → Prop) : Prop :=
  (∀ (b b' : Block) (ev ev' : Event) (r : status),
    P b → ssd_block_write cfg b ev = some (r, b', ev') → P b') ∧
  (∀ (b b' : Block) (page : Nat), P b → ssd_block_get_state2 cfg b page = some .VALID →
    ssd_block_invalidate_page cfg b page = some b' → P b')
/-- A short history on the small device: logical page 1 is written, then block 0 of
package 0 is merged into itself, which moves the page to page 0 and invalidates page 1. -/
def engine_op.sample_history : List engine_op :=
  [engine_op.arrive .SSD_WRITE 1 1 0,
   engine_op.merge 0 (Event.merge_sample Address.first Address.first)]

/-- The small device after `engine_op.sample_history`. -/
def Ssd.small_merged : Ssd :=
  (Ssd.run Config.small Ssd.small engine_op.sample_history).getD Ssd.small

/-- Block 0 of the small device after `engine_op.sample_history`: pages VALID, INVALID,
EMPTY, EMPTY, with `pages_valid = 2` and `pages_invalid = 1`. -/
def Block.sample_merged : Block :=
  (Ssd.small_merged.block_at Address.first).getD (ssd_block_init Config.small)

/-! ## Page numbers, discard and histories of arrivals -/

/-- The page number `ppn` that `ssd_event_print` computes from an address, in `uint`
arithmetic: every product and sum wraps at `2^32`. -/
def ssd_event_print_ppn (cfg : Config) (a : Address) : Nat :=
  let x1 := (a.package * cfg.PACKAGE_SIZE) % UINT_MOD
  let x2 := (x1 + a.die) % UINT_MOD
  let x3 := (x2 * cfg.DIE_SIZE) % UINT_MOD
  let x4 := (x3 + a.plane) % UINT_MOD
  let x5 := (x4 * cfg.PLANE_SIZE) % UINT_MOD
  let x6 := (x5 + a.block) % UINT_MOD
  let x7 := (x6 * cfg.SSD_BLOCK_SIZE) % UINT_MOD
  (x7 + a.page) % UINT_MOD

/-- The loop of `discard_from_brd`, `while (n >= PAGE_SIZE)`; the first argument counts the
iterations left. -/
def discard_from_brd_loop (PAGE_SHIFT : Nat) : Nat → brd_device → Nat → Nat → brd_device
  | 0, brd, _, _ => brd
  | fuel + 1, brd, sector, n =>
    if PAGE_SIZE PAGE_SHIFT ≤ n then
      discard_from_brd_loop PAGE_SHIFT fuel (brd_zero_page PAGE_SHIFT brd sector)
        (sector + (PAGE_SIZE PAGE_SHIFT >>> SECTOR_SHIFT)) (n - PAGE_SIZE PAGE_SHIFT)
    else brd

/-- Model of `discard_from_brd` (the branch `if (0) brd_free_page` is dead): every pass of
the loop takes `PAGE_SIZE >= 1` off `n`, so `n` passes are enough. -/
def discard_from_brd (PAGE_SHIFT : Nat) (brd : brd_device) (sector n : Nat) : brd_device :=
  discard_from_brd_loop PAGE_SHIFT n brd sector n

/-- A configuration whose page count `65536 * 65536 * 1 * 1 * 2 = 2^33` does not fit a
`uint`: 65536 packages of 65536 dies of one plane of one block of two pages. -/
def Config.wide : Config :=
  { Config.shipped with SSD_SIZE := 65536, PACKAGE_SIZE := 65536, DIE_SIZE := 1,
                        PLANE_SIZE := 1, SSD_BLOCK_SIZE := 2 }

/-- The plane with its `next_page` cursor blanked: what is left is the blocks with their
pages and counters, `free_blocks` and the wear fields. -/
def Plane.clear_cursor (p : Plane) : Plane := { p with next_page := Address.zero }

/-- The die with the cursors of its planes blanked. -/
def Die.clear_cursor (d : Die) : Die := { d with data := d.data.map Plane.clear_cursor }

/-- The package with the cursors of its planes blanked. -/
def Package.clear_cursor (k : Package) : Package :=
  { k with data := k.data.map Die.clear_cursor }

/-- The device with the cursors of its planes blanked: the bus with its lock tables and
the whole topology apart from the `next_page` cursors. -/
def Ssd.clear_cursor (s : Ssd) : Ssd := { s with data := s.data.map Package.clear_cursor }

/-- What holds of a block as long as no page is invalidated: the block holds
`SSD_BLOCK_SIZE` pages, none of them INVALID, `pages_invalid` is 0 and `pages_valid` counts
the VALID pages. -/
def Block.arrive_ok (cfg : Config) (b : Block) : Prop :=
  b.data.length = cfg.SSD_BLOCK_SIZE ∧ (∀ pg ∈ b.data, pg.state ≠ .INVALID) ∧
  b.pages_invalid = 0 ∧ b.pages_valid = b.count_state .VALID

/-- A history of `ssd_event_arrive` calls on the small device: writes of logical pages 0,
1 and 4, a read of page 1, an erase of block 1 and a write of page 5. -/
def engine_op.arrive_history : List engine_op :=
  [engine_op.arrive .SSD_WRITE 0 1 0, engine_op.arrive .SSD_WRITE 1 1 0,
   engine_op.arrive .SSD_WRITE 4 1 0, engine_op.arrive .SSD_READ 1 1 0,
   engine_op.arrive .SSD_ERASE 4 1 0, engine_op.arrive .SSD_WRITE 5 1 0]

/-- The small device after `engine_op.arrive_history`. -/
def Ssd.small_arrived : Ssd :=
  (Ssd.run Config.small Ssd.small engine_op.arrive_history).getD Ssd.small

/-- Block 0 of the small device after `engine_op.arrive_history`: pages VALID, VALID,
EMPTY, EMPTY. -/
def Block.sample_arrived : Block :=
  (Ssd.small_arrived.block_at Address.first).getD (ssd_block_init Config.small)

/-- A block of four pages whose page 0 is VALID, with `pages_valid = 1`, as a write of
page 0 leaves a fresh block of the small geometry. -/
def Block.one_valid : Block :=
  { data := [{ state := .VALID }, { state := .EMPTY }, { state := .EMPTY },
      { state := .EMPTY }],
    pages_valid := 1, pages_invalid := 0, state := .ACTIVE, last_erase_time := 0 }

/-- The small device after the write of logical page 0 only: block 0 holds the pages VALID,
EMPTY, EMPTY, EMPTY. -/
def Plane.one_written : Plane :=
  ((Ssd.run Config.small Ssd.small (write_pages 1)).bind
    (fun s => s.plane_at Address.first)).getD (ssd_plane_init Config.small)

/-- A backing store whose page 0 holds 4096 bytes of value 7 and which holds no other
page. -/
def brd_device.one_page : brd_device :=
  { brd_device.empty with
    brd_pages := fun idx => if idx = 0 then some (List.replicate 4096 7) else none }

/-! # Theorems -/

/-! ## Lemmas -/

/-- An `assert` whose condition holds lets the run continue. -/
theorem assert_true {c : Prop} [Decidable c] (h : c) : assert c = some () := by
  simp [assert, h]

/-- A sum inside the `int64` range is stored as it is. -/
theorem wrap_int64_of_fits (x : Int) (h0 : 0 ≤ x) (h1 : x ≤ INT64_MAX) : wrap_int64 x = x := by
  unfold wrap_int64
  unfold INT64_MAX at h1
  omega

/-- Closed form of `ssd_channel_lock` on a channel that passes its asserts: the granted
start is `max (channel_cur c) now`, and the unlock time is the `int64` sum. -/
theorem ssd_channel_lock_eq (c : Channel) (now dur : Int) (ev : Event)
    (hwf : c.wf) (hnow : 0 ≤ now) (hdur : 0 ≤ dur) :
    ssd_channel_lock c now dur ev =
      some (.SUCCESS,
        { c with lock_time := c.lock_time.set 0 (max (channel_cur c) now),
                 unlock_time :=
                   c.unlock_time.set 0 (wrap_int64 (max (channel_cur c) now + dur)) },
        { ev with bus_wait_time := ev.bus_wait_time + (max (channel_cur c) now - now),
                  time_taken := ev.time_taken + (max (channel_cur c) now - now) }) := by
  obtain ⟨h1, h2, h3, h4, h5⟩ := hwf
  rcases c with ⟨ts, lk, ul, te, se, nc, mc, cd, dd⟩
  cases lk with
  | nil => simp at h4
  | cons l0 lt =>
  cases ul with
  | nil => simp at h5
  | cons u0 ut =>
  simp only at h1 h2 h3
  unfold ssd_channel_lock channel_cur
  simp only [assert_true h1, assert_true h2, assert_true h3, assert_true hnow, assert_true hdur]
  by_cases hf : l0 = BUS_CHANNEL_FREE_FLAG
  · simp [hf, ssd_event_incr_bus_wait_time, ssd_event_incr_time_taken, max_eq_right hnow]
  · by_cases hlt : u0 < now
    · simp [hf, hlt, ssd_event_incr_bus_wait_time, ssd_event_incr_time_taken,
        max_eq_right (le_of_lt hlt)]
    · have hle : now ≤ u0 := not_lt.mp hlt
      rcases eq_or_lt_of_le hle with heq | hlt2
      · subst heq
        simp [hf, ssd_event_incr_bus_wait_time, ssd_event_incr_time_taken]
      · simp [hf, hlt, hlt2, ssd_event_incr_bus_wait_time, ssd_event_incr_time_taken,
          max_eq_left hle]

/-- Reading slot 0 after a store into slot 0 of a non-empty table. -/
theorem list_set_zero_get {α : Type} (l : List α) (x : α) (h : 0 < l.length) :
    (l.set 0 x)[0]? = some x := by
  cases l with
  | nil => simp at h
  | cons a t => simp

/-- The channel left by a granted lock. -/
theorem channel_after_lock (c : Channel) (s e : Int) (hwf : c.wf) (hs : 0 ≤ s) :
    let c' : Channel :=
      { c with lock_time := c.lock_time.set 0 s, unlock_time := c.unlock_time.set 0 e }
    c'.wf ∧ c'.lock_time[0]? = some s ∧ c'.unlock_time[0]? = some e ∧ channel_cur c' = e := by
  obtain ⟨h1, h2, h3, h4, h5⟩ := hwf
  have hs' : s ≠ BUS_CHANNEL_FREE_FLAG := by
    unfold BUS_CHANNEL_FREE_FLAG; omega
  refine ⟨⟨h1, h2, h3, by simpa using h4, by simpa using h5⟩,
    list_set_zero_get _ _ h4, list_set_zero_get _ _ h5, ?_⟩
  unfold channel_cur
  simp only [list_set_zero_get _ _ h4, list_set_zero_get _ _ h5]
  simp [hs']

/-- The granted intervals of a request sequence none of whose interval ends leaves the
`int64` range, stated for every starting channel so that the induction goes through: each
starts at or after the unlock cursor of the starting channel, and the intervals are
pairwise ordered. -/
theorem channel_lock_trace_spec (reqs : List (Int × Int × Event)) :
    ∀ c : Channel, c.wf → (∀ r ∈ reqs, 0 ≤ r.1 ∧ 0 ≤ r.2.1) →
    (∀ e ∈ channel_lock_ends (channel_cur c) reqs, e ≤ INT64_MAX) →
    ∃ tr, channel_lock_trace c reqs = some tr ∧
      List.Forall₂ (fun r p => r.1 ≤ p.1 ∧ p.2 = p.1 + r.2.1) reqs tr ∧
      (∀ p ∈ tr, channel_cur c ≤ p.1 ∧ p.1 ≤ p.2) ∧
      List.Pairwise (fun p q => p.2 ≤ q.1) tr := by
  induction reqs with
  | nil =>
    intro c _ _ _
    exact ⟨[], rfl, List.Forall₂.nil, by simp, List.Pairwise.nil⟩
  | cons r rest ih =>
    intro c hwf hreqs hends
    obtain ⟨now, dur, ev⟩ := r
    have hr : 0 ≤ now ∧ 0 ≤ dur := hreqs (now, dur, ev) (List.mem_cons_self _ _)
    have hs : 0 ≤ max (channel_cur c) now := le_trans hr.1 (le_max_right _ _)
    have hfit : wrap_int64 (max (channel_cur c) now + dur) = max (channel_cur c) now + dur :=
      wrap_int64_of_fits _ (by omega) (hends _ (List.mem_cons_self _ _))
    obtain ⟨hwf', hl, hu, hcur⟩ :=
      channel_after_lock c (max (channel_cur c) now) (max (channel_cur c) now + dur) hwf hs
    obtain ⟨tl, htl, hfa, hmem, hpw⟩ :=
      ih _ hwf' (fun r hr => hreqs r (List.mem_cons_of_mem _ hr))
        (fun e he => hends e (by rw [hcur] at he; exact List.mem_cons_of_mem _ he))
    refine ⟨(max (channel_cur c) now, max (channel_cur c) now + dur) :: tl, ?_, ?_, ?_, ?_⟩
    · have hl2 := list_set_zero_get c.lock_time (max (channel_cur c) now) hwf.2.2.2.1
      have hu2 := list_set_zero_get c.unlock_time (max (channel_cur c) now + dur) hwf.2.2.2.2
      simp only [channel_lock_trace, ssd_channel_lock_eq c now dur ev hwf hr.1 hr.2, hfit,
        Option.bind_eq_bind, Option.some_bind, hl2, hu2, htl]
    · exact List.Forall₂.cons ⟨le_max_right _ _, rfl⟩ hfa
    · intro p hp
      rcases List.mem_cons.mp hp with rfl | hp
      · exact ⟨le_max_left _ _, by simp [hr.2]⟩
      · have := hmem p hp
        rw [hcur] at this
        exact ⟨by have := le_max_left (channel_cur c) now; omega, this.2⟩
    · refine List.Pairwise.cons ?_ hpw
      intro p hp
      have := hmem p hp
      rw [hcur] at this
      exact this.1

/-- The static `_read_delay` is never negative. -/
theorem Page.read_delay_nonneg (cfg : Config) : 0 ≤ Page._read_delay cfg := by
  unfold Page._read_delay
  split <;> omega

/-- The static `_write_delay` is never negative. -/
theorem Page.write_delay_nonneg (cfg : Config) : 0 ≤ Page._write_delay cfg := by
  unfold Page._write_delay
  split <;> omega

/-- The static `_erase_delay` is never negative. -/
theorem Block.erase_delay_nonneg (cfg : Config) : 0 ≤ Block._erase_delay cfg := by
  unfold Block._erase_delay
  split <;> omega

/-- Adding a non-negative increment through `ssd_event_incr_time_taken` adds exactly it. -/
theorem incr_time_taken_nonneg (ev : Event) (d : Int) (hd : 0 ≤ d) :
    ssd_event_incr_time_taken ev d = { ev with time_taken := ev.time_taken + d } := by
  unfold ssd_event_incr_time_taken
  split
  · rfl
  · have : d = 0 := by omega
    simp [this]

/-- Closed form of `ssd_page_read`. -/
theorem ssd_page_read_eq (cfg : Config) (p : Page) (ev : Event) :
    ssd_page_read cfg p ev =
      some (if p.state = .VALID ∨ p.state = .EMPTY then
          (.SUCCESS, p, { ev with time_taken := ev.time_taken + Page._read_delay cfg })
        else (.FAILURE, p, ev)) := by
  unfold ssd_page_read
  rw [assert_true (Page.read_delay_nonneg cfg),
    incr_time_taken_nonneg ev _ (Page.read_delay_nonneg cfg)]
  simp only [NOCHECK_PAGE_STATE, Bool.false_eq_true, false_or, Option.bind_eq_bind,
    Option.some_bind]
  split <;> rfl

/-- Closed form of `ssd_page_write`. -/
theorem ssd_page_write_eq (cfg : Config) (p : Page) (ev : Event) :
    ssd_page_write cfg p ev =
      some (if p.state = .EMPTY then
          (.SUCCESS, { p with state := .VALID },
            { ev with time_taken := ev.time_taken + Page._write_delay cfg })
        else (.FAILURE, p, ev)) := by
  unfold ssd_page_write
  rw [assert_true (Page.write_delay_nonneg cfg),
    incr_time_taken_nonneg ev _ (Page.write_delay_nonneg cfg)]
  simp only [NOCHECK_PAGE_STATE, Bool.false_eq_true, false_or, Option.bind_eq_bind,
    Option.some_bind]
  split <;> rfl

/-- The mask `(1 << b) - 1` is `2^b - 1`. -/
theorem BANK_GROUP_MASK_eq (cfg : Config) : BANK_GROUP_MASK cfg = 2 ^ cfg.BANK_GROUP_BIT - 1 := by
  simp [BANK_GROUP_MASK, Nat.shiftLeft_eq]

/-- Bits of the 32-bit complement of the mask: set exactly at positions `b .. 31`. -/
theorem not_mask_testBit (b i : Nat) (hb : b ≤ 32) :
    (UINT_MOD - 1 - (2 ^ b - 1)).testBit i = (decide (i < 32) && decide (b ≤ i)) := by
  have hlt : 2 ^ b - 1 < 2 ^ 32 := by
    have : 2 ^ b ≤ 2 ^ 32 := Nat.pow_le_pow_right (by decide) hb
    have : 0 < 2 ^ b := Nat.two_pow_pos b
    omega
  have h : UINT_MOD - 1 - (2 ^ b - 1) = 2 ^ 32 - ((2 ^ b - 1) + 1) := by
    unfold UINT_MOD; omega
  rw [h, Nat.testBit_two_pow_sub_succ hlt, Nat.testBit_two_pow_sub_one]
  by_cases h1 : i < 32 <;> by_cases h2 : i < b <;> simp [h1, h2]
  all_goals omega

/-- Bits of the channel index: the low `BANK_GROUP_BIT` bits come from the page, the others
from the package. -/
theorem get_channel_testBit (cfg : Config) (a : Address) (hb : cfg.BANK_GROUP_BIT < 31)
    (hpkg : a.package < UINT_MOD) (i : Nat) :
    (get_channel cfg a).testBit i =
      if i < cfg.BANK_GROUP_BIT then a.page.testBit i else a.package.testBit i := by
  unfold get_channel
  by_cases h0 : cfg.BANK_GROUP_BIT = 0
  · simp [h0]
  · simp only [h0, if_false, BANK_GROUP_MASK_eq, Nat.testBit_or, Nat.testBit_and,
      not_mask_testBit cfg.BANK_GROUP_BIT i (by omega), Nat.testBit_two_pow_sub_one]
    by_cases hi : i < cfg.BANK_GROUP_BIT
    · have : ¬ cfg.BANK_GROUP_BIT ≤ i := by omega
      simp [hi, this]
    · have hbi : cfg.BANK_GROUP_BIT ≤ i := by omega
      by_cases h32 : i < 32
      · simp [hi, hbi, h32]
      · have : a.package.testBit i = false := by
          apply Nat.testBit_lt_two_pow
          have : 2 ^ 32 ≤ 2 ^ i := Nat.pow_le_pow_right (by decide) (by omega)
          unfold UINT_MOD at hpkg
          omega
        simp [hi, this]

/-- Storing back the element that is already there leaves a list unchanged. -/
theorem list_set_same {α : Type} (l : List α) (i : Nat) (x : α) (h : l[i]? = some x) :
    l.set i x = l := by
  apply List.ext_getElem?
  intro j
  rw [List.getElem?_set]
  by_cases hij : i = j
  · subst hij
    have hlt : i < l.length := by
      rcases List.getElem?_eq_some.mp h with ⟨hl, _⟩
      exact hl
    simp [hlt, h]
  · simp [hij]

/-! ### Block -/

/-- The erase loop started at `i` with `n` iterations left sets pages `i .. i + n - 1` to
EMPTY and keeps the others. -/
theorem ssd_block_erase_loop_spec : ∀ (n i : Nat) (data : List Page), i + n ≤ data.length →
    ∃ data', ssd_block_erase_loop n i data = some data' ∧ data'.length = data.length ∧
      ∀ j, data'[j]? =
        if i ≤ j ∧ j < i + n then some { state := page_state.EMPTY } else data[j]?
  | 0, i, data, _ => ⟨data, rfl, rfl, fun j => by
      have : ¬ (i ≤ j ∧ j < i) := by omega
      simp [this]⟩
  | n + 1, i, data, h => by
    have hi : i < data.length := by omega
    obtain ⟨data', h1, h2, h3⟩ := ssd_block_erase_loop_spec n (i + 1)
      (data.set i (ssd_page_set_state data[i] .EMPTY)) (by simp; omega)
    refine ⟨data', ?_, by simpa using h2, ?_⟩
    · simp only [ssd_block_erase_loop, List.getElem?_eq_getElem hi, Option.bind_eq_bind,
        Option.some_bind, h1]
    · intro j
      rw [h3 j, List.getElem?_set]
      by_cases hj : i = j
      · subst hj
        have h4 : ¬ (i + 1 ≤ i ∧ i < i + 1 + n) := by omega
        have h5 : i ≤ i ∧ i < i + (n + 1) := by omega
        simp [h4, h5, hi, ssd_page_set_state]
      · by_cases h6 : i + 1 ≤ j ∧ j < i + 1 + n
        · have h7 : i ≤ j ∧ j < i + (n + 1) := by omega
          simp [h6, h7]
        · have h7 : ¬ (i ≤ j ∧ j < i + (n + 1)) := by omega
          simp [h6, h7, hj]

/-- Closed form of `ssd_block_erase` on a block of `SSD_BLOCK_SIZE` pages and an event that
passes the asserts of its getters. -/
theorem ssd_block_erase_eq (cfg : Config) (b : Block) (ev : Event) (hwf : b.wf cfg)
    (hst : 0 ≤ ev.start_time) (htt : 0 ≤ ev.time_taken) :
    ssd_block_erase cfg b ev = some (.SUCCESS,
      { b with data := List.replicate cfg.SSD_BLOCK_SIZE { state := .EMPTY },
               last_erase_time :=
                 wrap_int64 (ev.start_time + (ev.time_taken + Block._erase_delay cfg)),
               pages_valid := 0, pages_invalid := 0, state := .FREE },
      { ev with time_taken := ev.time_taken + Block._erase_delay cfg }) := by
  obtain ⟨data', h1, h2, h3⟩ := ssd_block_erase_loop_spec (Block._size cfg) 0 b.data
    (by simp [Block._size]; exact le_of_eq hwf.symm)
  have hd : data' = List.replicate cfg.SSD_BLOCK_SIZE { state := .EMPTY } := by
    apply List.ext_getElem?
    intro j
    rw [h3 j, List.getElem?_replicate]
    unfold Block.wf at hwf
    by_cases hj : j < cfg.SSD_BLOCK_SIZE
    · simp [hj, Block._size]
    · simp only [Block._size, Nat.zero_le, Nat.zero_add, hj, and_false, if_false]
      exact List.getElem?_eq_none (by omega)
  have hnn := Block.erase_delay_nonneg cfg
  unfold ssd_block_erase
  rw [assert_true hnn, incr_time_taken_nonneg ev _ hnn]
  simp only [Option.bind_eq_bind, Option.some_bind, h1, ssd_event_get_start_time,
    ssd_event_get_time_taken, assert_true hst,
    assert_true (show 0 ≤ ev.time_taken + Block._erase_delay cfg by omega), hd]

/-- Closed form of `ssd_block_write` when the addressed page exists. -/
theorem ssd_block_write_eq (cfg : Config) (b : Block) (ev : Event) (pg : Page)
    (hpg : b.data[ev.address.page]? = some pg) :
    ssd_block_write cfg b ev = some (
      if pg.state = .EMPTY then
        (.SUCCESS,
          { b with data := b.data.set ev.address.page { state := .VALID },
                   pages_valid := (b.pages_valid + 1) % UINT_MOD, state := .ACTIVE },
          { ev with time_taken := ev.time_taken + Page._write_delay cfg })
      else (.FAILURE, b, ev)) := by
  unfold ssd_block_write ssd_event_get_address
  simp only [hpg, Option.bind_eq_bind, Option.some_bind, ssd_page_write_eq]
  by_cases he : pg.state = .EMPTY
  · simp [he]
  · simp [he, list_set_same _ _ _ hpg]

/-! ### Plane -/

/-- The loop of `ssd_block_get_next_page` returns when it stays inside the block. -/
theorem ssd_block_get_next_page_loop_total (b : Block) (address : Address) :
    ∀ (n i : Nat), i + n ≤ b.data.length →
      ∃ r, ssd_block_get_next_page_loop b address n i = some r
  | 0, _, _ => ⟨_, rfl⟩
  | n + 1, i, h => by
    have hi : i < b.data.length := by omega
    obtain ⟨r, hr⟩ := ssd_block_get_next_page_loop_total b address n (i + 1) (by omega)
    simp only [ssd_block_get_next_page_loop, List.getElem?_eq_getElem hi, Option.bind_eq_bind,
      Option.some_bind, hr]
    split
    · exact ⟨_, rfl⟩
    · exact ⟨_, rfl⟩

/-- The loop of `get_next_page` returns on a plane of well-formed blocks and changes
nothing but the cursor. -/
theorem Plane.get_next_page_loop_total (cfg : Config) :
    ∀ (n i : Nat) (p : Plane), (∀ b ∈ p.data, b.wf cfg) → i + n ≤ p.data.length →
      ∃ st a, Plane.get_next_page_loop cfg n i p = some (st, { p with next_page := a })
  | 0, _, p, _, _ => ⟨.FAILURE, p.next_page, rfl⟩
  | n + 1, i, p, hb, h => by
    have hi : i < p.data.length := by omega
    have hbw : (p.data[i]).wf cfg := hb _ (List.getElem_mem hi)
    simp only [Plane.get_next_page_loop, List.getElem?_eq_getElem hi, Option.bind_eq_bind,
      Option.some_bind]
    by_cases hs : ssd_block_get_state p.data[i] ≠ .INACTIVE
    · rw [if_pos hs]
      obtain ⟨⟨ret, a⟩, hr⟩ := ssd_block_get_next_page_loop_total p.data[i]
        { p.next_page with valid := .BLOCK } (Block._size cfg) 0
        (by simp only [Block._size, Nat.zero_add]; exact le_of_eq hbw.symm)
      simp only [ssd_block_get_next_page, hr, Option.some_bind]
      by_cases hret : ret = .SUCCESS
      · rw [if_pos hret]
        exact ⟨_, _, rfl⟩
      · rw [if_neg hret]
        obtain ⟨st, a', h'⟩ := Plane.get_next_page_loop_total cfg n (i + 1)
          { p with next_page := a } hb (by simpa using (by omega : i + 1 + n ≤ p.data.length))
        exact ⟨st, a', h'⟩
    · rw [if_neg hs]
      exact Plane.get_next_page_loop_total cfg n (i + 1) p hb (by omega)

/-- On a well-formed plane `get_next_page` returns and changes nothing but the cursor. -/
theorem Plane.get_next_page_total (cfg : Config) (p : Plane) (hwf : p.wf cfg) :
    ∃ st a, Plane.get_next_page cfg p = some (st, { p with next_page := a }) := by
  obtain ⟨st, a, h⟩ := Plane.get_next_page_loop_total cfg (Plane._size cfg) 0
    { p with next_page := { p.next_page with valid := .PLANE } } hwf.2
    (by simp only [Plane._size, Nat.zero_add]; exact le_of_eq hwf.1.symm)
  exact ⟨st, a, h⟩

/-- The loop of the plane's `update_wear_stats` returns an index inside the plane. -/
theorem Plane.update_wear_stats_loop_total (p : Plane) (max : Nat) :
    ∀ (n i mi : Nat), i + n ≤ p.data.length → mi < p.data.length →
      ∃ mi', Plane.update_wear_stats_loop p max n i mi = some mi' ∧ mi' < p.data.length
  | 0, _, mi, _, hm => ⟨mi, rfl, hm⟩
  | n + 1, i, mi, h, hm => by
    have hi : i < p.data.length := by omega
    simp only [Plane.update_wear_stats_loop, List.getElem?_eq_getElem hi, Option.bind_eq_bind,
      Option.some_bind]
    apply Plane.update_wear_stats_loop_total p max n (i + 1) _ (by omega)
    split
    · exact hi
    · exact hm

/-- On a non-empty plane `update_wear_stats` returns and changes nothing but the three wear
fields. -/
theorem Plane.update_wear_stats_total (cfg : Config) (p : Plane)
    (hlen : p.data.length = cfg.PLANE_SIZE) (hpos : 0 < cfg.PLANE_SIZE) :
    ∃ lw er t, Plane.update_wear_stats cfg p =
      some { p with least_worn := lw, erases_remaining := er, last_erase_time := t } := by
  have h0 : 0 < p.data.length := by omega
  obtain ⟨mi, h1, h2⟩ := Plane.update_wear_stats_loop_total p
    (ssd_block_get_erases_remaining p.data[0]) (Plane._size cfg - 1) 1 0
    (by simp only [Plane._size]; omega) h0
  refine ⟨mi, ssd_block_get_erases_remaining p.data[0],
    ssd_block_get_last_erase_time p.data[mi], ?_⟩
  simp only [Plane.update_wear_stats, List.getElem?_eq_getElem h0, Option.bind_eq_bind,
    Option.some_bind, h1, List.getElem?_eq_getElem h2]

/-- On a well-formed plane `ssd_plane_write` returns what `ssd_block_write` returns on the
addressed block, stores that block, may move the cursor and leaves `free_blocks` as it
was (the block state is compared with itself before the write). -/
theorem ssd_plane_write_eq (cfg : Config) (p : Plane) (ev : Event) (b b' : Block)
    (ret : status) (ev' : Event) (hwf : p.wf cfg)
    (hb : p.data[ev.address.block]? = some b)
    (hw : ssd_block_write cfg b ev = some (ret, b', ev')) :
    ∃ a, ssd_plane_write cfg p ev =
      some (ret, { p with next_page := a, data := p.data.set ev.address.block b' }, ev') := by
  obtain ⟨st, a, hn⟩ := Plane.get_next_page_total cfg p hwf
  unfold ssd_plane_write ssd_event_get_address
  simp only [hb, Option.bind_eq_bind, Option.some_bind]
  by_cases hc : ev.address.block = p.next_page.block
  · rw [if_pos hc, hn]
    simp only [Option.map_some', Option.some_bind, hb, hw]
    exact ⟨a, by simp⟩
  · rw [if_neg hc]
    simp only [Option.some_bind, hb, hw]
    exact ⟨p.next_page, by simp⟩

/-- Closed form of `ssd_plane_erase` on a well-formed plane, up to the wear fields and the
cursor. -/
theorem ssd_plane_erase_eq (cfg : Config) (p : Plane) (ev : Event) (b : Block) (hwf : p.wf cfg)
    (hval : address_valid.PLANE.toNat < ev.address.valid.toNat)
    (hb : p.data[ev.address.block]? = some b)
    (hst : 0 ≤ ev.start_time) (htt : 0 ≤ ev.time_taken) :
    ∃ lw er t a, ssd_plane_erase cfg p ev = some (.SUCCESS,
      { p with
          data := p.data.set ev.address.block
            { b with data := List.replicate cfg.SSD_BLOCK_SIZE { state := .EMPTY },
                     last_erase_time :=
                 wrap_int64 (ev.start_time + (ev.time_taken + Block._erase_delay cfg)),
                     pages_valid := 0, pages_invalid := 0, state := .FREE },
          least_worn := lw, erases_remaining := er, last_erase_time := t,
          free_blocks := (p.free_blocks + 1) % UINT_MOD, next_page := a },
      { ev with time_taken := ev.time_taken + Block._erase_delay cfg }) := by
  have hlt : ev.address.block < p.data.length := (List.getElem?_eq_some.mp hb).1
  have hblk : ev.address.block < cfg.PLANE_SIZE := by rw [← hwf.1]; exact hlt
  have hbw : b.wf cfg := hwf.2 b (List.mem_iff_getElem?.mpr ⟨_, hb⟩)
  have he := ssd_block_erase_eq cfg b ev hbw hst htt
  -- the plane after the block has been erased
  have hwf1 : ∀ (b' : Block), b'.wf cfg →
      Plane.wf cfg { p with data := p.data.set ev.address.block b' } := by
    intro b' hb'
    refine ⟨by simpa using hwf.1, ?_⟩
    intro x hx
    rcases List.mem_or_eq_of_mem_set hx with h | h
    · exact hwf.2 x h
    · exact h ▸ hb'
  set b1 : Block :=
    { b with data := List.replicate cfg.SSD_BLOCK_SIZE { state := .EMPTY },
             last_erase_time :=
                 wrap_int64 (ev.start_time + (ev.time_taken + Block._erase_delay cfg)),
             pages_valid := 0, pages_invalid := 0, state := .FREE } with hb1
  have hb1w : b1.wf cfg := by simp [Block.wf, hb1]
  obtain ⟨lw, er, t, hu⟩ := Plane.update_wear_stats_total cfg
    { p with data := p.data.set ev.address.block b1 } (by simpa using hwf.1) (by omega)
  unfold ssd_plane_erase ssd_event_get_address
  simp only [assert_true (And.intro (show ev.address.block < Plane._size cfg from hblk) hval), hb,
    Option.bind_eq_bind, Option.some_bind, he, if_true, hu]
  by_cases hv : p.next_page.valid.toNat < address_valid.PAGE.toNat
  · obtain ⟨st, a, hn⟩ := Plane.get_next_page_total cfg
      { p with data := p.data.set ev.address.block b1, least_worn := lw, erases_remaining := er,
               last_erase_time := t, free_blocks := (p.free_blocks + 1) % UINT_MOD }
      ⟨by simpa using hwf.1, (hwf1 b1 hb1w).2⟩
    refine ⟨lw, er, t, a, ?_⟩
    simp only [hv, if_true, hn, Option.map_some', Option.some_bind]
  · refine ⟨lw, er, t, p.next_page, ?_⟩
    simp only [hv, if_false, Option.some_bind]

/-! ### Die and package -/

/-- The die hands the write to the addressed plane and stores it back. -/
theorem ssd_die_write_eq (cfg : Config) (d : Die) (ev : Event) (p p' : Plane) (ret : status)
    (ev' : Event) (hsz : ev.address.plane < d.size)
    (hval : address_valid.DIE.toNat < ev.address.valid.toNat)
    (hp : d.data[ev.address.plane]? = some p)
    (hw : ssd_plane_write cfg p ev = some (ret, p', ev')) :
    ssd_die_write cfg d ev =
      some (ret, { d with data := d.data.set ev.address.plane p' }, ev') := by
  unfold ssd_die_write ssd_event_get_address
  simp only [assert_true (And.intro hsz hval), hp, hw, Option.bind_eq_bind, Option.some_bind]

/-- The package hands the write to the addressed die and stores it back. -/
theorem ssd_package_write_eq (cfg : Config) (k : Package) (ev : Event) (d d' : Die)
    (ret : status) (ev' : Event) (hsz : ev.address.die < k.size)
    (hval : address_valid.PACKAGE.toNat < ev.address.valid.toNat)
    (hd : k.data[ev.address.die]? = some d)
    (hw : ssd_die_write cfg d ev = some (ret, d', ev')) :
    ssd_package_write cfg k ev =
      some (ret, { k with data := k.data.set ev.address.die d' }, ev') := by
  unfold ssd_package_write ssd_event_get_address
  simp only [assert_true (And.intro hsz hval), hd, hw, Option.bind_eq_bind, Option.some_bind]

/-- Looking an index up after a store at `i` and continuing with `f` gives the old
result when `f` cannot tell the stored element from the old one. -/
theorem frame_lift {α β : Type} (l : List α) (i j : Nat) (x y : α) (f : α → Option β)
    (hy : l[i]? = some y) (hf : j = i → f x = f y) :
    ((l.set i x)[j]?).bind f = (l[j]?).bind f := by
  by_cases hji : j = i
  · subst hji
    have hlt : j < l.length := (List.getElem?_eq_some.mp hy).1
    rw [List.getElem?_set_self hlt, hy]
    exact hf rfl
  · rw [List.getElem?_set_ne (Ne.symm hji)]

/-- A block found by `Package.block_at` sits in a die and a plane of the package. -/
theorem Package.block_at_some (k : Package) (die plane block : Nat) (b : Block)
    (h : k.block_at die plane block = some b) :
    ∃ d p, k.data[die]? = some d ∧ d.data[plane]? = some p ∧ p.data[block]? = some b := by
  unfold Package.block_at at h
  simp only [Option.bind_eq_bind, Option.bind_eq_some] at h
  obtain ⟨d, hd, p, hp, hb⟩ := h
  exact ⟨d, p, hd, hp, hb⟩

/-- Unfolding of `Package.page_state_at` into nested lookups. -/
theorem Package.page_state_at_eq (k : Package) (die plane block page : Nat) :
    k.page_state_at die plane block page =
      (k.data[die]?).bind fun d => (d.data[plane]?).bind fun p => (p.data[block]?).bind fun b =>
        b.page_state_at page := by
  unfold Package.page_state_at Package.block_at
  simp only [Option.bind_eq_bind, Option.bind_assoc]

/-- Frame of a store into one block of a package: a page lookup gives the old result
wherever the stored block answers like the old one. -/
theorem Package.page_state_at_set (k : Package) (d d' : Die) (p p' : Plane) (b b' : Block)
    (die plane block : Nat)
    (hd : k.data[die]? = some d) (hp : d.data[plane]? = some p) (hb : p.data[block]? = some b)
    (hd' : d'.data = d.data.set plane p') (hp' : p'.data = p.data.set block b')
    (die' plane' block' page' : Nat)
    (hsame : die' = die → plane' = plane → block' = block →
      b'.page_state_at page' = b.page_state_at page') :
    Package.page_state_at { k with data := k.data.set die d' } die' plane' block' page' =
      k.page_state_at die' plane' block' page' := by
  rw [Package.page_state_at_eq, Package.page_state_at_eq]
  apply frame_lift _ _ _ _ _ _ hd
  intro h1
  rw [hd']
  apply frame_lift _ _ _ _ _ _ hp
  intro h2
  rw [hp']
  apply frame_lift _ _ _ _ _ _ hb
  intro h3
  exact hsame h1 h2 h3

/-! ### Engine -/

/-- The address of an event is not touched by `ssd_event_incr_time_taken`. -/
theorem incr_time_taken_address (ev : Event) (d : Int) :
    (ssd_event_incr_time_taken ev d).address = ev.address := by
  unfold ssd_event_incr_time_taken
  split <;> rfl

/-- For positive level sizes the address computation returns, by successive division. -/
theorem decode_address_successive (cfg : Config) (L : Nat)
    (hB : 0 < cfg.SSD_BLOCK_SIZE) (hP : 0 < cfg.PLANE_SIZE) (hD : 0 < cfg.DIE_SIZE)
    (hK : 0 < cfg.PACKAGE_SIZE) (hS : 0 < cfg.SSD_SIZE) :
    decode_address cfg L = some
      { page := L % cfg.SSD_BLOCK_SIZE,
        block := (L / cfg.SSD_BLOCK_SIZE) % cfg.PLANE_SIZE,
        plane := (L / cfg.SSD_BLOCK_SIZE / cfg.PLANE_SIZE) % cfg.DIE_SIZE,
        die := (L / cfg.SSD_BLOCK_SIZE / cfg.PLANE_SIZE / cfg.DIE_SIZE) % cfg.PACKAGE_SIZE,
        package := (L / cfg.SSD_BLOCK_SIZE / cfg.PLANE_SIZE / cfg.DIE_SIZE / cfg.PACKAGE_SIZE)
          % cfg.SSD_SIZE,
        valid := .PAGE } := by
  simp [decode_address, umod, udiv, Nat.pos_iff_ne_zero.mp hB, Nat.pos_iff_ne_zero.mp hP,
    Nat.pos_iff_ne_zero.mp hD, Nat.pos_iff_ne_zero.mp hK, Nat.pos_iff_ne_zero.mp hS]

/-- A decoded address has validity PAGE. -/
theorem decode_address_valid (cfg : Config) (L : Nat) (a : Address)
    (h : decode_address cfg L = some a) : a.valid = .PAGE := by
  unfold decode_address at h
  simp only [Option.bind_eq_bind, Option.bind_eq_some] at h
  obtain ⟨_, _, _, _, _, _, _, _, _, _, _, _, _, _, _, _, _, _, _, _, h⟩ := h
  simp only [Option.some.injEq] at h
  rw [← h]

/-- A write to a page that is not EMPTY fails at every level and changes no page. -/
theorem ssd_package_write_nonempty (cfg : Config) (k : Package) (ev : Event) (st : page_state)
    (hwf : k.wf cfg) (hval : ev.address.valid = .PAGE)
    (hst : k.page_state_at ev.address.die ev.address.plane ev.address.block ev.address.page
      = some st)
    (hne : st ≠ .EMPTY) :
    ∃ k', ssd_package_write cfg k ev = some (.FAILURE, k', ev) ∧
      ∀ die plane block page,
        k'.page_state_at die plane block page = k.page_state_at die plane block page := by
  obtain ⟨b, hb, hbst⟩ : ∃ b, k.block_at ev.address.die ev.address.plane ev.address.block
      = some b ∧ b.page_state_at ev.address.page = some st := by
    unfold Package.page_state_at at hst
    simpa only [Option.bind_eq_bind, Option.bind_eq_some] using hst
  obtain ⟨d, p, hd, hp, hbl⟩ := Package.block_at_some k _ _ _ b hb
  obtain ⟨hk1, hk2, hk3⟩ := hwf
  have hdw : d.wf cfg := hk3 d (List.mem_iff_getElem?.mpr ⟨_, hd⟩)
  obtain ⟨hd1, hd2, hd3⟩ := hdw
  have hpw : p.wf cfg := hd3 p (List.mem_iff_getElem?.mpr ⟨_, hp⟩)
  have hdie : ev.address.die < k.size := by
    rw [← hk2]; exact (List.getElem?_eq_some.mp hd).1
  have hplane : ev.address.plane < d.size := by
    rw [← hd2]; exact (List.getElem?_eq_some.mp hp).1
  obtain ⟨pg, hpg, hpgs⟩ : ∃ pg, b.data[ev.address.page]? = some pg ∧ pg.state = st := by
    unfold Block.page_state_at at hbst
    simpa using hbst
  have hbw := ssd_block_write_eq cfg b ev pg hpg
  rw [if_neg (by rw [hpgs]; exact hne)] at hbw
  obtain ⟨a, hpl⟩ := ssd_plane_write_eq cfg p ev b _ _ _ hpw hbl hbw
  have hdi := ssd_die_write_eq cfg d ev p _ _ _ hplane (by rw [hval]; decide) hp hpl
  have hpk := ssd_package_write_eq cfg k ev d _ _ _ hdie (by rw [hval]; decide) hd hdi
  refine ⟨_, hpk, ?_⟩
  intro die plane block page
  exact Package.page_state_at_set k d _ p _ b b _ _ _ hd hp hbl rfl rfl _ _ _ _
    (fun _ _ _ => rfl)

/-- An `assert` lets the run continue only when its condition holds. -/
theorem assert_eq_some {c : Prop} [Decidable c] (u : Unit) : assert c = some u ↔ c := by
  unfold assert
  split <;> simp [*]

/-! ### What a returned call tells about the event -/

/-- A successful `ssd_page_read` adds `_read_delay`. -/
theorem ssd_page_read_time (cfg : Config) (pg pg' : Page) (ev ev' : Event)
    (h : ssd_page_read cfg pg ev = some (.SUCCESS, pg', ev')) :
    ev'.time_taken = ev.time_taken + Page._read_delay cfg := by
  unfold ssd_page_read at h
  rw [assert_true (Page.read_delay_nonneg cfg),
    incr_time_taken_nonneg ev _ (Page.read_delay_nonneg cfg)] at h
  simp only [Option.bind_eq_bind, Option.some_bind] at h
  split at h
  · simp only [Option.some.injEq, Prod.mk.injEq, true_and] at h
    rw [← h.2]
  · simp at h

/-- A successful `ssd_page_write` adds `_write_delay`. -/
theorem ssd_page_write_time (cfg : Config) (pg pg' : Page) (ev ev' : Event)
    (h : ssd_page_write cfg pg ev = some (.SUCCESS, pg', ev')) :
    ev'.time_taken = ev.time_taken + Page._write_delay cfg := by
  unfold ssd_page_write at h
  rw [assert_true (Page.write_delay_nonneg cfg),
    incr_time_taken_nonneg ev _ (Page.write_delay_nonneg cfg)] at h
  simp only [Option.bind_eq_bind, Option.some_bind] at h
  split at h
  · simp only [Option.some.injEq, Prod.mk.injEq, true_and] at h
    rw [← h.2]
  · simp at h

/-- A returned `ssd_block_erase` succeeded and added `_erase_delay`. -/
theorem ssd_block_erase_time (cfg : Config) (b b' : Block) (ev ev' : Event) (ret : status)
    (h : ssd_block_erase cfg b ev = some (ret, b', ev')) :
    ret = .SUCCESS ∧ ev'.time_taken = ev.time_taken + Block._erase_delay cfg := by
  unfold ssd_block_erase at h
  rw [assert_true (Block.erase_delay_nonneg cfg),
    incr_time_taken_nonneg ev _ (Block.erase_delay_nonneg cfg)] at h
  simp only [Option.bind_eq_bind, Option.some_bind, Option.bind_eq_some, Option.some.injEq,
    Prod.mk.injEq] at h
  obtain ⟨_, _, _, _, _, _, h1, _, h3⟩ := h
  exact ⟨h1.symm, by rw [← h3]⟩

/-- A successful `ssd_package_read` adds `_read_delay` to the event. -/
theorem ssd_package_read_time (cfg : Config) (k k' : Package) (ev ev' : Event)
    (h : ssd_package_read cfg k ev = some (.SUCCESS, k', ev')) :
    ev'.time_taken = ev.time_taken + Page._read_delay cfg := by
  unfold ssd_package_read at h
  simp only [Option.bind_eq_bind, Option.bind_eq_some, Option.some.injEq, Prod.mk.injEq] at h
  obtain ⟨_, _, d, _, ⟨r1, d', e1⟩, h, h1, _, h2⟩ := h
  subst h1 h2
  unfold ssd_die_read at h
  simp only [Option.bind_eq_bind, Option.bind_eq_some, Option.some.injEq, Prod.mk.injEq] at h
  obtain ⟨_, _, p, _, ⟨r2, p', e2⟩, h, h1, _, h2⟩ := h
  subst h1 h2
  unfold ssd_plane_read at h
  simp only [Option.bind_eq_bind, Option.bind_eq_some, Option.some.injEq, Prod.mk.injEq] at h
  obtain ⟨_, _, b, _, ⟨r3, b', e3⟩, h, h1, _, h2⟩ := h
  subst h1 h2
  unfold ssd_block_read at h
  simp only [Option.bind_eq_bind, Option.bind_eq_some, Option.some.injEq, Prod.mk.injEq] at h
  obtain ⟨pg, _, ⟨r4, pg', e4⟩, h, h1, _, h2⟩ := h
  subst h1 h2
  exact ssd_page_read_time cfg pg pg' ev e4 h

/-- A successful `ssd_block_write` adds `_write_delay`. -/
theorem ssd_block_write_time (cfg : Config) (b b' : Block) (ev ev' : Event)
    (h : ssd_block_write cfg b ev = some (.SUCCESS, b', ev')) :
    ev'.time_taken = ev.time_taken + Page._write_delay cfg := by
  unfold ssd_block_write at h
  simp only [Option.bind_eq_bind, Option.bind_eq_some] at h
  obtain ⟨pg, _, ⟨r, pg', e⟩, hp, h⟩ := h
  simp only at h
  split at h
  · rename_i hr
    simp only [Option.some.injEq, Prod.mk.injEq] at h
    rw [← h.2.2]
    subst hr
    exact ssd_page_write_time cfg pg pg' ev e hp
  · rename_i hr
    simp only [Option.some.injEq, Prod.mk.injEq] at h
    exact absurd h.1 hr

/-- A successful `ssd_package_write` adds `_write_delay` to the event. -/
theorem ssd_package_write_time (cfg : Config) (k k' : Package) (ev ev' : Event)
    (h : ssd_package_write cfg k ev = some (.SUCCESS, k', ev')) :
    ev'.time_taken = ev.time_taken + Page._write_delay cfg := by
  unfold ssd_package_write at h
  simp only [Option.bind_eq_bind, Option.bind_eq_some, Option.some.injEq, Prod.mk.injEq] at h
  obtain ⟨_, _, d, _, ⟨r1, d', e1⟩, h, h1, _, h2⟩ := h
  subst h1 h2
  unfold ssd_die_write at h
  simp only [Option.bind_eq_bind, Option.bind_eq_some, Option.some.injEq, Prod.mk.injEq] at h
  obtain ⟨_, _, p, _, ⟨r2, p', e2⟩, h, h1, _, h2⟩ := h
  subst h1 h2
  unfold ssd_plane_write at h
  simp only [Option.bind_eq_bind, Option.bind_eq_some, Option.some.injEq, Prod.mk.injEq] at h
  obtain ⟨_, _, _, _, _, _, b, _, ⟨r3, b', e3⟩, h, h1, _, h2⟩ := h
  subst h1 h2
  exact ssd_block_write_time cfg b b' ev e3 h

/-- A successful `ssd_package_erase` adds `_erase_delay` to the event. -/
theorem ssd_package_erase_time (cfg : Config) (k k' : Package) (ev ev' : Event)
    (h : ssd_package_erase cfg k ev = some (.SUCCESS, k', ev')) :
    ev'.time_taken = ev.time_taken + Block._erase_delay cfg := by
  have hplane : ∀ (p p' : Plane) (r : status) (e : Event),
      ssd_plane_erase cfg p ev = some (r, p', e) →
        e.time_taken = ev.time_taken + Block._erase_delay cfg := by
    intro p p' r e h
    unfold ssd_plane_erase at h
    simp only [Option.bind_eq_bind, Option.bind_eq_some] at h
    obtain ⟨_, _, b, _, ⟨r3, b', e3⟩, hb, h⟩ := h
    have hbt := ssd_block_erase_time cfg b b' ev e3 r3 hb
    simp only at h
    split at h
    · simp only [Option.bind_eq_bind, Option.bind_eq_some, Option.some.injEq,
        Prod.mk.injEq] at h
      obtain ⟨_, _, _, _, _, _, h2⟩ := h
      rw [← h2]; exact hbt.2
    · simp only [Option.some.injEq, Prod.mk.injEq] at h
      rw [← h.2.2]; exact hbt.2
  have hdie : ∀ (d d' : Die) (r : status) (e : Event),
      ssd_die_erase cfg d ev = some (r, d', e) →
        e.time_taken = ev.time_taken + Block._erase_delay cfg := by
    intro d d' r e h
    unfold ssd_die_erase at h
    simp only [Option.bind_eq_bind, Option.bind_eq_some] at h
    obtain ⟨_, _, p, _, ⟨r2, p', e2⟩, hp, h⟩ := h
    have hpt := hplane p p' r2 e2 hp
    simp only at h
    split at h
    · simp only [Option.bind_eq_bind, Option.bind_eq_some, Option.some.injEq,
        Prod.mk.injEq] at h
      obtain ⟨_, _, _, _, h2⟩ := h
      rw [← h2]; exact hpt
    · simp only [Option.some.injEq, Prod.mk.injEq] at h
      rw [← h.2.2]; exact hpt
  unfold ssd_package_erase at h
  simp only [Option.bind_eq_bind, Option.bind_eq_some] at h
  obtain ⟨_, _, d, _, ⟨r1, d', e1⟩, hd, h⟩ := h
  have hdt := hdie d d' r1 e1 hd
  simp only at h
  split at h
  · simp only [Option.bind_eq_bind, Option.bind_eq_some, Option.some.injEq,
      Prod.mk.injEq] at h
    obtain ⟨_, _, _, _, h2⟩ := h
    rw [← h2]; exact hdt
  · simp only [Option.some.injEq, Prod.mk.injEq] at h
    rw [← h.2.2]; exact hdt

/-- A returned `ssd_channel_lock` call passed every assert and found slot 0. -/
theorem ssd_channel_lock_wf (c c' : Channel) (t dur : Int) (ev ev' : Event) (st : status)
    (h : ssd_channel_lock c t dur ev = some (st, c', ev')) : c.wf ∧ 0 ≤ t ∧ 0 ≤ dur := by
  unfold ssd_channel_lock at h
  simp only [Option.bind_eq_bind, Option.bind_eq_some, assert_eq_some] at h
  obtain ⟨_, h1, _, h2, _, h3, _, h4, _, h5, l0, hl, u0, hu, _⟩ := h
  refine ⟨⟨h1, h2, h3, (List.getElem?_eq_some.mp hl).1, ?_⟩, h4, h5⟩
  split at hu
  · have := (List.getElem?_eq_some.mp hu).1
    simpa using this
  · exact (List.getElem?_eq_some.mp hu).1

/-- The time a returned `ssd_bus_lock` call adds to the event. -/
theorem ssd_bus_lock_time (b b' : Bus) (ch : Nat) (t dur : Int) (ev ev' : Event) (st : status)
    (h : ssd_bus_lock b ch t dur ev = some (st, b', ev')) :
    ∃ c u, b.channels[ch]? = some c ∧ c.unlock_time[0]? = some u ∧
      ev'.time_taken = ev.time_taken +
        (if c.lock_time[0]? = some BUS_CHANNEL_FREE_FLAG then 0 else max 0 (u - t)) := by
  unfold ssd_bus_lock at h
  simp only [Option.bind_eq_bind, Option.bind_eq_some, assert_eq_some] at h
  obtain ⟨_, _, c, hc, ⟨r, c', e⟩, hl, h⟩ := h
  simp only [Option.some.injEq, Prod.mk.injEq] at h
  obtain ⟨hwf, ht, hdur⟩ := ssd_channel_lock_wf c c' t dur ev e r hl
  rw [ssd_channel_lock_eq c t dur ev hwf ht hdur] at hl
  simp only [Option.some.injEq, Prod.mk.injEq] at hl
  obtain ⟨u, hu⟩ : ∃ u, c.unlock_time[0]? = some u :=
    ⟨_, List.getElem?_eq_getElem hwf.2.2.2.2⟩
  refine ⟨c, u, hc, hu, ?_⟩
  rw [← h.2.2, ← hl.2.2]
  simp only [channel_cur, hu, Option.getD_some]
  split
  · simp [max_eq_right ht]
  · simp only [add_right_inj]
    rcases le_total u t with h1 | h1
    · rw [max_eq_right h1, max_eq_left (by omega)]; omega
    · rw [max_eq_left h1, max_eq_right (by omega)]

/-! ### Deferred completion queue -/

/-- The second loop of `handle_queue` visits the entries of `q` in list order. -/
theorem handle_queue_end_eq (q : List bio_queue) : handle_queue_end q = q := by
  induction q with
  | nil => rfl
  | cons a l ih => simp [handle_queue_end, ih]

/-- The first loop of `handle_queue` detaches the longest prefix of due entries and
stacks it, reversed, on `q`. -/
theorem handle_queue_drain_eq (ktime : Int) (queue q : List bio_queue) :
    handle_queue_drain ktime queue q =
      (queue.dropWhile (fun e => decide (e.ktime ≤ ktime)),
        (queue.takeWhile (fun e => decide (e.ktime ≤ ktime))).reverse ++ q) := by
  induction queue generalizing q with
  | nil => rfl
  | cons a l ih =>
    unfold handle_queue_drain
    by_cases h : a.ktime > ktime
    · have h' : ¬ a.ktime ≤ ktime := by omega
      simp [h, h', List.dropWhile, List.takeWhile]
    · have h' : a.ktime ≤ ktime := by omega
      simp [h, h', List.dropWhile, List.takeWhile, ih]

/-- Closed form of `handle_queue`: the queue keeps what follows the due prefix, and the
requests of the due prefix are ended last-detached first. -/
theorem handle_queue_eq (queue : List bio_queue) (ktime : Int) :
    handle_queue queue ktime =
      (queue.dropWhile (fun e => decide (e.ktime ≤ ktime)),
        (queue.takeWhile (fun e => decide (e.ktime ≤ ktime))).reverse) := by
  unfold handle_queue
  rw [handle_queue_drain_eq]
  simp [handle_queue_end_eq]

/-- In an ascending queue the due prefix holds every due entry and the rest holds every
entry that is not due. -/
theorem sorted_takeWhile_eq_filter (ktime : Int) (queue : List bio_queue)
    (hs : queue_sorted queue) :
    queue.takeWhile (fun e => decide (e.ktime ≤ ktime)) =
      queue.filter (fun e => decide (e.ktime ≤ ktime)) ∧
    queue.dropWhile (fun e => decide (e.ktime ≤ ktime)) =
      queue.filter (fun e => decide (e.ktime > ktime)) := by
  induction queue with
  | nil => exact ⟨rfl, rfl⟩
  | cons a l ih =>
    have hs' := List.pairwise_cons.mp hs
    obtain ⟨ih1, ih2⟩ := ih hs'.2
    by_cases h : a.ktime ≤ ktime
    · have h' : ¬ a.ktime > ktime := by omega
      simp [List.takeWhile, List.dropWhile, List.filter, h, h', ih1, ih2]
    · have h' : a.ktime > ktime := by omega
      have hall : ∀ e ∈ l, ¬ e.ktime ≤ ktime := fun e he => by
        have := hs'.1 e he
        omega
      have hall' : ∀ e ∈ l, e.ktime > ktime := fun e he => by
        have := hs'.1 e he
        omega
      have f1 : l.filter (fun e => decide (e.ktime ≤ ktime)) = [] := by
        rw [List.filter_eq_nil_iff]; intro e he; simpa using hall e he
      have f2 : l.filter (fun e => decide (e.ktime > ktime)) = l := by
        rw [List.filter_eq_self]; intro e he; simpa using hall' e he
      simp [List.takeWhile, List.dropWhile, List.filter, h, h', f1, f2]

/-- The cursor of `add_to_queue` stops behind the longest prefix of entries whose
deadline is at most that of `q`. -/
theorem add_to_queue_loop_spec (q : bio_queue) (queue : List bio_queue) :
    queue.take (add_to_queue_loop q queue) =
      queue.takeWhile (fun e => decide (e.ktime ≤ q.ktime)) ∧
    queue.drop (add_to_queue_loop q queue) =
      queue.dropWhile (fun e => decide (e.ktime ≤ q.ktime)) := by
  induction queue with
  | nil => exact ⟨rfl, rfl⟩
  | cons a l ih =>
    unfold add_to_queue_loop
    by_cases h : a.ktime > q.ktime
    · have h' : ¬ a.ktime ≤ q.ktime := by omega
      simp [h, h', List.takeWhile, List.dropWhile]
    · have h' : a.ktime ≤ q.ktime := by omega
      simp [h, h', List.takeWhile, List.dropWhile, ih.1, ih.2]

/-- The entry at which the cursor of `add_to_queue` stops has a deadline above that of
`q`. -/
theorem dropWhile_head_gt (ktime : Int) (queue : List bio_queue) :
    ∀ e, (queue.dropWhile (fun e => decide (e.ktime ≤ ktime))).head? = some e →
      ktime < e.ktime := by
  induction queue with
  | nil => intro e he; simp at he
  | cons a l ih =>
    intro e he
    by_cases h : a.ktime ≤ ktime
    · rw [List.dropWhile_cons_of_pos (by simpa using h)] at he
      exact ih e he
    · rw [List.dropWhile_cons_of_neg (by simpa using h)] at he
      simp only [List.head?_cons, Option.some.injEq] at he
      rw [← he]
      omega

/-- In an ascending queue every entry behind the prefix of entries with deadline
`<= ktime` has a deadline above `ktime`. -/
theorem sorted_dropWhile_gt (ktime : Int) (queue : List bio_queue) (hs : queue_sorted queue) :
    ∀ e ∈ queue.dropWhile (fun e => decide (e.ktime ≤ ktime)), ktime < e.ktime := by
  induction queue with
  | nil => intro e he; simp at he
  | cons a l ih =>
    have hs' := List.pairwise_cons.mp hs
    by_cases h : a.ktime ≤ ktime
    · simpa [List.dropWhile, h] using ih hs'.2
    · intro e he
      simp only [List.dropWhile, h, decide_False] at he
      rcases List.mem_cons.mp he with rfl | he
      · omega
      · have := hs'.1 e he
        omega

/-! ### Runs on concrete devices -/

/-- A run whose first component is known returns that value with the state read off the
run. -/
theorem run_eq_of_fst {α β : Type} (o : Option (α × β)) (a : α) (d : β)
    (h : o.map Prod.fst = some a) : o = some (a, (o.map Prod.snd).getD d) := by
  cases o with
  | none => simp at h
  | some r => obtain ⟨x, y⟩ := r; simp at h; simp [h]

/-- A run that returns, returns the value read off it. -/
theorem eq_some_getD {β : Type} (o : Option β) (d : β) (h : o.isSome = true) :
    o = some (o.getD d) := by
  cases o with
  | none => simp at h
  | some r => rfl

/-- Pages 0 and 1 of package 0 share a channel only when the bank-group width is 0. -/
theorem same_channel_bit_zero (b : Nat)
    (h : get_channel (Config.spec_default b) Address.first =
      get_channel (Config.spec_default b) Address.second) : b = 0 := by
  by_contra hb
  obtain ⟨k, rfl⟩ := Nat.exists_eq_succ_of_ne_zero hb
  have hodd : (2 ^ (k + 1) - 1) % 2 = 1 := by
    have hp : 0 < 2 ^ k := Nat.two_pow_pos k
    rw [pow_succ]
    omega
  simp only [get_channel, Config.spec_default, Address.first, Address.second,
    BANK_GROUP_MASK_eq, Nat.succ_ne_zero, if_false, Nat.zero_and, Nat.zero_or] at h
  rw [Nat.and_comm, Nat.and_one_is_mod, hodd] at h
  exact absurd h (by decide)

/-! ### Request handling -/

/-- When every engine call returns a non-negative value the loop of `do_request` leaves
the running maximum of these values, starting from the initial `timeval`. -/
theorem do_request_loop_max (cfg : Config) (type : event_type) (la unit size : Nat)
    (t : Int) : ∀ (n i : Nat) (ssd : Ssd) (tv : Int) (ls : List Int),
    do_request_loop_results cfg type la unit size t n i ssd = some ls →
    (∀ l ∈ ls, 0 ≤ l) →
    ∃ ssd1, do_request_loop cfg type la unit size t n i ssd tv =
      some (ls.foldl max tv, ssd1) := by
  intro n
  induction n with
  | zero =>
    intro i ssd tv ls h _
    simp only [do_request_loop_results, Option.some.injEq] at h
    subst h
    exact ⟨ssd, rfl⟩
  | succ n ih =>
    intro i ssd tv ls h hnn
    simp only [do_request_loop_results, Option.bind_eq_bind, Option.bind_eq_some] at h
    obtain ⟨⟨r, ssd1⟩, hcall, h⟩ := h
    simp only at h
    split at h
    · rename_i hneg
      simp only [Option.some.injEq] at h
      subst h
      have := hnn r (by simp)
      omega
    · rename_i hpos
      simp only [Option.bind_eq_bind, Option.bind_eq_some, Option.some.injEq] at h
      obtain ⟨rest, hrest, rfl⟩ := h
      obtain ⟨ssd2, h2⟩ := ih (i + 1) ssd1 (if r > tv then r else tv) rest hrest
        (fun l hl => hnn l (List.mem_cons_of_mem _ hl))
      refine ⟨ssd2, ?_⟩
      simp only [do_request_loop, Option.bind_eq_bind, hcall, Option.some_bind, if_neg hpos, h2,
        List.foldl_cons]
      congr 3
      by_cases hc : r > tv
      · rw [if_pos hc]; exact (max_eq_right (le_of_lt hc)).symm
      · rw [if_neg hc]; exact (max_eq_left (not_lt.mp hc)).symm

/-- The running maximum of a list is an upper bound of its start value and of every
element, and is the start value or an element. -/
theorem foldl_max_spec (ls : List Int) : ∀ (tv : Int),
    tv ≤ ls.foldl max tv ∧ (∀ l ∈ ls, l ≤ ls.foldl max tv) ∧
    (ls.foldl max tv = tv ∨ ls.foldl max tv ∈ ls) := by
  induction ls with
  | nil => intro tv; simp
  | cons a l ih =>
    intro tv
    obtain ⟨h1, h2, h3⟩ := ih (max tv a)
    simp only [List.foldl_cons, List.mem_cons]
    refine ⟨le_trans (le_max_left _ _) h1, ?_, ?_⟩
    · intro x hx
      rcases hx with rfl | hx
      · exact le_trans (le_max_right _ _) h1
      · exact h2 x hx
    · rcases h3 with h3 | h3
      · rw [h3]
        rcases max_choice tv a with hm | hm
        · left; exact hm
        · right; left; exact hm
      · right; right; exact h3

/-! ### Backing store -/

/-- A page holds `2 ^ (PAGE_SHIFT - 9)` sectors of 512 bytes. -/
theorem PAGE_SIZE_eq (PS : Nat) (h : 9 ≤ PS) : PAGE_SIZE PS = 2 ^ (PS - 9) * 512 := by
  unfold PAGE_SIZE
  rw [Nat.one_shiftLeft]
  have : PS = (PS - 9) + 9 := by omega
  conv_lhs => rw [this, pow_add]
  norm_num

/-- The page index of a sector is the sector number divided by the sectors per page. -/
theorem page_index_eq (PS sector : Nat) :
    sector >>> PAGE_SECTORS_SHIFT PS = sector / 2 ^ (PS - 9) := by
  unfold PAGE_SECTORS_SHIFT SECTOR_SHIFT
  rw [Nat.shiftRight_eq_div_pow]

/-- The byte offset of a sector in its page. -/
theorem page_offset_eq (PS sector : Nat) :
    (sector &&& (PAGE_SECTORS PS - 1)) <<< SECTOR_SHIFT = sector % 2 ^ (PS - 9) * 512 := by
  unfold PAGE_SECTORS PAGE_SECTORS_SHIFT SECTOR_SHIFT
  rw [Nat.one_shiftLeft, Nat.and_pow_two_sub_one_eq_mod, Nat.shiftLeft_eq]

/-- A sector never straddles a page: the first copy of a 512-byte transfer is the whole
transfer. -/
theorem page_copy_eq (PS sector : Nat) (h : 9 ≤ PS) :
    min 512 (PAGE_SIZE PS - sector % 2 ^ (PS - 9) * 512) = 512 ∧
    sector % 2 ^ (PS - 9) * 512 + 512 ≤ PAGE_SIZE PS := by
  rw [PAGE_SIZE_eq PS h]
  have hp : 0 < 2 ^ (PS - 9) := Nat.two_pow_pos _
  have hlt : sector % 2 ^ (PS - 9) < 2 ^ (PS - 9) := Nat.mod_lt _ hp
  have : sector % 2 ^ (PS - 9) * 512 + 512 ≤ 2 ^ (PS - 9) * 512 := by
    have := Nat.mul_le_mul_right 512 (Nat.succ_le_of_lt hlt)
    rw [Nat.succ_mul] at this
    exact this
  exact ⟨by omega, this⟩

/-- Reading one sector with `copy_from_brd` puts the 512 bytes of the sector at `doff`. -/
theorem copy_from_brd_sector (PS : Nat) (h9 : 9 ≤ PS) (brd : brd_device)
    (hwf : brd.pages_wf PS) (dst : List Nat) (doff k : Nat) (hd : doff + 512 ≤ dst.length) :
    copy_from_brd PS dst doff brd k 512 =
      some (dst.take doff ++ brd.sector_bytes PS k ++ dst.drop (doff + 512)) := by
  obtain ⟨hc, hle⟩ := page_copy_eq PS k h9
  unfold copy_from_brd brd_lookup_page brd_device.sector_bytes
  simp only [page_offset_eq, page_index_eq, hc, lt_irrefl, if_false]
  cases hp : brd.brd_pages (k / 2 ^ (PS - 9)) with
  | none =>
    simp only [memset, if_pos hd, Option.bind_eq_bind, Option.some_bind]
  | some page =>
    have hl := hwf _ _ hp
    have h2 : 512 ≤ (page.drop (k % 2 ^ (PS - 9) * 512)).length := by
      rw [List.length_drop]; omega
    simp only [memcpy, if_pos (And.intro hd h2), Option.bind_eq_bind, Option.some_bind]

/-- Entries of a window of a list. -/
theorem window_getElem? (l : List Nat) (o w i : Nat) :
    ((l.drop o).take w)[i]? = if i < w then l[o + i]? else none := by
  rw [List.getElem?_take, List.getElem?_drop]

/-- Entries of a list in which the `n` entries from `off` on were replaced. -/
theorem splice_getElem? (page mid : List Nat) (off n x : Nat) (hm : mid.length = n)
    (hlen : off + n ≤ page.length) :
    (page.take off ++ mid ++ page.drop (off + n))[x]? =
      if off ≤ x ∧ x < off + n then mid[x - off]? else page[x]? := by
  have hto : (page.take off).length = off := by rw [List.length_take]; omega
  rw [List.append_assoc, List.getElem?_append, hto]
  by_cases h1 : x < off
  · rw [if_pos h1, if_neg (by omega), List.getElem?_take, if_pos h1]
  · rw [if_neg h1, List.getElem?_append, hm]
    by_cases h2 : x - off < n
    · rw [if_pos h2, if_pos (by omega)]
    · rw [if_neg h2, if_neg (by omega), List.getElem?_drop]
      congr 1
      omega

/-- Replacing `n` entries keeps the length. -/
theorem splice_length (page mid : List Nat) (off n : Nat) (hm : mid.length = n)
    (hlen : off + n ≤ page.length) :
    (page.take off ++ mid ++ page.drop (off + n)).length = page.length := by
  simp only [List.length_append, List.length_take, List.length_drop, hm]
  omega

/-- The sector view of a zeroed page is zero. -/
theorem zero_page_window (PS k : Nat) (h9 : 9 ≤ PS) :
    ((List.replicate (PAGE_SIZE PS) 0).drop (k % 2 ^ (PS - 9) * 512)).take 512 =
      List.replicate 512 0 := by
  obtain ⟨hc, _⟩ := page_copy_eq PS k h9
  rw [List.drop_replicate, List.take_replicate, hc]

/-- What `copy_to_brd_setup` for one sector does: it keeps every stored byte and every page,
and returns 0 with the page of the sector present when that page was present or could
be allocated. -/
theorem copy_to_brd_setup_spec (PS : Nat) (h9 : 9 ≤ PS) (brd brd1 : brd_device)
    (hwf : brd.pages_wf PS) (k : Nat) (alloc_ok : Nat → Bool) (err : Int)
    (h : copy_to_brd_setup PS brd k 512 alloc_ok = (err, brd1)) :
    brd1.pages_wf PS ∧
    (∀ j, brd1.sector_bytes PS j = brd.sector_bytes PS j) ∧
    (∀ idx, (brd.brd_pages idx).isSome = true → (brd1.brd_pages idx).isSome = true) ∧
    (err = 0 → (brd1.brd_pages (k / 2 ^ (PS - 9))).isSome = true) ∧
    (alloc_ok (k / 2 ^ (PS - 9)) = true → err = 0) := by
  obtain ⟨hc, hle⟩ := page_copy_eq PS k h9
  unfold copy_to_brd_setup brd_insert_page brd_lookup_page at h
  simp only [page_offset_eq, page_index_eq, hc, lt_irrefl, if_false] at h
  cases hp : brd.brd_pages (k / 2 ^ (PS - 9)) with
  | some page =>
    rw [hp] at h
    simp only [Prod.mk.injEq] at h
    obtain ⟨rfl, rfl⟩ := h
    exact ⟨hwf, fun _ => rfl, fun _ hi => hi, fun _ => by rw [hp]; rfl, fun _ => rfl⟩
  | none =>
    rw [hp] at h
    cases ha : alloc_ok (k / 2 ^ (PS - 9)) with
    | false =>
      rw [ha] at h
      simp only [Bool.false_eq_true, if_false, Prod.mk.injEq] at h
      obtain ⟨rfl, rfl⟩ := h
      refine ⟨hwf, fun _ => rfl, fun _ hi => hi, fun h0 => ?_, fun h0 => ?_⟩
      · exact absurd h0 (by decide)
      · exact absurd h0 (by decide)
    | true =>
      rw [ha] at h
      simp only [if_true, Prod.mk.injEq] at h
      obtain ⟨rfl, rfl⟩ := h
      refine ⟨?_, ?_, ?_, ?_, fun _ => rfl⟩
      · intro idx page hpage
        simp only at hpage
        by_cases hi : idx = k / 2 ^ (PS - 9)
        · subst hi
          rw [Function.update_same] at hpage
          simp only [Option.some.injEq] at hpage
          rw [← hpage, List.length_replicate]
        · rw [Function.update_noteq hi] at hpage
          exact hwf idx page hpage
      · intro j
        unfold brd_device.sector_bytes
        simp only
        by_cases hi : j / 2 ^ (PS - 9) = k / 2 ^ (PS - 9)
        · rw [hi, Function.update_same, hp]
          simp only
          exact zero_page_window PS j h9
        · rw [Function.update_noteq hi]
      · intro idx hsome
        simp only
        by_cases hi : idx = k / 2 ^ (PS - 9)
        · subst hi
          rw [Function.update_same]; rfl
        · rw [Function.update_noteq hi]; exact hsome
      · intro _
        simp only
        rw [Function.update_same]; rfl

/-- Writing one sector with `copy_to_brd` stores the first 512 bytes of the source as the
bytes of that sector and keeps every other sector. -/
theorem copy_to_brd_sector (PS : Nat) (h9 : 9 ≤ PS) (brd : brd_device)
    (hwf : brd.pages_wf PS) (src : List Nat) (k : Nat) (hsrc : 512 ≤ src.length)
    (hp : (brd.brd_pages (k / 2 ^ (PS - 9))).isSome = true) :
    ∃ brd1, copy_to_brd PS brd src k 512 = some brd1 ∧ brd1.pages_wf PS ∧
      (∀ idx, (brd.brd_pages idx).isSome = true → (brd1.brd_pages idx).isSome = true) ∧
      brd1.sector_bytes PS k = src.take 512 ∧
      ∀ j, j ≠ k → brd1.sector_bytes PS j = brd.sector_bytes PS j := by
  obtain ⟨hc, hle⟩ := page_copy_eq PS k h9
  obtain ⟨page, hpage⟩ := Option.isSome_iff_exists.mp hp
  have hl := hwf _ _ hpage
  have hmid : (src.take 512).length = 512 := by rw [List.length_take]; omega
  have hcond : k % 2 ^ (PS - 9) * 512 + 512 ≤ page.length ∧ 512 ≤ src.length :=
    ⟨by omega, hsrc⟩
  obtain ⟨pg1, hpg1⟩ : ∃ pg1, pg1 = page.take (k % 2 ^ (PS - 9) * 512) ++ src.take 512 ++
      page.drop (k % 2 ^ (PS - 9) * 512 + 512) := ⟨_, rfl⟩
  refine ⟨{ brd with brd_pages := Function.update brd.brd_pages (k / 2 ^ (PS - 9)) (some pg1) },
    ?_, ?_, ?_, ?_, ?_⟩
  · unfold copy_to_brd brd_lookup_page
    simp only [page_offset_eq, page_index_eq, hc, lt_irrefl, if_false, hpage, memcpy,
      if_pos hcond, Option.bind_eq_bind, Option.some_bind, hpg1]
  · intro idx pg hpg
    simp only at hpg
    by_cases hi : idx = k / 2 ^ (PS - 9)
    · subst hi
      rw [Function.update_same] at hpg
      simp only [Option.some.injEq] at hpg
      rw [← hpg, hpg1, splice_length _ _ _ _ hmid (by omega), hl]
    · rw [Function.update_noteq hi] at hpg
      exact hwf idx pg hpg
  · intro idx hsome
    simp only
    by_cases hi : idx = k / 2 ^ (PS - 9)
    · subst hi
      rw [Function.update_same]; rfl
    · rw [Function.update_noteq hi]; exact hsome
  · unfold brd_device.sector_bytes
    simp only [Function.update_same]
    apply List.ext_getElem?
    intro i
    rw [hpg1, window_getElem?, splice_getElem? _ _ _ _ _ hmid (by omega)]
    by_cases h1 : i < 512
    · rw [if_pos h1, if_pos (by omega)]
      congr 1
      omega
    · rw [if_neg h1, List.getElem?_eq_none (by omega)]
  · intro j hjk
    unfold brd_device.sector_bytes
    simp only
    by_cases hi : j / 2 ^ (PS - 9) = k / 2 ^ (PS - 9)
    · rw [hi, Function.update_same, hpage]
      simp only
      have hne : j % 2 ^ (PS - 9) ≠ k % 2 ^ (PS - 9) := by
        intro hm
        apply hjk
        calc j = 2 ^ (PS - 9) * (j / 2 ^ (PS - 9)) + j % 2 ^ (PS - 9) :=
              (Nat.div_add_mod j _).symm
          _ = 2 ^ (PS - 9) * (k / 2 ^ (PS - 9)) + k % 2 ^ (PS - 9) := by rw [hi, hm]
          _ = k := Nat.div_add_mod k _
      apply List.ext_getElem?
      intro i
      rw [hpg1, window_getElem?, window_getElem?, splice_getElem? _ _ _ _ _ hmid (by omega)]
      by_cases h1 : i < 512
      · rw [if_pos h1, if_pos h1, if_neg (by omega)]
      · rw [if_neg h1, if_neg h1]
    · rw [Function.update_noteq hi]

/-- A sector has 512 bytes. -/
theorem sector_bytes_length (PS : Nat) (h9 : 9 ≤ PS) (brd : brd_device)
    (hwf : brd.pages_wf PS) (k : Nat) : (brd.sector_bytes PS k).length = 512 := by
  obtain ⟨hc, hle⟩ := page_copy_eq PS k h9
  unfold brd_device.sector_bytes
  cases hp : brd.brd_pages (k / 2 ^ (PS - 9)) with
  | none => simp only [List.length_replicate]
  | some page =>
    have hl := hwf _ _ hp
    simp only [List.length_take, List.length_drop]
    omega

/-- The setup loop of `brd_do_bvec` keeps all stored bytes; when it returns 0 the pages of
all its sectors are present, and it returns 0 when no allocation fails. -/
theorem brd_do_bvec_setup_spec (PS : Nat) (h9 : 9 ≤ PS) (sector : Nat)
    (alloc_ok : Nat → Bool) : ∀ (n i : Nat) (brd brd1 : brd_device) (err : Int),
    brd.pages_wf PS → brd_do_bvec_setup PS sector alloc_ok n i brd = (err, brd1) →
    brd1.pages_wf PS ∧ (∀ j, brd1.sector_bytes PS j = brd.sector_bytes PS j) ∧
    (∀ idx, (brd.brd_pages idx).isSome = true → (brd1.brd_pages idx).isSome = true) ∧
    (err = 0 → ∀ j, i ≤ j → j < i + n →
      (brd1.brd_pages ((sector + j) / 2 ^ (PS - 9))).isSome = true) ∧
    ((∀ idx, alloc_ok idx = true) → err = 0) := by
  intro n
  induction n with
  | zero =>
    intro i brd brd1 err hwf h
    simp only [brd_do_bvec_setup, Prod.mk.injEq] at h
    obtain ⟨rfl, rfl⟩ := h
    exact ⟨hwf, fun _ => rfl, fun _ hi => hi, fun _ j h1 h2 => by omega, fun _ => rfl⟩
  | succ n ih =>
    intro i brd brd1 err hwf h
    unfold brd_do_bvec_setup at h
    cases hs : copy_to_brd_setup PS brd (sector + i) 512 alloc_ok with
    | mk e1 b1 =>
      rw [hs] at h
      simp only at h
      obtain ⟨hwf1, hsb1, hmono1, hpres1, hall1⟩ :=
        copy_to_brd_setup_spec PS h9 brd b1 hwf (sector + i) alloc_ok e1 hs
      by_cases he : e1 = 0
      · subst he
        simp only [ne_eq, not_true_eq_false, if_false] at h
        obtain ⟨hwf2, hsb2, hmono2, hpres2, hall2⟩ := ih (i + 1) b1 brd1 err hwf1 h
        refine ⟨hwf2, fun j => (hsb2 j).trans (hsb1 j), fun idx hi => hmono2 idx (hmono1 idx hi),
          ?_, hall2⟩
        intro herr j hij hjn
        by_cases hji : j = i
        · subst hji
          exact hmono2 _ (hpres1 rfl)
        · exact hpres2 herr j (by omega) (by omega)
      · simp only [ne_eq, he, not_false_eq_true, if_true, Prod.mk.injEq] at h
        obtain ⟨rfl, rfl⟩ := h
        refine ⟨hwf1, hsb1, hmono1, fun h0 => absurd h0 he, fun hall => ?_⟩
        exact hall1 (hall _)

/-- The write loop of `brd_do_bvec` returns when the pages of its sectors are present and
the source range lies inside the memory; each sector then holds its 512 source bytes
and every other sector is unchanged. -/
theorem brd_do_bvec_write_spec (PS : Nat) (h9 : 9 ≤ PS) (mem : List Nat) (off sector : Nat) :
    ∀ (n i : Nat) (brd : brd_device), brd.pages_wf PS →
    (∀ j, i ≤ j → j < i + n →
      (brd.brd_pages ((sector + j) / 2 ^ (PS - 9))).isSome = true) →
    off + (i + n) * 512 ≤ mem.length →
    ∃ brd1, brd_do_bvec_write PS mem off sector n i brd = some brd1 ∧ brd1.pages_wf PS ∧
      (∀ idx, (brd.brd_pages idx).isSome = true → (brd1.brd_pages idx).isSome = true) ∧
      (∀ j, i ≤ j → j < i + n →
        brd1.sector_bytes PS (sector + j) = (mem.drop (off + j * 512)).take 512) ∧
      (∀ k, (∀ j, i ≤ j → j < i + n → k ≠ sector + j) →
        brd1.sector_bytes PS k = brd.sector_bytes PS k) := by
  intro n
  induction n with
  | zero =>
    intro i brd hwf _ _
    exact ⟨brd, rfl, hwf, fun _ hi => hi, fun j h1 h2 => by omega, fun _ _ => rfl⟩
  | succ n ih =>
    intro i brd hwf hpres hlen
    have hshift : i <<< 9 = i * 512 := by rw [Nat.shiftLeft_eq]
    have hsrc : 512 ≤ (mem.drop (off + i * 512)).length := by
      rw [List.length_drop]; omega
    obtain ⟨b1, hcopy, hwf1, hmono1, hk1, hframe1⟩ :=
      copy_to_brd_sector PS h9 brd hwf (mem.drop (off + i * 512)) (sector + i) hsrc
        (hpres i (le_refl _) (by omega))
    obtain ⟨b2, hloop, hwf2, hmono2, hk2, hframe2⟩ := ih (i + 1) b1 hwf1
      (fun j h1 h2 => hmono1 _ (hpres j (by omega) (by omega))) (by omega)
    refine ⟨b2, ?_, hwf2, fun idx hi => hmono2 idx (hmono1 idx hi), ?_, ?_⟩
    · simp only [brd_do_bvec_write, hshift, hcopy, Option.bind_eq_bind, Option.some_bind, hloop]
    · intro j hij hjn
      by_cases hji : j = i
      · subst hji
        rw [hframe2 (sector + j) (fun j' h1 h2 => by omega), hk1]
      · exact hk2 j (by omega) (by omega)
    · intro k hk
      rw [hframe2 k (fun j h1 h2 => hk j (by omega) (by omega)),
        hframe1 k (hk i (le_refl _) (by omega))]

/-- The read loop of `brd_do_bvec` returns when the destination range lies inside the
memory; each 512-byte window of the range then holds the bytes of its sector and the
memory outside the range is unchanged. -/
theorem brd_do_bvec_read_spec (PS : Nat) (h9 : 9 ≤ PS) (brd : brd_device)
    (hwf : brd.pages_wf PS) (off sector : Nat) : ∀ (n i : Nat) (mem : List Nat),
    off + (i + n) * 512 ≤ mem.length →
    ∃ mem1, brd_do_bvec_read PS brd off sector n i mem = some mem1 ∧
      mem1.length = mem.length ∧
      (∀ j, i ≤ j → j < i + n →
        (mem1.drop (off + j * 512)).take 512 = brd.sector_bytes PS (sector + j)) ∧
      (∀ x, x < off + i * 512 ∨ off + (i + n) * 512 ≤ x → mem1[x]? = mem[x]?) := by
  intro n
  induction n with
  | zero =>
    intro i mem _
    exact ⟨mem, rfl, rfl, fun j h1 h2 => by omega, fun _ _ => rfl⟩
  | succ n ih =>
    intro i mem hlen
    have hshift : i <<< 9 = i * 512 := by rw [Nat.shiftLeft_eq]
    have hsl := sector_bytes_length PS h9 brd hwf (sector + i)
    have hcopy := copy_from_brd_sector PS h9 brd hwf mem (off + i * 512) (sector + i)
      (by omega)
    have hl1 := splice_length mem (brd.sector_bytes PS (sector + i)) (off + i * 512) 512 hsl
      (by omega)
    obtain ⟨m2, hloop, hl2, hwin2, hframe2⟩ := ih (i + 1) _ (by rw [hl1]; omega)
    refine ⟨m2, ?_, hl2.trans hl1, ?_, ?_⟩
    · simp only [brd_do_bvec_read, hshift, hcopy, Option.bind_eq_bind, Option.some_bind, hloop]
    · intro j hij hjn
      by_cases hji : j = i
      · subst hji
        apply List.ext_getElem?
        intro t
        rw [window_getElem?]
        by_cases ht : t < 512
        · rw [if_pos ht, hframe2 _ (Or.inl (by omega)),
            splice_getElem? _ _ _ _ _ hsl (by omega), if_pos (by omega)]
          congr 1
          omega
        · rw [if_neg ht, List.getElem?_eq_none (by omega)]
      · exact hwin2 j (by omega) (by omega)
    · intro x hx
      rw [hframe2 x (by omega), splice_getElem? _ _ _ _ _ hsl (by omega), if_neg (by omega)]

/-- A write by `brd_do_bvec` returns; sectors outside its range keep their bytes, and when
the error code is 0 each sector of the range holds its source bytes. -/
theorem brd_do_bvec_write_total (PS : Nat) (h9 : 9 ≤ PS) (brd : brd_device)
    (hwf : brd.pages_wf PS) (mem : List Nat) (len off sector : Nat) (alloc_ok : Nat → Bool)
    (hlen : off + (len >>> 9) * 512 ≤ mem.length) :
    ∃ err brd1, brd_do_bvec PS brd mem len off WRITE sector alloc_ok = some (err, brd1, mem) ∧
      brd1.pages_wf PS ∧
      (∀ k, (∀ j, j < len >>> 9 → k ≠ sector + j) →
        brd1.sector_bytes PS k = brd.sector_bytes PS k) ∧
      (err = 0 → ∀ j, j < len >>> 9 →
        brd1.sector_bytes PS (sector + j) = (mem.drop (off + j * 512)).take 512) ∧
      ((∀ idx, alloc_ok idx = true) → err = 0) := by
  have hrw : WRITE ≠ READ := by decide
  cases hs : brd_do_bvec_setup PS sector alloc_ok (len >>> 9) 0 brd with
  | mk e1 b1 =>
    obtain ⟨hwf1, hsb1, hmono1, hpres1, hall1⟩ :=
      brd_do_bvec_setup_spec PS h9 sector alloc_ok (len >>> 9) 0 brd b1 e1 hwf hs
    by_cases he : e1 = 0
    · subst he
      obtain ⟨b2, hloop, hwf2, _, hk2, hframe2⟩ :=
        brd_do_bvec_write_spec PS h9 mem off sector (len >>> 9) 0 b1 hwf1
          (fun j h1 h2 => hpres1 rfl j h1 h2) (by omega)
      refine ⟨0, b2, ?_, hwf2, ?_, ?_, fun _ => rfl⟩
      · simp only [brd_do_bvec, ne_eq, hrw, not_false_eq_true, if_true, hs, not_true_eq_false,
          if_false, hloop, Option.bind_eq_bind, Option.some_bind]
      · intro k hk
        rw [hframe2 k (fun j _ h2 => hk j (by omega)), hsb1 k]
      · intro _ j hj
        exact hk2 j (Nat.zero_le _) (by omega)
    · refine ⟨e1, b1, ?_, hwf1, fun k _ => hsb1 k, fun h0 => absurd h0 he, hall1⟩
      simp only [brd_do_bvec, ne_eq, hrw, not_false_eq_true, if_true, hs, he]

/-- A read by `brd_do_bvec` returns 0 and leaves the device unchanged; each window of the
destination range holds the bytes of its sector. -/
theorem brd_do_bvec_read_total (PS : Nat) (h9 : 9 ≤ PS) (brd : brd_device)
    (hwf : brd.pages_wf PS) (mem : List Nat) (len off sector : Nat) (alloc_ok : Nat → Bool)
    (hlen : off + (len >>> 9) * 512 ≤ mem.length) :
    ∃ mem1, brd_do_bvec PS brd mem len off READ sector alloc_ok = some (0, brd, mem1) ∧
      mem1.length = mem.length ∧
      (∀ j, j < len >>> 9 →
        (mem1.drop (off + j * 512)).take 512 = brd.sector_bytes PS (sector + j)) ∧
      (∀ x, x < off ∨ off + (len >>> 9) * 512 ≤ x → mem1[x]? = mem[x]?) := by
  obtain ⟨m1, hloop, hl, hwin, hframe⟩ :=
    brd_do_bvec_read_spec PS h9 brd hwf off sector (len >>> 9) 0 mem (by omega)
  refine ⟨m1, ?_, hl, fun j hj => hwin j (Nat.zero_le _) (by omega), fun x hx => ?_⟩
  · simp only [brd_do_bvec, ne_eq, not_true_eq_false, if_false, if_true, hloop,
      Option.bind_eq_bind, Option.some_bind]
  · exact hframe x (by omega)

/-- Two lists of `n` sectors with equal 512-byte windows are equal. -/
theorem eq_of_windows (l1 l2 : List Nat) (n : Nat) (h1 : l1.length = n * 512)
    (h2 : l2.length = n * 512)
    (h : ∀ j, j < n → (l1.drop (0 + j * 512)).take 512 = (l2.drop (j * 512)).take 512) :
    l1 = l2 := by
  apply List.ext_getElem?
  intro x
  by_cases hx : x < n * 512
  · have hj : x / 512 < n := by omega
    have e1 := congrArg (fun l => l[x % 512]?) (h (x / 512) hj)
    simp only [window_getElem?, if_pos (Nat.mod_lt x (by decide : 0 < 512))] at e1
    have hxx : x / 512 * 512 + x % 512 = x := by omega
    rw [Nat.zero_add, hxx] at e1
    exact e1
  · rw [List.getElem?_eq_none (by omega), List.getElem?_eq_none (by omega)]

/-- A history of writes keeps the bytes of every sector outside all written ranges. -/
theorem brd_write_all_spec (PS : Nat) (h9 : 9 ≤ PS) (alloc_ok : Nat → Bool) :
    ∀ (ws : List (Nat × List Nat)) (brd brd1 : brd_device), brd.pages_wf PS →
    brd_write_all PS alloc_ok brd ws = some brd1 →
    brd1.pages_wf PS ∧
    ∀ k, (∀ w ∈ ws, k < w.1 ∨ w.1 + (w.2.length >>> 9) ≤ k) →
      brd1.sector_bytes PS k = brd.sector_bytes PS k := by
  intro ws
  induction ws with
  | nil =>
    intro brd brd1 hwf h
    simp only [brd_write_all, Option.some.injEq] at h
    subst h
    exact ⟨hwf, fun _ _ => rfl⟩
  | cons w rest ih =>
    intro brd brd1 hwf h
    obtain ⟨s, B⟩ := w
    have hB : 0 + (B.length >>> 9) * 512 ≤ B.length := by
      rw [Nat.shiftRight_eq_div_pow, Nat.zero_add]
      exact Nat.div_mul_le_self _ _
    obtain ⟨err, b1, hw, hwf1, hframe1, _, _⟩ :=
      brd_do_bvec_write_total PS h9 brd hwf B B.length 0 s alloc_ok hB
    simp only [brd_write_all, hw] at h
    obtain ⟨hwf2, hframe2⟩ := ih b1 brd1 hwf1 h
    refine ⟨hwf2, fun k hk => ?_⟩
    rw [hframe2 k (fun w hw => hk w (List.mem_cons_of_mem _ hw)), hframe1 k]
    intro j hj
    have := hk (s, B) (List.mem_cons_self _ _)
    simp only at this
    omega

/-! ### Address -/

/-- Two addresses that compare equal down to BLOCK have the same block field. -/
theorem ssd_address_compare_block (a b : Address)
    (h : address_valid.BLOCK.toNat ≤ (ssd_address_compare a b).toNat) : a.block = b.block := by
  unfold ssd_address_compare at h
  split_ifs at h with h1 h2 h3 h4 h5
  · exact h4.1
  · exact h4.1
  all_goals exact absurd h (by decide)

/-! ### What a returned call tells about the state -/

/-- A returned erase loop stayed inside the page array. -/
theorem ssd_block_erase_loop_bound : ∀ (n i : Nat) (data data' : List Page),
    ssd_block_erase_loop n i data = some data' → n = 0 ∨ i + n ≤ data.length
  | 0, _, _, _, _ => Or.inl rfl
  | n + 1, i, data, data', h => by
    simp only [ssd_block_erase_loop, Option.bind_eq_bind, Option.bind_eq_some] at h
    obtain ⟨pg, hpg, h⟩ := h
    have hi : i < data.length := (List.getElem?_eq_some.mp hpg).1
    rcases ssd_block_erase_loop_bound n (i + 1) _ data' h with h0 | h1
    · subst h0; right; omega
    · rw [List.length_set] at h1; right; omega

/-- A returned `ssd_block_erase` succeeded on an event with a submission time `>= 0`, set
every page of the array to EMPTY, zeroed the counters, set the state to FREE and stored
`start_time + time_taken` of the event as it leaves the block. -/
theorem ssd_block_erase_inv (cfg : Config) (b b' : Block) (ev ev' : Event) (ret : status)
    (h : ssd_block_erase cfg b ev = some (ret, b', ev')) :
    ret = .SUCCESS ∧ 0 ≤ ev.start_time ∧
    ev' = { ev with time_taken := ev.time_taken + Block._erase_delay cfg } ∧
    ∃ data', ssd_block_erase_loop (Block._size cfg) 0 b.data = some data' ∧
      b' = { b with data := data', last_erase_time := wrap_int64 (ev.start_time + ev'.time_taken),
                    pages_valid := 0, pages_invalid := 0, state := .FREE } := by
  unfold ssd_block_erase at h
  rw [assert_true (Block.erase_delay_nonneg cfg),
    incr_time_taken_nonneg ev _ (Block.erase_delay_nonneg cfg)] at h
  simp only [Option.bind_eq_bind, Option.some_bind, Option.bind_eq_some, Option.some.injEq,
    Prod.mk.injEq, ssd_event_get_start_time, ssd_event_get_time_taken, assert_eq_some] at h
  obtain ⟨data', hd, t0, ⟨_, hst, ht0⟩, t1, ⟨_, _, ht1⟩, h1, h2, h3⟩ := h
  subst ht0 ht1 h3
  exact ⟨h1.symm, hst, rfl, data', hd, h2.symm⟩

/-- A returned `ssd_block_read` leaves the block as it was. -/
theorem ssd_block_read_inv (cfg : Config) (b b' : Block) (ev ev' : Event) (ret : status)
    (h : ssd_block_read cfg b ev = some (ret, b', ev')) : b' = b := by
  unfold ssd_block_read at h
  simp only [Option.bind_eq_bind, Option.bind_eq_some, Option.some.injEq, Prod.mk.injEq] at h
  obtain ⟨pg, hpg, ⟨r, pg', e⟩, hr, _, h2, _⟩ := h
  rw [ssd_page_read_eq] at hr
  simp only [Option.some.injEq] at hr
  have hpg' : pg' = pg := by
    split at hr <;> simp only [Prod.mk.injEq] at hr <;> exact hr.2.1.symm
  rw [← h2, hpg', list_set_same _ _ _ hpg]

/-- A returned `ssd_block_write` found the addressed page; it either wrote an EMPTY page
(the page is VALID, `pages_valid` is one more, the state is ACTIVE) or failed and left the
block as it was. -/
theorem ssd_block_write_inv (cfg : Config) (b b' : Block) (ev ev' : Event) (ret : status)
    (h : ssd_block_write cfg b ev = some (ret, b', ev')) :
    ∃ pg, b.data[ev.address.page]? = some pg ∧
      ((pg.state = .EMPTY ∧ ret = .SUCCESS ∧
        b' = { b with data := b.data.set ev.address.page { state := .VALID },
                      pages_valid := (b.pages_valid + 1) % UINT_MOD, state := .ACTIVE }) ∨
       (pg.state ≠ .EMPTY ∧ ret = .FAILURE ∧ b' = b)) := by
  have h0 := h
  unfold ssd_block_write ssd_event_get_address at h0
  simp only [Option.bind_eq_bind, Option.bind_eq_some] at h0
  obtain ⟨pg, hpg, _⟩ := h0
  refine ⟨pg, hpg, ?_⟩
  rw [ssd_block_write_eq cfg b ev pg hpg] at h
  simp only [Option.some.injEq] at h
  by_cases he : pg.state = .EMPTY
  · rw [if_pos he] at h
    simp only [Prod.mk.injEq] at h
    exact Or.inl ⟨he, h.1.symm, h.2.1.symm⟩
  · rw [if_neg he] at h
    simp only [Prod.mk.injEq] at h
    exact Or.inr ⟨he, h.1.symm, h.2.1.symm⟩

/-- A returned `ssd_block_invalidate_page` found the page inside the block, set it to
INVALID, added one to `pages_invalid` and recomputed the state from the counters. -/
theorem ssd_block_invalidate_page_inv (cfg : Config) (b b' : Block) (page : Nat)
    (h : ssd_block_invalidate_page cfg b page = some b') :
    page < Block._size cfg ∧ ∃ pg, b.data[page]? = some pg ∧
      b' = { b with data := b.data.set page { state := .INVALID },
                    pages_invalid := (b.pages_invalid + 1) % UINT_MOD,
                    state :=
                      if Block._size cfg ≤ (b.pages_invalid + 1) % UINT_MOD then .INACTIVE
                      else if 0 < b.pages_valid ∨ 0 < (b.pages_invalid + 1) % UINT_MOD
                        then .ACTIVE
                      else .FREE } := by
  unfold ssd_block_invalidate_page at h
  simp only [Option.bind_eq_bind, Option.bind_eq_some, assert_eq_some] at h
  obtain ⟨_, hp, pg, hpg, h⟩ := h
  refine ⟨hp, pg, hpg, ?_⟩
  simp only [ssd_page_set_state] at h
  split at h
  · rename_i h1
    simp only [Option.some.injEq] at h
    rw [← h, if_pos h1]
  · rename_i h1
    split at h
    · rename_i h2
      simp only [Option.some.injEq] at h
      rw [← h, if_neg h1, if_pos h2]
    · rename_i h2
      simp only [Option.some.injEq] at h
      rw [← h, if_neg h1, if_neg h2]

/-- A returned `get_next_page` loop changed nothing but the cursor. -/
theorem Plane.get_next_page_loop_frame (cfg : Config) :
    ∀ (n i : Nat) (p p' : Plane) (st : status),
      Plane.get_next_page_loop cfg n i p = some (st, p') →
        ∃ a, p' = { p with next_page := a }
  | 0, _, p, p', st, h => by
    simp only [Plane.get_next_page_loop, Option.some.injEq, Prod.mk.injEq] at h
    exact ⟨p.next_page, h.2.symm⟩
  | n + 1, i, p, p', st, h => by
    simp only [Plane.get_next_page_loop, Option.bind_eq_bind, Option.bind_eq_some] at h
    obtain ⟨b, _, h⟩ := h
    split at h
    · simp only [Option.bind_eq_bind, Option.bind_eq_some] at h
      obtain ⟨⟨ret, a⟩, _, h⟩ := h
      simp only at h
      split at h
      · simp only [Option.some.injEq, Prod.mk.injEq] at h
        exact ⟨_, h.2.symm⟩
      · obtain ⟨a', h'⟩ := Plane.get_next_page_loop_frame cfg n (i + 1) _ p' st h
        exact ⟨a', h'⟩
    · exact Plane.get_next_page_loop_frame cfg n (i + 1) p p' st h

/-- A returned `get_next_page` changed nothing but the cursor. -/
theorem Plane.get_next_page_frame (cfg : Config) (p p' : Plane) (st : status)
    (h : Plane.get_next_page cfg p = some (st, p')) : ∃ a, p' = { p with next_page := a } := by
  obtain ⟨a, ha⟩ := Plane.get_next_page_loop_frame cfg _ _ _ p' st h
  exact ⟨a, ha⟩

/-- The loop of the plane's `update_wear_stats` never moves the index: every block reports
the same `erases_remaining`, which is never greater than `max`. -/
theorem Plane.plane_wear_stats_loop_inv (p : Plane) :
    ∀ (n i mi mi' : Nat), Plane.update_wear_stats_loop p 1000 n i mi = some mi' → mi' = mi
  | 0, _, mi, mi', h => by
    simp only [Plane.update_wear_stats_loop, Option.some.injEq] at h
    exact h.symm
  | n + 1, i, mi, mi', h => by
    simp only [Plane.update_wear_stats_loop, Option.bind_eq_bind, Option.bind_eq_some] at h
    obtain ⟨b, _, h⟩ := h
    simp only [ssd_block_get_erases_remaining, lt_self_iff_false, if_false] at h
    exact Plane.plane_wear_stats_loop_inv p n (i + 1) mi mi' h

/-- A returned `update_wear_stats` of a plane stored the constant that every block reports,
index 0 and the erase time of block 0, and changed nothing else. -/
theorem Plane.plane_wear_stats_inv (cfg : Config) (p p' : Plane)
    (h : Plane.update_wear_stats cfg p = some p') :
    ∃ b0, p.data[0]? = some b0 ∧
      p' = { p with least_worn := 0, erases_remaining := 1000,
                    last_erase_time := b0.last_erase_time } := by
  unfold Plane.update_wear_stats at h
  simp only [Option.bind_eq_bind, Option.bind_eq_some, Option.some.injEq] at h
  obtain ⟨b0, hb0, mi, hmi, bm, hbm, h⟩ := h
  simp only [ssd_block_get_erases_remaining] at hmi h
  have := Plane.plane_wear_stats_loop_inv p _ _ _ _ hmi
  subst this
  rw [hb0] at hbm
  simp only [Option.some.injEq] at hbm
  subst hbm
  exact ⟨b0, hb0, h.symm⟩
/-- A returned `ssd_plane_read` changed nothing. -/
theorem ssd_plane_read_inv (cfg : Config) (p p' : Plane) (ev ev' : Event) (ret : status)
    (h : ssd_plane_read cfg p ev = some (ret, p', ev')) : p' = p := by
  unfold ssd_plane_read at h
  simp only [Option.bind_eq_bind, Option.bind_eq_some, Option.some.injEq, Prod.mk.injEq] at h
  obtain ⟨_, _, b, hb, ⟨r, b1, e⟩, hr, _, h2, _⟩ := h
  have := ssd_block_read_inv cfg b b1 ev e r hr
  subst this
  rw [← h2, list_set_same _ _ _ hb]

/-- A returned `ssd_plane_write` handed the event to `ssd_block_write` on the addressed
block and stored the block back; apart from that only the cursor can differ
(`free_blocks` is compared before the write and stays). -/
theorem ssd_plane_write_inv (cfg : Config) (p p' : Plane) (ev ev' : Event) (ret : status)
    (h : ssd_plane_write cfg p ev = some (ret, p', ev')) :
    ∃ b b' a, p.data[ev.address.block]? = some b ∧
      ssd_block_write cfg b ev = some (ret, b', ev') ∧
      p' = { p with next_page := a, data := p.data.set ev.address.block b' } := by
  unfold ssd_plane_write ssd_event_get_address at h
  simp only [Option.bind_eq_bind, Option.bind_eq_some] at h
  obtain ⟨b, hb, p1, hp1, b1, hb1, b2, hb2, ⟨r, b', e⟩, hw, h⟩ := h
  simp only [Option.some.injEq, Prod.mk.injEq] at h
  obtain ⟨rfl, h2, rfl⟩ := h
  have hp1' : ∃ a, p1 = { p with next_page := a } := by
    split at hp1
    · simp only [Option.map_eq_some', Prod.exists, exists_eq_right] at hp1
      obtain ⟨st, hst⟩ := hp1
      exact Plane.get_next_page_frame cfg p p1 st hst
    · simp only [Option.some.injEq] at hp1
      exact ⟨p.next_page, by rw [← hp1]⟩
  obtain ⟨a, rfl⟩ := hp1'
  simp only at hb1 hb2 hw h2
  rw [hb] at hb1 hb2
  simp only [Option.some.injEq] at hb1 hb2
  subst hb1 hb2
  refine ⟨b, b', a, hb, hw, ?_⟩
  rw [← h2]
  simp [ssd_block_get_state]

/-- A returned `ssd_plane_erase` succeeded: the addressed block was erased by
`ssd_block_erase` and stored back, the wear fields hold the constant 1000, index 0 and
the erase time of block 0, `free_blocks` is one more, and only the cursor can differ
otherwise. -/
theorem ssd_plane_erase_inv (cfg : Config) (p p' : Plane) (ev ev' : Event) (ret : status)
    (h : ssd_plane_erase cfg p ev = some (ret, p', ev')) :
    ret = .SUCCESS ∧ ∃ b b' b0 a, p.data[ev.address.block]? = some b ∧
      ssd_block_erase cfg b ev = some (.SUCCESS, b', ev') ∧
      (p.data.set ev.address.block b')[0]? = some b0 ∧
      p' = { p with data := p.data.set ev.address.block b', least_worn := 0,
                    erases_remaining := 1000, last_erase_time := b0.last_erase_time,
                    free_blocks := (p.free_blocks + 1) % UINT_MOD, next_page := a } := by
  unfold ssd_plane_erase ssd_event_get_address at h
  simp only [Option.bind_eq_bind, Option.bind_eq_some] at h
  obtain ⟨_, _, b, hb, ⟨r, b', e⟩, he, h⟩ := h
  obtain ⟨hr, _⟩ := ssd_block_erase_inv cfg b b' ev e r he
  subst hr
  simp only [if_true, Option.bind_eq_bind, Option.bind_eq_some, Option.some.injEq,
    Prod.mk.injEq] at h
  obtain ⟨p2, hp2, p4, hp4, rfl, rfl, rfl⟩ := h
  obtain ⟨b0, hb0, rfl⟩ := Plane.plane_wear_stats_inv cfg _ p2 hp2
  refine ⟨rfl, b, b', b0, ?_⟩
  split at hp4
  · simp only [Option.map_eq_some', Prod.exists, exists_eq_right] at hp4
    obtain ⟨st, hst⟩ := hp4
    obtain ⟨a, ha⟩ := Plane.get_next_page_frame cfg _ p4 st hst
    exact ⟨a, hb, he, hb0, ha⟩
  · simp only [Option.some.injEq] at hp4
    exact ⟨p.next_page, hb, he, hb0, hp4.symm⟩
/-- A returned `ssd_die_read` changed nothing. -/
theorem ssd_die_read_inv (cfg : Config) (d d' : Die) (ev ev' : Event) (ret : status)
    (h : ssd_die_read cfg d ev = some (ret, d', ev')) : d' = d := by
  unfold ssd_die_read at h
  simp only [Option.bind_eq_bind, Option.bind_eq_some, Option.some.injEq, Prod.mk.injEq] at h
  obtain ⟨_, _, p, hp, ⟨r, p1, e⟩, hr, _, h2, _⟩ := h
  have := ssd_plane_read_inv cfg p p1 ev e r hr
  subst this
  rw [← h2, list_set_same _ _ _ hp]

/-- A returned `ssd_package_read` changed nothing. -/
theorem ssd_package_read_inv (cfg : Config) (k k' : Package) (ev ev' : Event) (ret : status)
    (h : ssd_package_read cfg k ev = some (ret, k', ev')) : k' = k := by
  unfold ssd_package_read at h
  simp only [Option.bind_eq_bind, Option.bind_eq_some, Option.some.injEq, Prod.mk.injEq] at h
  obtain ⟨_, _, d, hd, ⟨r, d1, e⟩, hr, _, h2, _⟩ := h
  have := ssd_die_read_inv cfg d d1 ev e r hr
  subst this
  rw [← h2, list_set_same _ _ _ hd]

/-- A returned `ssd_die_write` handed the event to `ssd_plane_write` on the addressed plane
and stored the plane back. -/
theorem ssd_die_write_inv (cfg : Config) (d d' : Die) (ev ev' : Event) (ret : status)
    (h : ssd_die_write cfg d ev = some (ret, d', ev')) :
    ∃ p p', d.data[ev.address.plane]? = some p ∧
      ssd_plane_write cfg p ev = some (ret, p', ev') ∧
      d' = { d with data := d.data.set ev.address.plane p' } := by
  unfold ssd_die_write ssd_event_get_address at h
  simp only [Option.bind_eq_bind, Option.bind_eq_some, Option.some.injEq, Prod.mk.injEq] at h
  obtain ⟨_, _, p, hp, ⟨r, p', e⟩, hw, rfl, h2, rfl⟩ := h
  exact ⟨p, p', hp, hw, h2.symm⟩

/-- A returned `ssd_package_write` handed the event to `ssd_die_write` on the addressed die
and stored the die back. -/
theorem ssd_package_write_inv (cfg : Config) (k k' : Package) (ev ev' : Event) (ret : status)
    (h : ssd_package_write cfg k ev = some (ret, k', ev')) :
    ∃ d d', k.data[ev.address.die]? = some d ∧
      ssd_die_write cfg d ev = some (ret, d', ev') ∧
      k' = { k with data := k.data.set ev.address.die d' } := by
  unfold ssd_package_write ssd_event_get_address at h
  simp only [Option.bind_eq_bind, Option.bind_eq_some, Option.some.injEq, Prod.mk.injEq] at h
  obtain ⟨_, _, d, hd, ⟨r, d', e⟩, hw, rfl, h2, rfl⟩ := h
  exact ⟨d, d', hd, hw, h2.symm⟩

/-- A returned `ssd_plane_erase` passed the assert on the address and left the address and
the submission time of the event as they were. -/
theorem ssd_plane_erase_address (cfg : Config) (p p' : Plane) (ev ev' : Event) (ret : status)
    (h : ssd_plane_erase cfg p ev = some (ret, p', ev')) :
    ev'.address = ev.address ∧ ev'.start_time = ev.start_time ∧
    ev.address.block < Plane._size cfg ∧
    address_valid.PLANE.toNat < ev.address.valid.toNat := by
  have h0 := h
  unfold ssd_plane_erase ssd_event_get_address at h0
  simp only [Option.bind_eq_bind, Option.bind_eq_some, assert_eq_some] at h0
  obtain ⟨_, ⟨h1, h2⟩, _⟩ := h0
  obtain ⟨_, b, b', b0, a, _, he, _, _⟩ := ssd_plane_erase_inv cfg p p' ev ev' ret h
  obtain ⟨_, _, h3, _⟩ := ssd_block_erase_inv cfg b b' ev ev' _ he
  rw [h3]
  exact ⟨rfl, rfl, h1, h2⟩

/-- A returned `ssd_die_erase` succeeded: the addressed plane was erased by
`ssd_plane_erase` and stored back, then the wear fields were recomputed by
`update_wear_stats` for the address of the event. -/
theorem ssd_die_erase_inv (cfg : Config) (d d' : Die) (ev ev' : Event) (ret : status)
    (h : ssd_die_erase cfg d ev = some (ret, d', ev')) :
    ret = .SUCCESS ∧ ev.address.plane < d.size ∧
    address_valid.DIE.toNat < ev.address.valid.toNat ∧
    ∃ p p', d.data[ev.address.plane]? = some p ∧
      ssd_plane_erase cfg p ev = some (.SUCCESS, p', ev') ∧
      Die.update_wear_stats cfg { d with data := d.data.set ev.address.plane p' } ev.address
        = some d' := by
  unfold ssd_die_erase ssd_event_get_address at h
  simp only [Option.bind_eq_bind, Option.bind_eq_some, assert_eq_some] at h
  obtain ⟨_, ⟨h1, h2⟩, p, hp, ⟨r, p', e⟩, he, h⟩ := h
  obtain ⟨hr, _⟩ := ssd_plane_erase_inv cfg p p' ev e r he
  subst hr
  obtain ⟨ha, _⟩ := ssd_plane_erase_address cfg p p' ev e _ he
  simp only [if_true, Option.bind_eq_bind, Option.bind_eq_some, Option.some.injEq,
    Prod.mk.injEq] at h
  obtain ⟨d2, hd2, rfl, rfl, rfl⟩ := h
  rw [ha] at hd2
  exact ⟨rfl, h1, h2, p, p', hp, he, hd2⟩

/-- A returned `ssd_package_erase` succeeded: the addressed die was erased by
`ssd_die_erase` and stored back, then the wear fields were recomputed by
`update_wear_stats` for the address of the event. -/
theorem ssd_package_erase_inv (cfg : Config) (k k' : Package) (ev ev' : Event) (ret : status)
    (h : ssd_package_erase cfg k ev = some (ret, k', ev')) :
    ret = .SUCCESS ∧ ev.address.die < k.size ∧
    address_valid.PACKAGE.toNat < ev.address.valid.toNat ∧
    ∃ d d', k.data[ev.address.die]? = some d ∧
      ssd_die_erase cfg d ev = some (.SUCCESS, d', ev') ∧
      Package.update_wear_stats cfg { k with data := k.data.set ev.address.die d' } ev.address
        = some k' := by
  unfold ssd_package_erase ssd_event_get_address at h
  simp only [Option.bind_eq_bind, Option.bind_eq_some, assert_eq_some] at h
  obtain ⟨_, ⟨h1, h2⟩, d, hd, ⟨r, d', e⟩, he, h⟩ := h
  obtain ⟨hr, _, _, p, p', _, hpe, _⟩ := ssd_die_erase_inv cfg d d' ev e r he
  subst hr
  obtain ⟨ha, _⟩ := ssd_plane_erase_address cfg p p' ev e _ hpe
  simp only [if_true, Option.bind_eq_bind, Option.bind_eq_some, Option.some.injEq,
    Prod.mk.injEq] at h
  obtain ⟨k2, hk2, rfl, rfl, rfl⟩ := h
  rw [ha] at hk2
  exact ⟨rfl, h1, h2, d, d', hd, he, hk2⟩

/-- The value every plane reports for an address below the plane level that names one of
its blocks: the block constant 1000. -/
theorem ssd_plane_get_erases_remaining_inv (cfg : Config) (p : Plane) (a : Address) (r : Nat)
    (hb : a.block < Plane._size cfg) (hv : address_valid.PLANE.toNat < a.valid.toNat)
    (h : ssd_plane_get_erases_remaining cfg p a = some r) :
    r = 1000 ∧ ∃ b, p.data[a.block]? = some b := by
  unfold ssd_plane_get_erases_remaining at h
  rw [if_pos ⟨hv, hb⟩] at h
  simp only [Option.bind_eq_bind, Option.bind_eq_some, Option.some.injEq,
    ssd_block_get_erases_remaining] at h
  obtain ⟨b, hb', h⟩ := h
  exact ⟨h.symm, b, hb'⟩

/-- The loop of the die's `update_wear_stats` for an address that names a block: the index
never moves, and every plane it visits reports 1000. -/
theorem Die.die_wear_stats_loop_inv (cfg : Config) (d : Die) (a : Address)
    (hb : a.block < Plane._size cfg) (hv : address_valid.PLANE.toNat < a.valid.toNat) :
    ∀ (n i mi mi' : Nat), Die.update_wear_stats_loop cfg d a 1000 n i mi = some mi' →
      mi' = mi ∧ ∀ j, i ≤ j → j < i + n →
        ∃ q, d.data[j]? = some q ∧ ssd_plane_get_erases_remaining cfg q a = some 1000
  | 0, _, mi, mi', h => by
    simp only [Die.update_wear_stats_loop, Option.some.injEq] at h
    exact ⟨h.symm, fun j h1 h2 => by omega⟩
  | n + 1, i, mi, mi', h => by
    simp only [Die.update_wear_stats_loop, Option.bind_eq_bind, Option.bind_eq_some] at h
    obtain ⟨q, hq, r, hr, h⟩ := h
    obtain ⟨rfl, _⟩ := ssd_plane_get_erases_remaining_inv cfg q a r hb hv hr
    simp only [lt_self_iff_false, if_false] at h
    obtain ⟨h1, h2⟩ := Die.die_wear_stats_loop_inv cfg d a hb hv n (i + 1) mi mi' h
    refine ⟨h1, fun j hj1 hj2 => ?_⟩
    by_cases hji : j = i
    · subst hji; exact ⟨q, hq, hr⟩
    · exact h2 j (by omega) (by omega)

/-- A returned `update_wear_stats` of a die, for an address that names a block: every plane
of the die reports 1000 for the address, the die stores 1000, index 0 and the erase time
that plane 0 reports for the address, and nothing else changes. -/
theorem Die.die_wear_stats_inv (cfg : Config) (d d' : Die) (a : Address)
    (hb : a.block < Plane._size cfg) (hv : address_valid.PLANE.toNat < a.valid.toNat)
    (h : Die.update_wear_stats cfg d a = some d') :
    ∃ q0 t, d.data[0]? = some q0 ∧ ssd_plane_get_erases_remaining cfg q0 a = some 1000 ∧
      ssd_plane_get_last_erase_time cfg q0 a = some t ∧
      d' = { d with least_worn := 0, erases_remaining := 1000, last_erase_time := t } ∧
      ∀ j, 1 ≤ j → j < d.size →
        ∃ q, d.data[j]? = some q ∧ ssd_plane_get_erases_remaining cfg q a = some 1000 := by
  unfold Die.update_wear_stats at h
  simp only [Option.bind_eq_bind, Option.bind_eq_some, Option.some.injEq] at h
  obtain ⟨q0, hq0, r, hr, mi, hmi, qm, hqm, t, ht, h⟩ := h
  obtain ⟨rfl, _⟩ := ssd_plane_get_erases_remaining_inv cfg q0 a r hb hv hr
  obtain ⟨rfl, hall⟩ := Die.die_wear_stats_loop_inv cfg d a hb hv _ _ _ _ hmi
  rw [hq0] at hqm
  simp only [Option.some.injEq] at hqm
  subst hqm
  exact ⟨q0, t, hq0, hr, ht, h.symm, fun j h1 h2 => hall j h1 (by omega)⟩
/-- A returned `ssd_bus_lock` returned SUCCESS. -/
theorem ssd_bus_lock_status (b b' : Bus) (ch : Nat) (t dur : Int) (ev ev' : Event)
    (st : status) (h : ssd_bus_lock b ch t dur ev = some (st, b', ev')) : st = .SUCCESS := by
  unfold ssd_bus_lock at h
  simp only [Option.bind_eq_bind, Option.bind_eq_some, assert_eq_some] at h
  obtain ⟨_, _, c, _, ⟨r, c', e⟩, hl, h⟩ := h
  simp only [Option.some.injEq, Prod.mk.injEq] at h
  obtain ⟨hwf, ht, hdur⟩ := ssd_channel_lock_wf c c' t dur ev e r hl
  rw [ssd_channel_lock_eq c t dur ev hwf ht hdur] at hl
  simp only [Option.some.injEq, Prod.mk.injEq] at hl
  rw [← h.1, ← hl.1]

/-- The event handed to the package carries the decoded address and the submission time. -/
theorem Event.arrived_address (cfg : Config) (type : event_type) (L size : Nat) (t : Int)
    (a : Address) :
    (Event.arrived cfg type L size t a).address = a ∧
    (Event.arrived cfg type L size t a).start_time = t := by
  unfold Event.arrived ssd_event_incr_time_taken
  split <;> exact ⟨rfl, rfl⟩

/-- What a returned `ssd_event_arrive` did: the submission time is `>= 0` and the logical
address decodes; a MERGE event changes nothing; otherwise the package-level call ran on the
package of the decoded address and the package was stored back, and then either the call
had failed and -1 is returned, or the bus was locked and the accumulated time is returned. -/
theorem ssd_event_arrive_inv (cfg : Config) (s s' : Ssd) (type : event_type) (L size : Nat)
    (t lat : Int) (hrun : ssd_event_arrive cfg s type L size t = some (lat, s')) :
    0 ≤ t ∧ ∃ a, decode_address cfg L = some a ∧
      ((type = .SSD_MERGE ∧ s' = s) ∨
       ∃ k k' ret ev3, s.data[a.package]? = some k ∧
        ((type = .SSD_READ ∧
            ssd_package_read cfg k (Event.arrived cfg type L size t a) = some (ret, k', ev3)) ∨
         (type = .SSD_WRITE ∧
            ssd_package_write cfg k (Event.arrived cfg type L size t a) = some (ret, k', ev3)) ∨
         (type = .SSD_ERASE ∧
            ssd_package_erase cfg k (Event.arrived cfg type L size t a) = some (ret, k', ev3))) ∧
        ((ret ≠ .SUCCESS ∧ lat = -1 ∧ s' = { s with data := s.data.set a.package k' }) ∨
         (ret = .SUCCESS ∧ ∃ bus' ev4,
            ssd_bus_lock s.bus (get_channel cfg a) t ev3.time_taken ev3
              = some (.SUCCESS, bus', ev4) ∧
            s' = { s with data := s.data.set a.package k', bus := bus' } ∧
            lat = ev4.time_taken))) := by
  unfold ssd_event_arrive at hrun
  simp only [Option.bind_eq_bind, Option.bind_eq_some, assert_eq_some, ssd_event_init,
    Option.some.injEq] at hrun
  obtain ⟨_, ht, _, _, _, ⟨_, _, rfl⟩, a, ha, hrun⟩ := hrun
  refine ⟨ht, a, ha, ?_⟩
  cases type
  · -- READ
    right
    simp only [if_true, Option.bind_eq_bind, Option.bind_eq_some] at hrun
    obtain ⟨k, hk, ⟨ret, k', e3⟩, hcall, hrun⟩ := hrun
    refine ⟨k, k', ret, e3, hk, Or.inl ⟨rfl, hcall⟩, ?_⟩
    simp only at hrun
    split at hrun
    · rename_i hret
      simp only [Option.some.injEq, Prod.mk.injEq] at hrun
      exact Or.inl ⟨hret, hrun.1.symm, hrun.2.symm⟩
    · rename_i hret
      simp only [ne_eq, Decidable.not_not] at hret
      simp only [Option.bind_eq_bind, Option.bind_eq_some, ssd_event_get_time_taken,
        Option.some.injEq, Prod.mk.injEq] at hrun
      obtain ⟨⟨lr, bus', e4⟩, hlock, w, ⟨_, _, hw⟩, hlat, hs⟩ := hrun
      have := ssd_bus_lock_status _ _ _ _ _ _ _ _ hlock
      subst this
      exact Or.inr ⟨hret, bus', e4, hlock, hs.symm, by rw [← hlat, ← hw]⟩
  · -- WRITE
    right
    simp only [if_true, if_false, reduceCtorEq, Option.bind_eq_bind, Option.bind_eq_some]
      at hrun
    obtain ⟨k, hk, ⟨ret, k', e3⟩, hcall, hrun⟩ := hrun
    refine ⟨k, k', ret, e3, hk, Or.inr (Or.inl ⟨rfl, hcall⟩), ?_⟩
    simp only at hrun
    split at hrun
    · rename_i hret
      simp only [Option.some.injEq, Prod.mk.injEq] at hrun
      exact Or.inl ⟨hret, hrun.1.symm, hrun.2.symm⟩
    · rename_i hret
      simp only [ne_eq, Decidable.not_not] at hret
      simp only [Option.bind_eq_bind, Option.bind_eq_some, ssd_event_get_time_taken,
        Option.some.injEq, Prod.mk.injEq] at hrun
      obtain ⟨⟨lr, bus', e4⟩, hlock, w, ⟨_, _, hw⟩, hlat, hs⟩ := hrun
      have := ssd_bus_lock_status _ _ _ _ _ _ _ _ hlock
      subst this
      exact Or.inr ⟨hret, bus', e4, hlock, hs.symm, by rw [← hlat, ← hw]⟩
  · -- ERASE
    right
    simp only [if_true, if_false, reduceCtorEq, ssd_event_get_event_type, ssd_event_set_address,
      Option.bind_eq_bind, Option.bind_eq_some] at hrun
    obtain ⟨k, hk, ⟨ret, k', e3⟩, hcall, hrun⟩ := hrun
    refine ⟨k, k', ret, e3, hk, Or.inr (Or.inr ⟨rfl, hcall⟩), ?_⟩
    simp only at hrun
    split at hrun
    · rename_i hret
      simp only [Option.some.injEq, Prod.mk.injEq] at hrun
      exact Or.inl ⟨hret, hrun.1.symm, hrun.2.symm⟩
    · rename_i hret
      simp only [ne_eq, Decidable.not_not] at hret
      simp only [Option.bind_eq_bind, Option.bind_eq_some] at hrun
      obtain ⟨⟨lr, bus', e4⟩, hlock, hrun⟩ := hrun
      have := ssd_bus_lock_status _ _ _ _ _ _ _ _ hlock
      subst this
      simp only [ne_eq, not_true_eq_false, if_false, Option.bind_eq_bind, Option.bind_eq_some,
        ssd_event_get_time_taken, Option.some.injEq, Prod.mk.injEq] at hrun
      obtain ⟨w, ⟨_, _, hw⟩, hlat, hs⟩ := hrun
      exact Or.inr ⟨hret, bus', e4, hlock, hs.symm, by rw [← hlat, ← hw]⟩
  · -- MERGE
    left
    simp only [if_false, reduceCtorEq, ssd_event_get_event_type, ssd_event_set_address,
      Option.bind_eq_bind, Option.bind_eq_some, Option.some.injEq, Prod.mk.injEq] at hrun
    obtain ⟨_, _, _, hs⟩ := hrun
    exact ⟨rfl, hs.symm⟩
/-- A returned `update_wear_stats` of a die changed nothing but the three wear fields. -/
theorem Die.die_wear_stats_frame (cfg : Config) (d d' : Die) (a : Address)
    (h : Die.update_wear_stats cfg d a = some d') :
    ∃ lw er t, d' = { d with least_worn := lw, erases_remaining := er, last_erase_time := t } := by
  unfold Die.update_wear_stats at h
  simp only [Option.bind_eq_bind, Option.bind_eq_some, Option.some.injEq] at h
  obtain ⟨_, _, _, _, _, _, _, _, _, _, h⟩ := h
  exact ⟨_, _, _, h.symm⟩

/-- A returned `update_wear_stats` of a package changed nothing but the three wear
fields. -/
theorem Package.package_wear_stats_frame (cfg : Config) (k k' : Package) (a : Address)
    (h : Package.update_wear_stats cfg k a = some k') :
    ∃ lw er t, k' = { k with least_worn := lw, erases_remaining := er, last_erase_time := t } := by
  unfold Package.update_wear_stats at h
  simp only [Option.bind_eq_bind, Option.bind_eq_some, Option.some.injEq] at h
  obtain ⟨_, _, _, _, _, _, _, _, _, _, h⟩ := h
  exact ⟨_, _, _, h.symm⟩

/-- Looking up the index that was just stored. -/
theorem getElem?_set_of_some {α : Type} (l : List α) (i : Nat) (x y : α)
    (h : l[i]? = some x) : (l.set i y)[i]? = some y :=
  List.getElem?_set_self (List.getElem?_eq_some.mp h).1

/-- The path of a returned package-level erase: the die, plane and block that the address
of the event names were replaced, and the block carries the erase time
`start_time + time_taken` of the event as it comes back. -/
theorem ssd_package_erase_path (cfg : Config) (k k' : Package) (ev ev' : Event) (ret : status)
    (h : ssd_package_erase cfg k ev = some (ret, k', ev')) :
    ret = .SUCCESS ∧ ∃ d' p' b', k'.data[ev.address.die]? = some d' ∧
      d'.data[ev.address.plane]? = some p' ∧ p'.data[ev.address.block]? = some b' ∧
      b'.last_erase_time = wrap_int64 (ev.start_time + ev'.time_taken) ∧
      b'.state = .FREE ∧ b'.pages_valid = 0 ∧ b'.pages_invalid = 0 := by
  obtain ⟨hret, _, _, d, d1, hd, hde, hku⟩ := ssd_package_erase_inv cfg k k' ev ev' ret h
  obtain ⟨_, _, _, p, p1, hp, hpe, hdu⟩ := ssd_die_erase_inv cfg d d1 ev ev' _ hde
  obtain ⟨_, b, b1, b0, a, hb, hbe, _, hp1⟩ := ssd_plane_erase_inv cfg p p1 ev ev' _ hpe
  obtain ⟨_, _, _, data', _, hb1⟩ := ssd_block_erase_inv cfg b b1 ev ev' _ hbe
  obtain ⟨_, _, _, rfl⟩ := Package.package_wear_stats_frame cfg _ k' _ hku
  obtain ⟨_, _, _, rfl⟩ := Die.die_wear_stats_frame cfg _ d1 _ hdu
  refine ⟨hret, _, p1, b1, getElem?_set_of_some _ _ _ _ hd, getElem?_set_of_some _ _ _ _ hp, ?_,
    ?_⟩
  · rw [hp1]
    exact getElem?_set_of_some _ _ _ _ hb
  · rw [hb1]
    exact ⟨rfl, rfl, rfl, rfl⟩

/-- The value a die reports for an address that names one of its planes and a block: the
block constant 1000. -/
theorem ssd_die_get_erases_remaining_inv (cfg : Config) (e : Die) (a : Address) (r : Nat)
    (hp : a.plane < e.size) (hb : a.block < Plane._size cfg)
    (hv : address_valid.PLANE.toNat < a.valid.toNat)
    (h : ssd_die_get_erases_remaining cfg e a = some r) : r = 1000 := by
  unfold ssd_die_get_erases_remaining at h
  have hv' : address_valid.DIE.toNat < a.valid.toNat := by
    simp only [address_valid.toNat] at hv ⊢; omega
  rw [if_pos ⟨hv', hp⟩] at h
  simp only [Option.bind_eq_bind, Option.bind_eq_some] at h
  obtain ⟨q, _, hq⟩ := h
  exact (ssd_plane_get_erases_remaining_inv cfg q a r hb hv hq).1

/-- The loop of the package's `update_wear_stats` for an address that names a plane of
every die and a block: the index never moves, and every die it visits reports 1000. -/
theorem Package.package_wear_stats_loop_inv (cfg : Config) (k : Package) (a : Address)
    (hsz : ∀ e ∈ k.data, a.plane < e.size)
    (hb : a.block < Plane._size cfg) (hv : address_valid.PLANE.toNat < a.valid.toNat) :
    ∀ (n i mi mi' : Nat), Package.update_wear_stats_loop cfg k a 1000 n i mi = some mi' →
      mi' = mi ∧ ∀ j, i ≤ j → j < i + n →
        ∃ e, k.data[j]? = some e ∧ ssd_die_get_erases_remaining cfg e a = some 1000
  | 0, _, mi, mi', h => by
    simp only [Package.update_wear_stats_loop, Option.some.injEq] at h
    exact ⟨h.symm, fun j h1 h2 => by omega⟩
  | n + 1, i, mi, mi', h => by
    simp only [Package.update_wear_stats_loop, Option.bind_eq_bind, Option.bind_eq_some] at h
    obtain ⟨e, he, r, hr, h⟩ := h
    have hmem : e ∈ k.data := List.mem_iff_getElem?.mpr ⟨_, he⟩
    have := ssd_die_get_erases_remaining_inv cfg e a r (hsz e hmem) hb hv hr
    subst this
    simp only [lt_self_iff_false, if_false] at h
    obtain ⟨h1, h2⟩ := Package.package_wear_stats_loop_inv cfg k a hsz hb hv n (i + 1) mi mi' h
    refine ⟨h1, fun j hj1 hj2 => ?_⟩
    by_cases hji : j = i
    · subst hji; exact ⟨e, he, hr⟩
    · exact h2 j (by omega) (by omega)

/-- A returned `update_wear_stats` of a package, for an address that names a plane of every
die and a block: every die reports 1000 for the address, the package stores 1000, index 0
and the erase time that die 0 reports for the address, and nothing else changes. -/
theorem Package.package_wear_stats_inv (cfg : Config) (k k' : Package) (a : Address)
    (hsz : ∀ e ∈ k.data, a.plane < e.size)
    (hb : a.block < Plane._size cfg) (hv : address_valid.PLANE.toNat < a.valid.toNat)
    (h : Package.update_wear_stats cfg k a = some k') :
    ∃ e0 t, k.data[0]? = some e0 ∧ ssd_die_get_erases_remaining cfg e0 a = some 1000 ∧
      ssd_die_get_last_erase_time cfg e0 a = some t ∧
      k' = { k with least_worn := 0, erases_remaining := 1000, last_erase_time := t } ∧
      ∀ j, 1 ≤ j → j < k.size →
        ∃ e, k.data[j]? = some e ∧ ssd_die_get_erases_remaining cfg e a = some 1000 := by
  unfold Package.update_wear_stats at h
  simp only [Option.bind_eq_bind, Option.bind_eq_some, Option.some.injEq] at h
  obtain ⟨e0, he0, r, hr, mi, hmi, em, hem, t, ht, h⟩ := h
  have := ssd_die_get_erases_remaining_inv cfg e0 a r
    (hsz e0 (List.mem_iff_getElem?.mpr ⟨_, he0⟩)) hb hv hr
  subst this
  obtain ⟨rfl, hall⟩ := Package.package_wear_stats_loop_inv cfg k a hsz hb hv _ _ _ _ hmi
  rw [he0] at hem
  simp only [Option.some.injEq] at hem
  subst hem
  exact ⟨e0, t, he0, hr, ht, h.symm, fun j h1 h2 => hall j h1 (by omega)⟩

/-- Every member of a list whose entries at `0` and at `1 .. n - 1` satisfy `Q`, where `n`
is the length. -/
theorem forall_mem_of_index {α : Type} (l : List α) (Q : α → Prop) (x0 : α)
    (h0 : l[0]? = some x0) (hQ0 : Q x0)
    (h : ∀ j, 1 ≤ j → j < l.length → ∃ x, l[j]? = some x ∧ Q x) : ∀ x ∈ l, Q x := by
  intro x hx
  obtain ⟨j, hj⟩ := List.mem_iff_getElem?.mp hx
  by_cases hj0 : j = 0
  · subst hj0
    rw [h0] at hj
    simp only [Option.some.injEq] at hj
    exact hj ▸ hQ0
  · obtain ⟨y, hy, hQy⟩ := h j (by omega) (List.getElem?_eq_some.mp hj).1
    rw [hj] at hy
    simp only [Option.some.injEq] at hy
    exact hy ▸ hQy

/-! ### Counters of a block -/

/-- Counting after a store: the count moves by the stored element against the old one. -/
theorem countP_set_add {α : Type} (f : α → Bool) (l : List α) (i : Nat) (x y : α)
    (h : l[i]? = some x) :
    (l.set i y).countP f + (if f x then 1 else 0) = l.countP f + (if f y then 1 else 0) := by
  obtain ⟨hi, hx⟩ := List.getElem?_eq_some.mp h
  have h1 := List.countP_set f l i y hi
  have h2 := List.boole_getElem_le_countP f l i hi
  rw [hx] at h1 h2
  omega

/-- Storing an element that `f` cannot tell from the old one keeps the count. -/
theorem countP_set_same {α : Type} (f : α → Bool) (l : List α) (i : Nat) (x y : α)
    (h : l[i]? = some x) (hf : f y = f x) : (l.set i y).countP f = l.countP f := by
  have := countP_set_add f l i x y h
  rw [hf] at this
  omega

/-- Storing an element that passes `f` over one that fails it adds one to the count. -/
theorem countP_set_gain {α : Type} (f : α → Bool) (l : List α) (i : Nat) (x y : α)
    (h : l[i]? = some x) (hx : f x = false) (hy : f y = true) :
    (l.set i y).countP f = l.countP f + 1 := by
  have := countP_set_add f l i x y h
  rw [hx, hy] at this
  simpa using this

/-- A list with an element that fails `f` has fewer than `length` elements passing it. -/
theorem countP_lt_length {α : Type} (f : α → Bool) (l : List α) (i : Nat) (x : α)
    (h : l[i]? = some x) (hf : f x = false) : l.countP f < l.length := by
  have h1 : l.countP f ≤ l.length := List.countP_le_length f
  have h2 : l.countP f ≠ l.length := by
    intro heq
    have := List.countP_eq_length.mp heq x (List.mem_iff_getElem?.mpr ⟨i, h⟩)
    rw [hf] at this
    exact absurd this (by decide)
  omega

/-- INVALID pages are among the pages that are not EMPTY. -/
theorem count_invalid_le (data : List Page) :
    data.countP (fun pg => decide (pg.state = .INVALID)) ≤
      data.countP (fun pg => decide (pg.state ≠ .EMPTY)) := by
  apply List.countP_mono_left
  intro pg _ h
  simp only [decide_eq_true_eq] at h ⊢
  rw [h]
  decide

/-- A returned erase loop over the whole array of `n` pages leaves `n` EMPTY pages. -/
theorem ssd_block_erase_loop_full (n : Nat) (data data' : List Page) (hlen : data.length = n)
    (h : ssd_block_erase_loop n 0 data = some data') :
    data' = List.replicate n { state := .EMPTY } := by
  obtain ⟨data1, h1, h2, h3⟩ := ssd_block_erase_loop_spec n 0 data (by omega)
  rw [h] at h1
  simp only [Option.some.injEq] at h1
  subst h1
  apply List.ext_getElem?
  intro j
  rw [h3 j, List.getElem?_replicate]
  by_cases hj : j < n
  · simp [hj]
  · simp only [Nat.zero_le, Nat.zero_add, hj, and_false, if_false]
    exact List.getElem?_eq_none (by omega)

/-- A fresh block has counters that agree with its pages. -/
theorem ssd_block_init_counters_ok (cfg : Config) (hsz : 1 ≤ cfg.SSD_BLOCK_SIZE) :
    (ssd_block_init cfg).counters_ok cfg := by
  unfold Block.counters_ok ssd_block_init Block.count_state
  simp only [Block._size, List.length_replicate, List.countP_replicate, ssd_page_init]
  refine ⟨trivial, by simp, by simp, ?_⟩
  rw [if_neg (by omega)]
  simp

/-- Agreement of counters and pages survives `ssd_block_write`. -/
theorem ssd_block_write_counters_ok (cfg : Config) (hu : cfg.SSD_BLOCK_SIZE < UINT_MOD)
    (b b' : Block) (ev ev' : Event) (r : status) (hb : b.counters_ok cfg)
    (h : ssd_block_write cfg b ev = some (r, b', ev')) : b'.counters_ok cfg := by
  obtain ⟨pg, hpg, h1 | h1⟩ := ssd_block_write_inv cfg b b' ev ev' r h
  · obtain ⟨hst, _, rfl⟩ := h1
    obtain ⟨hlen, hpv, hpi, _⟩ := hb
    have hne := countP_set_gain (fun pg => decide (pg.state ≠ .EMPTY)) b.data ev.address.page pg
      { state := .VALID } hpg (by simp [hst]) (by simp)
    have hin := countP_set_same (fun pg => decide (pg.state = .INVALID)) b.data ev.address.page
      pg { state := .VALID } hpg (by simp [hst])
    have hle := count_invalid_le b.data
    have hle' : (b.data.set ev.address.page { state := .VALID }).countP
        (fun pg => decide (pg.state ≠ .EMPTY)) ≤ cfg.SSD_BLOCK_SIZE := by
      rw [← hlen, ← List.length_set b.data ev.address.page { state := .VALID }]
      exact List.countP_le_length _
    unfold Block.count_state at hpi
    have hmod : (b.pages_valid + 1) % UINT_MOD = b.pages_valid + 1 :=
      Nat.mod_eq_of_lt (by omega)
    unfold Block.counters_ok Block.count_state
    refine ⟨by rw [List.length_set]; exact hlen, ?_, ?_, ?_⟩
    · show (b.pages_valid + 1) % UINT_MOD = _
      rw [hmod, hne, hpv]
    · show b.pages_invalid = _
      rw [hin, hpi]
    · show block_state.ACTIVE = if cfg.SSD_BLOCK_SIZE ≤ b.pages_invalid then _
        else if (b.pages_valid + 1) % UINT_MOD = 0 ∧ b.pages_invalid = 0 then _ else _
      rw [hmod, if_neg (by omega), if_neg (by omega)]
  · obtain ⟨_, _, rfl⟩ := h1
    exact hb

/-- Agreement of counters and pages holds after `ssd_block_erase`. -/
theorem ssd_block_erase_counters_ok (cfg : Config) (hsz : 1 ≤ cfg.SSD_BLOCK_SIZE)
    (b b' : Block) (ev ev' : Event) (r : status) (hb : b.counters_ok cfg)
    (h : ssd_block_erase cfg b ev = some (r, b', ev')) : b'.counters_ok cfg := by
  obtain ⟨_, _, _, data', hd, rfl⟩ := ssd_block_erase_inv cfg b b' ev ev' r h
  have := ssd_block_erase_loop_full _ _ _ hb.1 hd
  subst this
  unfold Block.counters_ok Block.count_state
  simp only [Block._size, List.length_replicate, List.countP_replicate]
  refine ⟨trivial, by simp, by simp, ?_⟩
  rw [if_neg (by omega)]
  simp

/-- Agreement of counters and pages survives the invalidation of a VALID page. -/
theorem ssd_block_invalidate_page_counters_ok (cfg : Config)
    (hu : cfg.SSD_BLOCK_SIZE < UINT_MOD) (b b' : Block) (page : Nat) (hb : b.counters_ok cfg)
    (hs : ssd_block_get_state2 cfg b page = some .VALID)
    (h : ssd_block_invalidate_page cfg b page = some b') : b'.counters_ok cfg := by
  obtain ⟨_, pg, hpg, rfl⟩ := ssd_block_invalidate_page_inv cfg b b' page h
  unfold ssd_block_get_state2 at hs
  simp only [Option.bind_eq_bind, Option.bind_eq_some, assert_eq_some, hpg, Option.some.injEq,
    ssd_page_get_state] at hs
  obtain ⟨_, _, _, rfl, hst⟩ := hs
  obtain ⟨hlen, hpv, hpi, _⟩ := hb
  have hne := countP_set_same (fun pg => decide (pg.state ≠ .EMPTY)) b.data page pg
    { state := .INVALID } hpg (by simp [hst])
  have hin := countP_set_gain (fun pg => decide (pg.state = .INVALID)) b.data page pg
    { state := .INVALID } hpg (by simp [hst]) (by simp)
  have hlt := countP_lt_length (fun pg => decide (pg.state = .INVALID)) b.data page pg hpg
    (by simp [hst])
  unfold Block.count_state at hpi
  have hmod : (b.pages_invalid + 1) % UINT_MOD = b.pages_invalid + 1 :=
    Nat.mod_eq_of_lt (by omega)
  unfold Block.counters_ok Block.count_state
  refine ⟨by rw [List.length_set]; exact hlen, ?_, ?_, ?_⟩
  · show b.pages_valid = _
    rw [hne, hpv]
  · show (b.pages_invalid + 1) % UINT_MOD = _
    rw [hmod, hin, hpi]
  · show (if Block._size cfg ≤ (b.pages_invalid + 1) % UINT_MOD then block_state.INACTIVE
        else if 0 < b.pages_valid ∨ 0 < (b.pages_invalid + 1) % UINT_MOD then .ACTIVE
        else .FREE) =
      if cfg.SSD_BLOCK_SIZE ≤ (b.pages_invalid + 1) % UINT_MOD then .INACTIVE
        else if b.pages_valid = 0 ∧ (b.pages_invalid + 1) % UINT_MOD = 0 then .FREE else .ACTIVE
    rw [hmod]
    by_cases h1 : cfg.SSD_BLOCK_SIZE ≤ b.pages_invalid + 1
    · rw [if_pos h1, if_pos (show Block._size cfg ≤ b.pages_invalid + 1 from h1)]
    · rw [if_neg h1, if_neg (show ¬ Block._size cfg ≤ b.pages_invalid + 1 from h1),
        if_pos (Or.inr (by omega)), if_neg (by omega)]

/-! ### Properties of every block, along a history -/

/-- A property of every entry survives a store of an entry that has it. -/
theorem forall_mem_set {α : Type} (Q : α → Prop) (l : List α) (i : Nat) (y : α)
    (h : ∀ x ∈ l, Q x) (hy : Q y) : ∀ x ∈ l.set i y, Q x := by
  intro x hx
  rcases List.mem_or_eq_of_mem_set hx with h1 | h1
  · exact h x h1
  · exact h1 ▸ hy

/-- An entry found by index is a member. -/
theorem mem_of_getElem? {α : Type} (l : List α) (i : Nat) (x : α) (h : l[i]? = some x) :
    x ∈ l :=
  List.mem_iff_getElem?.mpr ⟨i, h⟩

/-- A property of blocks that survives write and erase survives `ssd_plane_write`. -/
theorem ssd_plane_write_blocks (cfg : Config) (P : Block → Prop)
    (hP : Block.closed_under_arrive cfg P) (p p' : Plane) (ev ev' : Event) (ret : status)
    (hp : ∀ b ∈ p.data, P b) (h : ssd_plane_write cfg p ev = some (ret, p', ev')) :
    ∀ b ∈ p'.data, P b := by
  obtain ⟨b, b', a, hb, hw, rfl⟩ := ssd_plane_write_inv cfg p p' ev ev' ret h
  exact forall_mem_set P _ _ _ hp (hP.1 b b' ev ev' ret (hp b (mem_of_getElem? _ _ _ hb)) hw)

/-- A property of blocks that survives write and erase survives `ssd_plane_erase`. -/
theorem ssd_plane_erase_blocks (cfg : Config) (P : Block → Prop)
    (hP : Block.closed_under_arrive cfg P) (p p' : Plane) (ev ev' : Event) (ret : status)
    (hp : ∀ b ∈ p.data, P b) (h : ssd_plane_erase cfg p ev = some (ret, p', ev')) :
    ∀ b ∈ p'.data, P b := by
  obtain ⟨_, b, b', b0, a, hb, he, _, rfl⟩ := ssd_plane_erase_inv cfg p p' ev ev' ret h
  exact forall_mem_set P _ _ _ hp (hP.2 b b' ev ev' _ (hp b (mem_of_getElem? _ _ _ hb)) he)

/-- A property of blocks that survives write and erase survives `ssd_die_write`. -/
theorem ssd_die_write_blocks (cfg : Config) (P : Block → Prop)
    (hP : Block.closed_under_arrive cfg P) (d d' : Die) (ev ev' : Event) (ret : status)
    (hd : ∀ p ∈ d.data, ∀ b ∈ p.data, P b)
    (h : ssd_die_write cfg d ev = some (ret, d', ev')) :
    ∀ p ∈ d'.data, ∀ b ∈ p.data, P b := by
  obtain ⟨p, p', hp, hw, rfl⟩ := ssd_die_write_inv cfg d d' ev ev' ret h
  exact forall_mem_set _ _ _ _ hd
    (ssd_plane_write_blocks cfg P hP p p' ev ev' ret (hd p (mem_of_getElem? _ _ _ hp)) hw)

/-- A property of blocks that survives write and erase survives `ssd_die_erase`. -/
theorem ssd_die_erase_blocks (cfg : Config) (P : Block → Prop)
    (hP : Block.closed_under_arrive cfg P) (d d' : Die) (ev ev' : Event) (ret : status)
    (hd : ∀ p ∈ d.data, ∀ b ∈ p.data, P b)
    (h : ssd_die_erase cfg d ev = some (ret, d', ev')) :
    ∀ p ∈ d'.data, ∀ b ∈ p.data, P b := by
  obtain ⟨_, _, _, p, p', hp, he, hu⟩ := ssd_die_erase_inv cfg d d' ev ev' ret h
  obtain ⟨_, _, _, rfl⟩ := Die.die_wear_stats_frame cfg _ d' _ hu
  exact forall_mem_set _ _ _ _ hd
    (ssd_plane_erase_blocks cfg P hP p p' ev ev' _ (hd p (mem_of_getElem? _ _ _ hp)) he)

/-- A property of blocks that survives write and erase survives `ssd_package_write`. -/
theorem ssd_package_write_blocks (cfg : Config) (P : Block → Prop)
    (hP : Block.closed_under_arrive cfg P) (k k' : Package) (ev ev' : Event) (ret : status)
    (hk : ∀ d ∈ k.data, ∀ p ∈ d.data, ∀ b ∈ p.data, P b)
    (h : ssd_package_write cfg k ev = some (ret, k', ev')) :
    ∀ d ∈ k'.data, ∀ p ∈ d.data, ∀ b ∈ p.data, P b := by
  obtain ⟨d, d', hd, hw, rfl⟩ := ssd_package_write_inv cfg k k' ev ev' ret h
  exact forall_mem_set _ _ _ _ hk
    (ssd_die_write_blocks cfg P hP d d' ev ev' ret (hk d (mem_of_getElem? _ _ _ hd)) hw)

/-- A property of blocks that survives write and erase survives `ssd_package_erase`. -/
theorem ssd_package_erase_blocks (cfg : Config) (P : Block → Prop)
    (hP : Block.closed_under_arrive cfg P) (k k' : Package) (ev ev' : Event) (ret : status)
    (hk : ∀ d ∈ k.data, ∀ p ∈ d.data, ∀ b ∈ p.data, P b)
    (h : ssd_package_erase cfg k ev = some (ret, k', ev')) :
    ∀ d ∈ k'.data, ∀ p ∈ d.data, ∀ b ∈ p.data, P b := by
  obtain ⟨_, _, _, d, d', hd, he, hu⟩ := ssd_package_erase_inv cfg k k' ev ev' ret h
  obtain ⟨_, _, _, rfl⟩ := Package.package_wear_stats_frame cfg _ k' _ hu
  exact forall_mem_set _ _ _ _ hk
    (ssd_die_erase_blocks cfg P hP d d' ev ev' _ (hk d (mem_of_getElem? _ _ _ hd)) he)

/-- A property of blocks that survives write and erase holds for every block after a
returned `ssd_event_arrive` when it held before. -/
theorem ssd_event_arrive_blocks (cfg : Config) (P : Block → Prop)
    (hP : Block.closed_under_arrive cfg P) (s s' : Ssd) (type : event_type) (L size : Nat)
    (t lat : Int) (hs : s.all_blocks P)
    (hrun : ssd_event_arrive cfg s type L size t = some (lat, s')) : s'.all_blocks P := by
  obtain ⟨_, a, _, h⟩ := ssd_event_arrive_inv cfg s s' type L size t lat hrun
  rcases h with ⟨_, rfl⟩ | ⟨k, k', ret, ev3, hk, hcall, hres⟩
  · exact hs
  have hk' : ∀ d ∈ k'.data, ∀ p ∈ d.data, ∀ b ∈ p.data, P b := by
    have hkP := hs k (mem_of_getElem? _ _ _ hk)
    rcases hcall with ⟨_, hc⟩ | ⟨_, hc⟩ | ⟨_, hc⟩
    · rw [ssd_package_read_inv cfg k k' _ ev3 ret hc]; exact hkP
    · exact ssd_package_write_blocks cfg P hP k k' _ ev3 ret hkP hc
    · exact ssd_package_erase_blocks cfg P hP k k' _ ev3 ret hkP hc
  have hdata : s'.data = s.data.set a.package k' := by
    rcases hres with ⟨_, _, rfl⟩ | ⟨_, _, _, _, rfl, _⟩ <;> rfl
  unfold Ssd.all_blocks
  rw [hdata]
  exact forall_mem_set _ _ _ _ hs hk'

/-- A property of blocks that survives the changes of a merge survives the inner loop of
`ssd_plane_merge`. -/
theorem ssd_plane_merge_write_blocks (cfg : Config) (P : Block → Prop)
    (hP : Block.closed_under_merge cfg P) (merge_block : Nat) :
    ∀ (n : Nat) (m m' : merge_state), (∀ b ∈ m.p.data, P b) →
      ssd_plane_merge_write cfg merge_block n m = some m' → ∀ b ∈ m'.p.data, P b
  | 0, m, m', hm, h => by
    simp only [ssd_plane_merge_write, Option.some.injEq] at h
    exact h ▸ hm
  | n + 1, m, m', hm, h => by
    simp only [ssd_plane_merge_write, Option.bind_eq_bind, Option.bind_eq_some] at h
    obtain ⟨b, hb, s, _, h⟩ := h
    split at h
    · simp only [Option.bind_eq_bind, Option.bind_eq_some, Option.some.injEq] at h
      obtain ⟨⟨ret, b', e⟩, hw, rfl⟩ := h
      exact forall_mem_set P _ _ _ hm
        (hP.1 b b' _ e ret (hm b (mem_of_getElem? _ _ _ hb)) hw)
    · exact ssd_plane_merge_write_blocks cfg P hP merge_block n
        { m with write_page := m.write_page + 1 } m' hm h

/-- A property of blocks that survives the changes of a merge survives the main loop of
`ssd_plane_merge`. -/
theorem ssd_plane_merge_loop_blocks (cfg : Config) (P : Block → Prop)
    (hP : Block.closed_under_merge cfg P) (read_block merge_block merge_count : Nat) :
    ∀ (n : Nat) (m m' : merge_state), (∀ b ∈ m.p.data, P b) →
      ssd_plane_merge_loop cfg read_block merge_block merge_count n m = some m' →
        ∀ b ∈ m'.p.data, P b
  | 0, m, m', hm, h => by
    simp only [ssd_plane_merge_loop, Option.some.injEq] at h
    exact h ▸ hm
  | n + 1, m, m', hm, h => by
    rw [ssd_plane_merge_loop] at h
    by_cases hlt : m.num_merged < merge_count
    · rw [if_pos hlt] at h
      simp only [Option.bind_eq_bind, Option.bind_eq_some] at h
      obtain ⟨b, hb, s, hs, h⟩ := h
      by_cases hval : s = .VALID
      · subst hval
        simp only [if_true, Option.bind_eq_bind, Option.bind_eq_some] at h
        obtain ⟨⟨ret, b1, e⟩, hr, b2, hi, m1, hw, h⟩ := h
        have := ssd_block_read_inv cfg b b1 _ e ret hr
        subst this
        have hb2 : P b2 := hP.2 b1 b2 _ (hm b1 (mem_of_getElem? _ _ _ hb)) hs hi
        have hm1P := ssd_plane_merge_write_blocks cfg P hP merge_block _ _ m1
          (forall_mem_set P _ read_block _ hm hb2) hw
        exact ssd_plane_merge_loop_blocks cfg P hP read_block merge_block merge_count n
          { m1 with read_page := m1.read_page + 1 } m' hm1P h
      · rw [if_neg hval] at h
        simp only [Option.bind_eq_bind, Option.some_bind] at h
        exact ssd_plane_merge_loop_blocks cfg P hP read_block merge_block merge_count n
          { m with read_page := m.read_page + 1 } m' hm h
    · rw [if_neg hlt] at h
      simp only [Option.some.injEq] at h
      exact h ▸ hm

/-- A property of blocks that survives the changes of a merge survives
`ssd_plane_merge`. -/
theorem ssd_plane_merge_blocks (cfg : Config) (P : Block → Prop)
    (hP : Block.closed_under_merge cfg P) (p p' : Plane) (ev ev' : Event) (ret : status)
    (hp : ∀ b ∈ p.data, P b) (h : ssd_plane_merge cfg p ev = some (ret, p', ev')) :
    ∀ b ∈ p'.data, P b := by
  unfold ssd_plane_merge at h
  simp only [Option.bind_eq_bind, Option.bind_eq_some] at h
  obtain ⟨_, _, _, _, _, _, _, _, b, _, bm, _, c, _, v, _, h⟩ := h
  split at h
  · simp only [Option.some.injEq, Prod.mk.injEq] at h
    exact h.2.1 ▸ hp
  · unfold ssd_plane_merge_move at h
    simp only [Option.bind_eq_bind, Option.bind_eq_some] at h
    obtain ⟨_, _, _, _, _, _, m, hm, h⟩ := h
    have hmP := ssd_plane_merge_loop_blocks cfg P hP _ _ _ _ _ m hp hm
    unfold ssd_plane_merge_finish at h
    simp only [Option.bind_eq_bind, Option.bind_eq_some] at h
    obtain ⟨_, _, _, _, h⟩ := h
    by_cases hv : m.p.next_page.valid.toNat < address_valid.PAGE.toNat
    · rw [if_pos hv] at h
      simp only [Option.bind_eq_bind, Option.bind_eq_some, Option.map_eq_some', Prod.exists,
        exists_eq_right] at h
      obtain ⟨p1, ⟨st, hst⟩, h⟩ := h
      obtain ⟨a, rfl⟩ := Plane.get_next_page_frame cfg _ p1 st hst
      split at h <;> simp only [Option.some.injEq, Prod.mk.injEq] at h <;> exact h.2.1 ▸ hmP
    · rw [if_neg hv] at h
      simp only [Option.bind_eq_bind, Option.some_bind] at h
      split at h <;> simp only [Option.some.injEq, Prod.mk.injEq] at h <;> exact h.2.1 ▸ hmP

/-- A property of blocks that survives the changes of a merge survives `ssd_die_merge`. -/
theorem ssd_die_merge_blocks (cfg : Config) (P : Block → Prop)
    (hP : Block.closed_under_merge cfg P) (d d' : Die) (ev ev' : Event) (ret : status)
    (hd : ∀ p ∈ d.data, ∀ b ∈ p.data, P b)
    (h : ssd_die_merge cfg d ev = some (ret, d', ev')) :
    ∀ p ∈ d'.data, ∀ b ∈ p.data, P b := by
  unfold ssd_die_merge at h
  simp only [Option.bind_eq_bind, Option.bind_eq_some] at h
  obtain ⟨_, _, h⟩ := h
  split at h
  · simp only [Option.bind_eq_bind, Option.bind_eq_some, Option.some.injEq, Prod.mk.injEq] at h
    obtain ⟨_, _, _, h2, _⟩ := h
    exact h2 ▸ hd
  · simp only [Option.bind_eq_bind, Option.bind_eq_some, Option.some.injEq, Prod.mk.injEq] at h
    obtain ⟨p, hp, ⟨r, p', e⟩, hm, _, h2, _⟩ := h
    rw [← h2]
    exact forall_mem_set _ _ _ _ hd
      (ssd_plane_merge_blocks cfg P hP p p' ev e r (hd p (mem_of_getElem? _ _ _ hp)) hm)

/-- A property of blocks that survives the changes of a merge survives
`ssd_package_merge`. -/
theorem ssd_package_merge_blocks (cfg : Config) (P : Block → Prop)
    (hP : Block.closed_under_merge cfg P) (k k' : Package) (ev ev' : Event) (ret : status)
    (hk : ∀ d ∈ k.data, ∀ p ∈ d.data, ∀ b ∈ p.data, P b)
    (h : ssd_package_merge cfg k ev = some (ret, k', ev')) :
    ∀ d ∈ k'.data, ∀ p ∈ d.data, ∀ b ∈ p.data, P b := by
  unfold ssd_package_merge at h
  simp only [Option.bind_eq_bind, Option.bind_eq_some, Option.some.injEq, Prod.mk.injEq] at h
  obtain ⟨_, _, d, hd, ⟨r, d', e⟩, hm, _, h2, _⟩ := h
  rw [← h2]
  exact forall_mem_set _ _ _ _ hk
    (ssd_die_merge_blocks cfg P hP d d' ev e r (hk d (mem_of_getElem? _ _ _ hd)) hm)

/-- A property of blocks that survives write, erase and the invalidation of a VALID page
holds for every block after a history when it held before. -/
theorem Ssd.run_blocks (cfg : Config) (P : Block → Prop)
    (hA : Block.closed_under_arrive cfg P) (hM : Block.closed_under_merge cfg P) :
    ∀ (ops : List engine_op) (s s' : Ssd), s.all_blocks P → Ssd.run cfg s ops = some s' →
      s'.all_blocks P
  | [], s, s', hs, h => by
    simp only [Ssd.run, Option.some.injEq] at h
    exact h ▸ hs
  | op :: rest, s, s', hs, h => by
    simp only [Ssd.run, Option.bind_eq_bind, Option.bind_eq_some] at h
    obtain ⟨s1, hstep, h⟩ := h
    refine Ssd.run_blocks cfg P hA hM rest s1 s' ?_ h
    cases op with
    | arrive type L size t =>
      simp only [Ssd.step, Option.map_eq_some', Prod.exists, exists_eq_right] at hstep
      obtain ⟨lat, hrun⟩ := hstep
      exact ssd_event_arrive_blocks cfg P hA s s1 type L size t lat hs hrun
    | merge package event =>
      simp only [Ssd.step, Option.bind_eq_bind, Option.bind_eq_some, Option.some.injEq] at hstep
      obtain ⟨k, hk, ⟨r, k', e⟩, hm, rfl⟩ := hstep
      exact forall_mem_set _ _ _ _ hs
        (ssd_package_merge_blocks cfg P hM k k' event e r (hs k (mem_of_getElem? _ _ _ hk)) hm)

/-- Every block of a device built by `ssd_sim_new` is a fresh block. -/
theorem ssd_sim_new_blocks (cfg : Config) (n : Nat) (s : Ssd) (P : Block → Prop)
    (hP : P (ssd_block_init cfg)) (h : ssd_sim_new cfg n = some s) : s.all_blocks P := by
  unfold ssd_sim_new at h
  simp only [Option.bind_eq_bind, Option.bind_eq_some, Option.some.injEq] at h
  obtain ⟨_, _, rfl⟩ := h
  intro k hk d hd p hp b hb
  simp only at hk
  rw [List.eq_of_mem_replicate hk] at hd
  simp only [ssd_package_init] at hd
  rw [List.eq_of_mem_replicate hd] at hp
  simp only [ssd_die_init] at hp
  rw [List.eq_of_mem_replicate hp] at hb
  simp only [ssd_plane_init] at hb
  rw [List.eq_of_mem_replicate hb]
  exact hP

/-- A block found by `Ssd.block_at` is one of the blocks of the device. -/
theorem Ssd.all_blocks_at (P : Block → Prop) (s : Ssd) (a : Address) (b : Block)
    (hs : s.all_blocks P) (hb : s.block_at a = some b) : P b := by
  unfold Ssd.block_at Ssd.plane_at at hb
  simp only [Option.bind_eq_bind, Option.bind_eq_some] at hb
  obtain ⟨p, ⟨k, hk, d, hd, hp⟩, hb⟩ := hb
  exact hs k (mem_of_getElem? _ _ _ hk) d (mem_of_getElem? _ _ _ hd) p
    (mem_of_getElem? _ _ _ hp) b (mem_of_getElem? _ _ _ hb)

/-- A returned `ssd_plane_merge` had equal block fields in the two addresses of the event:
the assert on `ssd_address_compare` admits nothing else. -/
theorem ssd_plane_merge_same_block (cfg : Config) (p p' : Plane) (ev ev' : Event) (ret : status)
    (h : ssd_plane_merge cfg p ev = some (ret, p', ev')) :
    ev.address.block = ev.merge_address.block := by
  unfold ssd_plane_merge ssd_event_get_address ssd_event_get_merge_address at h
  simp only [Option.bind_eq_bind, Option.bind_eq_some, assert_eq_some] at h
  obtain ⟨_, _, _, _, _, hc, _⟩ := h
  exact ssd_address_compare_block ev.address ev.merge_address hc

/-- When the source block holds more VALID pages than the target block holds EMPTY pages,
a returned `ssd_plane_merge` returned FAILURE and left the plane and the event as they
were. -/
theorem ssd_plane_merge_no_space (cfg : Config) (p : Plane) (ev : Event) (b bm : Block)
    (c v : Nat) (r : status × Plane × Event)
    (hb : p.data[ev.address.block]? = some b)
    (hbm : p.data[ev.merge_address.block]? = some bm)
    (hc : ssd_plane_merge_count cfg b .VALID (Block._size cfg) 0 0 = some c)
    (hv : ssd_plane_merge_count cfg bm .EMPTY (Block._size cfg) 0 0 = some v)
    (hlt : v < c) (h : ssd_plane_merge cfg p ev = some r) : r = (.FAILURE, p, ev) := by
  unfold ssd_plane_merge ssd_event_get_address ssd_event_get_merge_address at h
  simp only [Option.bind_eq_bind, Option.bind_eq_some, assert_eq_some, hb, hbm,
    Option.some.injEq, ssd_block_get_size] at h
  obtain ⟨_, _, _, _, _, _, _, _, _, rfl, _, rfl, c', hc', v', hv', h⟩ := h
  rw [hc] at hc'
  rw [hv] at hv'
  simp only [Option.some.injEq] at hc' hv'
  subst hc' hv'
  rw [if_pos hlt] at h
  simp only [Option.some.injEq] at h
  exact h.symm

/-! ### Page numbers -/

/-- Encoding the decoded address gives the logical page back, below the page count of the
device. -/
theorem decode_address_encode (cfg : Config) (L : Nat) (a : Address)
    (hB : 1 ≤ cfg.SSD_BLOCK_SIZE) (hP : 1 ≤ cfg.PLANE_SIZE) (hD : 1 ≤ cfg.DIE_SIZE)
    (hK : 1 ≤ cfg.PACKAGE_SIZE) (hS : 1 ≤ cfg.SSD_SIZE)
    (hL : L < cfg.SSD_SIZE * cfg.PACKAGE_SIZE * cfg.DIE_SIZE * cfg.PLANE_SIZE *
      cfg.SSD_BLOCK_SIZE)
    (ha : decode_address cfg L = some a) :
    (((a.package * cfg.PACKAGE_SIZE + a.die) * cfg.DIE_SIZE + a.plane) * cfg.PLANE_SIZE +
      a.block) * cfg.SSD_BLOCK_SIZE + a.page = L := by
  rw [decode_address_successive cfg L hB hP hD hK hS] at ha
  simp only [Option.some.injEq] at ha
  subst ha
  simp only
  have h1 : L / cfg.SSD_BLOCK_SIZE <
      cfg.SSD_SIZE * cfg.PACKAGE_SIZE * cfg.DIE_SIZE * cfg.PLANE_SIZE :=
    Nat.div_lt_of_lt_mul (by rw [Nat.mul_comm]; exact hL)
  have h2 : L / cfg.SSD_BLOCK_SIZE / cfg.PLANE_SIZE <
      cfg.SSD_SIZE * cfg.PACKAGE_SIZE * cfg.DIE_SIZE :=
    Nat.div_lt_of_lt_mul (by rw [Nat.mul_comm]; exact h1)
  have h3 : L / cfg.SSD_BLOCK_SIZE / cfg.PLANE_SIZE / cfg.DIE_SIZE <
      cfg.SSD_SIZE * cfg.PACKAGE_SIZE :=
    Nat.div_lt_of_lt_mul (by rw [Nat.mul_comm]; exact h2)
  have h4 : L / cfg.SSD_BLOCK_SIZE / cfg.PLANE_SIZE / cfg.DIE_SIZE / cfg.PACKAGE_SIZE <
      cfg.SSD_SIZE :=
    Nat.div_lt_of_lt_mul (by rw [Nat.mul_comm]; exact h3)
  rw [Nat.mod_eq_of_lt h4, Nat.div_add_mod', Nat.div_add_mod', Nat.div_add_mod',
    Nat.div_add_mod']

/-- When the encoded page number fits a `uint`, no step of `ssd_event_print` wraps. -/
theorem ssd_event_print_ppn_eq (cfg : Config) (a : Address)
    (hB : 1 ≤ cfg.SSD_BLOCK_SIZE) (hP : 1 ≤ cfg.PLANE_SIZE) (hD : 1 ≤ cfg.DIE_SIZE)
    (h : (((a.package * cfg.PACKAGE_SIZE + a.die) * cfg.DIE_SIZE + a.plane) * cfg.PLANE_SIZE +
      a.block) * cfg.SSD_BLOCK_SIZE + a.page < UINT_MOD) :
    ssd_event_print_ppn cfg a =
      (((a.package * cfg.PACKAGE_SIZE + a.die) * cfg.DIE_SIZE + a.plane) * cfg.PLANE_SIZE +
        a.block) * cfg.SSD_BLOCK_SIZE + a.page := by
  have b1 := Nat.le_mul_of_pos_right
    (((a.package * cfg.PACKAGE_SIZE + a.die) * cfg.DIE_SIZE + a.plane) * cfg.PLANE_SIZE +
      a.block) hB
  have b2 := Nat.le_mul_of_pos_right
    ((a.package * cfg.PACKAGE_SIZE + a.die) * cfg.DIE_SIZE + a.plane) hP
  have b3 := Nat.le_mul_of_pos_right (a.package * cfg.PACKAGE_SIZE + a.die) hD
  unfold ssd_event_print_ppn
  simp only
  rw [Nat.mod_eq_of_lt (show a.package * cfg.PACKAGE_SIZE < UINT_MOD by omega),
    Nat.mod_eq_of_lt (show a.package * cfg.PACKAGE_SIZE + a.die < UINT_MOD by omega),
    Nat.mod_eq_of_lt (show (a.package * cfg.PACKAGE_SIZE + a.die) * cfg.DIE_SIZE < UINT_MOD
      by omega),
    Nat.mod_eq_of_lt (show (a.package * cfg.PACKAGE_SIZE + a.die) * cfg.DIE_SIZE + a.plane
      < UINT_MOD by omega),
    Nat.mod_eq_of_lt (show ((a.package * cfg.PACKAGE_SIZE + a.die) * cfg.DIE_SIZE + a.plane)
      * cfg.PLANE_SIZE < UINT_MOD by omega),
    Nat.mod_eq_of_lt (show ((a.package * cfg.PACKAGE_SIZE + a.die) * cfg.DIE_SIZE + a.plane)
      * cfg.PLANE_SIZE + a.block < UINT_MOD by omega),
    Nat.mod_eq_of_lt (show (((a.package * cfg.PACKAGE_SIZE + a.die) * cfg.DIE_SIZE + a.plane)
      * cfg.PLANE_SIZE + a.block) * cfg.SSD_BLOCK_SIZE < UINT_MOD by omega),
    Nat.mod_eq_of_lt h]

/-! ### The bus after a call -/

/-- What a returned `ssd_bus_lock` did: the channel passed its asserts, slot 0 of that
channel holds the granted start `max(cur, t)` and, as the end, the `int64` sum of the
start and `dur`, nothing else of the bus changed, and the event waited `max(cur, t) - t`. -/
theorem ssd_bus_lock_inv (b b' : Bus) (ch : Nat) (t dur : Int) (ev ev' : Event) (st : status)
    (h : ssd_bus_lock b ch t dur ev = some (st, b', ev')) :
    ∃ c c', b.channels[ch]? = some c ∧ c.wf ∧ 0 ≤ t ∧ 0 ≤ dur ∧
      c'.lock_time = c.lock_time.set 0 (max (channel_cur c) t) ∧
      c'.unlock_time = c.unlock_time.set 0 (wrap_int64 (max (channel_cur c) t + dur)) ∧
      b' = { b with channels := b.channels.set ch c' } ∧
      ev'.time_taken = ev.time_taken + (max (channel_cur c) t - t) ∧
      ev'.bus_wait_time = ev.bus_wait_time + (max (channel_cur c) t - t) := by
  unfold ssd_bus_lock at h
  simp only [Option.bind_eq_bind, Option.bind_eq_some, assert_eq_some] at h
  obtain ⟨_, _, c, hc, ⟨r, c', e⟩, hl, h⟩ := h
  simp only [Option.some.injEq, Prod.mk.injEq] at h
  obtain ⟨hwf, ht, hdur⟩ := ssd_channel_lock_wf c c' t dur ev e r hl
  rw [ssd_channel_lock_eq c t dur ev hwf ht hdur] at hl
  simp only [Option.some.injEq, Prod.mk.injEq] at hl
  obtain ⟨_, hc', he⟩ := hl
  refine ⟨c, c', hc, hwf, ht, hdur, ?_, ?_, h.2.1.symm, ?_, ?_⟩
  · rw [← hc']
  · rw [← hc']
  · rw [← h.2.2, ← he]
  · rw [← h.2.2, ← he]

/-- The wait `max(cur, t) - t` written with the unlock time of slot 0, as in the latency
formula. -/
theorem bus_wait_eq (c : Channel) (t u : Int) (ht : 0 ≤ t) (hu : c.unlock_time[0]? = some u) :
    max (channel_cur c) t - t =
      if c.lock_time[0]? = some BUS_CHANNEL_FREE_FLAG then 0 else max 0 (u - t) := by
  unfold channel_cur
  rw [hu]
  simp only [Option.getD_some]
  split
  · rw [max_eq_right ht]; omega
  · rcases le_total u t with h1 | h1
    · rw [max_eq_right h1, max_eq_left (by omega)]; omega
    · rw [max_eq_left h1, max_eq_right (by omega)]

/-! ### A failed call -/

/-- Mapping after a store of an element that `f` cannot tell from the old one. -/
theorem map_set_same {α β : Type} (f : α → β) (l : List α) (i : Nat) (x y : α)
    (h : l[i]? = some x) (hf : f y = f x) : (l.set i y).map f = l.map f := by
  rw [List.map_set, hf]
  apply list_set_same
  rw [List.getElem?_map, h]
  rfl

/-- A returned call that locked the bus returns a latency `>= 0`. -/
theorem ssd_bus_lock_nonneg (b b' : Bus) (ch : Nat) (t dur : Int) (ev ev' : Event)
    (st : status) (h : ssd_bus_lock b ch t dur ev = some (st, b', ev'))
    (hdur : dur = ev.time_taken) : 0 ≤ ev'.time_taken := by
  obtain ⟨c, _, _, _, ht, hd, _, _, _, hev, _⟩ := ssd_bus_lock_inv b b' ch t dur ev ev' st h
  rw [hev, ← hdur]
  have := le_max_right (channel_cur c) t
  omega

/-- A failed `ssd_package_write` changed nothing but the cursor of a plane. -/
theorem ssd_package_write_failed (cfg : Config) (k k' : Package) (ev ev' : Event)
    (ret : status) (h : ssd_package_write cfg k ev = some (ret, k', ev'))
    (hret : ret ≠ .SUCCESS) : k'.clear_cursor = k.clear_cursor := by
  obtain ⟨d, d', hd, hdw, rfl⟩ := ssd_package_write_inv cfg k k' ev ev' ret h
  obtain ⟨p, p', hp, hpw, rfl⟩ := ssd_die_write_inv cfg d d' ev ev' ret hdw
  obtain ⟨b, b', a, hb, hbw, rfl⟩ := ssd_plane_write_inv cfg p p' ev ev' ret hpw
  obtain ⟨pg, _, hcase⟩ := ssd_block_write_inv cfg b b' ev ev' ret hbw
  have hb' : b' = b := by
    rcases hcase with ⟨_, hs, _⟩ | ⟨_, _, h⟩
    · exact absurd hs hret
    · exact h
  subst hb'
  unfold Package.clear_cursor
  simp only
  rw [map_set_same Die.clear_cursor k.data _ d _ hd]
  unfold Die.clear_cursor
  simp only
  rw [map_set_same Plane.clear_cursor d.data _ p _ hp]
  unfold Plane.clear_cursor
  simp only
  rw [list_set_same _ _ _ hb]

/-! ### Histories of `ssd_event_arrive` calls alone -/

/-- A fresh block has no INVALID page and counters that agree with its pages. -/
theorem ssd_block_init_arrive_ok (cfg : Config) : (ssd_block_init cfg).arrive_ok cfg := by
  unfold Block.arrive_ok ssd_block_init Block.count_state
  simp only [Block._size, List.length_replicate, List.countP_replicate, ssd_page_init]
  refine ⟨trivial, ?_, trivial, by simp⟩
  intro pg hpg
  rw [List.eq_of_mem_replicate hpg]
  decide

/-- `Block.arrive_ok` survives `ssd_block_write`. -/
theorem ssd_block_write_arrive_ok (cfg : Config) (hu : cfg.SSD_BLOCK_SIZE < UINT_MOD)
    (b b' : Block) (ev ev' : Event) (r : status) (hb : b.arrive_ok cfg)
    (h : ssd_block_write cfg b ev = some (r, b', ev')) : b'.arrive_ok cfg := by
  obtain ⟨pg, hpg, h1 | h1⟩ := ssd_block_write_inv cfg b b' ev ev' r h
  · obtain ⟨hst, _, rfl⟩ := h1
    obtain ⟨hlen, hinv, hpi, hpv⟩ := hb
    have hgain := countP_set_gain (fun pg => decide (pg.state = .VALID)) b.data
      ev.address.page pg { state := .VALID } hpg (by simp [hst]) (by simp)
    have hle : (b.data.set ev.address.page { state := .VALID }).countP
        (fun pg => decide (pg.state = .VALID)) ≤ cfg.SSD_BLOCK_SIZE := by
      rw [← hlen, ← List.length_set b.data ev.address.page { state := .VALID }]
      exact List.countP_le_length _
    unfold Block.count_state at hpv
    have hmod : (b.pages_valid + 1) % UINT_MOD = b.pages_valid + 1 :=
      Nat.mod_eq_of_lt (by omega)
    unfold Block.arrive_ok Block.count_state
    refine ⟨by rw [List.length_set]; exact hlen, ?_, hpi, ?_⟩
    · intro x hx
      rcases List.mem_or_eq_of_mem_set hx with h2 | h2
      · exact hinv x h2
      · rw [h2]; decide
    · show (b.pages_valid + 1) % UINT_MOD = _
      rw [hmod, hgain, hpv]
  · obtain ⟨_, _, rfl⟩ := h1
    exact hb

/-- `Block.arrive_ok` holds after `ssd_block_erase`. -/
theorem ssd_block_erase_arrive_ok (cfg : Config) (b b' : Block) (ev ev' : Event) (r : status)
    (hb : b.arrive_ok cfg) (h : ssd_block_erase cfg b ev = some (r, b', ev')) :
    b'.arrive_ok cfg := by
  obtain ⟨_, _, _, data', hd, rfl⟩ := ssd_block_erase_inv cfg b b' ev ev' r h
  have := ssd_block_erase_loop_full _ _ _ hb.1 hd
  subst this
  unfold Block.arrive_ok Block.count_state
  simp only [Block._size, List.length_replicate, List.countP_replicate]
  refine ⟨trivial, ?_, trivial, by simp⟩
  intro pg hpg
  rw [List.eq_of_mem_replicate hpg]
  decide

/-- A property of blocks that survives write and erase holds for every block after a
history of `ssd_event_arrive` calls alone when it held before. -/
theorem Ssd.run_arrive_blocks (cfg : Config) (P : Block → Prop)
    (hA : Block.closed_under_arrive cfg P) :
    ∀ (ops : List engine_op) (s s' : Ssd), (∀ op ∈ ops, op.is_arrive = true) →
      s.all_blocks P → Ssd.run cfg s ops = some s' → s'.all_blocks P
  | [], s, s', _, hs, h => by
    simp only [Ssd.run, Option.some.injEq] at h
    exact h ▸ hs
  | op :: rest, s, s', hops, hs, h => by
    simp only [Ssd.run, Option.bind_eq_bind, Option.bind_eq_some] at h
    obtain ⟨s1, hstep, h⟩ := h
    refine Ssd.run_arrive_blocks cfg P hA rest s1 s'
      (fun o ho => hops o (List.mem_cons_of_mem _ ho)) ?_ h
    cases op with
    | arrive type L size t =>
      simp only [Ssd.step, Option.map_eq_some', Prod.exists, exists_eq_right] at hstep
      obtain ⟨lat, hrun⟩ := hstep
      exact ssd_event_arrive_blocks cfg P hA s s1 type L size t lat hs hrun
    | merge package event =>
      have := hops _ (List.mem_cons_self _ _)
      simp [engine_op.is_arrive] at this

/-! ### Discard -/

/-- Page frame of `discard_from_brd`: the call touches no page of the store outside the
`n / PAGE_SIZE` pages that start with the page holding `sector`. -/
theorem discard_from_brd_loop_pages (PS : Nat) (h9 : 9 ≤ PS) :
    ∀ (fuel : Nat) (brd : brd_device) (sector n j : Nat),
      (j < sector / 2 ^ (PS - 9) ∨ sector / 2 ^ (PS - 9) + n / 2 ^ PS ≤ j) →
      (discard_from_brd_loop PS fuel brd sector n).brd_pages j = brd.brd_pages j := by
  have hP : PAGE_SIZE PS = 2 ^ PS := by simp [PAGE_SIZE, Nat.shiftLeft_eq]
  have hq : PAGE_SIZE PS >>> SECTOR_SHIFT = 2 ^ (PS - 9) := by
    rw [hP, Nat.shiftRight_eq_div_pow, SECTOR_SHIFT, Nat.pow_div h9 (by decide)]
  have hqpos : 0 < 2 ^ (PS - 9) := Nat.two_pow_pos _
  have hPpos : 0 < 2 ^ PS := Nat.two_pow_pos _
  intro fuel
  induction fuel with
  | zero => intro brd sector n j _; rfl
  | succ fuel ih =>
    intro brd sector n j hj
    rw [discard_from_brd_loop]
    by_cases hn : PAGE_SIZE PS ≤ n
    · rw [if_pos hn, hq, hP]
      rw [hP] at hn
      have h1 : (sector + 2 ^ (PS - 9)) / 2 ^ (PS - 9) = sector / 2 ^ (PS - 9) + 1 :=
        Nat.add_div_right _ hqpos
      have h2 : (n - 2 ^ PS) / 2 ^ PS + 1 = n / 2 ^ PS := by
        rw [← Nat.add_div_right _ hPpos, Nat.sub_add_cancel hn]
      have h3 : 0 < n / 2 ^ PS := Nat.div_pos hn hPpos
      rw [ih _ _ _ j (by rw [h1]; omega)]
      have hne : j ≠ sector / 2 ^ (PS - 9) := by omega
      unfold brd_zero_page brd_lookup_page
      simp only [PAGE_SECTORS_SHIFT, SECTOR_SHIFT, Nat.shiftRight_eq_div_pow]
      split
      · exact Function.update_noteq hne _ _
      · rfl
    · rw [if_neg hn]

/-- Frame of `discard_from_brd` for a start sector aligned to a page: no sector outside the
byte range `[512 * s, 512 * s + n)` changes. -/
theorem discard_from_brd_aligned_frame (PS : Nat) (h9 : 9 ≤ PS) (brd : brd_device)
    (s n k : Nat) (hal : 2 ^ (PS - 9) ∣ s) (hk : k < s ∨ 512 * s + n ≤ 512 * k) :
    (discard_from_brd PS brd s n).sector_bytes PS k = brd.sector_bytes PS k := by
  have hqpos : 0 < 2 ^ (PS - 9) := Nat.two_pow_pos _
  have hPq : 2 ^ PS = 2 ^ (PS - 9) * 512 := by
    rw [show (512 : Nat) = 2 ^ 9 from rfl, ← Nat.pow_add, Nat.sub_add_cancel h9]
  obtain ⟨m, rfl⟩ := hal
  have hidx : k / 2 ^ (PS - 9) < 2 ^ (PS - 9) * m / 2 ^ (PS - 9) ∨
      2 ^ (PS - 9) * m / 2 ^ (PS - 9) + n / 2 ^ PS ≤ k / 2 ^ (PS - 9) := by
    rw [Nat.mul_div_cancel_left _ hqpos]
    rcases hk with hk | hk
    · exact Or.inl (Nat.div_lt_of_lt_mul hk)
    · right
      rw [Nat.le_div_iff_mul_le hqpos, Nat.add_mul]
      have h1 : n / 2 ^ PS * (2 ^ (PS - 9) * 512) ≤ n := by
        rw [← hPq]; exact Nat.div_mul_le_self _ _
      have h2 : n / 2 ^ PS * 2 ^ (PS - 9) * 512 ≤ n := by rw [Nat.mul_assoc]; exact h1
      have h3 : m * 2 ^ (PS - 9) = 2 ^ (PS - 9) * m := Nat.mul_comm _ _
      omega
  unfold brd_device.sector_bytes discard_from_brd
  rw [discard_from_brd_loop_pages PS h9 _ _ _ _ _ hidx]

/-! ## The claims -/

/-- The small device is what `ssd_sim_new` returns for the small geometry. -/
theorem ssd_sim_new_small : ssd_sim_new Config.small Config.small.SSD_SIZE = some Ssd.small := by
  decide

/-- C1: every `ssd_event_arrive` call of kind READ, WRITE or ERASE that returns a
non-negative latency `lat` (a successful call; its submission time `t` is then `>= 0`) has
`lat = BUS_CTRL_DELAY + BUS_DATA_DELAY + D + w`, where `D` is the page read, page write or
block erase delay of the kind, and `w` is 0 when slot 0 of the serving channel
`get_channel(address)` still carries the free flag and `max(0, unlock_time[0] - t)`
otherwise, read before the call. All five configured delays are taken non-negative. -/
theorem ssd_event_arrive_latency (cfg : Config) (s s' : Ssd) (type : event_type)
    (L size : Nat) (t lat : Int)
    (hctrl : 0 ≤ cfg.BUS_CTRL_DELAY) (hdata : 0 ≤ cfg.BUS_DATA_DELAY)
    (hread : 0 ≤ cfg.PAGE_READ_DELAY) (hwrite : 0 ≤ cfg.PAGE_WRITE_DELAY)
    (herase : 0 ≤ cfg.BLOCK_ERASE_DELAY)
    (hkind : type = .SSD_READ ∨ type = .SSD_WRITE ∨ type = .SSD_ERASE)
    (hrun : ssd_event_arrive cfg s type L size t = some (lat, s')) (hok : 0 ≤ lat) :
    0 ≤ t ∧ ∃ a c u, decode_address cfg L = some a ∧
      s.bus.channels[get_channel cfg a]? = some c ∧ c.unlock_time[0]? = some u ∧
      lat = cfg.BUS_CTRL_DELAY + cfg.BUS_DATA_DELAY + kind_delay cfg type +
        (if c.lock_time[0]? = some BUS_CHANNEL_FREE_FLAG then 0 else max 0 (u - t)) := by
  have hrd : Page._read_delay cfg = cfg.PAGE_READ_DELAY := by
    unfold Page._read_delay; rw [if_neg (not_lt.mpr hread)]
  have hwd : Page._write_delay cfg = cfg.PAGE_WRITE_DELAY := by
    unfold Page._write_delay; rw [if_neg (not_lt.mpr hwrite)]
  have hed : Block._erase_delay cfg = cfg.BLOCK_ERASE_DELAY := by
    unfold Block._erase_delay; rw [if_neg (not_lt.mpr herase)]
  unfold ssd_event_arrive at hrun
  simp only [Option.bind_eq_bind, Option.bind_eq_some, assert_eq_some, ssd_event_init,
    Option.some.injEq] at hrun
  obtain ⟨_, ht, _, _, _, ⟨_, _, rfl⟩, a, ha, hrun⟩ := hrun
  refine ⟨ht, a, ?_⟩
  rw [incr_time_taken_nonneg _ _ (by omega : 0 ≤ cfg.BUS_CTRL_DELAY + cfg.BUS_DATA_DELAY)]
    at hrun
  rcases hkind with rfl | rfl | rfl
  · simp only [if_true, Option.bind_eq_bind, Option.bind_eq_some] at hrun
    obtain ⟨k, _, ⟨ret, k', e3⟩, hk, hrun⟩ := hrun
    simp only at hrun
    split at hrun
    · simp only [Option.some.injEq, Prod.mk.injEq] at hrun
      omega
    · rename_i hret
      simp only [ne_eq, Decidable.not_not] at hret
      subst hret
      simp only [Option.bind_eq_bind, Option.bind_eq_some, ssd_event_get_time_taken,
        Option.some.injEq, Prod.mk.injEq] at hrun
      obtain ⟨⟨lr, bus', e4⟩, hlock, w, ⟨_, _, hw⟩, hlat, _⟩ := hrun
      obtain ⟨c, u, hc, hu, htime⟩ := ssd_bus_lock_time _ _ _ _ _ _ _ _ hlock
      have h3 := ssd_package_read_time cfg k k' _ e3 hk
      refine ⟨c, u, ha, hc, hu, ?_⟩
      simp only at hw
      rw [← hlat, ← hw, htime, h3, hrd]
      simp [ssd_event_set_address, kind_delay]
  · simp only [if_true, if_false, reduceCtorEq, Option.bind_eq_bind, Option.bind_eq_some]
      at hrun
    obtain ⟨k, _, ⟨ret, k', e3⟩, hk, hrun⟩ := hrun
    simp only at hrun
    split at hrun
    · simp only [Option.some.injEq, Prod.mk.injEq] at hrun
      omega
    · rename_i hret
      simp only [ne_eq, Decidable.not_not] at hret
      subst hret
      simp only [Option.bind_eq_bind, Option.bind_eq_some, ssd_event_get_time_taken,
        Option.some.injEq, Prod.mk.injEq] at hrun
      obtain ⟨⟨lr, bus', e4⟩, hlock, w, ⟨_, _, hw⟩, hlat, _⟩ := hrun
      obtain ⟨c, u, hc, hu, htime⟩ := ssd_bus_lock_time _ _ _ _ _ _ _ _ hlock
      have h3 := ssd_package_write_time cfg k k' _ e3 hk
      refine ⟨c, u, ha, hc, hu, ?_⟩
      simp only at hw
      rw [← hlat, ← hw, htime, h3, hwd]
      simp [ssd_event_set_address, kind_delay]
  · simp only [if_true, if_false, reduceCtorEq, ssd_event_get_event_type, ssd_event_set_address,
      Option.bind_eq_bind, Option.bind_eq_some] at hrun
    obtain ⟨k, _, ⟨ret, k', e3⟩, hk, hrun⟩ := hrun
    simp only at hrun
    split at hrun
    · simp only [Option.some.injEq, Prod.mk.injEq] at hrun
      omega
    · rename_i hret
      simp only [ne_eq, Decidable.not_not] at hret
      subst hret
      simp only [Option.bind_eq_bind, Option.bind_eq_some] at hrun
      obtain ⟨⟨lr, bus', e4⟩, hlock, hrun⟩ := hrun
      simp only at hrun
      split at hrun
      · simp only [Option.some.injEq, Prod.mk.injEq] at hrun
        omega
      · simp only [Option.bind_eq_bind, Option.bind_eq_some, ssd_event_get_time_taken,
          Option.some.injEq, Prod.mk.injEq] at hrun
        obtain ⟨w, ⟨_, _, hw⟩, hlat, _⟩ := hrun
        obtain ⟨c, u, hc, hu, htime⟩ := ssd_bus_lock_time _ _ _ _ _ _ _ _ hlock
        have h3 := ssd_package_erase_time cfg k k' _ e3 hk
        refine ⟨c, u, ha, hc, hu, ?_⟩
        rw [← hlat, ← hw, htime, h3, hed]
        simp [kind_delay]

/-- Instance of C1: the second write to channel 0 of the small device waits 20015 and
returns 40030. -/
theorem ssd_event_arrive_latency_witness :
    ssd_event_arrive Config.small Ssd.small_written .SSD_WRITE 4 1 1
        = some (40030, Ssd.small_written_twice) ∧
      ((0 : Int) ≤ 1 ∧ ∃ a c u, decode_address Config.small 4 = some a ∧
        Ssd.small_written.bus.channels[get_channel Config.small a]? = some c ∧
        c.unlock_time[0]? = some u ∧
        (40030 : Int) = Config.small.BUS_CTRL_DELAY + Config.small.BUS_DATA_DELAY +
          kind_delay Config.small .SSD_WRITE +
          (if c.lock_time[0]? = some BUS_CHANNEL_FREE_FLAG then 0 else max 0 (u - 1))) :=
  ⟨by decide, ssd_event_arrive_latency Config.small Ssd.small_written Ssd.small_written_twice
    .SSD_WRITE 4 1 1 40030 (by decide) (by decide) (by decide) (by decide) (by decide)
    (Or.inr (Or.inl rfl)) (by decide) (by decide)⟩

/-- C2: with every level size positive, the address computed inside `ssd_event_arrive`
for logical page `L` is `page = L mod BLOCK_SIZE`, `block = (L div BLOCK_SIZE) mod
PLANE_SIZE`, `plane = (L div (BLOCK_SIZE * PLANE_SIZE)) mod DIE_SIZE`, `die = (L div
(BLOCK_SIZE * PLANE_SIZE * DIE_SIZE)) mod PACKAGE_SIZE`, `package = (L div (BLOCK_SIZE *
PLANE_SIZE * DIE_SIZE * PACKAGE_SIZE)) mod SSD_SIZE`, with validity PAGE. -/
theorem decode_address_spec (cfg : Config) (L : Nat)
    (hB : 0 < cfg.SSD_BLOCK_SIZE) (hP : 0 < cfg.PLANE_SIZE) (hD : 0 < cfg.DIE_SIZE)
    (hK : 0 < cfg.PACKAGE_SIZE) (hS : 0 < cfg.SSD_SIZE) :
    decode_address cfg L = some
      { page := L % cfg.SSD_BLOCK_SIZE,
        block := (L / cfg.SSD_BLOCK_SIZE) % cfg.PLANE_SIZE,
        plane := (L / (cfg.SSD_BLOCK_SIZE * cfg.PLANE_SIZE)) % cfg.DIE_SIZE,
        die := (L / (cfg.SSD_BLOCK_SIZE * cfg.PLANE_SIZE * cfg.DIE_SIZE)) % cfg.PACKAGE_SIZE,
        package := (L / (cfg.SSD_BLOCK_SIZE * cfg.PLANE_SIZE * cfg.DIE_SIZE * cfg.PACKAGE_SIZE))
          % cfg.SSD_SIZE,
        valid := .PAGE } := by
  simp [decode_address, umod, udiv, Nat.pos_iff_ne_zero.mp hB, Nat.pos_iff_ne_zero.mp hP,
    Nat.pos_iff_ne_zero.mp hD, Nat.pos_iff_ne_zero.mp hK, Nat.pos_iff_ne_zero.mp hS,
    Nat.div_div_eq_div_mul, Nat.mul_assoc]

/-- Instance of C2: logical page 64 under the shipped geometry. -/
theorem decode_address_spec_witness :
    decode_address Config.shipped 64 = some
      { page := 0, block := 1, plane := 0, die := 0, package := 0, valid := .PAGE } :=
  decode_address_spec Config.shipped 64 (by decide) (by decide) (by decide) (by decide)
    (by decide)

/-- C4 (counterexample): on a channel busy until 20, two requests at
`now = INT64_MAX - 10` for `dur = 5015` each are both granted the start `now`, the second
inside the 5015 ns of the first, and after each of them `unlock_time[0]` is
`-9223372036854770804`: it fell below the unlock time 20 the channel held before and lies
before the start of its own interval. -/
theorem channel_lock_unlock_time_decreases :
    channel_cur Channel.busy = 20 ∧
    channel_lock_trace Channel.busy
        [(9223372036854775797, 5015, Event.sample .SSD_READ Address.first 9223372036854775797),
         (9223372036854775797, 5015, Event.sample .SSD_READ Address.first 9223372036854775797)]
      = some [(9223372036854775797, -9223372036854770804),
          (9223372036854775797, -9223372036854770804)] ∧
    (-9223372036854770804 : Int) < 20 ∧
    (-9223372036854770804 : Int) < 9223372036854775797 ∧
    INT64_MAX - 10 = 9223372036854775797 := by
  decide

/-- C4 (amended): for every sequence of `ssd_channel_lock` calls on one channel, with
start times `>= 0` and durations `>= 0` in any order, in which no interval end `s + dur`
(`channel_lock_ends`) exceeds `INT64_MAX`, every call is granted an interval
`[lock_time[0], unlock_time[0])` that starts no earlier than its request and lasts the
requested duration; each interval begins at or after the end of the one before it (and at
or after the unlock time the channel held before the first call), so no two granted
intervals overlap, and `unlock_time[0]` never decreases. -/
theorem channel_lock_fifo (c : Channel) (reqs : List (Int × Int × Event)) (hwf : c.wf)
    (hreqs : ∀ r ∈ reqs, 0 ≤ r.1 ∧ 0 ≤ r.2.1)
    (hends : ∀ e ∈ channel_lock_ends (channel_cur c) reqs, e ≤ INT64_MAX) :
    ∃ tr, channel_lock_trace c reqs = some tr ∧
      List.Forall₂ (fun r p => r.1 ≤ p.1 ∧ p.2 = p.1 + r.2.1) reqs tr ∧
      (∀ p ∈ tr, channel_cur c ≤ p.1 ∧ p.1 ≤ p.2) ∧
      List.Chain' (fun p q => p.2 ≤ q.1) tr ∧
      List.Pairwise (fun p q => p.2 ≤ q.1) tr ∧
      List.Chain' (fun p q => p.2 ≤ q.2) tr := by
  obtain ⟨tr, h1, h2, h3, h4⟩ := channel_lock_trace_spec reqs c hwf hreqs hends
  refine ⟨tr, h1, h2, h3, h4.chain', h4, ?_⟩
  apply List.Pairwise.chain'
  apply List.Pairwise.imp_of_mem _ h4
  intro p q _ hq hpq
  exact le_trans hpq (h3 q hq).2

/-- Instance of C4 (amended): three requests with start times 30, 7, 100 on a channel busy
until 20 are granted `[30, 40)`, `[40, 55)`, `[100, 100)`. -/
theorem channel_lock_fifo_witness :
    channel_lock_trace Channel.busy
        [(30, 10, Event.sample .SSD_READ Address.first 30),
         (7, 15, Event.sample .SSD_WRITE Address.first 7),
         (100, 0, Event.sample .SSD_READ Address.first 100)]
      = some [(30, 40), (40, 55), (100, 100)] ∧
    ∃ tr, channel_lock_trace Channel.busy
        [(30, 10, Event.sample .SSD_READ Address.first 30),
         (7, 15, Event.sample .SSD_WRITE Address.first 7),
         (100, 0, Event.sample .SSD_READ Address.first 100)] = some tr ∧
      List.Forall₂ (fun r p => r.1 ≤ p.1 ∧ p.2 = p.1 + r.2.1)
        [(30, 10, Event.sample .SSD_READ Address.first 30),
         (7, 15, Event.sample .SSD_WRITE Address.first 7),
         (100, 0, Event.sample .SSD_READ Address.first 100)] tr ∧
      (∀ p ∈ tr, channel_cur Channel.busy ≤ p.1 ∧ p.1 ≤ p.2) ∧
      List.Chain' (fun p q => p.2 ≤ q.1) tr ∧
      List.Pairwise (fun p q => p.2 ≤ q.1) tr ∧
      List.Chain' (fun p q => p.2 ≤ q.2) tr :=
  ⟨by decide,
    channel_lock_fifo Channel.busy
      [(30, 10, Event.sample .SSD_READ Address.first 30),
       (7, 15, Event.sample .SSD_WRITE Address.first 7),
       (100, 0, Event.sample .SSD_READ Address.first 100)] (by decide) (by decide)
      (by decide)⟩

/-- C5: for every address whose package fits a `uint`, with `b = BANK_GROUP_BIT`,
`get_channel` returns `(package AND NOT(2^b - 1)) OR (page AND (2^b - 1))`, the NOT taken
on 32 bits; when `b = 0` it returns `package`; bit by bit, the low `b` bits of the result
are those of `page` and the other bits are those of `package`. -/
theorem get_channel_spec (cfg : Config) (a : Address) (hb : cfg.BANK_GROUP_BIT < 31)
    (hpkg : a.package < UINT_MOD) :
    get_channel cfg a =
        (a.package &&& (UINT_MOD - 1 - (2 ^ cfg.BANK_GROUP_BIT - 1))) |||
          (a.page &&& (2 ^ cfg.BANK_GROUP_BIT - 1)) ∧
      (cfg.BANK_GROUP_BIT = 0 → get_channel cfg a = a.package) ∧
      ∀ i, (get_channel cfg a).testBit i =
        if i < cfg.BANK_GROUP_BIT then a.page.testBit i else a.package.testBit i := by
  refine ⟨?_, ?_, get_channel_testBit cfg a hb hpkg⟩
  · apply Nat.eq_of_testBit_eq
    intro i
    rw [get_channel_testBit cfg a hb hpkg i]
    simp only [Nat.testBit_or, Nat.testBit_and, not_mask_testBit cfg.BANK_GROUP_BIT i (by omega),
      Nat.testBit_two_pow_sub_one]
    by_cases hi : i < cfg.BANK_GROUP_BIT
    · have : ¬ cfg.BANK_GROUP_BIT ≤ i := by omega
      simp [hi, this]
    · have hbi : cfg.BANK_GROUP_BIT ≤ i := by omega
      by_cases h32 : i < 32
      · simp [hi, hbi, h32]
      · have : a.package.testBit i = false := by
          apply Nat.testBit_lt_two_pow
          have : 2 ^ 32 ≤ 2 ^ i := Nat.pow_le_pow_right (by decide) (by omega)
          unfold UINT_MOD at hpkg
          omega
        simp [hi, this]
  · intro h0
    simp [get_channel, h0]

/-- Instance of C5: package 5, page 3 under `BANK_GROUP_BIT = 2`. -/
theorem get_channel_spec_witness :
    get_channel Config.shipped Address.sample = 7 ∧
    (get_channel Config.shipped Address.sample =
        (5 &&& (UINT_MOD - 1 - (2 ^ 2 - 1))) ||| (3 &&& (2 ^ 2 - 1)) ∧
      (Config.shipped.BANK_GROUP_BIT = 0 → get_channel Config.shipped Address.sample = 5) ∧
      ∀ i, (get_channel Config.shipped Address.sample).testBit i =
        if i < 2 then (3 : Nat).testBit i else (5 : Nat).testBit i) :=
  ⟨by decide, get_channel_spec Config.shipped Address.sample (by decide) (by decide)⟩

/-- C6: on a well-formed device, `ssd_event_arrive(WRITE, L, ...)` whose decoded address
names a page that is not EMPTY returns a negative value; that page keeps its state, as
does every other page of the device, and no channel is locked. -/
theorem ssd_event_arrive_write_nonempty (cfg : Config) (s : Ssd) (L size : Nat) (t : Int)
    (a : Address) (st : page_state) (hwf : s.wf cfg) (ht : 0 ≤ t)
    (hL : ulong_as_int64 L ≤ ((cfg.SSD_SIZE * cfg.PACKAGE_SIZE * cfg.DIE_SIZE * cfg.PLANE_SIZE
      * cfg.SSD_BLOCK_SIZE : Nat) : Int))
    (ha : decode_address cfg L = some a)
    (hst : s.page_state_at a = some st) (hne : st ≠ .EMPTY) :
    ∃ lat s', ssd_event_arrive cfg s .SSD_WRITE L size t = some (lat, s') ∧ lat < 0 ∧
      s'.page_state_at a = some st ∧ (∀ a', s'.page_state_at a' = s.page_state_at a') ∧
      s'.bus = s.bus := by
  obtain ⟨k, hk, hkst⟩ : ∃ k, s.data[a.package]? = some k ∧
      k.page_state_at a.die a.plane a.block a.page = some st := by
    unfold Ssd.page_state_at at hst
    simpa only [Option.bind_eq_bind, Option.bind_eq_some] using hst
  have hkw : k.wf cfg := hwf.2.2.1 k (List.mem_iff_getElem?.mpr ⟨_, hk⟩)
  have hval := decode_address_valid cfg L a ha
  obtain ⟨k', hpk, hframe⟩ := ssd_package_write_nonempty cfg k
    (ssd_event_incr_time_taken
      (ssd_event_set_address
        { start_time := t, time_taken := 0, bus_wait_time := 0, type := .SSD_WRITE,
          logical_address := L, address := Address.zero, merge_address := Address.zero,
          size := size } a)
      (cfg.BUS_CTRL_DELAY + cfg.BUS_DATA_DELAY)) st hkw
    (by simpa [ssd_event_set_address, incr_time_taken_address] using hval)
    (by simpa [ssd_event_set_address, incr_time_taken_address] using hkst) hne
  have hall : ∀ a', Ssd.page_state_at { s with data := s.data.set a.package k' } a' =
      s.page_state_at a' := by
    intro a'
    unfold Ssd.page_state_at
    simp only [Option.bind_eq_bind]
    apply frame_lift _ _ _ _ _ _ hk
    intro _
    exact hframe _ _ _ _
  refine ⟨-1, { s with data := s.data.set a.package k' }, ?_, by decide, ?_, hall, rfl⟩
  · unfold ssd_event_arrive
    simp only [assert_true ht, assert_true hL, ssd_event_init, ha, Option.bind_eq_bind,
      Option.some_bind, hk, hpk]
    simp
  · rw [hall a]; exact hst

/-- Instance of C6: writing logical page 0 of the small device a second time. -/
theorem ssd_event_arrive_write_nonempty_witness :
    Ssd.small_written.wf Config.small ∧
    decode_address Config.small 0 = some Address.first ∧
    Ssd.small_written.page_state_at Address.first = some .VALID ∧
    ∃ lat s', ssd_event_arrive Config.small Ssd.small_written .SSD_WRITE 0 1 1
        = some (lat, s') ∧ lat < 0 ∧
      s'.page_state_at Address.first = some .VALID ∧
      (∀ a', s'.page_state_at a' = Ssd.small_written.page_state_at a') ∧
      s'.bus = Ssd.small_written.bus :=
  ⟨by decide, by decide, by decide,
    ssd_event_arrive_write_nonempty Config.small Ssd.small_written 0 1 1 Address.first .VALID
      (by decide) (by decide) (by decide) (by decide) (by decide) (by decide)⟩

/-- On every device and under every configuration with positive level sizes, a request of
a kind other than read, write or erase that passes the entry asserts returns the initial
`time_taken`, which is 0, and leaves the device unchanged. -/
theorem ssd_event_arrive_other_kind (cfg : Config) (s : Ssd) (L size : Nat) (t : Int)
    (hB : 0 < cfg.SSD_BLOCK_SIZE) (hP : 0 < cfg.PLANE_SIZE) (hD : 0 < cfg.DIE_SIZE)
    (hK : 0 < cfg.PACKAGE_SIZE) (hS : 0 < cfg.SSD_SIZE) (ht : 0 ≤ t)
    (hL : ulong_as_int64 L ≤ ((cfg.SSD_SIZE * cfg.PACKAGE_SIZE * cfg.DIE_SIZE * cfg.PLANE_SIZE
      * cfg.SSD_BLOCK_SIZE : Nat) : Int)) :
    ssd_event_arrive cfg s .SSD_MERGE L size t = some (0, s) := by
  unfold ssd_event_arrive
  simp only [assert_true ht, assert_true hL, ssd_event_init, Option.bind_eq_bind,
    Option.some_bind, decode_address_successive cfg L hB hP hD hK hS, ssd_event_get_event_type,
    ssd_event_set_address, ssd_event_get_time_taken, reduceCtorEq, if_false]
  rw [assert_true (le_refl (0 : Int))]
  rfl

/-- C7: evaluation of `ssd_event_arrive` on a request of kind MERGE, on the fresh small
device: the call returns 0, which is not negative, and leaves the device as it was. -/
theorem ssd_event_arrive_merge_returns_zero :
    ssd_event_arrive Config.small Ssd.small .SSD_MERGE 0 1 0 = some (0, Ssd.small) := by
  decide

/-- C8: a write that reaches an EMPTY page through `ssd_package_write`, `ssd_die_write`,
`ssd_plane_write` and `ssd_block_write` returns SUCCESS and adds exactly
`PAGE_WRITE_DELAY` (taken non-negative) to `event.time_taken`; the target page becomes
VALID, `pages_valid` of its block grows by exactly 1 (the counter is below its `uint`
maximum), the block becomes ACTIVE, every other page of the package keeps its state, and
so does every other page of a device that holds this package at `address.package`. -/
theorem ssd_package_write_spec (cfg : Config) (k : Package) (ev : Event) (b : Block)
    (hwf : k.wf cfg) (hval : ev.address.valid = .PAGE)
    (hb : k.block_at ev.address.die ev.address.plane ev.address.block = some b)
    (hempty : b.page_state_at ev.address.page = some .EMPTY)
    (hcnt : b.pages_valid + 1 < UINT_MOD) (hdelay : 0 ≤ cfg.PAGE_WRITE_DELAY) :
    ∃ k' ev' b', ssd_package_write cfg k ev = some (.SUCCESS, k', ev') ∧
      ev'.time_taken = ev.time_taken + cfg.PAGE_WRITE_DELAY ∧
      k'.block_at ev.address.die ev.address.plane ev.address.block = some b' ∧
      b'.page_state_at ev.address.page = some .VALID ∧
      b'.pages_valid = b.pages_valid + 1 ∧ b'.state = .ACTIVE ∧
      (∀ die plane block page,
        (die, plane, block, page) ≠
          (ev.address.die, ev.address.plane, ev.address.block, ev.address.page) →
        k'.page_state_at die plane block page = k.page_state_at die plane block page) ∧
      (∀ (s : Ssd) (a : Address), s.data[ev.address.package]? = some k →
        (a.package, a.die, a.plane, a.block, a.page) ≠
          (ev.address.package, ev.address.die, ev.address.plane, ev.address.block,
            ev.address.page) →
        Ssd.page_state_at { s with data := s.data.set ev.address.package k' } a =
          s.page_state_at a) := by
  obtain ⟨d, p, hd, hp, hbl⟩ := Package.block_at_some k _ _ _ b hb
  obtain ⟨hk1, hk2, hk3⟩ := hwf
  have hdw : d.wf cfg := hk3 d (List.mem_iff_getElem?.mpr ⟨_, hd⟩)
  obtain ⟨hd1, hd2, hd3⟩ := hdw
  have hpw : p.wf cfg := hd3 p (List.mem_iff_getElem?.mpr ⟨_, hp⟩)
  have hdie : ev.address.die < k.size := by
    rw [← hk2]; exact (List.getElem?_eq_some.mp hd).1
  have hplane : ev.address.plane < d.size := by
    rw [← hd2]; exact (List.getElem?_eq_some.mp hp).1
  obtain ⟨pg, hpg, hpgs⟩ :
      ∃ pg, b.data[ev.address.page]? = some pg ∧ pg.state = .EMPTY := by
    unfold Block.page_state_at at hempty
    simpa using hempty
  have hpagelt : ev.address.page < b.data.length := (List.getElem?_eq_some.mp hpg).1
  have hwd : Page._write_delay cfg = cfg.PAGE_WRITE_DELAY := by
    unfold Page._write_delay
    rw [if_neg (not_lt.mpr hdelay)]
  have hbw := ssd_block_write_eq cfg b ev pg hpg
  rw [if_pos hpgs] at hbw
  obtain ⟨a, hpl⟩ := ssd_plane_write_eq cfg p ev b _ _ _ hpw hbl hbw
  have hdi := ssd_die_write_eq cfg d ev p _ _ _ hplane (by rw [hval]; decide) hp hpl
  have hpk := ssd_package_write_eq cfg k ev d _ _ _ hdie (by rw [hval]; decide) hd hdi
  refine ⟨_, _,
    { b with data := b.data.set ev.address.page { state := .VALID },
             pages_valid := (b.pages_valid + 1) % UINT_MOD, state := .ACTIVE },
    hpk, ?_, ?_, ?_, ?_, rfl, ?_, ?_⟩
  · simp [hwd]
  · simp only [Package.block_at, Option.bind_eq_bind,
      List.getElem?_set_self (show ev.address.die < k.data.length by rw [hk2]; exact hdie),
      List.getElem?_set_self (show ev.address.plane < d.data.length by rw [hd2]; exact hplane),
      List.getElem?_set_self (List.getElem?_eq_some.mp hbl).1, Option.some_bind]
  · simp only [Block.page_state_at, List.getElem?_set_self hpagelt, Option.map_some']
  · exact Nat.mod_eq_of_lt hcnt
  · intro die plane block page hne
    apply Package.page_state_at_set k d _ p _ b _ _ _ _ hd hp hbl rfl rfl
    intro h1 h2 h3
    have h4 : ev.address.page ≠ page := by
      intro h4
      apply hne
      rw [h1, h2, h3, h4]
    simp only [Block.page_state_at, List.getElem?_set_ne h4]
  · intro s a hs hne
    unfold Ssd.page_state_at
    simp only [Option.bind_eq_bind]
    apply frame_lift _ _ _ _ _ _ hs
    intro h1
    apply Package.page_state_at_set k d _ p _ b _ _ _ _ hd hp hbl rfl rfl
    intro h2 h3 h4
    have h5 : ev.address.page ≠ a.page := by
      intro h5
      apply hne
      rw [h1, h2, h3, h4, h5]
    simp only [Block.page_state_at, List.getElem?_set_ne h5]

/-- Instance of C8: the first write to a fresh package of the small geometry. -/
theorem ssd_package_write_spec_witness :
    (ssd_package_init Config.small 1).wf Config.small ∧
    (ssd_package_init Config.small 1).block_at 0 0 0 = some (ssd_block_init Config.small) ∧
    (ssd_block_init Config.small).page_state_at 0 = some .EMPTY ∧
    ∃ k' ev' b', ssd_package_write Config.small (ssd_package_init Config.small 1)
        (Event.sample .SSD_WRITE Address.first 1) = some (.SUCCESS, k', ev') ∧
      ev'.time_taken = 15 + Config.small.PAGE_WRITE_DELAY ∧
      k'.block_at 0 0 0 = some b' ∧
      b'.page_state_at 0 = some .VALID ∧
      b'.pages_valid = 0 + 1 ∧ b'.state = .ACTIVE ∧
      (∀ die plane block page, (die, plane, block, page) ≠ (0, 0, 0, 0) →
        k'.page_state_at die plane block page =
          (ssd_package_init Config.small 1).page_state_at die plane block page) ∧
      (∀ (s : Ssd) (a : Address), s.data[0]? = some (ssd_package_init Config.small 1) →
        (a.package, a.die, a.plane, a.block, a.page) ≠ (0, 0, 0, 0, 0) →
        Ssd.page_state_at { s with data := s.data.set 0 k' } a = s.page_state_at a) :=
  ⟨by decide, by decide, by decide,
    ssd_package_write_spec Config.small (ssd_package_init Config.small 1)
      (Event.sample .SSD_WRITE Address.first 1) (ssd_block_init Config.small)
      (by decide) (by decide) (by decide) (by decide) (by decide) (by decide)⟩

/-- C9: for a block in any state, `ssd_block_erase` returns SUCCESS, sets every page of
the block to EMPTY, resets `pages_valid` and `pages_invalid` to 0, sets the block state
to FREE and adds exactly `BLOCK_ERASE_DELAY` (when non-negative) to `event.time_taken`;
`ssd_plane_erase`, which runs it on the addressed block of a plane, stores that block and
leaves every other block of the plane, pages included, unchanged. -/
theorem ssd_block_erase_spec (cfg : Config) (p : Plane) (b : Block) (ev : Event)
    (hwf : p.wf cfg) (hval : address_valid.PLANE.toNat < ev.address.valid.toNat)
    (hb : p.data[ev.address.block]? = some b)
    (hst : 0 ≤ ev.start_time) (htt : 0 ≤ ev.time_taken) :
    ∃ b' ev', ssd_block_erase cfg b ev = some (.SUCCESS, b', ev') ∧
      b'.data.length = b.data.length ∧ (∀ pg ∈ b'.data, pg.state = .EMPTY) ∧
      b'.pages_valid = 0 ∧ b'.pages_invalid = 0 ∧ b'.state = .FREE ∧
      (0 ≤ cfg.BLOCK_ERASE_DELAY →
        ev'.time_taken = ev.time_taken + cfg.BLOCK_ERASE_DELAY) ∧
      ∃ p', ssd_plane_erase cfg p ev = some (.SUCCESS, p', ev') ∧
        p'.data[ev.address.block]? = some b' ∧
        ∀ j, j ≠ ev.address.block → p'.data[j]? = p.data[j]? := by
  have hlt : ev.address.block < p.data.length := (List.getElem?_eq_some.mp hb).1
  have hbw : b.wf cfg := hwf.2 b (List.mem_iff_getElem?.mpr ⟨_, hb⟩)
  obtain ⟨lw, er, t, a, hpe⟩ := ssd_plane_erase_eq cfg p ev b hwf hval hb hst htt
  refine ⟨_, _, ssd_block_erase_eq cfg b ev hbw hst htt, ?_, ?_, rfl, rfl, rfl, ?_, _, hpe,
    ?_, ?_⟩
  · simp only [List.length_replicate]
    exact hbw.symm
  · intro pg hpg
    rw [(List.mem_replicate.mp hpg).2]
  · intro hd
    simp only [Block._erase_delay, if_neg (not_lt.mpr hd)]
  · simp only [List.getElem?_set_self hlt]
  · intro j hj
    simp only [List.getElem?_set_ne (Ne.symm hj)]

/-- Instance of C9: erasing block 0 of a fresh plane of the small geometry. -/
theorem ssd_block_erase_spec_witness :
    (ssd_plane_init Config.small).wf Config.small ∧
    ∃ b' ev', ssd_block_erase Config.small (ssd_block_init Config.small)
        (Event.sample .SSD_ERASE Address.first 1) = some (.SUCCESS, b', ev') ∧
      b'.data.length = (ssd_block_init Config.small).data.length ∧
      (∀ pg ∈ b'.data, pg.state = .EMPTY) ∧
      b'.pages_valid = 0 ∧ b'.pages_invalid = 0 ∧ b'.state = .FREE ∧
      (0 ≤ Config.small.BLOCK_ERASE_DELAY →
        ev'.time_taken = (Event.sample .SSD_ERASE Address.first 1).time_taken +
          Config.small.BLOCK_ERASE_DELAY) ∧
      ∃ p', ssd_plane_erase Config.small (ssd_plane_init Config.small)
          (Event.sample .SSD_ERASE Address.first 1) = some (.SUCCESS, p', ev') ∧
        p'.data[(Event.sample .SSD_ERASE Address.first 1).address.block]? = some b' ∧
        ∀ j, j ≠ (Event.sample .SSD_ERASE Address.first 1).address.block →
          p'.data[j]? = (ssd_plane_init Config.small).data[j]? :=
  ⟨by decide,
    ssd_block_erase_spec Config.small (ssd_plane_init Config.small)
      (ssd_block_init Config.small) (Event.sample .SSD_ERASE Address.first 1)
      (by decide) (by decide) (by decide) (by decide) (by decide)⟩

/-- C10: `ssd_page_read` returns SUCCESS and adds exactly `PAGE_READ_DELAY` (taken
non-negative) to `event.time_taken` if and only if the page is EMPTY or VALID; on an
INVALID page it returns FAILURE and leaves `event.time_taken` unchanged; the page state
is unchanged in every case. -/
theorem ssd_page_read_spec (cfg : Config) (p : Page) (ev : Event)
    (hd : 0 ≤ cfg.PAGE_READ_DELAY) :
    ∃ st p' ev', ssd_page_read cfg p ev = some (st, p', ev') ∧
      ((st = .SUCCESS ∧ ev'.time_taken = ev.time_taken + cfg.PAGE_READ_DELAY) ↔
        (p.state = .EMPTY ∨ p.state = .VALID)) ∧
      (p.state = .INVALID → st = .FAILURE ∧ ev'.time_taken = ev.time_taken) ∧
      p'.state = p.state := by
  have hrd : Page._read_delay cfg = cfg.PAGE_READ_DELAY := by
    unfold Page._read_delay
    rw [if_neg (not_lt.mpr hd)]
  rcases p with ⟨st⟩
  cases st
  · exact ⟨.SUCCESS, _, _, by rw [ssd_page_read_eq]; rfl, by simp [hrd]⟩
  · exact ⟨.SUCCESS, _, _, by rw [ssd_page_read_eq]; rfl, by simp [hrd]⟩
  · exact ⟨.FAILURE, _, _, by rw [ssd_page_read_eq]; rfl, by simp⟩

/-- Instance of C10: reading an INVALID page. -/
theorem ssd_page_read_spec_witness :
    ∃ st p' ev', ssd_page_read Config.small ⟨.INVALID⟩
        ⟨0, 15, 0, .SSD_READ, 0, Address.zero, Address.zero, 1⟩ = some (st, p', ev') ∧
      ((st = .SUCCESS ∧ ev'.time_taken = 15 + Config.small.PAGE_READ_DELAY) ↔
        ((⟨.INVALID⟩ : Page).state = .EMPTY ∨ (⟨.INVALID⟩ : Page).state = .VALID)) ∧
      ((⟨.INVALID⟩ : Page).state = .INVALID → st = .FAILURE ∧ ev'.time_taken = 15) ∧
      p'.state = (⟨.INVALID⟩ : Page).state :=
  ssd_page_read_spec Config.small ⟨.INVALID⟩
    ⟨0, 15, 0, .SSD_READ, 0, Address.zero, Address.zero, 1⟩ (by decide)

/-- C11: the code does not deliver completions in non-decreasing deadline order. After
enqueuing A (deadline 100 us) and then B (deadline 50 us) the queue is the ascending
chain B, A; a `handle_queue` run at time 100 us drains both and ends the request of A
first and that of B second, so the deadlines of its `__blk_end_request_all` calls are
100000, 50000. -/
theorem handle_queue_ends_last_drained_first :
    (add_to_queue (add_to_queue [] bio_queue.A).2 bio_queue.B).2 =
      [bio_queue.B, bio_queue.A] ∧
    queue_sorted [bio_queue.B, bio_queue.A] ∧
    handle_queue [bio_queue.B, bio_queue.A] 100000 = ([], [bio_queue.A, bio_queue.B]) ∧
    (handle_queue [bio_queue.B, bio_queue.A] 100000).2.map bio_queue.ktime =
      [100000, 50000] := by
  decide

/-- C12: for every queue and every time `ktime`, `handle_queue` ends only requests whose
deadline is `<= ktime`; when the queue is in ascending-deadline order the requests it
ends are exactly the entries with deadline `<= ktime` (ended in the reverse of their
queue order), and the queue it leaves is exactly the entries with deadline `> ktime`
in their original order. -/
theorem handle_queue_not_before_deadline (queue : List bio_queue) (ktime : Int) :
    (∀ e ∈ (handle_queue queue ktime).2, e.ktime ≤ ktime) ∧
    (queue_sorted queue →
      (handle_queue queue ktime).2.reverse =
        queue.filter (fun e => decide (e.ktime ≤ ktime)) ∧
      (handle_queue queue ktime).1 = queue.filter (fun e => decide (e.ktime > ktime))) := by
  rw [handle_queue_eq]
  refine ⟨?_, fun hs => ?_⟩
  · intro e he
    simp only [List.mem_reverse] at he
    simpa using List.mem_takeWhile_imp he
  · obtain ⟨h1, h2⟩ := sorted_takeWhile_eq_filter ktime queue hs
    simp only [List.reverse_reverse]
    exact ⟨h1, h2⟩

/-- C12 at the queue B, A (deadlines 50 us, 100 us) and time 60 us: B is ended and A
stays queued. -/
theorem handle_queue_not_before_deadline_witness :
    queue_sorted [bio_queue.B, bio_queue.A] ∧
    (handle_queue [bio_queue.B, bio_queue.A] 60000).2.reverse = [bio_queue.B] ∧
    (handle_queue [bio_queue.B, bio_queue.A] 60000).1 = [bio_queue.A] :=
  ⟨by decide, (handle_queue_not_before_deadline [bio_queue.B, bio_queue.A] 60000).2 (by decide)⟩

/-- C13: for every queue in ascending-deadline order and every new entry `q`, the chain
that `add_to_queue` leaves is in ascending-deadline order and is the old chain with `q`
put between a front part `l1` and a rest `l2`, where every entry of `l1` has a deadline
`<= q.ktime` and every entry of `l2` a deadline `> q.ktime` (so `q` goes behind the
entries of equal deadline); the return value is 1 exactly when `l1` is empty, that is
when `q` became the head, and 0 otherwise. -/
theorem add_to_queue_spec (queue : List bio_queue) (q : bio_queue) (hs : queue_sorted queue) :
    queue_sorted (add_to_queue queue q).2 ∧
    ∃ l1 l2, queue = l1 ++ l2 ∧ (add_to_queue queue q).2 = l1 ++ q :: l2 ∧
      (∀ e ∈ l1, e.ktime ≤ q.ktime) ∧ (∀ e ∈ l2, q.ktime < e.ktime) ∧
      ((add_to_queue queue q).1 = 1 ↔ l1 = []) ∧
      ((add_to_queue queue q).1 = 0 ↔ l1 ≠ []) := by
  obtain ⟨ht, hd⟩ := add_to_queue_loop_spec q queue
  have hsplit : queue = queue.take (add_to_queue_loop q queue) ++
      queue.drop (add_to_queue_loop q queue) := (List.take_append_drop _ _).symm
  have h1 : ∀ e ∈ queue.take (add_to_queue_loop q queue), e.ktime ≤ q.ktime := by
    intro e he
    rw [ht] at he
    simpa using List.mem_takeWhile_imp he
  have h2 : ∀ e ∈ queue.drop (add_to_queue_loop q queue), q.ktime < e.ktime := by
    rw [hd]
    exact sorted_dropWhile_gt q.ktime queue hs
  have hnil : add_to_queue_loop q queue = 0 ↔ queue.take (add_to_queue_loop q queue) = [] := by
    constructor
    · intro h; rw [h]; rfl
    · intro h
      cases queue with
      | nil => rfl
      | cons a l =>
        by_contra hne
        obtain ⟨n, hn⟩ := Nat.exists_eq_succ_of_ne_zero hne
        rw [hn] at h
        simp at h
  have hsorted : queue_sorted (queue.take (add_to_queue_loop q queue) ++
      q :: queue.drop (add_to_queue_loop q queue)) := by
    unfold queue_sorted at hs ⊢
    rw [hsplit, List.pairwise_append] at hs
    rw [List.pairwise_append, List.pairwise_cons]
    refine ⟨hs.1, ⟨fun e he => le_of_lt (h2 e he), hs.2.1⟩, ?_⟩
    intro a ha b hb
    rcases List.mem_cons.mp hb with rfl | hb
    · exact h1 a ha
    · exact hs.2.2 a ha b hb
  refine ⟨hsorted, _, _, hsplit, rfl, h1, h2, ?_, ?_⟩
  · unfold add_to_queue
    simp only
    rw [← hnil]
    by_cases hp : add_to_queue_loop q queue = 0
    · rw [if_pos hp]; exact ⟨fun _ => hp, fun _ => rfl⟩
    · rw [if_neg hp]; exact ⟨fun h => absurd h (by decide), fun h => absurd h hp⟩
  · unfold add_to_queue
    simp only
    rw [Ne, ← hnil]
    by_cases hp : add_to_queue_loop q queue = 0
    · rw [if_pos hp]; exact ⟨fun h => absurd h (by decide), fun h => absurd hp h⟩
    · rw [if_neg hp]; exact ⟨fun _ => hp, fun _ => rfl⟩

/-- C13 at the queue B, A and the new entry C whose deadline equals that of B: C goes
behind B and in front of A. -/
theorem add_to_queue_spec_witness :
    queue_sorted [bio_queue.B, bio_queue.A] ∧
    queue_sorted (add_to_queue [bio_queue.B, bio_queue.A] bio_queue.C).2 ∧
    ∃ l1 l2, [bio_queue.B, bio_queue.A] = l1 ++ l2 ∧
      (add_to_queue [bio_queue.B, bio_queue.A] bio_queue.C).2 = l1 ++ bio_queue.C :: l2 ∧
      (∀ e ∈ l1, e.ktime ≤ bio_queue.C.ktime) ∧
      (∀ e ∈ l2, bio_queue.C.ktime < e.ktime) ∧
      ((add_to_queue [bio_queue.B, bio_queue.A] bio_queue.C).1 = 1 ↔ l1 = []) ∧
      ((add_to_queue [bio_queue.B, bio_queue.A] bio_queue.C).1 = 0 ↔ l1 ≠ []) :=
  ⟨by decide, add_to_queue_spec [bio_queue.B, bio_queue.A] bio_queue.C (by decide)⟩

/-- C14 fails as stated: under the default configuration the write submitted at time 1
holds channel 0 until `1 + 20015 = 20016`, so the read of logical page 0 submitted at
20015 finds the previous unlock time above 20015, its bus wait is not 0 and it does not
return 5015. -/
theorem read_at_20015_waits_for_bus :
    ssd_sim_new (Config.spec_default 2) (Config.spec_default 2).SSD_SIZE =
      some (Ssd.spec_fresh 2) ∧
    ssd_event_arrive (Config.spec_default 2) (Ssd.spec_fresh 2) .SSD_WRITE 0 1 1 =
      some (20015, Ssd.spec_written 2) ∧
    ((Ssd.spec_written 2).bus.channels[get_channel (Config.spec_default 2)
      Address.first]?.bind (fun c => c.unlock_time[0]?)) = some 20016 ∧
    Ssd.bus_wait (Ssd.spec_written 2) (get_channel (Config.spec_default 2) Address.first)
      (Event.sample .SSD_READ Address.first 20015) 5015 ≠ some 0 ∧
    (ssd_event_arrive (Config.spec_default 2) (Ssd.spec_written 2) .SSD_READ 0 1 20015).map
      Prod.fst ≠ some 5015 :=
  ⟨eq_some_getD _ _ (by decide), run_eq_of_fst _ _ _ (by decide), by decide, by decide,
    by decide⟩

/-- C14, amended: under the default configuration, after `ssd_event_arrive(WRITE, 0, 1,
1)` on a fresh device (which returns 20015), the serving channel's unlock time is 20016,
and `ssd_event_arrive(READ, 0, 1, 20015)` has a bus wait of 1 and returns
`5000 + 5 + 10 + 1 = 5016`. -/
theorem read_after_write_latency :
    ssd_sim_new (Config.spec_default 2) (Config.spec_default 2).SSD_SIZE =
      some (Ssd.spec_fresh 2) ∧
    decode_address (Config.spec_default 2) 0 = some Address.first ∧
    ssd_event_arrive (Config.spec_default 2) (Ssd.spec_fresh 2) .SSD_WRITE 0 1 1 =
      some (20015, Ssd.spec_written 2) ∧
    ((Ssd.spec_written 2).bus.channels[get_channel (Config.spec_default 2)
      Address.first]?.bind (fun c => c.unlock_time[0]?)) = some 20016 ∧
    Ssd.bus_wait (Ssd.spec_written 2) (get_channel (Config.spec_default 2) Address.first)
      (Event.sample .SSD_READ Address.first 20015) 5015 = some 1 ∧
    (ssd_event_arrive (Config.spec_default 2) (Ssd.spec_written 2) .SSD_READ 0 1 20015).map
      Prod.fst = some 5016 :=
  ⟨eq_some_getD _ _ (by decide), by decide, run_eq_of_fst _ _ _ (by decide), by decide,
    by decide, by decide⟩

/-- C15 fails as stated: with bank-group width 0 the logical pages 0 and 1 are served by
the same channel, and after `ssd_event_arrive(WRITE, 0, 1, 1)` on a fresh device of the
default configuration the bus wait of `ssd_event_arrive(WRITE, 1, 1, 1)` is not 20014. -/
theorem back_to_back_write_wait_is_not_20014 :
    get_channel (Config.spec_default 0) Address.first =
      get_channel (Config.spec_default 0) Address.second ∧
    decode_address (Config.spec_default 0) 1 = some Address.second ∧
    ssd_event_arrive (Config.spec_default 0) (Ssd.spec_fresh 0) .SSD_WRITE 0 1 1 =
      some (20015, Ssd.spec_written 0) ∧
    Ssd.bus_wait (Ssd.spec_written 0) (get_channel (Config.spec_default 0) Address.second)
      (Event.sample .SSD_WRITE Address.second 1) 20015 ≠ some 20014 :=
  ⟨by decide, by decide, run_eq_of_fst _ _ _ (by decide), by decide⟩

/-- C15, amended: under the default configuration with any bank-group width for which
logical pages 0 and 1 are served by the same channel, after
`ssd_event_arrive(WRITE, 0, 1, 1)` on a fresh device (which returns 20015 and holds the
channel until 20016) the bus wait of `ssd_event_arrive(WRITE, 1, 1, 1)` is
`20016 - 1 = 20015` and the call returns `20015 + 20015 = 40030`, which is `>= 40029`. -/
theorem second_write_same_channel (b : Nat)
    (hch : get_channel (Config.spec_default b) Address.first =
      get_channel (Config.spec_default b) Address.second) :
    decode_address (Config.spec_default b) 0 = some Address.first ∧
    decode_address (Config.spec_default b) 1 = some Address.second ∧
    ssd_event_arrive (Config.spec_default b) (Ssd.spec_fresh b) .SSD_WRITE 0 1 1 =
      some (20015, Ssd.spec_written b) ∧
    ((Ssd.spec_written b).bus.channels[get_channel (Config.spec_default b)
      Address.second]?.bind (fun c => c.unlock_time[0]?)) = some 20016 ∧
    Ssd.bus_wait (Ssd.spec_written b) (get_channel (Config.spec_default b) Address.second)
      (Event.sample .SSD_WRITE Address.second 1) 20015 = some 20015 ∧
    (ssd_event_arrive (Config.spec_default b) (Ssd.spec_written b) .SSD_WRITE 1 1 1).map
      Prod.fst = some 40030 ∧ (40029 : Int) ≤ 40030 := by
  obtain rfl := same_channel_bit_zero b hch
  exact ⟨by decide, by decide, run_eq_of_fst _ _ _ (by decide), by decide, by decide,
    by decide, by decide⟩

/-- C15, amended, at bank-group width 0, where the channel is the package. -/
theorem second_write_same_channel_witness :
    get_channel (Config.spec_default 0) Address.first =
      get_channel (Config.spec_default 0) Address.second ∧
    Ssd.bus_wait (Ssd.spec_written 0) (get_channel (Config.spec_default 0) Address.second)
      (Event.sample .SSD_WRITE Address.second 1) 20015 = some 20015 ∧
    (ssd_event_arrive (Config.spec_default 0) (Ssd.spec_written 0) .SSD_WRITE 1 1 1).map
      Prod.fst = some 40030 :=
  ⟨by decide, (second_write_same_channel 0 (by decide)).2.2.2.2.1,
    (second_write_same_channel 0 (by decide)).2.2.2.2.2.1⟩

set_option maxRecDepth 1000000 in
/-- C16: the code does not bring `free_blocks` back to its initial value. On a fresh
device of the shipped configuration (`PLANE_SIZE = 128`), `ssd_event_arrive(WRITE, 64,
1, 1)` writes page 0 of block 1 and leaves `free_blocks` at 128; the following
`ssd_event_arrive(ERASE, 64, 1, 20016)` returns `150000 + 5 + 10 + 0`, leaves all 64
pages of block 1 EMPTY, and leaves `free_blocks` at 129, one more than `PLANE_SIZE`. -/
theorem write_then_erase_free_blocks :
    ssd_sim_new Config.shipped Config.shipped.SSD_SIZE = some Ssd.shipped_fresh ∧
    decode_address Config.shipped 64 = some Address.block1 ∧
    (Ssd.shipped_fresh.plane_at Address.block1).map Plane.free_blocks =
      some Config.shipped.PLANE_SIZE ∧
    ssd_event_arrive Config.shipped Ssd.shipped_fresh .SSD_WRITE 64 1 1 =
      some (20015, Ssd.shipped_written) ∧
    (Ssd.shipped_written.plane_at Address.block1).map Plane.free_blocks = some 128 ∧
    ssd_event_arrive Config.shipped Ssd.shipped_written .SSD_ERASE 64 1 20016 =
      some (150015, Ssd.shipped_erased) ∧
    (Ssd.shipped_erased.block_at Address.block1).map (fun b => b.data.map Page.state) =
      some (List.replicate 64 .EMPTY) ∧
    (Ssd.shipped_erased.plane_at Address.block1).map Plane.free_blocks = some 129 :=
  ⟨eq_some_getD _ _ (by decide), by decide, by decide, run_eq_of_fst _ _ _ (by decide),
    by decide, run_eq_of_fst _ _ _ (by decide), by decide, by decide⟩

/-- C17 fails as stated: with the default configuration of the spec (`PLANE_SIZE = 1`)
logical page 64 does not decode to (package 0, die 0, plane 0, block 1, page 0). -/
theorem page_64_not_block_1 :
    (Config.spec_default 2).SSD_SIZE = 16 ∧ (Config.spec_default 2).PACKAGE_SIZE = 4 ∧
    (Config.spec_default 2).DIE_SIZE = 2 ∧ (Config.spec_default 2).PLANE_SIZE = 1 ∧
    (Config.spec_default 2).SSD_BLOCK_SIZE = 64 ∧
    decode_address (Config.spec_default 2) 64 ≠ some Address.block1 := by
  decide

/-- C17, amended: with the default configuration of the spec (`PLANE_SIZE = 1`) logical
page 64 decodes to (package 0, die 0, plane 1, block 0, page 0); it decodes to (package
0, die 0, plane 0, block 1, page 0) under the shipped `PLANE_SIZE = 128`. -/
theorem decode_address_page_64 :
    decode_address (Config.spec_default 2) 64 =
      some { package := 0, die := 0, plane := 1, block := 0, page := 0, valid := .PAGE } ∧
    decode_address Config.shipped 64 = some Address.block1 := by
  decide

/-- C18: for a request that `do_request` hands to the scheduler (inside the capacity,
more than one sector, payload result `ret >= 0`) and whose engine calls return the values
`ls`, at least one and all non-negative (and within `int64`), the latency handed to
`add_io_timer` is the maximum `m` of `ls` (an element of `ls` that bounds every element),
with the status `ret` unchanged, and the pass stores the entry `(ret, req, uptime + m)`:
the queue it leaves is the queue left by `handle_queue`, split into a front `l1` and a
rest `l2`, with that entry linked between them, behind the entries of `l1`, whose
deadlines are at most `uptime + m`, and in front of the first entry of `l2`, whose deadline
is later. The stored deadline is the submission time `uptime` of the engine calls plus the
maximum. -/
theorem do_request_max_latency (cfg : Config) (st : Settings) (sdk_capacity : Nat)
    (brd : brd_device) (req : request) (ret now uptime : Int) (ls : List Int)
    (hrange : ¬ (req.pos % UINT_MOD ≥ sdk_capacity ∨
      (req.pos % UINT_MOD + req.sectors % UINT_MOD) % UINT_MOD > sdk_capacity))
    (hsect : req.sectors % UINT_MOD ≠ 1) (hret : 0 ≤ ret)
    (hcalls : do_request_results cfg st sdk_capacity brd.ssd req uptime = some ls)
    (hne : ls ≠ []) (hnn : ∀ l ∈ ls, 0 ≤ l) (hfit : ∀ l ∈ ls, l < 2 ^ 63) :
    ∃ m ssd1 brd1, m ∈ ls ∧ (∀ l ∈ ls, l ≤ m) ∧
      do_request_timeval cfg st sdk_capacity brd.ssd req ret uptime = some (m, ret, ssd1) ∧
      do_request_one cfg st sdk_capacity brd req ret now uptime true =
        some (brd1, (handle_queue brd.queue now).2.map (fun e => (e.data, e.ret))) ∧
      brd1.ssd = ssd1 ∧
      ∃ l1 l2, (handle_queue brd.queue now).1 = l1 ++ l2 ∧
        brd1.queue = l1 ++ { ret := ret, data := req.data, ktime := uptime + m } :: l2 ∧
        { ret := ret, data := req.data, ktime := uptime + m } ∈ brd1.queue ∧
        (∀ e ∈ l1, e.ktime ≤ uptime + m) ∧
        (∀ e, l2.head? = some e → uptime + m < e.ktime) := by
  unfold do_request_results at hcalls
  split at hcalls
  · simp only [Option.some.injEq] at hcalls
    exact absurd hcalls.symm hne
  · rename_i hres
    simp only at hcalls
    obtain ⟨ssd1, hloop⟩ := do_request_loop_max cfg _ _ _ _ uptime _ 0 brd.ssd 0 ls hcalls hnn
    obtain ⟨h0, hub, hmem⟩ := foldl_max_spec ls 0
    have hm : ls.foldl max 0 ∈ ls := by
      rcases hmem with h | h
      · obtain ⟨a, l, rfl⟩ := List.exists_cons_of_ne_nil hne
        have ha : a = 0 := by
          have h1 := hub a (by simp)
          have h2 := hnn a (by simp)
          omega
        rw [h, ← ha]
        simp
      · exact h
    have htv : do_request_timeval cfg st sdk_capacity brd.ssd req ret uptime =
        some (ls.foldl max 0, ret, ssd1) := by
      simp only [do_request_timeval, do_request_engine, hres, Bool.false_eq_true, if_false,
        hloop, Option.bind_eq_bind, Option.some_bind, do_request_floor, if_neg (not_lt.mpr h0)]
    have hconv : ((int64_as_ulong (ls.foldl max 0) : Nat) : Int) = ls.foldl max 0 := by
      have := hfit _ hm
      unfold int64_as_ulong
      rw [Int.toNat_of_nonneg (Int.emod_nonneg _ (by norm_num))]
      exact Int.emod_eq_of_lt h0 (by omega)
    refine ⟨ls.foldl max 0, ssd1,
      { brd with
        ssd := ssd1
        queue := (add_io_timer (handle_queue brd.queue now).1 req.data uptime
          (int64_as_ulong (ls.foldl max 0)) ret true).2 },
      hm, hub, htv, ?_, rfl, ?_⟩
    · simp only [do_request_one, if_neg hrange, htv, Option.bind_eq_bind, Option.some_bind]
      have hc : ¬ (req.sectors % UINT_MOD = 1 ∨ ret < 0) := by
        intro h
        rcases h with h | h
        · exact hsect h
        · omega
      rw [if_neg hc]
    · obtain ⟨ht, hd⟩ := add_to_queue_loop_spec
        { ret := ret, data := req.data, ktime := uptime + ls.foldl max 0 }
        (handle_queue brd.queue now).1
      refine ⟨(handle_queue brd.queue now).1.take (add_to_queue_loop
          { ret := ret, data := req.data, ktime := uptime + ls.foldl max 0 }
          (handle_queue brd.queue now).1),
        (handle_queue brd.queue now).1.drop (add_to_queue_loop
          { ret := ret, data := req.data, ktime := uptime + ls.foldl max 0 }
          (handle_queue brd.queue now).1),
        (List.take_append_drop _ _).symm, ?_, ?_, ?_, ?_⟩
      · simp only [add_io_timer, if_true, hconv, add_to_queue]
      · simp only [add_io_timer, if_true, hconv, add_to_queue]
        exact List.mem_append_right _ (List.mem_cons_self _ _)
      · intro e he
        rw [ht] at he
        simpa using List.mem_takeWhile_imp he
      · rw [hd]
        exact dropWhile_head_gt _ _

/-- C18 at a two-page write on the fresh default device with bank-group width 0, handed in
at clock reading 5 while the requests B (deadline 50000) and A (deadline 100000) are
pending: the engine calls return 20015 and 40030, and the pass links the entry with
deadline `5 + 40030 = 40035` in front of B. -/
theorem do_request_max_latency_witness :
    (do_request_one (Config.spec_default 0) Settings.jasmine 1000000 brd_device.sample
      request.two_pages 0 4 5 true).map
        (fun r => r.1.queue.map (fun e => (e.data, e.ktime))) =
      some [(7, 40035), (2, 50000), (1, 100000)] ∧
    ∃ m ssd1 brd1, m ∈ [(20015 : Int), 40030] ∧
      (∀ l ∈ [(20015 : Int), 40030], l ≤ m) ∧
      do_request_timeval (Config.spec_default 0) Settings.jasmine 1000000
        brd_device.sample.ssd request.two_pages 0 5 = some (m, 0, ssd1) ∧
      do_request_one (Config.spec_default 0) Settings.jasmine 1000000 brd_device.sample
        request.two_pages 0 4 5 true =
        some (brd1, (handle_queue brd_device.sample.queue 4).2.map (fun e => (e.data, e.ret))) ∧
      brd1.ssd = ssd1 ∧
      ∃ l1 l2, (handle_queue brd_device.sample.queue 4).1 = l1 ++ l2 ∧
        brd1.queue = l1 ++ { ret := 0, data := request.two_pages.data, ktime := 5 + m } :: l2 ∧
        { ret := 0, data := request.two_pages.data, ktime := 5 + m } ∈ brd1.queue ∧
        (∀ e ∈ l1, e.ktime ≤ 5 + m) ∧
        (∀ e, l2.head? = some e → 5 + m < e.ktime) :=
  ⟨by decide,
    do_request_max_latency (Config.spec_default 0) Settings.jasmine 1000000 brd_device.sample
      request.two_pages 0 4 5 [20015, 40030] (by decide) (by decide) (by decide) (by decide)
      (by decide) (by decide) (by decide)⟩

/-- C19 fails as stated: a read request of 2 sectors makes no engine call, the engine
part of `do_request` leaves `timeval = 0`, and the latency passed to `add_io_timer` is 0,
not the floor 100; the entry stored for a submission at time 5 has deadline 5. -/
theorem do_request_zero_latency_not_floored :
    do_request_results (Config.spec_default 2) Settings.jasmine 1000000 (Ssd.spec_fresh 2)
      request.two_sectors 5 = some [] ∧
    (do_request_engine (Config.spec_default 2) Settings.jasmine 1000000 (Ssd.spec_fresh 2)
      (do_request_type request.two_sectors)
      (do_request_logical_address Settings.jasmine request.two_sectors)
      (do_request_size Settings.jasmine request.two_sectors) 5).map Prod.fst = some 0 ∧
    (do_request_timeval (Config.spec_default 2) Settings.jasmine 1000000 (Ssd.spec_fresh 2)
      request.two_sectors 0 5).map (fun x => (x.1, x.2.1)) = some (0, 0) ∧
    (do_request_one (Config.spec_default 2) Settings.jasmine 1000000
      { brd_device.sample with queue := [] } request.two_sectors 0 4 5 true).map
        (fun x => x.1.queue) = some [{ ret := 0, data := 8, ktime := 5 }] := by
  decide

/-- C19, amended: whenever the engine part of `do_request` leaves a negative result `r`,
the latency passed to `add_io_timer` is the floor 100 (and the status is -2); a result
`r >= 0`, zero included, is passed on unchanged with the status of the payload. The
latency used for the deadline is therefore always `>= 0`. -/
theorem do_request_floor_policy (cfg : Config) (st : Settings) (sdk_capacity : Nat) (ssd : Ssd)
    (req : request) (ret uptime r : Int)
    (hr : (do_request_engine cfg st sdk_capacity ssd (do_request_type req)
      (do_request_logical_address st req) (do_request_size st req) uptime).map Prod.fst =
        some r) :
    (do_request_timeval cfg st sdk_capacity ssd req ret uptime).map (fun x => (x.1, x.2.1)) =
      some (do_request_floor r ret) ∧
    (r < 0 → do_request_floor r ret = (100, -2)) ∧
    (0 ≤ r → do_request_floor r ret = (r, ret)) ∧
    0 ≤ (do_request_floor r ret).1 := by
  refine ⟨?_, ?_, ?_, ?_⟩
  · unfold do_request_timeval
    cases he : do_request_engine cfg st sdk_capacity ssd (do_request_type req)
      (do_request_logical_address st req) (do_request_size st req) uptime with
    | none => rw [he] at hr; simp at hr
    | some x =>
      obtain ⟨tv, s1⟩ := x
      rw [he] at hr
      simp only [Option.map_some', Option.some.injEq] at hr
      subst hr
      simp only [Option.bind_eq_bind, he, Option.some_bind, Option.map_some']
  · intro h; simp [do_request_floor, h]
  · intro h; simp [do_request_floor, not_lt.mpr h]
  · unfold do_request_floor
    split
    · decide
    · rename_i h; exact not_lt.mp h

/-- C19, amended, at a one-page write to the already written logical page 0: the engine
result is -1 and the latency passed on is 100 with status -2. -/
theorem do_request_floor_policy_witness :
    (do_request_timeval (Config.spec_default 2) Settings.jasmine 1000000 (Ssd.spec_written 2)
      request.one_page 0 5).map (fun x => (x.1, x.2.1)) = some (do_request_floor (-1) 0) ∧
    ((-1 : Int) < 0 → do_request_floor (-1) 0 = (100, -2)) ∧
    ((0 : Int) ≤ -1 → do_request_floor (-1) 0 = (-1, 0)) ∧
    0 ≤ (do_request_floor (-1) 0).1 :=
  do_request_floor_policy (Config.spec_default 2) Settings.jasmine 1000000 (Ssd.spec_written 2)
    request.one_page 0 5 (-1) (by decide)

/-- C20: for every sector and every buffer `B` whose length is a multiple of 512, on a
store whose pages hold `PAGE_SIZE` bytes (`PAGE_SHIFT >= 9`): the write of `B` by
`brd_do_bvec` (`copy_to_brd_setup`, then `copy_to_brd`, per sector) returns, with error
code 0 when no page allocation fails, and after a write that returned 0 the read of the
same range by `brd_do_bvec` (`copy_from_brd` per sector) returns 0 and exactly `B`. And
for every history of writes that starts from the empty store, reading a range none of
whose sectors lies in a written range returns 0 and all zero bytes. -/
theorem brd_do_bvec_round_trip (PS : Nat) (h9 : 9 ≤ PS) (brd : brd_device)
    (hwf : brd.pages_wf PS) (sector : Nat) (B dst : List Nat) (hB : B.length % 512 = 0)
    (hdst : dst.length = B.length) (alloc_ok : Nat → Bool) :
    (∃ err brd1, brd_do_bvec PS brd B B.length 0 WRITE sector alloc_ok = some (err, brd1, B) ∧
      ((∀ idx, alloc_ok idx = true) → err = 0) ∧
      (err = 0 →
        brd_do_bvec PS brd1 dst B.length 0 READ sector alloc_ok = some (0, brd1, B))) ∧
    (∀ (ws : List (Nat × List Nat)) (brd0 brd2 : brd_device) (t n : Nat) (buf : List Nat),
      brd0.brd_pages = (fun _ => none) →
      brd_write_all PS alloc_ok brd0 ws = some brd2 →
      (∀ w ∈ ws, ∀ j, j < n → t + j < w.1 ∨ w.1 + (w.2.length >>> 9) ≤ t + j) →
      buf.length = n * 512 →
      brd_do_bvec PS brd2 buf (n * 512) 0 READ t alloc_ok =
        some (0, brd2, List.replicate (n * 512) 0)) := by
  constructor
  · have hn : (B.length >>> 9) * 512 = B.length := by
      rw [Nat.shiftRight_eq_div_pow]
      have : (2 : Nat) ^ 9 = 512 := by norm_num
      rw [this]
      omega
    obtain ⟨err, b1, hw, hwf1, _, hk1, hall1⟩ :=
      brd_do_bvec_write_total PS h9 brd hwf B B.length 0 sector alloc_ok (by omega)
    refine ⟨err, b1, hw, hall1, fun herr => ?_⟩
    obtain ⟨m1, hr, hl, hwin, _⟩ :=
      brd_do_bvec_read_total PS h9 b1 hwf1 dst B.length 0 sector alloc_ok (by omega)
    have hm : m1 = B := by
      apply eq_of_windows m1 B (B.length >>> 9) (by omega) (by omega)
      intro j hj
      rw [hwin j hj, hk1 herr j hj, Nat.zero_add]
    rw [hr, hm]
  · intro ws brd0 brd2 t n buf h0 hws hdis hbuf
    have hwf0 : brd0.pages_wf PS := by
      intro idx page hp
      rw [h0] at hp
      exact absurd hp (by simp)
    obtain ⟨hwf2, hframe⟩ := brd_write_all_spec PS h9 alloc_ok ws brd0 brd2 hwf0 hws
    have hn : (n * 512) >>> 9 = n := by
      rw [Nat.shiftRight_eq_div_pow]
      have : (2 : Nat) ^ 9 = 512 := by norm_num
      rw [this]
      omega
    obtain ⟨m1, hr, hl, hwin, _⟩ :=
      brd_do_bvec_read_total PS h9 brd2 hwf2 buf (n * 512) 0 t alloc_ok (by omega)
    have hm : m1 = List.replicate (n * 512) 0 := by
      apply eq_of_windows m1 _ n (by omega) (by rw [List.length_replicate])
      intro j hj
      rw [hn] at hwin
      rw [hwin j hj, hframe (t + j) (fun w hw => hdis w hw j hj)]
      unfold brd_device.sector_bytes
      rw [h0]
      simp only
      apply List.ext_getElem?
      intro x
      rw [window_getElem?, List.getElem?_replicate, List.getElem?_replicate]
      by_cases hx : x < 512
      · rw [if_pos hx, if_pos hx, if_pos (by omega)]
      · rw [if_neg hx, if_neg hx]
    rw [hr, hm]

/-- C20 with 4096-byte pages on the empty store: a buffer of 1024 bytes written at sector
3 and read back, and a read of the never written sector 5. -/
theorem brd_do_bvec_round_trip_witness :
    (∃ err brd1, brd_do_bvec 12 brd_device.empty (List.replicate 1024 7)
        (List.replicate 1024 7).length 0 WRITE 3 alloc_always =
          some (err, brd1, List.replicate 1024 7) ∧
      ((∀ idx, alloc_always idx = true) → err = 0) ∧
      (err = 0 →
        brd_do_bvec 12 brd1 (List.replicate 1024 0) (List.replicate 1024 7).length 0 READ 3
          alloc_always = some (0, brd1, List.replicate 1024 7))) ∧
    brd_do_bvec 12 brd_device.empty (List.replicate 512 9) (1 * 512) 0 READ 5 alloc_always =
      some (0, brd_device.empty, List.replicate (1 * 512) 0) :=
  ⟨(brd_do_bvec_round_trip 12 (by decide) brd_device.empty (fun _ _ h => Option.noConfusion h)
      3 (List.replicate 1024 7) (List.replicate 1024 0) (by rw [List.length_replicate])
      (by rw [List.length_replicate, List.length_replicate]) alloc_always).1,
   (brd_do_bvec_round_trip 12 (by decide) brd_device.empty (fun _ _ h => Option.noConfusion h)
      3 (List.replicate 1024 7) (List.replicate 1024 0) (by rw [List.length_replicate])
      (by rw [List.length_replicate, List.length_replicate]) alloc_always).2
      [] brd_device.empty brd_device.empty 5 1 (List.replicate 512 9) rfl rfl
      (fun _ h => absurd h (List.not_mem_nil _)) (by rw [List.length_replicate])⟩

/-- C21: the drain step of `brd_del_one` does not empty the queue. On the device holding
the pending completions B (deadline 50 us) and A (deadline 100 us), `brd_del_one` run at
clock reading 60 us ends the request of B only; A, whose deadline is still ahead, is left
in the queue that `brd_free` then drops, and its request is never ended. -/
theorem brd_del_one_leaves_future_entries :
    brd_device.sample.queue = [bio_queue.B, bio_queue.A] ∧
    (brd_del_one brd_device.sample 60000).2 = [bio_queue.B] ∧
    (brd_del_one brd_device.sample 60000).1.queue = [bio_queue.A] := by
  decide

/-- C22: a negative `BUS_CTRL_DELAY` is not clamped inside `ssd_event_arrive`. With
`BUS_CTRL_DELAY = -5` and `BUS_DATA_DELAY = 10` the fresh device is the one built with
`BUS_CTRL_DELAY = 0` (`ssd_bus_init` clamps), yet `ssd_event_arrive(READ, 0, 1, 0)`
returns `5000 + (-5 + 10) = 5005`, where the configuration with the delay replaced by 0
returns `5000 + (0 + 10) = 5010`. -/
theorem negative_ctrl_delay_not_clamped :
    ssd_sim_new Config.negative_ctrl Config.negative_ctrl.SSD_SIZE =
      ssd_sim_new Config.zero_ctrl Config.zero_ctrl.SSD_SIZE ∧
    ((ssd_sim_new Config.negative_ctrl Config.negative_ctrl.SSD_SIZE).bind
      (fun s => ssd_event_arrive Config.negative_ctrl s .SSD_READ 0 1 0)).map Prod.fst
        = some 5005 ∧
    ((ssd_sim_new Config.zero_ctrl Config.zero_ctrl.SSD_SIZE).bind
      (fun s => ssd_event_arrive Config.zero_ctrl s .SSD_READ 0 1 0)).map Prod.fst
        = some 5010 := by
  decide

/-- C23: `ssd_plane_merge` does not return FAILURE for a source and a target block that
differ. On a plane whose block 0 holds three VALID pages and whose block 1 holds one
EMPTY page, the merge of block 0 into block 1 stops at the assert
`ssd_address_compare(address, merge_address) >= BLOCK` and returns nothing. -/
theorem ssd_plane_merge_distinct_blocks_stops :
    (Plane.merge_sample.data[0]?).map (fun b => b.count_state .VALID) = some 3 ∧
    (Plane.merge_sample.data[1]?).map (fun b => b.count_state .EMPTY) = some 1 ∧
    ssd_plane_merge Config.small Plane.merge_sample
      (Event.merge_sample Address.first Address.block1) = none := by
  decide

/-- C24: `ssd_address_compare(a, b)` is the deepest level `D` of NONE < PACKAGE < DIE <
PLANE < BLOCK < PAGE such that the first `D` fields of `a` and `b` (in the order package,
die, plane, block, page) are equal and both validities are at least `D`: the addresses
match up to the returned level, and up to no deeper one. -/
theorem ssd_address_compare_spec (a b : Address) :
    a.match_upto b (ssd_address_compare a b) ∧
    ∀ D, a.match_upto b D → D.toNat ≤ (ssd_address_compare a b).toNat := by
  unfold ssd_address_compare Address.match_upto
  split_ifs with h1 h2 h3 h4 h5 <;> refine ⟨?_, fun D hD => ?_⟩
  all_goals first
    | (simp only [address_valid.toNat] at h1 h2 h3 h4 h5 ⊢; omega)
    | (simp only [address_valid.toNat] at h1 h2 h3 h4 ⊢; omega)
    | (simp only [address_valid.toNat] at h1 h2 h3 ⊢; omega)
    | (simp only [address_valid.toNat] at h1 h2 ⊢; omega)
    | (simp only [address_valid.toNat] at h1 ⊢; omega)
    | skip
  all_goals (cases D <;> simp only [address_valid.toNat] at * <;> omega)

/-- C25: `free_blocks` does not count the FREE blocks. On the fresh small device the first
plane has `free_blocks = 2` and two FREE blocks; after the successful
`ssd_event_arrive(WRITE, 0, 1, 1)` to the FREE block 0 it still has `free_blocks = 2`,
while only one block is FREE. -/
theorem write_to_free_block_keeps_free_blocks :
    (Ssd.small.plane_at Address.first).map (fun p => (p.free_blocks, p.count_free))
      = some (2, 2) ∧
    (Ssd.small.block_at Address.first).map Block.state = some .FREE ∧
    (ssd_event_arrive Config.small Ssd.small .SSD_WRITE 0 1 1).map Prod.fst = some 20015 ∧
    ((ssd_event_arrive Config.small Ssd.small .SSD_WRITE 0 1 1).bind
      (fun r => r.2.plane_at Address.first)).map (fun p => (p.free_blocks, p.count_free))
      = some (2, 1) := by
  decide

/-- C26: in every state reached from a fresh device (`SSD_BLOCK_SIZE >= 1`, a `uint`) by a
history of `ssd_event_arrive` calls (read, write, erase) and merges handed to a package,
every block has `state = FREE` iff `pages_valid = 0` and `pages_invalid = 0`,
`state = INACTIVE` iff `pages_invalid >= SSD_BLOCK_SIZE`, and `state = ACTIVE` iff neither
condition holds. -/
theorem block_state_matches_counters (cfg : Config) (hsz : 1 ≤ cfg.SSD_BLOCK_SIZE)
    (hu : cfg.SSD_BLOCK_SIZE < UINT_MOD) (s0 s : Ssd) (ops : List engine_op)
    (hnew : ssd_sim_new cfg cfg.SSD_SIZE = some s0) (hrun : Ssd.run cfg s0 ops = some s)
    (a : Address) (b : Block) (hb : s.block_at a = some b) :
    (b.state = .FREE ↔ b.pages_valid = 0 ∧ b.pages_invalid = 0) ∧
    (b.state = .INACTIVE ↔ cfg.SSD_BLOCK_SIZE ≤ b.pages_invalid) ∧
    (b.state = .ACTIVE ↔
      ¬ (b.pages_valid = 0 ∧ b.pages_invalid = 0) ∧ ¬ cfg.SSD_BLOCK_SIZE ≤ b.pages_invalid) := by
  have hA : Block.closed_under_arrive cfg (Block.counters_ok cfg) :=
    ⟨fun b b' ev ev' r hb h => ssd_block_write_counters_ok cfg hu b b' ev ev' r hb h,
     fun b b' ev ev' r hb h => ssd_block_erase_counters_ok cfg hsz b b' ev ev' r hb h⟩
  have hM : Block.closed_under_merge cfg (Block.counters_ok cfg) :=
    ⟨fun b b' ev ev' r hb h => ssd_block_write_counters_ok cfg hu b b' ev ev' r hb h,
     fun b b' page hb hs h => ssd_block_invalidate_page_counters_ok cfg hu b b' page hb hs h⟩
  have h0 := ssd_sim_new_blocks cfg _ s0 _ (ssd_block_init_counters_ok cfg hsz) hnew
  have hs := Ssd.run_blocks cfg _ hA hM ops s0 s h0 hrun
  obtain ⟨_, _, _, hst⟩ := Ssd.all_blocks_at _ s a b hs hb
  rw [hst]
  by_cases h1 : cfg.SSD_BLOCK_SIZE ≤ b.pages_invalid
  · rw [if_pos h1]
    refine ⟨⟨fun h => absurd h (by decide), fun h => by omega⟩, ⟨fun _ => h1, fun _ => rfl⟩,
      ⟨fun h => absurd h (by decide), fun h => absurd h1 h.2⟩⟩
  · rw [if_neg h1]
    by_cases h2 : b.pages_valid = 0 ∧ b.pages_invalid = 0
    · rw [if_pos h2]
      exact ⟨⟨fun _ => h2, fun _ => rfl⟩, ⟨fun h => absurd h (by decide), fun h => absurd h h1⟩,
        ⟨fun h => absurd h (by decide), fun h => absurd h2 h.1⟩⟩
    · rw [if_neg h2]
      exact ⟨⟨fun h => absurd h (by decide), fun h => absurd h h2⟩,
        ⟨fun h => absurd h (by decide), fun h => absurd h h1⟩, ⟨fun _ => ⟨h2, h1⟩, fun _ => rfl⟩⟩

/-- Instance of C26: block 0 of the small device after a write of logical page 1 and a
merge of the block into itself is ACTIVE with `pages_valid = 2`, `pages_invalid = 1`. -/
theorem block_state_matches_counters_witness :
    (Block.sample_merged.state = .FREE ↔
      Block.sample_merged.pages_valid = 0 ∧ Block.sample_merged.pages_invalid = 0) ∧
    (Block.sample_merged.state = .INACTIVE ↔
      Config.small.SSD_BLOCK_SIZE ≤ Block.sample_merged.pages_invalid) ∧
    (Block.sample_merged.state = .ACTIVE ↔
      ¬ (Block.sample_merged.pages_valid = 0 ∧ Block.sample_merged.pages_invalid = 0) ∧
      ¬ Config.small.SSD_BLOCK_SIZE ≤ Block.sample_merged.pages_invalid) :=
  block_state_matches_counters Config.small (by decide) (by decide) Ssd.small Ssd.small_merged
    engine_op.sample_history (by decide) (eq_some_getD _ _ (by decide)) Address.first
    Block.sample_merged (eq_some_getD _ _ (by decide))

/-- C27: the cursor's validity does not follow the EMPTY pages. After the eight writes
that fill the first plane of the small device no page of the plane is EMPTY and
`next_page.valid` is still PAGE; after one more write, which fails, it is BLOCK, not
PLANE. -/
theorem full_plane_cursor_valid :
    ((Ssd.run Config.small Ssd.small (write_pages 8)).bind
      (fun s => s.plane_at Address.first)).map
        (fun p => (p.next_page.valid, p.count_empty)) = some (.PAGE, 0) ∧
    ((Ssd.run Config.small Ssd.small (write_pages 8 ++ write_pages 1)).bind
      (fun s => s.plane_at Address.first)).map
        (fun p => (p.next_page.valid, p.count_empty)) = some (.BLOCK, 0) := by
  decide

/-- C28: after a successful write at the cursor's block the cursor does not name an EMPTY
page. On a fresh plane the cursor is at block 0; `ssd_plane_write` of page 0 of block 0
returns SUCCESS and leaves the cursor at (block 0, page 0), the page it has just made
VALID, although page 1 of the block is EMPTY. -/
theorem cursor_after_first_write_is_written_page :
    (ssd_plane_init Config.small).next_page.block = Address.first.block ∧
    (ssd_plane_write Config.small (ssd_plane_init Config.small)
      (Event.sample .SSD_WRITE Address.first 1)).map
        (fun r => (r.1, r.2.1.next_page.block, r.2.1.next_page.page,
          (r.2.1.data[0]?).bind (fun b => b.page_state_at 0),
          (r.2.1.data[0]?).bind (fun b => b.page_state_at 1)))
      = some (.SUCCESS, 0, 0, some .VALID, some .EMPTY) := by
  decide

/-- C29 (amended): after every returned `ssd_event_arrive(ERASE, ...)` (an erase never
fails) with submission time `t` and returned latency `lat`, the erased block holds in
`last_erase_time` the `int64` sum `t + (lat - w)`, which is `t + lat - w` whenever
`t + lat - w <= INT64_MAX`, where `w` is the time the event waited for the bus: 0 when
slot 0 of the serving channel carried the free flag, `max(0, unlock_time[0] - t)`
otherwise. The erase time is taken inside the block, before the bus is locked. -/
theorem erase_records_time_before_bus_wait (cfg : Config) (s s' : Ssd) (L size : Nat)
    (t lat : Int) (hrun : ssd_event_arrive cfg s .SSD_ERASE L size t = some (lat, s')) :
    ∃ a b c u, decode_address cfg L = some a ∧ s'.block_at a = some b ∧
      s.bus.channels[get_channel cfg a]? = some c ∧ c.unlock_time[0]? = some u ∧
      b.last_erase_time = wrap_int64 (t + lat -
        (if c.lock_time[0]? = some BUS_CHANNEL_FREE_FLAG then 0 else max 0 (u - t))) ∧
      (t + lat - (if c.lock_time[0]? = some BUS_CHANNEL_FREE_FLAG then 0 else max 0 (u - t))
          ≤ INT64_MAX →
        b.last_erase_time = t + lat -
          (if c.lock_time[0]? = some BUS_CHANNEL_FREE_FLAG then 0 else max 0 (u - t))) := by
  obtain ⟨ht, a, ha, h⟩ := ssd_event_arrive_inv cfg s s' _ L size t lat hrun
  rcases h with ⟨h, _⟩ | ⟨k, k', ret, ev3, hk, hcall, hres⟩
  · exact absurd h (by decide)
  rcases hcall with ⟨h, _⟩ | ⟨h, _⟩ | ⟨_, hcall⟩
  · exact absurd h (by decide)
  · exact absurd h (by decide)
  obtain ⟨hret, d', p', b', hd', hp', hb', htime, _⟩ :=
    ssd_package_erase_path cfg k k' _ ev3 ret hcall
  rw [(Event.arrived_address cfg .SSD_ERASE L size t a).1] at hd' hp' hb'
  rw [(Event.arrived_address cfg .SSD_ERASE L size t a).2] at htime
  rcases hres with ⟨hne, _⟩ | ⟨_, bus', ev4, hlock, hs', hlat⟩
  · exact absurd hret hne
  obtain ⟨c, u, hc, hu, hw⟩ := ssd_bus_lock_time _ _ _ _ _ _ _ _ hlock
  obtain ⟨_, _, _, _, _, hdur, _⟩ := ssd_bus_lock_inv _ _ _ _ _ _ _ _ hlock
  have hsum : t + ev3.time_taken = t + lat -
      (if c.lock_time[0]? = some BUS_CHANNEL_FREE_FLAG then 0 else max 0 (u - t)) := by
    rw [hlat, hw]; ring
  refine ⟨a, b', c, u, ha, ?_, hc, hu, ?_, fun hfit => ?_⟩
  · rw [hs']
    simp only [Ssd.block_at, Ssd.plane_at, Option.bind_eq_bind, getElem?_set_of_some _ _ _ _ hk,
      Option.some_bind, hd', hp', hb']
  · rw [htime, hsum]
  · rw [htime, hsum, wrap_int64_of_fits _ (by rw [← hsum]; omega) hfit]

/-- Instance of C29 (amended): the erase of block 0 submitted at time 1 behind a write
waits 20015 and returns 170030; the block records `1 + 170030 - 20015 = 150016`. -/
theorem erase_records_time_before_bus_wait_witness :
    (Ssd.small_erased.block_at Address.first).map Block.last_erase_time = some 150016 ∧
    ∃ a b c u, decode_address Config.small 0 = some a ∧ Ssd.small_erased.block_at a = some b ∧
      Ssd.small_written.bus.channels[get_channel Config.small a]? = some c ∧
      c.unlock_time[0]? = some u ∧
      b.last_erase_time = wrap_int64 (1 + 170030 -
        (if c.lock_time[0]? = some BUS_CHANNEL_FREE_FLAG then 0 else max 0 (u - 1))) ∧
      (1 + 170030 -
          (if c.lock_time[0]? = some BUS_CHANNEL_FREE_FLAG then 0 else max 0 (u - 1))
          ≤ INT64_MAX →
        b.last_erase_time = 1 + 170030 -
          (if c.lock_time[0]? = some BUS_CHANNEL_FREE_FLAG then 0 else max 0 (u - 1))) :=
  ⟨by decide,
    erase_records_time_before_bus_wait Config.small Ssd.small_written Ssd.small_erased 0 1 1
      170030 (run_eq_of_fst _ _ _ (by decide))⟩

/-- C29 (counterexample): the erase of block 0 of the small device, submitted at time 1
while the channel is locked until 20016, returns latency 170030 and leaves
`last_erase_time = 150016`, not `1 + 170030`. And the erase of block 0 of the fresh small
device submitted at `t = INT64_MAX - 10` returns 150015 without a wait and leaves
`last_erase_time = -9223372036854625804`, the wrapped `int64` sum, not `t + 150015`. -/
theorem erase_time_behind_write_is_not_t_plus_lat :
    (ssd_event_arrive Config.small Ssd.small_written .SSD_ERASE 0 1 1).map Prod.fst
      = some 170030 ∧
    ((ssd_event_arrive Config.small Ssd.small_written .SSD_ERASE 0 1 1).bind
      (fun r => r.2.block_at Address.first)).map Block.last_erase_time = some 150016 ∧
    (150016 : Int) ≠ 1 + 170030 ∧
    (ssd_event_arrive Config.small Ssd.small .SSD_ERASE 0 1 9223372036854775797).map Prod.fst
      = some 150015 ∧
    ((ssd_event_arrive Config.small Ssd.small .SSD_ERASE 0 1 9223372036854775797).bind
      (fun r => r.2.block_at Address.first)).map Block.last_erase_time
      = some (-9223372036854625804) ∧
    INT64_MAX - 10 = 9223372036854775797 := by
  decide

/-- C30 (amended): after every returned erase on a well-formed device (an erase never
fails), the plane, the die and the package on the path of the erased address each store
an `erases_remaining` that is the maximum over the node's children of the value the child
reports for the erased address (always the block constant 1000, the build has no wear
levelling), `least_worn` names a child that reports this maximum, and `last_erase_time` is
the erase time that this child reports for the erased address. The three wear fields of
the Ssd itself are not updated. -/
theorem erase_wear_stats (cfg : Config) (s s' : Ssd) (L size : Nat) (t lat : Int)
    (hwf : s.wf cfg)
    (hrun : ssd_event_arrive cfg s .SSD_ERASE L size t = some (lat, s')) :
    ∃ a k' d' p', decode_address cfg L = some a ∧ s'.data[a.package]? = some k' ∧
      k'.data[a.die]? = some d' ∧ d'.data[a.plane]? = some p' ∧
      (s'.erases_remaining = s.erases_remaining ∧ s'.least_worn = s.least_worn ∧
        s'.last_erase_time = s.last_erase_time) ∧
      ((∀ b ∈ p'.data, ssd_block_get_erases_remaining b ≤ p'.erases_remaining) ∧
        ∃ b0, p'.data[p'.least_worn]? = some b0 ∧
          ssd_block_get_erases_remaining b0 = p'.erases_remaining ∧
          ssd_block_get_last_erase_time b0 = p'.last_erase_time) ∧
      ((∀ q ∈ d'.data, ∃ r, ssd_plane_get_erases_remaining cfg q a = some r ∧
          r ≤ d'.erases_remaining) ∧
        ∃ q0, d'.data[d'.least_worn]? = some q0 ∧
          ssd_plane_get_erases_remaining cfg q0 a = some d'.erases_remaining ∧
          ssd_plane_get_last_erase_time cfg q0 a = some d'.last_erase_time) ∧
      ((∀ e ∈ k'.data, ∃ r, ssd_die_get_erases_remaining cfg e a = some r ∧
          r ≤ k'.erases_remaining) ∧
        ∃ e0, k'.data[k'.least_worn]? = some e0 ∧
          ssd_die_get_erases_remaining cfg e0 a = some k'.erases_remaining ∧
          ssd_die_get_last_erase_time cfg e0 a = some k'.last_erase_time) := by
  obtain ⟨_, a, ha, h⟩ := ssd_event_arrive_inv cfg s s' _ L size t lat hrun
  rcases h with ⟨h, _⟩ | ⟨k, k', ret, ev3, hk, hcall, hres⟩
  · exact absurd h (by decide)
  rcases hcall with ⟨h, _⟩ | ⟨h, _⟩ | ⟨_, hcall⟩
  · exact absurd h (by decide)
  · exact absurd h (by decide)
  obtain ⟨hret, hdsz, _, d, d1, hd, hde, hku⟩ := ssd_package_erase_inv cfg k k' _ ev3 ret hcall
  obtain ⟨_, hpsz, _, p, p1, hp, hpe, hdu⟩ := ssd_die_erase_inv cfg d d1 _ ev3 _ hde
  obtain ⟨_, _, hblk, hval⟩ := ssd_plane_erase_address cfg p p1 _ ev3 _ hpe
  obtain ⟨_, b, b1, b0, cur, hb, hbe, hb0, hp1⟩ := ssd_plane_erase_inv cfg p p1 _ ev3 _ hpe
  have haddr := (Event.arrived_address cfg .SSD_ERASE L size t a).1
  rw [haddr] at hd hp hb hb0 hp1 hdu hku hblk hval hdsz hpsz
  -- the device is well formed along the path
  have hkwf : k.wf cfg := hwf.2.2.1 k (List.mem_iff_getElem?.mpr ⟨_, hk⟩)
  have hdwf : d.wf cfg := hkwf.2.2 d (List.mem_iff_getElem?.mpr ⟨_, hd⟩)
  obtain ⟨q0, tq, hq0, hq0r, hq0t, hd1, hqall⟩ :=
    Die.die_wear_stats_inv cfg _ d1 a hblk hval hdu
  have hesz : ∀ e ∈ k.data.set a.die d1, a.plane < e.size := by
    intro e he
    rcases List.mem_or_eq_of_mem_set he with h | h
    · rw [(hkwf.2.2 e h).1, ← hdwf.1]; exact hpsz
    · rw [h, hd1]; exact hpsz
  obtain ⟨e0, te, he0, he0r, he0t, hk1, heall⟩ :=
    Package.package_wear_stats_inv cfg _ k' a hesz hblk hval hku
  have hs' : s'.data = s.data.set a.package k' ∧ s'.erases_remaining = s.erases_remaining ∧
      s'.least_worn = s.least_worn ∧ s'.last_erase_time = s.last_erase_time := by
    rcases hres with ⟨hne, _⟩ | ⟨_, bus', ev4, _, hs', _⟩
    · exact absurd hret hne
    · rw [hs']; exact ⟨rfl, rfl, rfl, rfl⟩
  refine ⟨a, k', d1, p1, ha, ?_, ?_, ?_, hs'.2, ⟨?_, b0, ?_, ?_, ?_⟩, ⟨?_, q0, ?_, ?_, ?_⟩,
    ⟨?_, e0, ?_, ?_, ?_⟩⟩
  · rw [hs'.1]; exact getElem?_set_of_some _ _ _ _ hk
  · rw [hk1]; exact getElem?_set_of_some _ _ _ _ hd
  · rw [hd1]; exact getElem?_set_of_some _ _ _ _ hp
  · intro b _
    rw [hp1]
    exact le_refl _
  · rw [hp1]; exact hb0
  · rw [hp1]; rfl
  · rw [hp1]; rfl
  · rw [hd1]
    dsimp only
    apply forall_mem_of_index _
      (fun q => ∃ r, ssd_plane_get_erases_remaining cfg q a = some r ∧ r ≤ 1000) q0 hq0
      ⟨1000, hq0r, le_refl _⟩
    intro j h1 h2
    obtain ⟨q, hq, hqr⟩ := hqall j h1 (by
      have : d.data.length = d.size := hdwf.2.1
      simp only [List.length_set] at h2 ⊢
      omega)
    exact ⟨q, hq, 1000, hqr, le_refl _⟩
  · rw [hd1]; exact hq0
  · rw [hd1]; exact hq0r
  · rw [hd1]; exact hq0t
  · rw [hk1]
    dsimp only
    apply forall_mem_of_index _
      (fun e => ∃ r, ssd_die_get_erases_remaining cfg e a = some r ∧ r ≤ 1000) e0 he0
      ⟨1000, he0r, le_refl _⟩
    intro j h1 h2
    obtain ⟨e, he, her⟩ := heall j h1 (by
      have : k.data.length = k.size := hkwf.2.1
      simp only [List.length_set] at h2 ⊢
      omega)
    exact ⟨e, he, 1000, her, le_refl _⟩
  · rw [hk1]; exact he0
  · rw [hk1]; exact he0r
  · rw [hk1]; exact he0t

/-- Instance of C30 (amended): the erase of block 0 of the small device behind a write. -/
theorem erase_wear_stats_witness :
    ∃ a k' d' p', decode_address Config.small 0 = some a ∧
      Ssd.small_erased.data[a.package]? = some k' ∧
      k'.data[a.die]? = some d' ∧ d'.data[a.plane]? = some p' ∧
      (Ssd.small_erased.erases_remaining = Ssd.small_written.erases_remaining ∧
        Ssd.small_erased.least_worn = Ssd.small_written.least_worn ∧
        Ssd.small_erased.last_erase_time = Ssd.small_written.last_erase_time) ∧
      ((∀ b ∈ p'.data, ssd_block_get_erases_remaining b ≤ p'.erases_remaining) ∧
        ∃ b0, p'.data[p'.least_worn]? = some b0 ∧
          ssd_block_get_erases_remaining b0 = p'.erases_remaining ∧
          ssd_block_get_last_erase_time b0 = p'.last_erase_time) ∧
      ((∀ q ∈ d'.data, ∃ r, ssd_plane_get_erases_remaining Config.small q a = some r ∧
          r ≤ d'.erases_remaining) ∧
        ∃ q0, d'.data[d'.least_worn]? = some q0 ∧
          ssd_plane_get_erases_remaining Config.small q0 a = some d'.erases_remaining ∧
          ssd_plane_get_last_erase_time Config.small q0 a = some d'.last_erase_time) ∧
      ((∀ e ∈ k'.data, ∃ r, ssd_die_get_erases_remaining Config.small e a = some r ∧
          r ≤ k'.erases_remaining) ∧
        ∃ e0, k'.data[k'.least_worn]? = some e0 ∧
          ssd_die_get_erases_remaining Config.small e0 a = some k'.erases_remaining ∧
          ssd_die_get_last_erase_time Config.small e0 a = some k'.last_erase_time) :=
  erase_wear_stats Config.small Ssd.small_written Ssd.small_erased 0 1 1 170030 (by decide)
    (run_eq_of_fst _ _ _ (by decide))

set_option maxRecDepth 1000000 in
/-- C30 (counterexample): after the erase of logical page 0 on the fresh device of the
default configuration, die 0 of package 0 stores `erases_remaining = 1000` while its two
planes store 1000 and 1048675, so the stored value is not the maximum over the children;
the Ssd keeps `erases_remaining = 1048675` and `least_worn = 0` although package 0, the
child that `least_worn` names, stores 1000. -/
theorem erased_die_is_not_max_of_planes :
    ((ssd_event_arrive (Config.spec_default 2) (Ssd.spec_fresh 2) .SSD_ERASE 0 1 7).bind
      (fun r => (r.2.data[0]?).bind (fun k => k.data[0]?))).map
        (fun d => (d.erases_remaining, d.data.map Plane.erases_remaining))
      = some (1000, [1000, 1048675]) ∧
    (ssd_event_arrive (Config.spec_default 2) (Ssd.spec_fresh 2) .SSD_ERASE 0 1 7).map
        (fun r => (r.2.erases_remaining, r.2.least_worn,
          (r.2.data[0]?).map Package.erases_remaining))
      = some (1048675, 0, some 1000) := by
  decide

set_option maxRecDepth 1000000 in
/-- C31: `ssd_plane_merge` does not move the VALID pages of the source to EMPTY slots of
the target. On the plane whose block 0 holds the pages VALID, EMPTY, EMPTY, EMPTY, the merge
of block 0 into itself (one VALID page, three EMPTY slots) returns FAILURE: the read and
the write of the loop both go to page 0, the page of `read_event` and `write_event`, so the
write finds the page just invalidated, no EMPTY page becomes VALID and `time_taken` grows
by `PAGE_READ_DELAY = 5000` only. The merge of block 0 into block 1 returns nothing: it
stops at the assert `ssd_address_compare(address, merge_address) >= BLOCK`. -/
theorem ssd_plane_merge_moves_no_page :
    Plane.one_written.data.map (fun b => b.data.map Page.state) =
      [[.VALID, .EMPTY, .EMPTY, .EMPTY], [.EMPTY, .EMPTY, .EMPTY, .EMPTY]] ∧
    (ssd_plane_merge Config.small Plane.one_written
      (Event.merge_sample Address.first Address.first)).map
      (fun r => (r.1, r.2.1.data.map (fun b => b.data.map Page.state),
        r.2.2.time_taken - (Event.merge_sample Address.first Address.first).time_taken)) =
      some (.FAILURE, [[.INVALID, .EMPTY, .EMPTY, .EMPTY], [.EMPTY, .EMPTY, .EMPTY, .EMPTY]],
        5000) ∧
    Config.small.PAGE_READ_DELAY + Config.small.PLANE_REG_WRITE_DELAY +
      Config.small.PAGE_WRITE_DELAY + Config.small.PLANE_REG_READ_DELAY = 25000 ∧
    ssd_plane_merge Config.small Plane.one_written
      (Event.merge_sample Address.first Address.block1) = none := by
  decide

/-- C32: for every logical page `L` and every configuration whose five level sizes are
`>= 1`, the address decoded inside `ssd_event_arrive` has validity PAGE, strictly above the
Package, Die, Plane and Block levels that the traversal asserts, and `package < SSD_SIZE`,
`die < PACKAGE_SIZE`, `plane < DIE_SIZE`, `block < PLANE_SIZE`, `page < SSD_BLOCK_SIZE`;
`ssd_address_check_valid` on it with the configured sizes returns PAGE; and on every
well-formed device every child-array lookup of the traversal finds its element, with the
field below the size each level asserts. -/
theorem decode_address_in_range (cfg : Config) (L : Nat)
    (hB : 1 ≤ cfg.SSD_BLOCK_SIZE) (hP : 1 ≤ cfg.PLANE_SIZE) (hD : 1 ≤ cfg.DIE_SIZE)
    (hK : 1 ≤ cfg.PACKAGE_SIZE) (hS : 1 ≤ cfg.SSD_SIZE) :
    ∃ a, decode_address cfg L = some a ∧ a.valid = .PAGE ∧
      (address_valid.PACKAGE.toNat < a.valid.toNat ∧ address_valid.DIE.toNat < a.valid.toNat ∧
        address_valid.PLANE.toNat < a.valid.toNat ∧
        address_valid.BLOCK.toNat < a.valid.toNat) ∧
      (a.package < cfg.SSD_SIZE ∧ a.die < cfg.PACKAGE_SIZE ∧ a.plane < cfg.DIE_SIZE ∧
        a.block < cfg.PLANE_SIZE ∧ a.page < cfg.SSD_BLOCK_SIZE) ∧
      (ssd_address_check_valid a cfg.SSD_SIZE cfg.PACKAGE_SIZE cfg.DIE_SIZE cfg.PLANE_SIZE
        cfg.SSD_BLOCK_SIZE).valid = .PAGE ∧
      ∀ s : Ssd, s.wf cfg → ∃ k d p b pg, s.data[a.package]? = some k ∧
        k.data[a.die]? = some d ∧ d.data[a.plane]? = some p ∧ p.data[a.block]? = some b ∧
        b.data[a.page]? = some pg ∧ a.die < k.size ∧ a.plane < d.size ∧
        a.block < Plane._size cfg ∧ a.page < Block._size cfg := by
  have hdec := decode_address_successive cfg L hB hP hD hK hS
  refine ⟨_, hdec, rfl, ?_, ?_, ?_, ?_⟩
  · simp [address_valid.toNat]
  · exact ⟨Nat.mod_lt _ hS, Nat.mod_lt _ hK, Nat.mod_lt _ hD, Nat.mod_lt _ hP, Nat.mod_lt _ hB⟩
  · simp only [ssd_address_check_valid, address_valid.toNat, Nat.mod_lt _ hS, Nat.mod_lt _ hK,
      Nat.mod_lt _ hD, Nat.mod_lt _ hP, Nat.mod_lt _ hB, and_true, if_true]
    simp
  · intro s hwf
    obtain ⟨hsz, hlen, hks, _⟩ := hwf
    have h1 : L / cfg.SSD_BLOCK_SIZE / cfg.PLANE_SIZE / cfg.DIE_SIZE / cfg.PACKAGE_SIZE
        % cfg.SSD_SIZE < s.data.length := by rw [hlen, hsz]; exact Nat.mod_lt _ hS
    have hk := hks _ (List.getElem_mem h1)
    have h2 : L / cfg.SSD_BLOCK_SIZE / cfg.PLANE_SIZE / cfg.DIE_SIZE % cfg.PACKAGE_SIZE
        < (s.data[L / cfg.SSD_BLOCK_SIZE / cfg.PLANE_SIZE / cfg.DIE_SIZE / cfg.PACKAGE_SIZE
          % cfg.SSD_SIZE]).data.length := by
      rw [hk.2.1, hk.1]; exact Nat.mod_lt _ hK
    have hd := hk.2.2 _ (List.getElem_mem h2)
    have h3 : L / cfg.SSD_BLOCK_SIZE / cfg.PLANE_SIZE % cfg.DIE_SIZE
        < ((s.data[L / cfg.SSD_BLOCK_SIZE / cfg.PLANE_SIZE / cfg.DIE_SIZE / cfg.PACKAGE_SIZE
          % cfg.SSD_SIZE]).data[L / cfg.SSD_BLOCK_SIZE / cfg.PLANE_SIZE / cfg.DIE_SIZE
          % cfg.PACKAGE_SIZE]).data.length := by
      rw [hd.2.1, hd.1]; exact Nat.mod_lt _ hD
    have hp := hd.2.2 _ (List.getElem_mem h3)
    have h4 : L / cfg.SSD_BLOCK_SIZE % cfg.PLANE_SIZE
        < (((s.data[L / cfg.SSD_BLOCK_SIZE / cfg.PLANE_SIZE / cfg.DIE_SIZE / cfg.PACKAGE_SIZE
          % cfg.SSD_SIZE]).data[L / cfg.SSD_BLOCK_SIZE / cfg.PLANE_SIZE / cfg.DIE_SIZE
          % cfg.PACKAGE_SIZE]).data[L / cfg.SSD_BLOCK_SIZE / cfg.PLANE_SIZE
          % cfg.DIE_SIZE]).data.length := by
      rw [hp.1]; exact Nat.mod_lt _ hP
    have hb := hp.2 _ (List.getElem_mem h4)
    have h5 : L % cfg.SSD_BLOCK_SIZE
        < ((((s.data[L / cfg.SSD_BLOCK_SIZE / cfg.PLANE_SIZE / cfg.DIE_SIZE / cfg.PACKAGE_SIZE
          % cfg.SSD_SIZE]).data[L / cfg.SSD_BLOCK_SIZE / cfg.PLANE_SIZE / cfg.DIE_SIZE
          % cfg.PACKAGE_SIZE]).data[L / cfg.SSD_BLOCK_SIZE / cfg.PLANE_SIZE
          % cfg.DIE_SIZE]).data[L / cfg.SSD_BLOCK_SIZE % cfg.PLANE_SIZE]).data.length := by
      rw [hb]; exact Nat.mod_lt _ hB
    refine ⟨_, _, _, _, _, List.getElem?_eq_getElem h1, List.getElem?_eq_getElem h2,
      List.getElem?_eq_getElem h3, List.getElem?_eq_getElem h4, List.getElem?_eq_getElem h5,
      ?_, ?_, Nat.mod_lt _ hP, Nat.mod_lt _ hB⟩
    · rw [hk.1]; exact Nat.mod_lt _ hK
    · rw [hd.1]; exact Nat.mod_lt _ hD

/-- Instance of C32: logical page 123456 under the shipped configuration. -/
theorem decode_address_in_range_witness :
    ∃ a, decode_address Config.shipped 123456 = some a ∧ a.valid = .PAGE ∧
      (address_valid.PACKAGE.toNat < a.valid.toNat ∧ address_valid.DIE.toNat < a.valid.toNat ∧
        address_valid.PLANE.toNat < a.valid.toNat ∧
        address_valid.BLOCK.toNat < a.valid.toNat) ∧
      (a.package < Config.shipped.SSD_SIZE ∧ a.die < Config.shipped.PACKAGE_SIZE ∧
        a.plane < Config.shipped.DIE_SIZE ∧ a.block < Config.shipped.PLANE_SIZE ∧
        a.page < Config.shipped.SSD_BLOCK_SIZE) ∧
      (ssd_address_check_valid a Config.shipped.SSD_SIZE Config.shipped.PACKAGE_SIZE
        Config.shipped.DIE_SIZE Config.shipped.PLANE_SIZE
        Config.shipped.SSD_BLOCK_SIZE).valid = .PAGE ∧
      ∀ s : Ssd, s.wf Config.shipped → ∃ k d p b pg, s.data[a.package]? = some k ∧
        k.data[a.die]? = some d ∧ d.data[a.plane]? = some p ∧ p.data[a.block]? = some b ∧
        b.data[a.page]? = some pg ∧ a.die < k.size ∧ a.plane < d.size ∧
        a.block < Plane._size Config.shipped ∧ a.page < Block._size Config.shipped :=
  decode_address_in_range Config.shipped 123456 (by decide) (by decide) (by decide)
    (by decide) (by decide)

/-- C33 (counterexample): with 65536 packages of 65536 dies of one plane of one block of
two pages the device has `2^33` pages; logical page `2^32` decodes to package 32768 and
`ssd_event_print` computes `ppn = 0` for it, since `ppn` is a `uint`. -/
theorem ppn_wraps_beyond_uint :
    4294967296 < Config.wide.SSD_SIZE * Config.wide.PACKAGE_SIZE * Config.wide.DIE_SIZE *
      Config.wide.PLANE_SIZE * Config.wide.SSD_BLOCK_SIZE ∧
    decode_address Config.wide 4294967296 =
      some { package := 32768, die := 0, plane := 0, block := 0, page := 0, valid := .PAGE } ∧
    (decode_address Config.wide 4294967296).map (ssd_event_print_ppn Config.wide) = some 0 := by
  decide

/-- C33 (amended): for level sizes `>= 1` and every `L` below the page count `SSD_SIZE *
PACKAGE_SIZE * DIE_SIZE * PLANE_SIZE * SSD_BLOCK_SIZE`, the address decoded by
`ssd_event_arrive` is decoded from no other logical page below the page count, so
decoding is injective on that range; and when the page count fits a `uint` (it is at most
`2^32`), the page number `ppn` that `ssd_event_print` computes from the address is `L`. -/
theorem ppn_round_trip (cfg : Config) (L : Nat)
    (hB : 1 ≤ cfg.SSD_BLOCK_SIZE) (hP : 1 ≤ cfg.PLANE_SIZE) (hD : 1 ≤ cfg.DIE_SIZE)
    (hK : 1 ≤ cfg.PACKAGE_SIZE) (hS : 1 ≤ cfg.SSD_SIZE)
    (hL : L < cfg.SSD_SIZE * cfg.PACKAGE_SIZE * cfg.DIE_SIZE * cfg.PLANE_SIZE *
      cfg.SSD_BLOCK_SIZE) :
    ∃ a, decode_address cfg L = some a ∧
      (cfg.SSD_SIZE * cfg.PACKAGE_SIZE * cfg.DIE_SIZE * cfg.PLANE_SIZE * cfg.SSD_BLOCK_SIZE
        ≤ UINT_MOD → ssd_event_print_ppn cfg a = L) ∧
      ∀ L', L' < cfg.SSD_SIZE * cfg.PACKAGE_SIZE * cfg.DIE_SIZE * cfg.PLANE_SIZE *
        cfg.SSD_BLOCK_SIZE → decode_address cfg L' = some a → L' = L := by
  have hdec := decode_address_successive cfg L hB hP hD hK hS
  have henc := decode_address_encode cfg L _ hB hP hD hK hS hL hdec
  refine ⟨_, hdec, fun hfit => ?_, fun L' hL' ha' => ?_⟩
  · rw [ssd_event_print_ppn_eq cfg _ hB hP hD (by rw [henc]; omega)]
    exact henc
  · rw [← decode_address_encode cfg L' _ hB hP hD hK hS hL' ha']
    exact henc

/-- Instance of C33 (amended): logical page 123456 of the shipped configuration, whose
page count is `16 * 4 * 2 * 128 * 64 = 1048576`. -/
theorem ppn_round_trip_witness :
    Config.shipped.SSD_SIZE * Config.shipped.PACKAGE_SIZE * Config.shipped.DIE_SIZE *
      Config.shipped.PLANE_SIZE * Config.shipped.SSD_BLOCK_SIZE ≤ UINT_MOD ∧
    ∃ a, decode_address Config.shipped 123456 = some a ∧
      (Config.shipped.SSD_SIZE * Config.shipped.PACKAGE_SIZE * Config.shipped.DIE_SIZE *
        Config.shipped.PLANE_SIZE * Config.shipped.SSD_BLOCK_SIZE ≤ UINT_MOD →
          ssd_event_print_ppn Config.shipped a = 123456) ∧
      ∀ L', L' < Config.shipped.SSD_SIZE * Config.shipped.PACKAGE_SIZE *
        Config.shipped.DIE_SIZE * Config.shipped.PLANE_SIZE * Config.shipped.SSD_BLOCK_SIZE →
        decode_address Config.shipped L' = some a → L' = 123456 :=
  ⟨by decide, ppn_round_trip Config.shipped 123456 (by decide) (by decide) (by decide)
    (by decide) (by decide) (by decide)⟩

/-- C34: for every address with `package < SSD_SIZE` and every `SSD_SIZE` (a `uint`) that
is a multiple of `2^BANK_GROUP_BIT` (the shift `1 << BANK_GROUP_BIT` is an `int`, so the
width is below 31), the channel index returned by `get_channel` is `< SSD_SIZE`; it is the
package with its low `BANK_GROUP_BIT` bits replaced by those of the page, and it names one
of the channels of the bus that `ssd_sim_new` builds and `ssd_bus_lock` indexes. -/
theorem get_channel_lt_ssd_size (cfg : Config) (a : Address) (hb : cfg.BANK_GROUP_BIT < 31)
    (hS : cfg.SSD_SIZE < UINT_MOD) (hmul : 2 ^ cfg.BANK_GROUP_BIT ∣ cfg.SSD_SIZE)
    (hpkg : a.package < cfg.SSD_SIZE) :
    get_channel cfg a =
      2 ^ cfg.BANK_GROUP_BIT * (a.package / 2 ^ cfg.BANK_GROUP_BIT) +
        a.page % 2 ^ cfg.BANK_GROUP_BIT ∧
    get_channel cfg a < cfg.SSD_SIZE ∧
    ∀ s, ssd_sim_new cfg cfg.SSD_SIZE = some s →
      ∃ c, s.bus.channels[get_channel cfg a]? = some c := by
  have hpos : 0 < 2 ^ cfg.BANK_GROUP_BIT := Nat.two_pow_pos _
  have hr : a.page % 2 ^ cfg.BANK_GROUP_BIT < 2 ^ cfg.BANK_GROUP_BIT := Nat.mod_lt _ hpos
  have heq : get_channel cfg a =
      2 ^ cfg.BANK_GROUP_BIT * (a.package / 2 ^ cfg.BANK_GROUP_BIT) +
        a.page % 2 ^ cfg.BANK_GROUP_BIT := by
    apply Nat.eq_of_testBit_eq
    intro j
    rw [get_channel_testBit cfg a hb (by omega) j, Nat.testBit_mul_pow_two_add _ hr j]
    by_cases hj : j < cfg.BANK_GROUP_BIT
    · simp [hj, Nat.testBit_mod_two_pow]
    · rw [if_neg hj, if_neg hj, ← Nat.shiftRight_eq_div_pow, Nat.testBit_shiftRight]
      congr 1
      omega
  have hlt : get_channel cfg a < cfg.SSD_SIZE := by
    obtain ⟨m, hm⟩ := hmul
    rw [heq, hm]
    have hq : a.package / 2 ^ cfg.BANK_GROUP_BIT < m := by
      apply Nat.div_lt_of_lt_mul
      rw [← hm]; exact hpkg
    calc 2 ^ cfg.BANK_GROUP_BIT * (a.package / 2 ^ cfg.BANK_GROUP_BIT) +
          a.page % 2 ^ cfg.BANK_GROUP_BIT
        < 2 ^ cfg.BANK_GROUP_BIT * (a.package / 2 ^ cfg.BANK_GROUP_BIT) +
          2 ^ cfg.BANK_GROUP_BIT := by omega
      _ = 2 ^ cfg.BANK_GROUP_BIT * (a.package / 2 ^ cfg.BANK_GROUP_BIT + 1) := by ring
      _ ≤ 2 ^ cfg.BANK_GROUP_BIT * m := Nat.mul_le_mul_left _ hq
  refine ⟨heq, hlt, fun s hs => ?_⟩
  unfold ssd_sim_new ssd_bus_init at hs
  simp only [Option.bind_eq_bind, Option.bind_eq_some, Option.some.injEq] at hs
  obtain ⟨_, ⟨_, _, rfl⟩, rfl⟩ := hs
  exact ⟨_, List.getElem?_eq_getElem (by simpa using hlt)⟩

/-- Instance of C34: package 5, page 3 under the shipped `SSD_SIZE = 16` and
`BANK_GROUP_BIT = 2` give channel 7. -/
theorem get_channel_lt_ssd_size_witness :
    get_channel Config.shipped Address.sample = 7 ∧
    (get_channel Config.shipped Address.sample =
      2 ^ Config.shipped.BANK_GROUP_BIT *
        (Address.sample.package / 2 ^ Config.shipped.BANK_GROUP_BIT) +
        Address.sample.page % 2 ^ Config.shipped.BANK_GROUP_BIT ∧
    get_channel Config.shipped Address.sample < Config.shipped.SSD_SIZE ∧
    ∀ s, ssd_sim_new Config.shipped Config.shipped.SSD_SIZE = some s →
      ∃ c, s.bus.channels[get_channel Config.shipped Address.sample]? = some c) :=
  ⟨by decide, get_channel_lt_ssd_size Config.shipped Address.sample (by decide) (by decide)
    (by decide) (by decide)⟩

/-- C35 (counterexample): the read of logical page 0 of the fresh small device submitted
at `t = INT64_MAX - 10` returns 5015 and leaves slot 0 of the serving channel 0 with
`lock_time[0] = t` and `unlock_time[0] = -9223372036854770804`, the wrapped `int64` sum,
not `t + 5015 = 9223372036854780812`. -/
theorem arrive_unlock_time_wraps :
    INT64_MAX - 10 = 9223372036854775797 ∧
    (decode_address Config.small 0).map (get_channel Config.small) = some 0 ∧
    (ssd_event_arrive Config.small Ssd.small .SSD_READ 0 1 9223372036854775797).map
      (fun r => (r.1, (r.2.bus.channels[0]?).bind (fun c => c.lock_time[0]?),
        (r.2.bus.channels[0]?).bind (fun c => c.unlock_time[0]?))) =
      some (5015, some 9223372036854775797, some (-9223372036854770804)) ∧
    (9223372036854775797 : Int) + 5015 = 9223372036854780812 := by
  decide

/-- C35 (amended): after every successful `ssd_event_arrive` call (a call of kind READ,
WRITE or ERASE that returns a latency `lat >= 0`; for any other kind the engine reports
'request failed') with submission time `t`, slot 0 of the serving channel
`get_channel(address)` holds in `unlock_time[0]` the `int64` sum of `t` and `lat`, which is
`t + lat` whenever `t + lat <= INT64_MAX`, and `lock_time[0] = t + w`, where `w` is the bus
wait of the call: 0 when the slot carried the free flag before the call,
`max(0, unlock_time[0] - t)` of the value before the call otherwise. -/
theorem arrive_locks_channel (cfg : Config) (s s' : Ssd) (type : event_type)
    (L size : Nat) (t lat : Int)
    (hkind : type = .SSD_READ ∨ type = .SSD_WRITE ∨ type = .SSD_ERASE)
    (hrun : ssd_event_arrive cfg s type L size t = some (lat, s')) (hok : 0 ≤ lat) :
    ∃ a c u c', decode_address cfg L = some a ∧
      s.bus.channels[get_channel cfg a]? = some c ∧ c.unlock_time[0]? = some u ∧
      s'.bus.channels[get_channel cfg a]? = some c' ∧
      c'.unlock_time[0]? = some (wrap_int64 (t + lat)) ∧
      (t + lat ≤ INT64_MAX → c'.unlock_time[0]? = some (t + lat)) ∧
      c'.lock_time[0]? = some (t +
        (if c.lock_time[0]? = some BUS_CHANNEL_FREE_FLAG then 0 else max 0 (u - t))) := by
  obtain ⟨ht, a, ha, h⟩ := ssd_event_arrive_inv cfg s s' type L size t lat hrun
  rcases h with ⟨hm, _⟩ | ⟨k, k', ret, ev3, hk, hcall, hres⟩
  · rcases hkind with h | h | h <;> rw [h] at hm <;> exact absurd hm (by decide)
  rcases hres with ⟨_, hneg, _⟩ | ⟨_, bus', ev4, hlock, hs', hlat⟩
  · omega
  obtain ⟨c, c', hc, hwf, _, hdur, hl, hul, hbus, hev, _⟩ :=
    ssd_bus_lock_inv _ _ _ _ _ _ _ _ hlock
  obtain ⟨u, hu⟩ : ∃ u, c.unlock_time[0]? = some u :=
    ⟨_, List.getElem?_eq_getElem hwf.2.2.2.2⟩
  have hw := bus_wait_eq c t u ht hu
  have hsum : max (channel_cur c) t + ev3.time_taken = t + lat := by
    rw [hlat, hev]; omega
  have hunlock : c'.unlock_time[0]? = some (wrap_int64 (t + lat)) := by
    rw [hul, list_set_zero_get _ _ hwf.2.2.2.2, hsum]
  refine ⟨a, c, u, c', ha, hc, hu, ?_, hunlock, fun hfit => ?_, ?_⟩
  · rw [hs', hbus]
    exact getElem?_set_of_some _ _ _ _ hc
  · rw [hunlock, wrap_int64_of_fits _ (by omega) hfit]
  · rw [hl, list_set_zero_get _ _ hwf.2.2.2.1, ← hw]
    simp only [Option.some.injEq]
    omega

/-- Instance of C35 (amended): the second write to channel 0 of the small device,
submitted at time 1 while the channel is locked until 20016, returns 40030; the channel is
then locked over `[1 + 20015, 1 + 40030)`. -/
theorem arrive_locks_channel_witness :
    (1 : Int) + 40030 ≤ INT64_MAX ∧
    ∃ a c u c', decode_address Config.small 4 = some a ∧
      Ssd.small_written.bus.channels[get_channel Config.small a]? = some c ∧
      c.unlock_time[0]? = some u ∧
      Ssd.small_written_twice.bus.channels[get_channel Config.small a]? = some c' ∧
      c'.unlock_time[0]? = some (wrap_int64 (1 + 40030)) ∧
      (1 + 40030 ≤ INT64_MAX → c'.unlock_time[0]? = some (1 + 40030)) ∧
      c'.lock_time[0]? = some (1 +
        (if c.lock_time[0]? = some BUS_CHANNEL_FREE_FLAG then 0 else max 0 (u - 1))) :=
  ⟨by decide,
    arrive_locks_channel Config.small Ssd.small_written Ssd.small_written_twice .SSD_WRITE 4 1
      1 40030 (Or.inr (Or.inl rfl)) (run_eq_of_fst _ _ _ (by decide)) (by decide)⟩

/-- C36: every returned `ssd_event_arrive` call leaves every channel other than
`get_channel(decoded address)` as it was, lock and unlock tables included; a READ call
leaves the whole topology as it was, so every page state, block counter, block state,
`free_blocks` value and `next_page` cursor is unchanged. -/
theorem arrive_frame (cfg : Config) (s s' : Ssd) (type : event_type) (L size : Nat)
    (t lat : Int) (hrun : ssd_event_arrive cfg s type L size t = some (lat, s')) :
    ∃ a, decode_address cfg L = some a ∧
      (∀ ch, ch ≠ get_channel cfg a → s'.bus.channels[ch]? = s.bus.channels[ch]?) ∧
      (type = .SSD_READ → s'.data = s.data) := by
  obtain ⟨_, a, ha, h⟩ := ssd_event_arrive_inv cfg s s' type L size t lat hrun
  refine ⟨a, ha, ?_⟩
  rcases h with ⟨hm, rfl⟩ | ⟨k, k', ret, ev3, hk, hcall, hres⟩
  · exact ⟨fun _ _ => rfl, fun _ => rfl⟩
  constructor
  · intro ch hch
    rcases hres with ⟨_, _, rfl⟩ | ⟨_, bus', ev4, hlock, rfl, _⟩
    · rfl
    · obtain ⟨c, c', _, _, _, _, _, _, rfl, _⟩ := ssd_bus_lock_inv _ _ _ _ _ _ _ _ hlock
      exact List.getElem?_set_ne (Ne.symm hch)
  · intro hread
    have hk' : k' = k := by
      rcases hcall with ⟨_, hc⟩ | ⟨h, _⟩ | ⟨h, _⟩
      · exact ssd_package_read_inv cfg k k' _ ev3 ret hc
      · rw [hread] at h; exact absurd h (by decide)
      · rw [hread] at h; exact absurd h (by decide)
    have hdata : s'.data = s.data.set a.package k' := by
      rcases hres with ⟨_, _, rfl⟩ | ⟨_, _, _, _, rfl, _⟩ <;> rfl
    rw [hdata, hk', list_set_same _ _ _ hk]

/-- Instance of C36: the read of logical page 0 of the written small device. -/
theorem arrive_frame_witness :
    ∃ a, decode_address Config.small 0 = some a ∧
      (∀ ch, ch ≠ get_channel Config.small a →
        (((ssd_event_arrive Config.small Ssd.small_written .SSD_READ 0 1 30000).map
          Prod.snd).getD Ssd.small).bus.channels[ch]? = Ssd.small_written.bus.channels[ch]?) ∧
      (event_type.SSD_READ = .SSD_READ →
        (((ssd_event_arrive Config.small Ssd.small_written .SSD_READ 0 1 30000).map
          Prod.snd).getD Ssd.small).data = Ssd.small_written.data) :=
  arrive_frame Config.small Ssd.small_written _ .SSD_READ 0 1 30000 5015
    (run_eq_of_fst _ _ _ (by decide))

/-- C37: whenever `ssd_event_arrive` returns a negative value, the device it leaves equals
the device before the call once the `next_page` cursors of the planes are blanked: every
page state, every block's `pages_valid`, `pages_invalid` and state, every plane's
`free_blocks`, and the bus with every channel's lock and unlock tables are as they were;
only a cursor may differ. -/
theorem arrive_failure_atomic (cfg : Config) (s s' : Ssd) (type : event_type) (L size : Nat)
    (t lat : Int) (hrun : ssd_event_arrive cfg s type L size t = some (lat, s'))
    (hneg : lat < 0) : s'.clear_cursor = s.clear_cursor ∧ s'.bus = s.bus := by
  obtain ⟨_, a, ha, h⟩ := ssd_event_arrive_inv cfg s s' type L size t lat hrun
  rcases h with ⟨_, rfl⟩ | ⟨k, k', ret, ev3, hk, hcall, hres⟩
  · exact ⟨rfl, rfl⟩
  rcases hres with ⟨hret, _, rfl⟩ | ⟨_, bus', ev4, hlock, _, hlat⟩
  · refine ⟨?_, rfl⟩
    have hk' : k'.clear_cursor = k.clear_cursor := by
      rcases hcall with ⟨_, hc⟩ | ⟨_, hc⟩ | ⟨_, hc⟩
      · rw [ssd_package_read_inv cfg k k' _ ev3 ret hc]
      · exact ssd_package_write_failed cfg k k' _ ev3 ret hc hret
      · exact absurd (ssd_package_erase_inv cfg k k' _ ev3 ret hc).1 hret
    unfold Ssd.clear_cursor
    simp only
    rw [map_set_same Package.clear_cursor s.data _ k _ hk hk']
  · have := ssd_bus_lock_nonneg _ _ _ _ _ _ _ _ hlock rfl
    omega

/-- Instance of C37: a second write of logical page 0 of the small device returns -1. -/
theorem arrive_failure_atomic_witness :
    (((ssd_event_arrive Config.small Ssd.small_written .SSD_WRITE 0 1 30000).map
        Prod.snd).getD Ssd.small).clear_cursor = Ssd.small_written.clear_cursor ∧
    (((ssd_event_arrive Config.small Ssd.small_written .SSD_WRITE 0 1 30000).map
        Prod.snd).getD Ssd.small).bus = Ssd.small_written.bus :=
  arrive_failure_atomic Config.small Ssd.small_written _ .SSD_WRITE 0 1 30000 (-1)
    (run_eq_of_fst _ _ _ (by decide)) (by decide)

/-- C38: in every state reached from a fresh device through `ssd_event_arrive` calls
alone (`SSD_BLOCK_SIZE` is a `uint`), no page of any block is INVALID, and every block has
`pages_invalid = 0` and `pages_valid` equal to the number of its VALID pages, hence
`pages_valid <= SSD_BLOCK_SIZE`. -/
theorem arrive_only_no_invalid (cfg : Config) (hu : cfg.SSD_BLOCK_SIZE < UINT_MOD)
    (s0 s : Ssd) (ops : List engine_op) (hops : ∀ op ∈ ops, op.is_arrive = true)
    (hnew : ssd_sim_new cfg cfg.SSD_SIZE = some s0) (hrun : Ssd.run cfg s0 ops = some s)
    (a : Address) (b : Block) (hb : s.block_at a = some b) :
    (∀ pg ∈ b.data, pg.state ≠ .INVALID) ∧ b.pages_invalid = 0 ∧
    b.pages_valid = b.count_state .VALID ∧ b.pages_valid ≤ cfg.SSD_BLOCK_SIZE := by
  have hA : Block.closed_under_arrive cfg (Block.arrive_ok cfg) :=
    ⟨fun b b' ev ev' r hb h => ssd_block_write_arrive_ok cfg hu b b' ev ev' r hb h,
     fun b b' ev ev' r hb h => ssd_block_erase_arrive_ok cfg b b' ev ev' r hb h⟩
  have h0 := ssd_sim_new_blocks cfg _ s0 _ (ssd_block_init_arrive_ok cfg) hnew
  have hs := Ssd.run_arrive_blocks cfg _ hA ops s0 s hops h0 hrun
  obtain ⟨hlen, hinv, hpi, hpv⟩ := Ssd.all_blocks_at _ s a b hs hb
  refine ⟨hinv, hpi, hpv, ?_⟩
  rw [hpv, ← hlen]
  exact List.countP_le_length _

/-- Instance of C38: block 0 of the small device after writes of logical pages 0, 1, 4, a
read, an erase of block 1 and a write of page 5 holds two VALID pages. -/
theorem arrive_only_no_invalid_witness :
    Block.sample_arrived.pages_valid = 2 ∧
    ((∀ pg ∈ Block.sample_arrived.data, pg.state ≠ .INVALID) ∧
      Block.sample_arrived.pages_invalid = 0 ∧
      Block.sample_arrived.pages_valid = Block.sample_arrived.count_state .VALID ∧
      Block.sample_arrived.pages_valid ≤ Config.small.SSD_BLOCK_SIZE) :=
  ⟨by decide,
    arrive_only_no_invalid Config.small (by decide) Ssd.small Ssd.small_arrived
      engine_op.arrive_history (by decide) (by decide) (eq_some_getD _ _ (by decide))
      Address.first Block.sample_arrived (eq_some_getD _ _ (by decide))⟩

/-- C39 (counterexample): in the block with pages VALID, EMPTY, EMPTY, EMPTY,
`pages_valid = 1` and `pages_invalid = 0` the counters equal the numbers of VALID and of
INVALID pages; after `ssd_block_invalidate_page` of page 0 no page is VALID and
`pages_valid` is still 1. -/
theorem invalidate_keeps_pages_valid :
    Block.one_valid.pages_valid = Block.one_valid.count_state .VALID ∧
    Block.one_valid.pages_invalid = Block.one_valid.count_state .INVALID ∧
    Block.one_valid.page_state_at 0 = some .VALID ∧
    (ssd_block_invalidate_page Config.small Block.one_valid 0).map
      (fun b => (b.pages_valid, b.count_state .VALID, b.pages_invalid,
        b.count_state .INVALID)) = some (1, 0, 1, 1) := by
  decide

/-- C39 (amended): for every block of `SSD_BLOCK_SIZE` pages (a `uint`) in which
`pages_valid` equals the number of pages that are VALID or INVALID, the pages written since
the last erase, and `pages_invalid` equals the number of INVALID pages, invalidating a
VALID page returns a block in which both equalities still hold: `pages_invalid` is one
more, `pages_valid` is not decremented, and one page fewer is VALID. -/
theorem invalidate_keeps_written_count (cfg : Config) (hu : cfg.SSD_BLOCK_SIZE < UINT_MOD)
    (b : Block) (page : Nat) (hwf : b.wf cfg) (hpage : page < cfg.SSD_BLOCK_SIZE)
    (hst : b.page_state_at page = some .VALID)
    (hpv : b.pages_valid = b.count_state .VALID + b.count_state .INVALID)
    (hpi : b.pages_invalid = b.count_state .INVALID) :
    ∃ b', ssd_block_invalidate_page cfg b page = some b' ∧
      b'.page_state_at page = some .INVALID ∧
      b'.pages_valid = b'.count_state .VALID + b'.count_state .INVALID ∧
      b'.pages_invalid = b'.count_state .INVALID ∧
      b'.pages_valid = b.pages_valid ∧ b'.pages_invalid = b.pages_invalid + 1 ∧
      b'.count_state .VALID + 1 = b.count_state .VALID := by
  unfold Block.page_state_at at hst
  simp only [Option.map_eq_some'] at hst
  obtain ⟨pg, hpg, hpgs⟩ := hst
  have hlt : page < b.data.length := (List.getElem?_eq_some.mp hpg).1
  have hv := countP_set_add (fun pg => decide (pg.state = .VALID)) b.data page pg
    { state := .INVALID } hpg
  have hi := countP_set_gain (fun pg => decide (pg.state = .INVALID)) b.data page pg
    { state := .INVALID } hpg (by simp [hpgs]) (by simp)
  have hil := countP_lt_length (fun pg => decide (pg.state = .INVALID)) b.data page pg hpg
    (by simp [hpgs])
  simp only [hpgs, decide_True, if_true, reduceCtorEq, decide_False, Bool.false_eq_true,
    if_false, Nat.add_zero] at hv
  unfold Block.wf at hwf
  unfold Block.count_state at hpv hpi
  have hmod : (b.pages_invalid + 1) % UINT_MOD = b.pages_invalid + 1 :=
    Nat.mod_eq_of_lt (by omega)
  have hcall : ∃ st, ssd_block_invalidate_page cfg b page = some
      { b with data := b.data.set page { state := .INVALID },
               pages_invalid := (b.pages_invalid + 1) % UINT_MOD, state := st } := by
    unfold ssd_block_invalidate_page
    simp only [assert_true (show page < Block._size cfg from hpage), hpg, Option.bind_eq_bind,
      Option.some_bind, ssd_page_set_state]
    split
    · exact ⟨_, rfl⟩
    · split
      · exact ⟨_, rfl⟩
      · exact ⟨_, rfl⟩
  obtain ⟨st, hcall⟩ := hcall
  refine ⟨_, hcall, ?_, ?_, ?_, rfl, hmod, ?_⟩
  · unfold Block.page_state_at
    simp only [List.getElem?_set_self hlt, Option.map_some']
  · unfold Block.count_state
    dsimp only
    omega
  · unfold Block.count_state
    dsimp only
    omega
  · unfold Block.count_state
    dsimp only
    omega

/-- Instance of C39 (amended): invalidating page 0 of the block with pages VALID, EMPTY,
EMPTY, EMPTY. -/
theorem invalidate_keeps_written_count_witness :
    ∃ b', ssd_block_invalidate_page Config.small Block.one_valid 0 = some b' ∧
      b'.page_state_at 0 = some .INVALID ∧
      b'.pages_valid = b'.count_state .VALID + b'.count_state .INVALID ∧
      b'.pages_invalid = b'.count_state .INVALID ∧
      b'.pages_valid = Block.one_valid.pages_valid ∧
      b'.pages_invalid = Block.one_valid.pages_invalid + 1 ∧
      b'.count_state .VALID + 1 = Block.one_valid.count_state .VALID :=
  invalidate_keeps_written_count Config.small (by decide) Block.one_valid 0 (by decide)
    (by decide) (by decide) (by decide) (by decide)

set_option maxRecDepth 1000000 in
/-- C40: `discard_from_brd` with a start sector that is not aligned to a page changes bytes
in front of the range. With pages of 4096 bytes and a store whose page 0 holds bytes of
value 7, the discard of 4096 bytes from sector 1, the byte range `[512, 4608)`, zeroes
sector 0, the bytes `[0, 512)`. -/
theorem discard_from_brd_unaligned_zeroes_before :
    brd_device.one_page.sector_bytes 12 0 = List.replicate 512 7 ∧
    (discard_from_brd 12 brd_device.one_page 1 4096).sector_bytes 12 0 =
      List.replicate 512 0 := by
  decide

end RamSsd
